import Mathlib


/-!
# TAS client: read/write packet handler (`CTasPktHandlerRw`)

Shallow embedding of `src/tas_client/tas_pkt_handler_rw.cpp` and of the parts of
`tas_pkt.h`, `tas_client.h` and `tas_am15_am14.h` it uses.

Conventions of the embedding

* Machine integers are `Nat`; every place where the C++ arithmetic can wrap is
  reduced explicitly (`u8`, `u16`, `u32`, `u64`, `sub32`).
* The request buffer `mRqBuf` together with its write index `mRqBufWi` is the
  list of the words written so far: `mRqBufWi` is the length of `mRqBuf`.
  In the same way `mPl0Trans`/`mPl0NumTrans` and `mRwTrans`/`mRwNumTrans` are
  lists whose length is the counter.
* The lists have no end.  The arrays of the code have the sizes `mInit`
  allocates and are written without a check, so a state of the model describes
  the code as long as its lists fit these sizes; the predicate `InArrays` says
  that they do, and statements about planned requests assume it.
* The planner never reads words or entries above the counter.  The response
  parser can: it reads `mPl0Trans[iTrans]` for every answer of the response.
  Above the counter the model reads the default entry, the code what an earlier
  request left in the table (`ReadsPlanned` says that no such entry is read).
* `mPl0Start` always points at word `mPl2HdrWi + 1`; it is not a field.
* Caller buffers: the bytes of a write buffer are carried by value (`wdata`),
  the destination of a read is an address (`rdata`) in a byte addressed host
  memory `Nat → Nat`.
* `assert` is compiled out (release build); conditions of assertions that a
  statement needs are stated as predicates.
* The two block loops can iterate without making progress; they take a fuel
  argument and return `none` when it is used up.
-/

namespace Tas

/-! ## Machine integers -/

def u8 (x : Nat) : Nat := x % 2 ^ 8
def u16 (x : Nat) : Nat := x % 2 ^ 16
def u32 (x : Nat) : Nat := x % 2 ^ 32
def u64 (x : Nat) : Nat := x % 2 ^ 64

/-- Subtraction of `uint32_t` values: `a - b` modulo `2^32`. -/
def sub32 (a b : Nat) : Nat := (a + (2 ^ 32 - b % 2 ^ 32)) % 2 ^ 32

/-! ## Constants (`tas_pkt.h`, `tas_client.h`, `tas_am15_am14.h`) -/

def TAS_PL0_DATA_BLK_SIZE : Nat := 1024
def TAS_PL2_MAX_PKT_SIZE : Nat := 0x10008
def TAS_PL2_MAX_PKT_SIZE_MIN : Nat := 128

def TAS_PL_ERR_NO_ERROR : Nat := 0x08
def TAS_PL_ERR_PROTOCOL : Nat := 0x1E
def TAS_PL1_ERR_DEV_RESET : Nat := 0x44
def TAS_PL1_ERR_DEV_LOCKED : Nat := 0x46
def TAS_PL1_ERR_DEV_ACCESS : Nat := 0x48
def TAS_PL0_ERR_NO_ERROR : Nat := 0x80
def TAS_PL0_ERR_DEV_LOCKED : Nat := 0x46
def TAS_PL0_ERR_DEV_ACCESS : Nat := 0x48
def TAS_PL0_ERR_ACC_MODE : Nat := 0x89
def TAS_PL0_ERR_ADDR_MAP : Nat := 0x8A
def TAS_PL0_ERR_ADDR_BLOCKED : Nat := 0x8B
def TAS_PL0_ERR_DATA : Nat := 0x8D
def TAS_PL0_ERR_CONSEQUENTIAL : Nat := 0x98

def TAS_PL0_CMD_ACCESS_MODE : Nat := 0x10
def TAS_PL0_CMD_ADDR_MAP : Nat := 0x11
def TAS_PL0_CMD_BASE_ADDR32 : Nat := 0x15
def TAS_PL0_CMD_BASE_ADDR64 : Nat := 0x16
def TAS_PL0_CMD_WR8 : Nat := 0x20
def TAS_PL0_CMD_RD8 : Nat := 0x21
def TAS_PL0_CMD_WR16 : Nat := 0x22
def TAS_PL0_CMD_RD16 : Nat := 0x23
def TAS_PL0_CMD_WR32 : Nat := 0x24
def TAS_PL0_CMD_RD32 : Nat := 0x25
def TAS_PL0_CMD_WR64 : Nat := 0x26
def TAS_PL0_CMD_RD64 : Nat := 0x27
def TAS_PL0_CMD_WRBLK : Nat := 0x2A
def TAS_PL0_CMD_FILL : Nat := 0x2B
def TAS_PL0_CMD_RDBLK : Nat := 0x2C
def TAS_PL0_CMD_RDBLK1KB : Nat := 0x2D
def TAS_PL1_CMD_PL0_START : Nat := 0xB0
def TAS_PL1_CMD_PL0_END : Nat := 0xB1

def TAS_ERR_NONE : Nat := 0
def TAS_ERR_SERVER_CON : Nat := 0x0200
def TAS_ERR_DEVICE_ACCESS : Nat := 0x0400
def TAS_ERR_DEVICE_LOCKED : Nat := 0x0410
def TAS_ERR_RW_READ : Nat := 0x0600
def TAS_ERR_RW_WRITE : Nat := 0x0610

def TAS_RW_TT_RD : Nat := 1
def TAS_RW_TT_WR : Nat := 2
def TAS_RW_TT_FILL : Nat := 6

def TAS_AM0 : Nat := 0
def TAS_AM1 : Nat := 1
def TAS_AM12 : Nat := 12
def TAS_AM14 : Nat := 14
def TAS_AM15 : Nat := 15
def TAS_AM132 : Nat := 132
def TAS_AM_MASK_EXCLUSIVE : Nat := 0xF000
def TAS_AM_MASK_SHARED : Nat := 0x0FFF

/-- The enumerator `CTasPktHandlerRw::BUF_ALLOWANCE`. -/
def BUF_ALLOWANCE : Nat := 64
/-- The enumerator `CTasPktHandlerRw::PKT_BUF_SIZE_DEFAULT`. -/
def PKT_BUF_SIZE_DEFAULT : Nat := 0x10000
/-- The enumerator `CTasPktHandlerRw::MAX_NUM_RW_DEFAULT`. -/
def MAX_NUM_RW_DEFAULT : Nat := 256
/-- The enumerator `CTasPktHandlerRw::PROTOC_VER`. -/
def PROTOC_VER : Nat := 0

/-! ## Data model -/

/-- The struct `tas_rw_trans_st`.  The union of `wdata` and `rdata` is split in
two: the bytes to be written, and the host address read data is copied to. -/
structure tas_rw_trans_st where
  addr : Nat
  num_bytes : Nat
  acc_mode : Nat
  addr_map : Nat
  type : Nat
  wdata : List Nat
  rdata : Nat
  deriving DecidableEq, Repr, Inhabited

/-- The struct `tas_rw_trans_rsp_st`: `num_bytes_ok` is a `uint16_t`, `pl_err` a byte. -/
structure tas_rw_trans_rsp_st where
  num_bytes_ok : Nat
  pl_err : Nat
  deriving DecidableEq, Repr, Inhabited

/-- The struct `tas_con_info_st`.  The read/write packet handler reads the first
three fields: `max_pl2rq_pkt_size` and `max_pl2rsp_pkt_size` are `uint32_t`,
`pl0_max_num_rw` is a `uint8_t`.  `device_id` is an array of four `uint32_t`,
`identifier` and `device_id_hash_str` are arrays of 64 and 8 `char`; a field that
is not given is zero. -/
structure tas_con_info_st where
  max_pl2rq_pkt_size : Nat
  max_pl2rsp_pkt_size : Nat
  pl0_max_num_rw : Nat
  device_type : Nat := 0
  device_id : List Nat := [0, 0, 0, 0]
  ipv4_addr : Nat := 0
  dev_con_feat : Nat := 0
  dev_con_phys : Nat := 0
  pl0_rw_mode_mask : Nat := 0
  pl0_addr_map_mask : Nat := 0
  msg_length_c2d : Nat := 0
  msg_length_d2c : Nat := 0
  msg_num_c2d : Nat := 0
  msg_num_d2c : Nat := 0
  reserved : Nat := 0
  identifier : List Nat := List.replicate 64 0
  device_id_hash : Nat := 0
  device_id_hash_str : List Nat := List.replicate 8 0
  deriving DecidableEq, Repr, Inhabited

/-- State of a `CTasPktHandlerRw` object (with the members of its base class
that the read/write handler uses) and the `tas_err` of the error info it points to. -/
structure CTasPktHandlerRw where
  mRqBuf : List Nat
  mMaxRqSize : Nat
  mMaxRspSize : Nat
  mRqWiMax : Nat
  mConInfo : tas_con_info_st
  mPl1CntOutstandingOldest : Nat
  mPl1CntOutstandingLast : Nat
  mDeviceResetCount : Nat
  mNumPl2Pkt : Nat
  mPl2HdrWi : Nat
  mPl2NumTrans : Nat
  mMaxWrDataBlkSizeInPktRq : Nat
  mMaxRdDataBlkSizeInPktRsp : Nat
  mRspSize : Nat
  mPl2RspPktStart : Nat
  mPl0AccMode : Nat
  mPl0AddrMap : Nat
  mPl0AddrMapMask : Nat
  mPl0BaseAddr : Nat
  mRwTrans : List tas_rw_trans_st
  mRwTransRsp : List tas_rw_trans_rsp_st
  mPl0Trans : List tas_rw_trans_st
  mPl0TransRsp : List tas_rw_trans_rsp_st
  mNumTransMax : Nat
  mGetPktRqWasCalled : Bool
  tas_err : Nat
  deriving DecidableEq, Repr, Inhabited

namespace CTasPktHandlerRw

/-- The member `mRqBufWi`: the number of request words written. -/
def mRqBufWi (h : CTasPktHandlerRw) : Nat := h.mRqBuf.length
/-- The member `mPl0NumTrans`. -/
def mPl0NumTrans (h : CTasPktHandlerRw) : Nat := h.mPl0Trans.length
/-- The member `mRwNumTrans`. -/
def mRwNumTrans (h : CTasPktHandlerRw) : Nat := h.mRwTrans.length

end CTasPktHandlerRw

/-! ## Words of the request -/

/-- A word of the form `{wl, cmd, uint16_t}` (little endian). -/
def wordWlCmdU16 (wl cmd p : Nat) : Nat := u8 wl + u8 cmd * 2 ^ 8 + u16 p * 2 ^ 16

/-- Byte `i` of a caller buffer; bytes past its end read as 0. -/
def byteAt (d : List Nat) (i : Nat) : Nat := u8 (d.getD i 0)

/-- The 32 bit word made of the bytes `i .. i+3` of `d`, of which only the
first `n` bytes of the buffer take part (the others are 0). -/
def wordAt (d : List Nat) (n i : Nat) : Nat :=
  (if i < n then byteAt d i else 0)
  + (if i + 1 < n then byteAt d (i + 1) else 0) * 2 ^ 8
  + (if i + 2 < n then byteAt d (i + 2) else 0) * 2 ^ 16
  + (if i + 3 < n then byteAt d (i + 3) else 0) * 2 ^ 24

/-- The first `n` bytes of `d` as `nw` little endian words: `memcpy` of `n`
bytes into a zeroed word buffer. -/
def packWords (d : List Nat) (n nw : Nat) : List Nat :=
  (List.range nw).map (fun k => wordAt d n (4 * k))

/-- Overwrite the words of `buf` from index `i` on by `ws`.  A store at the
write index `mRqBufWi` itself is written as an append. -/
def setWords (buf : List Nat) (i : Nat) (ws : List Nat) : List Nat :=
  buf.take i ++ ws ++ buf.drop (i + ws.length)

/-! ## Planner (`tas_pkt_handler_rw.cpp`) -/

/-- The function `CTasPktHandlerRw::mPl2PktInit`: three zeroed words for the
PL2 length and the pl0-start, response size of length word and pl0-start. -/
def mPl2PktInit (h : CTasPktHandlerRw) : CTasPktHandlerRw :=
  { h with
    mPl2NumTrans := 0
    mPl2HdrWi := h.mRqBufWi
    mRqBuf := h.mRqBuf ++ [0, 0, 0]
    mPl2RspPktStart := h.mRspSize
    mRspSize := u32 (h.mRspSize + 4 + 4)
    mPl0AccMode := 0
    mPl0AddrMap := 0
    mPl0AddrMapMask := 0
    mPl0BaseAddr := 0 }

/-- First word of `tas_pl1rq_pl0_start_st`: `wl = 1`, `cmd`, `con_id = 0xFF`, `protoc_ver`. -/
def pl0StartWord0 : Nat := 1 + TAS_PL1_CMD_PL0_START * 2 ^ 8 + 0xFF * 2 ^ 16 + PROTOC_VER * 2 ^ 24

/-- The function `CTasPktHandlerRw::mPktFinalize`. -/
def mPktFinalize (h : CTasPktHandlerRw) (init_next_pl2_pkt : Bool) : CTasPktHandlerRw :=
  let last := u16 (h.mPl1CntOutstandingLast + 1)
  let buf1 := setWords h.mRqBuf (h.mPl2HdrWi + 1) [pl0StartWord0, last + u16 h.mPl0AddrMapMask * 2 ^ 16]
  let buf2 := setWords buf1 h.mRqBufWi [wordWlCmdU16 0 TAS_PL1_CMD_PL0_END h.mPl0NumTrans]
  let wi := h.mRqBufWi + 1
  let buf3 := setWords buf2 h.mPl2HdrWi [u32 (sub32 wi h.mPl2HdrWi * 4)]
  let h1 := { h with
    mNumPl2Pkt := u32 (h.mNumPl2Pkt + 1)
    mPl1CntOutstandingLast := last
    mRqBuf := buf3
    mRspSize := u32 (h.mRspSize + 4) }
  if init_next_pl2_pkt then
    let h2 := mPl2PktInit h1
    { h2 with mPl0AddrMap := 0, mPl0AccMode := 0, mPl0BaseAddr := 0 }
  else h1

/-- The function `CTasPktHandlerRw::rw_start`. -/
def rw_start (h : CTasPktHandlerRw) : CTasPktHandlerRw :=
  let h1 := { h with
    mNumPl2Pkt := 0
    mPl0AccMode := 0
    mPl0AddrMap := 0
    mPl0AddrMapMask := 0
    mPl0BaseAddr := 0
    mPl0Trans := []
    mPl0TransRsp := []
    mRwTrans := []
    mRwTransRsp := []
    mRqBuf := []
    mRspSize := 0 }
  let h2 := mPl2PktInit h1
  let wr := sub32 h2.mConInfo.max_pl2rq_pkt_size 24
  let rd := sub32 h2.mConInfo.max_pl2rsp_pkt_size 24
  { h2 with
    mPl2RspPktStart := 0
    mMaxWrDataBlkSizeInPktRq := if wr > TAS_PL0_DATA_BLK_SIZE then TAS_PL0_DATA_BLK_SIZE else wr
    mMaxRdDataBlkSizeInPktRsp := if rd > TAS_PL0_DATA_BLK_SIZE then TAS_PL0_DATA_BLK_SIZE else rd
    mPl1CntOutstandingOldest := u16 (h2.mPl1CntOutstandingLast + 1)
    mGetPktRqWasCalled := false }

/-- The function `CTasPktHandlerRw::mInit` followed by nothing else: the state
built by the constructor taking `max_rq_size`, `max_rsp_size` and `max_num_rw`.
Members the constructor leaves uninitialised are 0.  The assignment to the
`uint8_t` member `mConInfo.pl0_max_num_rw` keeps the low byte of `max_num_rw`. -/
def mInit (max_rq_size max_rsp_size max_num_rw : Nat) : CTasPktHandlerRw :=
  { mRqBuf := []
    mMaxRqSize := sub32 max_rq_size BUF_ALLOWANCE
    mMaxRspSize := sub32 max_rsp_size BUF_ALLOWANCE
    mRqWiMax := sub32 max_rq_size BUF_ALLOWANCE / 4
    mConInfo :=
      { max_pl2rq_pkt_size := sub32 max_rq_size BUF_ALLOWANCE
        max_pl2rsp_pkt_size := sub32 max_rsp_size BUF_ALLOWANCE
        pl0_max_num_rw := u8 max_num_rw }
    mPl1CntOutstandingOldest := 0
    mPl1CntOutstandingLast := 0xFFC0
    mDeviceResetCount := 0
    mNumPl2Pkt := 0
    mPl2HdrWi := 0
    mPl2NumTrans := 0
    mMaxWrDataBlkSizeInPktRq := 0
    mMaxRdDataBlkSizeInPktRsp := 0
    mRspSize := 0
    mPl2RspPktStart := 0
    mPl0AccMode := 0
    mPl0AddrMap := 0
    mPl0AddrMapMask := 0
    mPl0BaseAddr := 0
    mRwTrans := []
    mRwTransRsp := []
    mPl0Trans := []
    mPl0TransRsp := []
    mNumTransMax := max_num_rw
    mGetPktRqWasCalled := false
    tas_err := TAS_ERR_NONE }

/-- The constructor `CTasPktHandlerRw(ei, con_info)`: `mInit` with the default
buffer sizes, then the negotiated connection info is copied over `mConInfo`. -/
def newFromConInfo (con_info : tas_con_info_st) : CTasPktHandlerRw :=
  { mInit PKT_BUF_SIZE_DEFAULT PKT_BUF_SIZE_DEFAULT con_info.pl0_max_num_rw with mConInfo := con_info }

/-- The function `CTasPktHandlerRw::mCheckLimits`. -/
def mCheckLimits (h : CTasPktHandlerRw) (num_bytes_rd num_bytes_wr : Nat) : Bool :=
  if u32 (h.mRqBufWi * 4 + num_bytes_wr + 4) ≥ u32 (h.mRqWiMax * 4) then false
  else if u32 (h.mRspSize + num_bytes_rd + 4) ≥ h.mMaxRspSize then false
  else true

/-- The condition `(addr < mPl0BaseAddr) || (addr > (mPl0BaseAddr + 0xFFFF))`. -/
def baseAddrChange (h : CTasPktHandlerRw) (addr : Nat) : Bool :=
  decide (addr < h.mPl0BaseAddr) || decide (addr > u64 (h.mPl0BaseAddr + 0xFFFF))

/-- The function `CTasPktHandlerRw::mGetNumBytesAddrMapAccModeBaseAddr`. -/
def mGetNumBytesAddrMapAccModeBaseAddr (h : CTasPktHandlerRw) (addr_map acc_mode addr : Nat) : Nat :=
  let nbAddrMap := if addr_map ≠ h.mPl0AddrMap then 4 else 0
  let nbAccMode := if acc_mode ≠ h.mPl0AccMode then 4 else 0
  let nbBaseAddr := if baseAddrChange h addr then (if addr < 0x100000000 then 4 else 8) else 0
  nbAddrMap + nbAccMode + nbBaseAddr

/-- The function `CTasPktHandlerRw::mCheckAddrMapRulesInPkt`. -/
def mCheckAddrMapRulesInPkt (h : CTasPktHandlerRw) (addr_map : Nat) : Bool :=
  let addrMapMask := u16 (1 <<< addr_map)
  if h.mPl0AddrMapMask = 0 ∨ h.mPl0AddrMapMask = addrMapMask then true
  else if (addrMapMask &&& TAS_AM_MASK_SHARED) ≠ 0 ∧ (h.mPl0AddrMapMask &&& TAS_AM_MASK_EXCLUSIVE) = 0 then true
  else false

/-- The function `tphrCheckIfNaturalAligned`. -/
def tphrCheckIfNaturalAligned (addr num_bytes : Nat) : Bool :=
  if num_bytes = 0 ∨ num_bytes = 3 ∨ num_bytes = 5 ∨ num_bytes = 6 ∨ num_bytes = 7 then false
  else addr % num_bytes = 0

/-- The function `CTasPktHandlerRw::mNumTransManageableRd`. -/
def mNumTransManageableRd (h : CTasPktHandlerRw) (addr num_bytes : Nat) : Bool :=
  if num_bytes ≤ 8 then
    let numTrans :=
      if tphrCheckIfNaturalAligned addr num_bytes then 1
      else if num_bytes = 8 ∧ addr % 8 = 4 then 2
      else 4
    u32 (h.mPl2NumTrans + numTrans) ≤ h.mNumTransMax
  else
    let payloadPerPkt := sub32 h.mConInfo.max_pl2rsp_pkt_size 16
    let numTransAdder := if num_bytes % 8 = 0 ∧ addr % 8 = 0 then 0 else 3
    let numTransPayload := u32 (num_bytes + payloadPerPkt + (2 ^ 32 - 1)) / payloadPerPkt
    u32 (h.mPl2NumTrans + numTransPayload + numTransAdder) ≤ h.mNumTransMax

/-- The function `CTasPktHandlerRw::mNumTransManageableWr`. -/
def mNumTransManageableWr (h : CTasPktHandlerRw) (addr num_bytes : Nat) : Bool :=
  if num_bytes ≤ 8 then
    let numTrans :=
      if tphrCheckIfNaturalAligned addr num_bytes then 1
      else if num_bytes = 8 ∧ addr % 8 = 4 then 2
      else 4
    u32 (h.mPl2NumTrans + numTrans) ≤ h.mNumTransMax
  else
    let payload := u32 (num_bytes + 4 + 4 + 8)
    let payloadPerPkt := sub32 h.mConInfo.max_pl2rq_pkt_size 20
    let numTransAdder := if num_bytes % 8 = 0 ∧ addr % 8 = 0 then 0 else 3
    let numTransPayload := u32 (payload + payloadPerPkt + (2 ^ 32 - 1)) / payloadPerPkt
    u32 (h.mPl2NumTrans + numTransPayload + numTransAdder) ≤ h.mNumTransMax

/-- The function `CTasPktHandlerRw::mGetRemainingSizeInPktRq`. -/
def mGetRemainingSizeInPktRq (h : CTasPktHandlerRw) : Nat :=
  let numBytesUsed := u32 (4 * sub32 h.mRqBufWi h.mPl2HdrWi)
  let numBytesMax :=
    if h.mConInfo.max_pl2rq_pkt_size > u32 (h.mRqWiMax * 4) then u32 (h.mRqWiMax * 4)
    else h.mConInfo.max_pl2rq_pkt_size
  if numBytesUsed < numBytesMax then numBytesMax - numBytesUsed else 0

/-- The function `CTasPktHandlerRw::mGetRemainingSizeInPktRsp`. -/
def mGetRemainingSizeInPktRsp (h : CTasPktHandlerRw) : Nat :=
  let numBytesUsed := sub32 h.mRspSize h.mPl2RspPktStart
  let numBytesMax :=
    if h.mConInfo.max_pl2rsp_pkt_size > h.mMaxRspSize then h.mMaxRspSize
    else h.mConInfo.max_pl2rsp_pkt_size
  if numBytesUsed < numBytesMax then numBytesMax - numBytesUsed else 0

/-- The function `CTasPktHandlerRw::mCheckRemainingPktSizeSufficient`. -/
def mCheckRemainingPktSizeSufficient (h : CTasPktHandlerRw)
    (num_bytes_needed_pktrq num_bytes_needed_pktrsp : Nat) : Bool :=
  if num_bytes_needed_pktrq > mGetRemainingSizeInPktRq h then false
  else if num_bytes_needed_pktrsp > mGetRemainingSizeInPktRsp h then false
  else true

/-- The function `CTasPktHandlerRw::mPktFinalizeIfNeeded`. -/
def mPktFinalizeIfNeeded (h : CTasPktHandlerRw)
    (num_bytes_needed_pktrq num_bytes_needed_pktrsp : Nat) : CTasPktHandlerRw :=
  if !mCheckRemainingPktSizeSufficient h num_bytes_needed_pktrq num_bytes_needed_pktrsp then
    mPktFinalize h true
  else h

/-- The expression `nb & ~0x7` on `uint32_t`. -/
def and_not7 (nb : Nat) : Nat := nb &&& 0xFFFFFFF8

/-- The function `CTasPktHandlerRw::mGetWrDataBlkSizeInPktRq`. -/
def mGetWrDataBlkSizeInPktRq (h : CTasPktHandlerRw) (num_bytes addr : Nat) : Nat :=
  let numBytesProtocol := 4 + 4
  let numDataBlkBytesMax := mGetRemainingSizeInPktRq h
  if numBytesProtocol ≥ numDataBlkBytesMax then 0
  else
    let m1 := sub32 numDataBlkBytesMax numBytesProtocol
    let m2 := if addr ≥ 0x100000000 then sub32 m1 8 else m1
    let nb1 := if num_bytes > m2 then m2 else num_bytes
    let nb2 := if nb1 > h.mMaxWrDataBlkSizeInPktRq then h.mMaxWrDataBlkSizeInPktRq else nb1
    and_not7 nb2

/-- The function `CTasPktHandlerRw::mGetRdDataBlkSizeInPktRsp`. -/
def mGetRdDataBlkSizeInPktRsp (h : CTasPktHandlerRw) (num_bytes : Nat) : Nat :=
  let numBytesProtocol := 4 + 4
  let numDataBlkBytesMax := mGetRemainingSizeInPktRsp h
  if numBytesProtocol ≥ numDataBlkBytesMax then 0
  else
    let m1 := sub32 numDataBlkBytesMax numBytesProtocol
    let nb1 := if num_bytes > m1 then m1 else num_bytes
    let nb2 := if nb1 > h.mMaxRdDataBlkSizeInPktRsp then h.mMaxRdDataBlkSizeInPktRsp else nb1
    and_not7 nb2

/-- Append the words `ws` at `mRqBuf[mRqBufWi]`, advance `mRqBufWi` by their
number and add `rsp` to `mRspSize`.  The code does not check the index against
the size of `mRqBuf`, and the list has no end (see `InArrays`). -/
def emit (h : CTasPktHandlerRw) (ws : List Nat) (rsp : Nat) : CTasPktHandlerRw :=
  { h with mRqBuf := h.mRqBuf ++ ws, mRspSize := u32 (h.mRspSize + rsp) }

/-- The statement `mPl0AddrMapMask |= addrMapMask`. -/
def orAddrMapMask (h : CTasPktHandlerRw) (addr_map : Nat) : CTasPktHandlerRw :=
  { h with mPl0AddrMapMask := h.mPl0AddrMapMask ||| u16 (1 <<< addr_map) }

/-- The `tas_pl0rq_addr_map_st` word. -/
def addrMapWord (addr_map : Nat) : Nat := u8 0 + TAS_PL0_CMD_ADDR_MAP * 2 ^ 8 + u8 addr_map * 2 ^ 16

/-- The block `if (addr_map != mPl0AddrMap)` of `mPktAdd_SetAddrMapAccModeBaseAddr`. -/
def setAddrMap (h : CTasPktHandlerRw) (addr_map : Nat) : CTasPktHandlerRw :=
  if addr_map ≠ h.mPl0AddrMap then { emit h [addrMapWord addr_map] 0 with mPl0AddrMap := addr_map }
  else h

/-- The block `if (acc_mode != mPl0AccMode)` of `mPktAdd_SetAddrMapAccModeBaseAddr`. -/
def setAccMode (h : CTasPktHandlerRw) (acc_mode : Nat) : CTasPktHandlerRw :=
  if acc_mode ≠ h.mPl0AccMode then
    { emit h [wordWlCmdU16 0 TAS_PL0_CMD_ACCESS_MODE acc_mode] 0 with mPl0AccMode := acc_mode }
  else h

/-- The words of `tas_pl0rq_base_addr32_st` or `tas_pl0rq_base_addr64_st` for `addr`. -/
def baseAddrWords (addr : Nat) : List Nat :=
  if addr < 0x100000000 then [wordWlCmdU16 0 TAS_PL0_CMD_BASE_ADDR32 (addr >>> 16)]
  else [wordWlCmdU16 1 TAS_PL0_CMD_BASE_ADDR64 (addr >>> 16), u32 (addr >>> 32)]

/-- The block `if ((addr < mPl0BaseAddr) || (addr > (mPl0BaseAddr + 0xFFFF)))` of
`mPktAdd_SetAddrMapAccModeBaseAddr`. -/
def setBaseAddr (h : CTasPktHandlerRw) (addr : Nat) : CTasPktHandlerRw :=
  if baseAddrChange h addr then
    { emit h (baseAddrWords addr) 0 with mPl0BaseAddr := addr &&& 0xFFFFFFFFFFFF0000 }
  else h

/-- The function `CTasPktHandlerRw::mPktAdd_SetAddrMapAccModeBaseAddr`. -/
def mPktAdd_SetAddrMapAccModeBaseAddr (h : CTasPktHandlerRw) (addr_map acc_mode addr : Nat) :
    CTasPktHandlerRw :=
  setBaseAddr (setAccMode (setAddrMap (orAddrMapMask h addr_map) addr_map) acc_mode) addr

/-- Record a micro-op in `mPl0Trans`/`mPl0TransRsp` and count it.  The code
stores at index `mPl0NumTrans` without comparing it with `mNumTransMax`, the
size of the tables, and the lists have no end (see `InArrays`). -/
def recordPl0 (h : CTasPktHandlerRw) (addr num_bytes type : Nat) (wdata : List Nat) (rdata : Nat) :
    CTasPktHandlerRw :=
  { h with
    mPl0Trans := h.mPl0Trans ++
      [{ addr := addr, num_bytes := num_bytes, acc_mode := h.mPl0AccMode, addr_map := h.mPl0AddrMap,
         type := type, wdata := wdata, rdata := rdata }]
    mPl0TransRsp := h.mPl0TransRsp ++ [{ num_bytes_ok := 0, pl_err := TAS_PL_ERR_PROTOCOL }]
    mPl2NumTrans := u32 (h.mPl2NumTrans + 1) }

/-- The block `if (mPl2NumTrans >= mConInfo.pl0_max_num_rw) mPktFinalize();`. -/
def finalizeIfFull (h : CTasPktHandlerRw) : CTasPktHandlerRw :=
  if h.mPl2NumTrans ≥ h.mConInfo.pl0_max_num_rw then mPktFinalize h true else h

/-- The expression `((num_bytes + 3) / 4) * 4` on `uint32_t`. -/
def roundUp4 (num_bytes : Nat) : Nat := u32 (u32 (num_bytes + 3) / 4 * 4)

/-- The command `mPktAdd_Rd` chooses for a read of at most 8 bytes (0 stands
for the value left in the buffer when no case of the `switch` applies). -/
def rdCmd (num_bytes : Nat) : Nat :=
  if num_bytes = 1 then TAS_PL0_CMD_RD8
  else if num_bytes = 2 then TAS_PL0_CMD_RD16
  else if num_bytes = 4 then TAS_PL0_CMD_RD32
  else if num_bytes = 8 then TAS_PL0_CMD_RD64
  else 0

/-- The command `mPktAdd_Wr` chooses for a write of at most 8 bytes. -/
def wrCmd (num_bytes : Nat) : Nat :=
  if num_bytes = 1 then TAS_PL0_CMD_WR8
  else if num_bytes = 2 then TAS_PL0_CMD_WR16
  else if num_bytes = 4 then TAS_PL0_CMD_WR32
  else if num_bytes = 8 then TAS_PL0_CMD_WR64
  else 0

/-- The request words `mPktAdd_Rd` writes for the read itself. -/
def rdWords (addr num_bytes : Nat) : List Nat :=
  if num_bytes ≤ 8 then [wordWlCmdU16 0 (rdCmd num_bytes) (addr &&& 0xFFFF)]
  else [wordWlCmdU16 1 TAS_PL0_CMD_RDBLK (addr &&& 0xFFFF), u8 (num_bytes >>> 2)]

/-- What `mPktAdd_Rd` adds to `mRspSize` for the read itself. -/
def rdRspSize (num_bytes : Nat) : Nat :=
  if num_bytes ≤ 8 then 4 + (if rdCmd num_bytes = TAS_PL0_CMD_RD64 then 8 else 4)
  else 4 + num_bytes

/-- The statements `mPktAdd_Rd`, `mPktAdd_Wr` and `mPktAdd_Fill` have in
common before they write their own packet: finalize when the PL2 packet holds
`pl0_max_num_rw` micro-ops, finalize when the sizes needed (`rqExtra` on top
of the address map, access mode and base address packets, and `rspNeeded`) do not
fit, then `mPktAdd_SetAddrMapAccModeBaseAddr`. -/
def pktPrep (h : CTasPktHandlerRw) (addr_map acc_mode addr rqExtra rspNeeded : Nat) : CTasPktHandlerRw :=
  let h1 := finalizeIfFull h
  let numBytesAmAmBa := mGetNumBytesAddrMapAccModeBaseAddr h1 addr_map acc_mode addr
  let h2 := mPktFinalizeIfNeeded h1 (u32 (numBytesAmAmBa + rqExtra)) rspNeeded
  mPktAdd_SetAddrMapAccModeBaseAddr h2 addr_map acc_mode addr

/-- The function `CTasPktHandlerRw::mPktAdd_Rd`. -/
def mPktAdd_Rd (h : CTasPktHandlerRw) (addr num_bytes data acc_mode addr_map : Nat) : CTasPktHandlerRw :=
  if num_bytes = 0 then h
  else
    let h3 := pktPrep h addr_map acc_mode addr (8 + 4) (u32 (4 + roundUp4 num_bytes + 4))
    recordPl0 (emit h3 (rdWords addr num_bytes) (rdRspSize num_bytes)) addr num_bytes TAS_RW_TT_RD [] data

/-- The request words `mPktAdd_Wr` writes for the write itself; `wiMax` is
`mRqWiMax` and `wi` the write index.  A block whose end would not lie below
`mRqWiMax` is not copied: the code leaves its words as they were, in the model
they are 0 (`InArrays` excludes the case). -/
def wrWords (wi wiMax addr num_bytes : Nat) (data : List Nat) : List Nat :=
  if num_bytes ≤ 8 then
    let wl := if num_bytes > 4 then 2 else 1
    wordWlCmdU16 wl (wrCmd num_bytes) (addr &&& 0xFFFF) :: packWords data num_bytes wl
  else
    let wl0 := u8 (num_bytes / 4)
    let wl := if wl0 = 0 then 256 else wl0
    let mPl1WiNew := u32 (wi + 1 + wl)
    wordWlCmdU16 wl0 TAS_PL0_CMD_WRBLK (addr &&& 0xFFFF) ::
      (if mPl1WiNew < wiMax then packWords data num_bytes wl else List.replicate wl 0)

/-- The function `CTasPktHandlerRw::mPktAdd_Wr`. -/
def mPktAdd_Wr (h : CTasPktHandlerRw) (addr num_bytes : Nat) (data : List Nat) (acc_mode addr_map : Nat) :
    CTasPktHandlerRw :=
  if num_bytes = 0 then h
  else
    let h3 := pktPrep h addr_map acc_mode addr (4 + roundUp4 num_bytes + 4) (4 + 4)
    recordPl0 (emit h3 (wrWords h3.mRqBufWi h3.mRqWiMax addr num_bytes data) 4)
      addr num_bytes TAS_RW_TT_WR data 0

/-- The words of `tas_pl0rq_fill_st`. -/
def fillWords (addr num_bytes value : Nat) : List Nat :=
  [wordWlCmdU16 3 TAS_PL0_CMD_FILL (addr &&& 0xFFFF), u8 (num_bytes / 4), u32 value, u32 (value >>> 32)]

/-- The eight bytes of a 64 bit value, little endian. -/
def bytesOfU64 (value : Nat) : List Nat := (List.range 8).map (fun i => u8 (value >>> (8 * i)))

/-- The function `CTasPktHandlerRw::mPktAdd_Fill`.  The recorded `wdata`
points into the request buffer; the model records the eight bytes of the value. -/
def mPktAdd_Fill (h : CTasPktHandlerRw) (addr num_bytes value acc_mode addr_map : Nat) : CTasPktHandlerRw :=
  let h3 := pktPrep h addr_map acc_mode addr (4 + 8 + 4) (4 + 4)
  recordPl0 (emit h3 (fillWords addr num_bytes value) 4) addr num_bytes TAS_RW_TT_FILL
    (bytesOfU64 value) 0

/-- The prologue shared by `rw_add_rd`, `rw_add_wr` and `rw_add_fill`: finalize
when the number of micro-ops is not manageable, then start a new PL2 packet when
the remaining sizes or the address map rules ask for it. -/
def addPrologue (h : CTasPktHandlerRw) (manageable : Bool) (rq rsp addrMap : Nat) : CTasPktHandlerRw :=
  let h1 := if !manageable then mPktFinalize h true else h
  let newPl2Pkt := !mCheckRemainingPktSizeSufficient h1 rq rsp || !mCheckAddrMapRulesInPkt h1 addrMap
  if newPl2Pkt then mPktFinalize h1 true else h1

/-- The local variables `a`, `d`, `nb` of `rw_add_rd` together with the handler. -/
structure RdCursor where
  h : CTasPktHandlerRw
  a : Nat
  d : Nat
  nb : Nat
  deriving DecidableEq, Repr

/-- The local variables `a`, `d`, `nb` of `rw_add_wr` together with the handler;
`d` is the rest of the caller buffer. -/
structure WrCursor where
  h : CTasPktHandlerRw
  a : Nat
  d : List Nat
  nb : Nat
  deriving DecidableEq, Repr

/-- The statements `mPktAdd_Rd(a, n, d, acc_mode, addrMap); a += n; d += n; nb -= n;`. -/
def rdStep (c : RdCursor) (n acc_mode addrMap : Nat) : RdCursor :=
  { h := mPktAdd_Rd c.h c.a n c.d acc_mode addrMap, a := u64 (c.a + n), d := c.d + n, nb := sub32 c.nb n }

/-- The statements `mPktAdd_Wr(a, n, d, acc_mode, addrMap); a += n; d += n; nb -= n;`. -/
def wrStep (c : WrCursor) (n acc_mode addrMap : Nat) : WrCursor :=
  { h := mPktAdd_Wr c.h c.a n c.d acc_mode addrMap, a := u64 (c.a + n), d := c.d.drop n, nb := sub32 c.nb n }

/-- The `do { } while (nb > 7)` loop of `rw_add_rd`. -/
def rdBlkLoop : Nat → RdCursor → Nat → Nat → Option RdCursor
  | 0, _, _, _ => none
  | fuel + 1, c, acc_mode, addrMap =>
    let nbBlk := mGetRdDataBlkSizeInPktRsp c.h c.nb
    let h1 := mPktAdd_Rd c.h c.a nbBlk c.d acc_mode addrMap
    let h2 := if nbBlk < TAS_PL0_DATA_BLK_SIZE ∧ nbBlk < and_not7 c.nb then mPktFinalize h1 true else h1
    let c1 : RdCursor := { h := h2, a := u64 (c.a + nbBlk), d := c.d + nbBlk, nb := sub32 c.nb nbBlk }
    if c1.nb > 7 then rdBlkLoop fuel c1 acc_mode addrMap else some c1

/-- The `do { } while (nb > 7)` loop of `rw_add_wr`. -/
def wrBlkLoop : Nat → WrCursor → Nat → Nat → Option WrCursor
  | 0, _, _, _ => none
  | fuel + 1, c, acc_mode, addrMap =>
    let nbBlk := mGetWrDataBlkSizeInPktRq c.h c.nb c.a
    let h1 := mPktAdd_Wr c.h c.a nbBlk c.d acc_mode addrMap
    let h2 := if nbBlk < TAS_PL0_DATA_BLK_SIZE ∧ nbBlk < and_not7 c.nb then mPktFinalize h1 true else h1
    let c1 : WrCursor := { h := h2, a := u64 (c.a + nbBlk), d := c.d.drop nbBlk, nb := sub32 c.nb nbBlk }
    if c1.nb > 7 then wrBlkLoop fuel c1 acc_mode addrMap else some c1

/-- The three conditional micro-ops of `rw_add_rd` before the block loop. -/
def rdHead (c0 : RdCursor) (acc_mode addrMap : Nat) : RdCursor :=
  let c1 := if c0.nb > 0 ∧ c0.a &&& 1 ≠ 0 then rdStep c0 1 acc_mode addrMap else c0
  let c2 := if c1.nb ≥ 2 ∧ c1.a &&& 2 ≠ 0 then rdStep c1 2 acc_mode addrMap else c1
  if c2.nb ≥ 4 ∧ c2.a &&& 4 ≠ 0 then rdStep c2 4 acc_mode addrMap else c2

/-- The three conditional micro-ops of `rw_add_rd` after the block loop. -/
def rdTail (c4 : RdCursor) (acc_mode addrMap : Nat) : RdCursor :=
  let c5 := if c4.nb ≥ 4 then rdStep c4 4 acc_mode addrMap else c4
  let c6 := if c5.nb ≥ 2 then rdStep c5 2 acc_mode addrMap else c5
  if c6.nb > 0 then rdStep c6 1 acc_mode addrMap else c6

/-- The body of `rw_add_rd` after the prologue: unaligned start, block loop,
unaligned end. -/
def rdSplit (fuel : Nat) (h : CTasPktHandlerRw) (addr num_bytes data acc_mode addrMap : Nat) :
    Option RdCursor :=
  let c3 := rdHead { h := h, a := addr, d := data, nb := num_bytes } acc_mode addrMap
  match (if c3.nb ≥ 8 then rdBlkLoop fuel c3 acc_mode addrMap else some c3) with
  | none => none
  | some c4 => some (rdTail c4 acc_mode addrMap)

/-- The three conditional micro-ops of `rw_add_wr` before the block loop. -/
def wrHead (c0 : WrCursor) (acc_mode addrMap : Nat) : WrCursor :=
  let c1 := if c0.nb > 0 ∧ c0.a &&& 1 ≠ 0 then wrStep c0 1 acc_mode addrMap else c0
  let c2 := if c1.nb ≥ 2 ∧ c1.a &&& 2 ≠ 0 then wrStep c1 2 acc_mode addrMap else c1
  if c2.nb ≥ 4 ∧ c2.a &&& 4 ≠ 0 then wrStep c2 4 acc_mode addrMap else c2

/-- The three conditional micro-ops of `rw_add_wr` after the block loop. -/
def wrTail (c4 : WrCursor) (acc_mode addrMap : Nat) : WrCursor :=
  let c5 := if c4.nb ≥ 4 then wrStep c4 4 acc_mode addrMap else c4
  let c6 := if c5.nb ≥ 2 then wrStep c5 2 acc_mode addrMap else c5
  if c6.nb > 0 then wrStep c6 1 acc_mode addrMap else c6

/-- The body of `rw_add_wr` after the prologue. -/
def wrSplit (fuel : Nat) (h : CTasPktHandlerRw) (addr num_bytes : Nat) (data : List Nat)
    (acc_mode addrMap : Nat) : Option WrCursor :=
  let c3 := wrHead { h := h, a := addr, d := data, nb := num_bytes } acc_mode addrMap
  match (if c3.nb ≥ 8 then wrBlkLoop fuel c3 acc_mode addrMap else some c3) with
  | none => none
  | some c4 => some (wrTail c4 acc_mode addrMap)

/-- Record a user transaction in `mRwTrans`/`mRwTransRsp`.  The code stores at
index `mRwNumTrans` without comparing it with `mNumTransMax`, the size of the
tables, and the lists have no end (see `InArrays`). -/
def recordRw (h : CTasPktHandlerRw) (addr num_bytes type : Nat) (wdata : List Nat) (rdata : Nat) :
    CTasPktHandlerRw :=
  { h with
    mRwTrans := h.mRwTrans ++
      [{ addr := addr, num_bytes := num_bytes, acc_mode := h.mPl0AccMode, addr_map := h.mPl0AddrMap,
         type := type, wdata := wdata, rdata := rdata }]
    mRwTransRsp := h.mRwTransRsp ++ [{ num_bytes_ok := 0, pl_err := TAS_PL_ERR_PROTOCOL }] }

/-- The aliasing of address map 132 to 15 done by `rw_add_rd` and `rw_add_wr`:
the local variable `addrMap`. -/
def aliasMap (addr_map : Nat) : Nat := if addr_map = TAS_AM132 then TAS_AM15 else addr_map

/-- The response size `rw_add_rd` asks to be left in the PL2 packet. -/
def rdPrologueRsp (addr_map num_bytes : Nat) : Nat :=
  if addr_map ≥ TAS_AM12 then u32 (16 + roundUp4 num_bytes)
  else if num_bytes ≤ 16 then u32 (16 + roundUp4 num_bytes)
  else 64

/-- The request size `rw_add_wr` asks to be left in the PL2 packet. -/
def wrPrologueRq (addr_map num_bytes : Nat) : Nat :=
  if addr_map ≥ TAS_AM12 then u32 (32 + roundUp4 num_bytes)
  else if num_bytes ≤ 16 then u32 (32 + roundUp4 num_bytes)
  else 80

/-- The function `CTasPktHandlerRw::rw_add_rd`.  The result is `none` when the
block loop does not come to an end within `fuel` iterations. -/
def rw_add_rd (fuel : Nat) (h : CTasPktHandlerRw) (addr num_bytes data acc_mode addr_map : Nat) :
    Option (Bool × CTasPktHandlerRw) :=
  if num_bytes = 0 then some (false, h)
  else if !mCheckLimits h num_bytes 0 then some (false, h)
  else if aliasMap addr_map > TAS_AM15 then some (false, h)
  else
    let h1 := addPrologue h (mNumTransManageableRd h addr num_bytes) 32
      (rdPrologueRsp addr_map num_bytes) (aliasMap addr_map)
    match rdSplit fuel h1 addr num_bytes data acc_mode (aliasMap addr_map) with
    | none => none
    | some c => some (true, recordRw c.h addr num_bytes TAS_RW_TT_RD [] data)

/-- The function `CTasPktHandlerRw::rw_add_wr`. -/
def rw_add_wr (fuel : Nat) (h : CTasPktHandlerRw) (addr num_bytes : Nat) (data : List Nat)
    (acc_mode addr_map : Nat) : Option (Bool × CTasPktHandlerRw) :=
  if num_bytes = 0 then some (false, h)
  else if !mCheckLimits h 0 num_bytes then some (false, h)
  else if aliasMap addr_map > TAS_AM15 then some (false, h)
  else
    let h1 := addPrologue h (mNumTransManageableWr h addr num_bytes)
      (wrPrologueRq addr_map num_bytes) 32 (aliasMap addr_map)
    match wrSplit fuel h1 addr num_bytes data acc_mode (aliasMap addr_map) with
    | none => none
    | some c => some (true, recordRw c.h addr num_bytes TAS_RW_TT_WR data 0)

/-- The `do { } while (nb > 0)` loop of `rw_add_fill`. -/
def fillLoop : Nat → CTasPktHandlerRw → Nat → Nat → Nat → Nat → Nat → Option CTasPktHandlerRw
  | 0, _, _, _, _, _, _ => none
  | fuel + 1, h, a, nb, value, acc_mode, addr_map =>
    let nbNow := if nb > TAS_PL0_DATA_BLK_SIZE then TAS_PL0_DATA_BLK_SIZE else nb
    let h1 := mPktAdd_Fill h a nbNow value acc_mode addr_map
    let a1 := u64 (a + nbNow)
    let nb1 := sub32 nb nbNow
    if nb1 > 0 then fillLoop fuel h1 a1 nb1 value acc_mode addr_map else some h1

/-- The function `CTasPktHandlerRw::rw_add_fill`. -/
def rw_add_fill (fuel : Nat) (h : CTasPktHandlerRw) (addr num_bytes value acc_mode addr_map : Nat) :
    Option (Bool × CTasPktHandlerRw) :=
  if addr % 8 ≠ 0 ∨ num_bytes = 0 ∨ num_bytes % 8 ≠ 0 ∨ acc_mode ≠ 0 ∨ addr_map ≥ TAS_AM12 then
    some (false, h)
  else if !mCheckLimits h 0 num_bytes then some (false, h)
  else
    let h1 := addPrologue h (mNumTransManageableWr h addr 8) (32 + 8) 32 addr_map
    match fillLoop fuel h1 addr num_bytes value acc_mode addr_map with
    | none => none
    | some h2 => some (true, recordRw h2 addr num_bytes TAS_RW_TT_FILL [] 0)

/-- The 64 bit value `*(const uint64_t*)wdata` of a fill transaction. -/
def fillValue (wdata : List Nat) : Nat :=
  (List.range 8).foldr (fun i acc => acc + byteAt wdata i * 2 ^ (8 * i)) 0

/-- One transaction of the list handed to `rw_set_trans`. -/
def rw_add_trans (fuel : Nat) (h : CTasPktHandlerRw) (t : tas_rw_trans_st) : Option (Bool × CTasPktHandlerRw) :=
  if t.type = TAS_RW_TT_RD then rw_add_rd fuel h t.addr t.num_bytes t.rdata t.acc_mode t.addr_map
  else if t.type = TAS_RW_TT_WR then rw_add_wr fuel h t.addr t.num_bytes t.wdata t.acc_mode t.addr_map
  else if t.type = TAS_RW_TT_FILL then
    rw_add_fill fuel h t.addr t.num_bytes (fillValue t.wdata) t.acc_mode t.addr_map
  else some (false, h)

/-- The `for` loop of `rw_set_trans`; `succ` is the flag of the same name. -/
def setTransLoop (fuel : Nat) : List tas_rw_trans_st → Bool → CTasPktHandlerRw → Option (Bool × CTasPktHandlerRw)
  | [], succ, h => some (succ, h)
  | t :: ts, _, h =>
    match rw_add_trans fuel h t with
    | none => none
    | some (true, h1) => setTransLoop fuel ts true h1
    | some (false, h1) => some (false, rw_start h1)

/-- The function `CTasPktHandlerRw::rw_set_trans`. -/
def rw_set_trans (fuel : Nat) (h : CTasPktHandlerRw) (trans : List tas_rw_trans_st) :
    Option (Bool × CTasPktHandlerRw) :=
  setTransLoop fuel trans false (rw_start h)

/-- The function `CTasPktHandlerRw::rw_get_rq_size`. -/
def rw_get_rq_size (h : CTasPktHandlerRw) : Nat :=
  if h.mGetPktRqWasCalled = false then u32 (u32 (h.mRqBufWi * 4) + 4) else u32 (h.mRqBufWi * 4)

/-- The function `CTasPktHandlerRw::rw_get_rsp_size`. -/
def rw_get_rsp_size (h : CTasPktHandlerRw) : Nat :=
  if h.mGetPktRqWasCalled = false then u32 (h.mRspSize + 4) else h.mRspSize

/-- The outputs of `rw_get_rq`. -/
structure RqOut where
  rq : List Nat
  rq_num_bytes : Nat
  rsp_num_bytes_max : Nat
  num_pl2_pkt : Nat
  deriving DecidableEq, Repr

/-- The function `CTasPktHandlerRw::rw_get_rq` (first call). -/
def rw_get_rq (h : CTasPktHandlerRw) : CTasPktHandlerRw × RqOut :=
  let h1 := if h.mGetPktRqWasCalled = false then
      { mPktFinalize h false with mGetPktRqWasCalled := true }
    else h
  (h1, { rq := h1.mRqBuf, rq_num_bytes := rw_get_rq_size h1,
         rsp_num_bytes_max := rw_get_rsp_size h1, num_pl2_pkt := h1.mNumPl2Pkt })

/-! ## Response parser -/

/-- Word `i` of the response buffer; words that were not received read as 0. -/
def rspWord (rsp : List Nat) (i : Nat) : Nat := rsp.getD i 0

def byte0 (w : Nat) : Nat := w % 2 ^ 8
def byte1 (w : Nat) : Nat := (w >>> 8) % 2 ^ 8
def byte2 (w : Nat) : Nat := (w >>> 16) % 2 ^ 8
def byte3 (w : Nat) : Nat := (w >>> 24) % 2 ^ 8
def hi16 (w : Nat) : Nat := (w >>> 16) % 2 ^ 16

/-- Byte `k` of the words of `rsp` starting at word `wi` (little endian). -/
def byteOfWords (rsp : List Nat) (wi k : Nat) : Nat :=
  (rspWord rsp (wi + k / 4) >>> (8 * (k % 4))) % 2 ^ 8

/-- The call `memcpy(dst, &rsp[wi], n)` on the host memory `hm`. -/
def memcpyWords (hm : Nat → Nat) (dst : Nat) (rsp : List Nat) (wi n : Nat) : Nat → Nat :=
  fun p => if dst ≤ p ∧ p < dst + n then byteOfWords rsp wi (p - dst) else hm p

/-- The function `ctprhcPl0CmdIsRd`. -/
def ctprhcPl0CmdIsRd (cmd : Nat) : Bool :=
  cmd = TAS_PL0_CMD_RD8 ∨ cmd = TAS_PL0_CMD_RD16 ∨ cmd = TAS_PL0_CMD_RD32 ∨ cmd = TAS_PL0_CMD_RD64
    ∨ cmd = TAS_PL0_CMD_RDBLK ∨ cmd = TAS_PL0_CMD_RDBLK1KB

/-- The function `ctprhcPl0CmdIsWrOrFill`. -/
def ctprhcPl0CmdIsWrOrFill (cmd : Nat) : Bool :=
  cmd = TAS_PL0_CMD_WR8 ∨ cmd = TAS_PL0_CMD_WR16 ∨ cmd = TAS_PL0_CMD_WR32 ∨ cmd = TAS_PL0_CMD_WR64
    ∨ cmd = TAS_PL0_CMD_WRBLK ∨ cmd = TAS_PL0_CMD_FILL

/-- The function `CTasPktHandlerBase::mSetPktRspErrConnectionProtocol`. -/
def mSetPktRspErrConnectionProtocol (h : CTasPktHandlerRw) : CTasPktHandlerRw :=
  { h with tas_err := TAS_ERR_SERVER_CON }

/-- The function `CTasPktHandlerBase::mSetPktRspErrDeviceAccess`. -/
def mSetPktRspErrDeviceAccess (h : CTasPktHandlerRw) : CTasPktHandlerRw :=
  { h with tas_err := TAS_ERR_DEVICE_ACCESS }

/-- The function `CTasPktHandlerRw::mSetPktRspErrPl1Cnt`. -/
def mSetPktRspErrPl1Cnt (h : CTasPktHandlerRw) : CTasPktHandlerRw :=
  { h with tas_err := TAS_ERR_SERVER_CON }

/-- The function `CTasPktHandlerRw::mSetPktRspErrPl0Data` (the error code; the
text is not modelled). -/
def mSetPktRspErrPl0Data (h : CTasPktHandlerRw) (pl_err tas_err : Nat) : CTasPktHandlerRw :=
  if h.tas_err ≠ TAS_ERR_NONE then h
  else if pl_err = TAS_PL0_ERR_DATA then { h with tas_err := tas_err }
  else if pl_err = TAS_PL0_ERR_DEV_LOCKED then { h with tas_err := TAS_ERR_DEVICE_LOCKED }
  else if pl_err = TAS_PL0_ERR_DEV_ACCESS then { h with tas_err := TAS_ERR_DEVICE_ACCESS }
  else { h with tas_err := tas_err }

/-- The local variables of `rw_set_rsp` together with the handler and the host memory. -/
structure RspCursor where
  h : CTasPktHandlerRw
  hm : Nat → Nat
  wi : Nat
  wiPktStartNext : Nat
  iTrans : Nat

/-- Outcome of one iteration of the `while` loop of `rw_set_rsp`. -/
inductive RspStep where
  | ret (c : RspCursor)
  | next (c : RspCursor)
  | brk (c : RspCursor)

/-- Store the response of micro-op `iTrans`. -/
def setPl0Rsp (h : CTasPktHandlerRw) (iTrans num_bytes_ok pl_err : Nat) : CTasPktHandlerRw :=
  { h with mPl0TransRsp := h.mPl0TransRsp.set iTrans { num_bytes_ok := num_bytes_ok, pl_err := pl_err } }

/-- Store only `pl_err` of the response of micro-op `iTrans`. -/
def setPl0RspErr (h : CTasPktHandlerRw) (iTrans pl_err : Nat) : CTasPktHandlerRw :=
  let old := h.mPl0TransRsp.getD iTrans default
  { h with mPl0TransRsp := h.mPl0TransRsp.set iTrans { num_bytes_ok := old.num_bytes_ok, pl_err := pl_err } }

/-- The pl0-start branch of the loop of `rw_set_rsp`. -/
def rspStart (rsp : List Nat) (c : RspCursor) : RspStep :=
  let w := rspWord rsp c.wi
  if w % 4 ≠ 0 ∨ w > c.h.mMaxRspSize then .ret { c with h := mSetPktRspErrConnectionProtocol c.h }
  else
    let c1 := { c with wiPktStartNext := u32 (c.wiPktStartNext + w / 4) }
    let s := rspWord rsp (c.wi + 1)
    if byte0 s ≠ 0 ∨ byte1 s ≠ TAS_PL1_CMD_PL0_START then
      .ret { c1 with h := mSetPktRspErrConnectionProtocol c.h }
    else if byte3 s = TAS_PL1_ERR_DEV_ACCESS then
      .ret { c1 with h := mSetPktRspErrDeviceAccess c.h }
    else if byte3 s = TAS_PL1_ERR_DEV_RESET then
      .next { c1 with h := { c.h with mDeviceResetCount := u32 (c.h.mDeviceResetCount + 1) }, wi := c.wi + 2 }
    else if byte3 s ≠ TAS_PL_ERR_NO_ERROR then
      .ret { c1 with h := mSetPktRspErrConnectionProtocol c.h }
    else .next { c1 with wi := c.wi + 2 }

/-- The pl0-end branch of the loop of `rw_set_rsp`. -/
def rspEnd (rsp : List Nat) (c : RspCursor) : RspStep :=
  let w := rspWord rsp c.wi
  if byte0 w ≠ 0 then .ret { c with h := mSetPktRspErrConnectionProtocol c.h }
  else if hi16 w ≠ c.h.mPl1CntOutstandingOldest then .ret { c with h := mSetPktRspErrPl1Cnt c.h }
  else if c.iTrans = c.h.mPl0NumTrans then .brk { c with wi := c.wi + 1 }
  else .next { c with
    h := { c.h with mPl1CntOutstandingOldest := u16 (c.h.mPl1CntOutstandingOldest + 1) }
    wi := c.wi + 1 }

/-- The write/fill branch of the loop of `rw_set_rsp`.  For `iTrans` at or
above `mPl0NumTrans` the entry read is the default entry; the code reads what
the table holds there (see `ReadsPlanned`). -/
def rspWr (rsp : List Nat) (c : RspCursor) : RspStep :=
  let w := rspWord rsp c.wi
  let wl := byte0 w
  let cmd := byte1 w
  let wlwr := byte2 w
  let err := byte3 w
  let pt := c.h.mPl0Trans.getD c.iTrans default
  let wlrwNoErr := u16 (u32 (pt.num_bytes + 3) / 4)
  if wl ≠ 0 then .ret { c with h := mSetPktRspErrConnectionProtocol c.h }
  else if pt.type ≠ TAS_RW_TT_WR ∧ pt.type ≠ TAS_RW_TT_FILL then
    .ret { c with h := mSetPktRspErrConnectionProtocol c.h }
  else if err ≠ TAS_PL0_ERR_NO_ERROR then
    let h1 := setPl0RspErr c.h c.iTrans err
    if cmd = TAS_PL0_CMD_WRBLK then
      if wlwr ≥ wlrwNoErr then .ret { c with h := mSetPktRspErrConnectionProtocol h1 }
      else
        let h2 := setPl0Rsp h1 c.iTrans (wlwr * 4) err
        .next { c with h := mSetPktRspErrPl0Data h2 err TAS_ERR_RW_WRITE, wi := c.wi + 1 + wl, iTrans := c.iTrans + 1 }
    else if wlwr ≠ 0 then .ret { c with h := mSetPktRspErrConnectionProtocol h1 }
    else
      let h2 := setPl0Rsp h1 c.iTrans 0 err
      .next { c with h := mSetPktRspErrPl0Data h2 err TAS_ERR_RW_WRITE, wi := c.wi + 1 + wl, iTrans := c.iTrans + 1 }
  else if wlwr ≠ (0xFF &&& (u32 (pt.num_bytes + 3) / 4)) ∨ wl ≠ 0 then
    .ret { c with h := mSetPktRspErrConnectionProtocol c.h }
  else
    .next { c with h := setPl0Rsp c.h c.iTrans (u16 pt.num_bytes) TAS_PL0_ERR_NO_ERROR,
                   wi := c.wi + 1 + wl, iTrans := c.iTrans + 1 }

/-- The read branch of the loop of `rw_set_rsp`.  For `iTrans` at or above
`mPl0NumTrans` the entry read is the default entry; the code reads what the
table holds there (see `ReadsPlanned`). -/
def rspRd (rsp : List Nat) (c : RspCursor) : RspStep :=
  let w := rspWord rsp c.wi
  let wl := byte0 w
  let cmd := byte1 w
  let wlrd := byte2 w
  let err := byte3 w
  let pt := c.h.mPl0Trans.getD c.iTrans default
  let wlrwNoErr := u16 (u32 (pt.num_bytes + 3) / 4)
  if wl ≠ wlrd then .ret { c with h := mSetPktRspErrConnectionProtocol c.h }
  else if pt.type ≠ TAS_RW_TT_RD then .ret { c with h := mSetPktRspErrConnectionProtocol c.h }
  else if cmd = TAS_PL0_CMD_RDBLK1KB then
    if wlrwNoErr ≠ 0x100 ∨ wl ≠ 0 ∨ wlrd ≠ 0 ∨ err ≠ TAS_PL0_ERR_NO_ERROR then
      .ret { c with h := mSetPktRspErrConnectionProtocol c.h }
    else
      .next { c with
        h := setPl0Rsp c.h c.iTrans TAS_PL0_DATA_BLK_SIZE TAS_PL0_ERR_NO_ERROR
        hm := memcpyWords c.hm pt.rdata rsp (c.wi + 1) TAS_PL0_DATA_BLK_SIZE
        wi := c.wi + 1 + 256
        iTrans := c.iTrans + 1 }
  else if err ≠ TAS_PL0_ERR_NO_ERROR then
    if cmd = TAS_PL0_CMD_RDBLK then
      if wlrd > wlrwNoErr then .ret { c with h := mSetPktRspErrConnectionProtocol c.h }
      else
        let h2 := setPl0Rsp c.h c.iTrans (wlrd * 4) err
        .next { c with
          h := mSetPktRspErrPl0Data h2 err TAS_ERR_RW_READ
          hm := memcpyWords c.hm pt.rdata rsp (c.wi + 1) (wlrd * 4)
          wi := c.wi + 1 + wl
          iTrans := c.iTrans + 1 }
    else if wlrd ≠ 0 then .ret { c with h := mSetPktRspErrConnectionProtocol c.h }
    else
      let h2 := setPl0Rsp c.h c.iTrans 0 err
      .next { c with
        h := mSetPktRspErrPl0Data h2 err TAS_ERR_RW_READ
        hm := memcpyWords c.hm pt.rdata rsp (c.wi + 1) 0
        wi := c.wi + 1 + wl
        iTrans := c.iTrans + 1 }
  else if wlrd ≠ (0xFF &&& (u32 (pt.num_bytes + 3) / 4)) ∨ wl ≠ wlrd then
    .ret { c with h := mSetPktRspErrConnectionProtocol c.h }
  else
    .next { c with
      h := setPl0Rsp c.h c.iTrans (u16 pt.num_bytes) TAS_PL0_ERR_NO_ERROR
      hm := memcpyWords c.hm pt.rdata rsp (c.wi + 1) (u16 pt.num_bytes)
      wi := c.wi + 1 + wl
      iTrans := c.iTrans + 1 }

/-- One iteration of the `while (wi < wiMax)` loop of `rw_set_rsp`. -/
def rspStep (rsp : List Nat) (c : RspCursor) : RspStep :=
  if c.wi = c.wiPktStartNext then rspStart rsp c
  else
    let cmd := byte1 (rspWord rsp c.wi)
    if cmd = TAS_PL1_CMD_PL0_END then rspEnd rsp c
    else if ctprhcPl0CmdIsWrOrFill cmd then rspWr rsp c
    else if ctprhcPl0CmdIsRd cmd then rspRd rsp c
    else .ret { c with h := mSetPktRspErrConnectionProtocol c.h }

/-- The `while (wi < wiMax)` loop of `rw_set_rsp`.  Every iteration advances
`wi`, so `wiMax` iterations are enough; the result is the value returned and
the final cursor. -/
def rspLoop (rsp : List Nat) (wiMax : Nat) : Nat → RspCursor → Nat × RspCursor
  | 0, c => (c.h.tas_err, c)
  | fuel + 1, c =>
    if c.wi < wiMax then
      match rspStep rsp c with
      | .ret c1 => (c1.h.tas_err, c1)
      | .brk c1 => (c1.h.tas_err, c1)
      | .next c1 => rspLoop rsp wiMax fuel c1
    else (c.h.tas_err, c)

/-- The function `CTasPktHandlerRw::rw_set_rsp`: the value returned, the
handler and the host memory afterwards. -/
def rw_set_rsp (h : CTasPktHandlerRw) (hm : Nat → Nat) (rsp : List Nat) (num_bytes : Nat) :
    Nat × CTasPktHandlerRw × (Nat → Nat) :=
  if num_bytes < 8 ∨ num_bytes % 4 ≠ 0 ∨ num_bytes > h.mRspSize then
    (TAS_ERR_SERVER_CON, mSetPktRspErrConnectionProtocol h, hm)
  else
    let h1 := { h with tas_err := TAS_ERR_NONE }
    let r := rspLoop rsp (num_bytes / 4) (num_bytes / 4) { h := h1, hm := hm, wi := 0, wiPktStartNext := 0, iTrans := 0 }
    (r.1, r.2.h, r.2.hm)

/-! ## Aggregation of the micro-op results -/

/-- The local variables of `rw_get_trans_rsp`: the array `mRwTransRsp`, the
index `t`, `addrEnd`, and whether the loop was left by `break`. -/
structure AggState where
  rsp : List tas_rw_trans_rsp_st
  t : Nat
  addrEnd : Nat
  done : Bool
  deriving DecidableEq, Repr

/-- One iteration (index `p`) of the `for` loop of `rw_get_trans_rsp`. -/
def aggStep (h : CTasPktHandlerRw) (s : AggState) (p : Nat) : AggState :=
  if s.done then s
  else
    let pt := h.mPl0Trans.getD p default
    let pr := h.mPl0TransRsp.getD p default
    let rt := h.mRwTrans.getD s.t default
    let addrEnd := if pt.addr = rt.addr then u64 (rt.addr + rt.num_bytes) else s.addrEnd
    let addrNextPl0 := u64 (pt.addr + pt.num_bytes)
    let cur := s.rsp.getD s.t default
    let rsp1 :=
      if cur.pl_err = TAS_PL0_ERR_NO_ERROR then
        s.rsp.set s.t { num_bytes_ok := u16 (cur.num_bytes_ok + pr.num_bytes_ok), pl_err := pr.pl_err }
      else s.rsp
    if addrNextPl0 ≥ addrEnd then
      if s.t + 1 = h.mRwNumTrans then { rsp := rsp1, t := s.t + 1, addrEnd := addrEnd, done := true }
      else
        { rsp := rsp1.set (s.t + 1) { num_bytes_ok := 0, pl_err := TAS_PL0_ERR_NO_ERROR },
          t := s.t + 1, addrEnd := addrEnd, done := false }
    else { rsp := rsp1, t := s.t, addrEnd := addrEnd, done := false }

/-- The function `CTasPktHandlerRw::rw_get_trans_rsp`: the number of user
transactions returned and the handler, whose `mRwTransRsp` is the array handed out. -/
def rw_get_trans_rsp (h : CTasPktHandlerRw) : Nat × CTasPktHandlerRw :=
  let s0 : AggState :=
    { rsp := h.mRwTransRsp.set 0 { num_bytes_ok := 0, pl_err := TAS_PL0_ERR_NO_ERROR },
      t := 0, addrEnd := 0, done := false }
  let s := (List.range h.mPl0NumTrans).foldl (aggStep h) s0
  (h.mRwNumTrans, { h with mRwTransRsp := s.rsp })

/-! ## Reference decoder of a request (`tas_pkt.h`)

The decoder follows the packet layouts of `tas_pkt.h`: it is the reading of a
request by its receiver, used to state what the planner emits. -/

/-- A read, write or fill micro-op as the receiver of a request sees it. -/
structure Pl0Op where
  cmd : Nat
  addr : Nat
  size : Nat
  addr_map : Nat
  acc_mode : Nat
  base_addr : Nat
  deriving DecidableEq, Repr

/-- Access mode, address map and base address in effect while decoding. -/
structure DecState where
  acc_mode : Nat
  addr_map : Nat
  base_addr : Nat
  deriving DecidableEq, Repr

/-- A word count field in which 0 stands for 256. -/
def wl256 (wl : Nat) : Nat := if wl = 0 then 256 else wl

/-- Decode the PL0 packet with the header word `w`, followed by the words
`rest`: the micro-op it stands for (none for an access mode, address map or base
address packet), the number of words that follow its header and the state it
leaves.  The result is `none` for a word that starts no PL0 packet (the pl0-end). -/
def decHead (w : Nat) (rest : List Nat) (st : DecState) : Option (List Pl0Op × Nat × DecState) :=
  let wl := byte0 w
  let cmd := byte1 w
  let p := hi16 w
  if cmd = TAS_PL0_CMD_ACCESS_MODE then some ([], wl, { st with acc_mode := p })
  else if cmd = TAS_PL0_CMD_ADDR_MAP then some ([], wl, { st with addr_map := byte2 w })
  else if cmd = TAS_PL0_CMD_BASE_ADDR32 then some ([], wl, { st with base_addr := p * 2 ^ 16 })
  else if cmd = TAS_PL0_CMD_BASE_ADDR64 then
    some ([], wl, { st with base_addr := p * 2 ^ 16 + rest.getD 0 0 * 2 ^ 32 })
  else if cmd = TAS_PL0_CMD_RD8 ∨ cmd = TAS_PL0_CMD_WR8 then
    some ([⟨cmd, st.base_addr + p, 1, st.addr_map, st.acc_mode, st.base_addr⟩], wl, st)
  else if cmd = TAS_PL0_CMD_RD16 ∨ cmd = TAS_PL0_CMD_WR16 then
    some ([⟨cmd, st.base_addr + p, 2, st.addr_map, st.acc_mode, st.base_addr⟩], wl, st)
  else if cmd = TAS_PL0_CMD_RD32 ∨ cmd = TAS_PL0_CMD_WR32 then
    some ([⟨cmd, st.base_addr + p, 4, st.addr_map, st.acc_mode, st.base_addr⟩], wl, st)
  else if cmd = TAS_PL0_CMD_RD64 ∨ cmd = TAS_PL0_CMD_WR64 then
    some ([⟨cmd, st.base_addr + p, 8, st.addr_map, st.acc_mode, st.base_addr⟩], wl, st)
  else if cmd = TAS_PL0_CMD_WRBLK then
    some ([⟨cmd, st.base_addr + p, wl256 wl * 4, st.addr_map, st.acc_mode, st.base_addr⟩], wl256 wl, st)
  else if cmd = TAS_PL0_CMD_FILL ∨ cmd = TAS_PL0_CMD_RDBLK then
    some ([⟨cmd, st.base_addr + p, wl256 (byte0 (rest.getD 0 0)) * 4, st.addr_map, st.acc_mode,
            st.base_addr⟩], wl, st)
  else none

/-- Decode the PL0 packets in `ws` up to the pl0-end.  Every packet takes at
least one word, so a fuel of the length of `ws` is enough. -/
def decodePl0 : Nat → List Nat → DecState → List Pl0Op
  | 0, _, _ => []
  | _ + 1, [], _ => []
  | fuel + 1, w :: rest, st =>
    match decHead w rest st with
    | none => []
    | some (out, n, st1) => out ++ decodePl0 fuel (rest.drop n) st1

/-- Cut a request of `num_pl2_pkt` PL2 packets into its packets, following the length words. -/
def splitPl2 : Nat → List Nat → List (List Nat)
  | 0, _ => []
  | _, [] => []
  | n + 1, len :: rest => (len :: rest.take (len / 4 - 1)) :: splitPl2 n (rest.drop (len / 4 - 1))

/-- The micro-ops of one PL2 packet: the words after the length word and the
two words of the pl0-start, decoded from `acc_mode = 0`, `addr_map = 0`, `base_addr = 0`. -/
def pktOps (pkt : List Nat) : List Pl0Op :=
  decodePl0 pkt.length (pkt.drop 3) { acc_mode := 0, addr_map := 0, base_addr := 0 }

/-- The length word of a PL2 packet. -/
def pktLength (pkt : List Nat) : Nat := pkt.getD 0 0
/-- The field `pl1_cnt` of the pl0-start of a PL2 packet. -/
def pktPl1Cnt (pkt : List Nat) : Nat := (pkt.getD 2 0) % 2 ^ 16
/-- The field `pl0_addr_map_mask` of the pl0-start of a PL2 packet. -/
def pktAddrMapMask (pkt : List Nat) : Nat := hi16 (pkt.getD 2 0)

/-- The PL2 packets of the request handed out by `rw_get_rq`. -/
def rqPackets (o : RqOut) : List (List Nat) := splitPl2 o.num_pl2_pkt o.rq

/-- What the planner recorded for a micro-op, in the shape of a decoded one:
the command is the one `mPktAdd_Rd`, `mPktAdd_Wr` or `mPktAdd_Fill` chooses for
this size, the base address is the address with its low 16 bits cleared. -/
def plannedOp (t : tas_rw_trans_st) : Pl0Op :=
  let cmd :=
    if t.type = TAS_RW_TT_FILL then TAS_PL0_CMD_FILL
    else if t.type = TAS_RW_TT_RD then
      (if t.num_bytes = 1 then TAS_PL0_CMD_RD8 else if t.num_bytes = 2 then TAS_PL0_CMD_RD16
       else if t.num_bytes = 4 then TAS_PL0_CMD_RD32 else if t.num_bytes = 8 then TAS_PL0_CMD_RD64
       else TAS_PL0_CMD_RDBLK)
    else
      (if t.num_bytes = 1 then TAS_PL0_CMD_WR8 else if t.num_bytes = 2 then TAS_PL0_CMD_WR16
       else if t.num_bytes = 4 then TAS_PL0_CMD_WR32 else if t.num_bytes = 8 then TAS_PL0_CMD_WR64
       else TAS_PL0_CMD_WRBLK)
  ⟨cmd, t.addr, t.num_bytes, t.addr_map, t.acc_mode, t.addr &&& 0xFFFFFFFFFFFF0000⟩

/-- Plan a list of transactions and hand out the request: `rw_set_trans`
followed, when it succeeded, by `rw_get_rq`. -/
def planRq (fuel : Nat) (h : CTasPktHandlerRw) (trans : List tas_rw_trans_st) :
    Option (CTasPktHandlerRw × RqOut) :=
  match rw_set_trans fuel h trans with
  | some (true, h1) => some (rw_get_rq h1)
  | _ => none

/-! ## Notions used to state and prove the properties -/

/-- The members that no function of the planner writes: the limits set by the
constructor, the connection info, the reset count and the error code. -/
def Static (h : CTasPktHandlerRw) : Nat × Nat × Nat × tas_con_info_st × Nat × Nat × Nat :=
  (h.mMaxRqSize, h.mMaxRspSize, h.mRqWiMax, h.mConInfo, h.mDeviceResetCount, h.mNumTransMax, h.tas_err)

/-- The members written by `rw_start` only: the two block size caps, with `Static`. -/
def Caps (h : CTasPktHandlerRw) :=
  (h.mMaxWrDataBlkSizeInPktRq, h.mMaxRdDataBlkSizeInPktRsp, h.mGetPktRqWasCalled,
    h.mPl1CntOutstandingOldest, Static h)

/-- The recorded micro-ops and user transactions with their responses. -/
def Recs (h : CTasPktHandlerRw) :=
  (h.mPl0Trans, h.mPl0TransRsp, h.mRwTrans, h.mRwTransRsp)

/-- The micro-op of `k` bytes at offset `off` of the user transaction `t`:
the call of `mPktAdd_Rd`, `mPktAdd_Wr` or `mPktAdd_Fill` that `rw_add_rd`,
`rw_add_wr` or `rw_add_fill` makes when its cursor is `off` bytes into `t`
(a fill is only added for an address map below 12, which `aliasMap` leaves as it is). -/
def addOp (t : tas_rw_trans_st) (h : CTasPktHandlerRw) (off k : Nat) : CTasPktHandlerRw :=
  if t.type = TAS_RW_TT_RD then
    mPktAdd_Rd h (u64 (t.addr + off)) k (t.rdata + off) t.acc_mode (aliasMap t.addr_map)
  else if t.type = TAS_RW_TT_WR then
    mPktAdd_Wr h (u64 (t.addr + off)) k (t.wdata.drop off) t.acc_mode (aliasMap t.addr_map)
  else
    mPktAdd_Fill h (u64 (t.addr + off)) k (fillValue t.wdata) t.acc_mode (aliasMap t.addr_map)

/-- Replay of the calls made while a user transaction is added: `some k` is a
micro-op of `k` bytes at the current offset, `none` a call of `mPktFinalize`. -/
def runTrace (t : tas_rw_trans_st) : CTasPktHandlerRw → Nat → List (Option Nat) → CTasPktHandlerRw
  | h, _, [] => h
  | h, off, none :: r => runTrace t (mPktFinalize h true) off r
  | h, off, some k :: r => runTrace t (addOp t h off k) (off + k) r

/-- The sizes of the micro-ops of a trace. -/
def traceSizes (tr : List (Option Nat)) : List Nat := tr.filterMap id

/-- The size and alignment of a micro-op that `tphrCheckNumBytes` and the
assertions of `mPktAdd_Rd`, `mPktAdd_Wr` and `mPktAdd_Fill` ask for: 1, 2, 4 or
8 bytes naturally aligned, or a multiple of 8 up to 1024 bytes at an 8 byte
aligned address. -/
def ValidOp (a k : Nat) : Prop :=
  ((k = 1 ∨ k = 2 ∨ k = 4 ∨ k = 8) ∧ a % k = 0) ∨ (8 < k ∧ k ≤ 1024 ∧ k % 8 = 0 ∧ a % 8 = 0)

instance (a k : Nat) : Decidable (ValidOp a k) := by unfold ValidOp; infer_instance

/-- Every micro-op of the trace, starting `off` bytes after `addr`, is a `ValidOp`. -/
def TraceOK (addr : Nat) : Nat → List (Option Nat) → Prop
  | _, [] => True
  | off, none :: r => TraceOK addr off r
  | off, some k :: r => ValidOp (addr + off) k ∧ TraceOK addr (off + k) r

/-- The micro-op that `addOp t h off k` records (for `k` not 0). -/
def opOf (t : tas_rw_trans_st) (off k : Nat) : tas_rw_trans_st :=
  if t.type = TAS_RW_TT_RD then
    { addr := u64 (t.addr + off), num_bytes := k, acc_mode := t.acc_mode, addr_map := aliasMap t.addr_map,
      type := TAS_RW_TT_RD, wdata := [], rdata := t.rdata + off }
  else if t.type = TAS_RW_TT_WR then
    { addr := u64 (t.addr + off), num_bytes := k, acc_mode := t.acc_mode, addr_map := aliasMap t.addr_map,
      type := TAS_RW_TT_WR, wdata := t.wdata.drop off, rdata := 0 }
  else
    { addr := u64 (t.addr + off), num_bytes := k, acc_mode := t.acc_mode, addr_map := aliasMap t.addr_map,
      type := TAS_RW_TT_FILL, wdata := bytesOfU64 (fillValue t.wdata), rdata := 0 }

/-- The micro-ops of sizes `ks` laid end to end from offset `off` of `t`. -/
def opsOf (t : tas_rw_trans_st) : Nat → List Nat → List tas_rw_trans_st
  | _, [] => []
  | off, k :: ks => opOf t off k :: opsOf t (off + k) ks

/-- The values a `tas_rw_trans_st` can hold: `addr` is 64 bit, `num_bytes` 32
bit, `acc_mode` 16 bit, `addr_map` 8 bit. -/
def WellTyped (t : tas_rw_trans_st) : Prop :=
  t.addr < 2 ^ 64 ∧ t.num_bytes < 2 ^ 32 ∧ t.acc_mode < 2 ^ 16 ∧ t.addr_map < 2 ^ 8

instance (t : tas_rw_trans_st) : Decidable (WellTyped t) := by unfold WellTyped; infer_instance

/-- The shape of the sizes of the micro-ops of a read or write: at most three
micro-ops of less than 8 bytes, then micro-ops of at least 8 bytes, then at
most three micro-ops of less than 8 bytes. -/
def Shape (sizes : List Nat) : Prop :=
  ∃ pre core post, sizes = pre ++ core ++ post ∧ pre.length ≤ 3 ∧ post.length ≤ 3
    ∧ (∀ k ∈ pre, k < 8) ∧ (∀ k ∈ post, k < 8) ∧ (∀ k ∈ core, 8 ≤ k)

/-- The record that `rw_add_rd`, `rw_add_wr` or `rw_add_fill` makes of the user
transaction `t` once its micro-ops are added. -/
def recordUser (h : CTasPktHandlerRw) (t : tas_rw_trans_st) : CTasPktHandlerRw :=
  recordRw h t.addr t.num_bytes t.type (if t.type = TAS_RW_TT_WR then t.wdata else [])
    (if t.type = TAS_RW_TT_RD then t.rdata else 0)

/-- The parameter checks a transaction has passed when `rw_add_rd`, `rw_add_wr`
or `rw_add_fill` returned true (the check of the limits apart). -/
def Accepted (t : tas_rw_trans_st) : Prop :=
  t.num_bytes ≠ 0 ∧ aliasMap t.addr_map ≤ TAS_AM15 ∧
    (t.type = TAS_RW_TT_RD ∨ t.type = TAS_RW_TT_WR ∨
      (t.type = TAS_RW_TT_FILL ∧ t.addr % 8 = 0 ∧ t.num_bytes % 8 = 0 ∧ t.acc_mode = 0
        ∧ t.addr_map < TAS_AM12))

instance (t : tas_rw_trans_st) : Decidable (Accepted t) := by unfold Accepted; infer_instance

/-- The block size caps set by `rw_start` are at most `TAS_PL0_DATA_BLK_SIZE`. -/
def CapsOK (h : CTasPktHandlerRw) : Prop :=
  h.mMaxWrDataBlkSizeInPktRq ≤ 1024 ∧ h.mMaxRdDataBlkSizeInPktRsp ≤ 1024

instance (h : CTasPktHandlerRw) : Decidable (CapsOK h) := by unfold CapsOK; infer_instance

/-- The states of the handler while a request is planned: the state left by
`rw_start`, and every state reached from there by a transaction that
`rw_add_rd`, `rw_add_wr` or `rw_add_fill` accepted. -/
inductive Planning : CTasPktHandlerRw → Prop
  | start (h0 : CTasPktHandlerRw) : Planning (rw_start h0)
  | add {fuel : Nat} {h h' : CTasPktHandlerRw} {t : tas_rw_trans_st} :
      Planning h → WellTyped t → rw_add_trans fuel h t = some (true, h') → Planning h'

/-- The micro-ops `ops` lie end to end in increasing address order from `a` to `b`. -/
def Contig : Nat → List tas_rw_trans_st → Nat → Prop
  | a, [], b => a = b
  | a, o :: r, b => o.addr = a ∧ 0 < o.num_bytes ∧ Contig (a + o.num_bytes) r b

instance decContig : (a : Nat) → (ops : List tas_rw_trans_st) → (b : Nat) → Decidable (Contig a ops b)
  | a, [], b => inferInstanceAs (Decidable (a = b))
  | a, o :: r, b =>
    have := decContig (a + o.num_bytes) r b
    inferInstanceAs (Decidable (o.addr = a ∧ 0 < o.num_bytes ∧ Contig (a + o.num_bytes) r b))

/-- A read transaction as `rw_add_rd` receives it. -/
def rdTrans (addr num_bytes data acc_mode addr_map : Nat) : tas_rw_trans_st :=
  { addr := addr, num_bytes := num_bytes, acc_mode := acc_mode, addr_map := addr_map,
    type := TAS_RW_TT_RD, wdata := [], rdata := data }

/-- A write transaction as `rw_add_wr` receives it. -/
def wrTrans (addr num_bytes : Nat) (data : List Nat) (acc_mode addr_map : Nat) : tas_rw_trans_st :=
  { addr := addr, num_bytes := num_bytes, acc_mode := acc_mode, addr_map := addr_map,
    type := TAS_RW_TT_WR, wdata := data, rdata := 0 }

/-- A fill transaction; `value` are the eight bytes `wdata` points to. -/
def fillTrans (addr num_bytes : Nat) (value : List Nat) (acc_mode addr_map : Nat) : tas_rw_trans_st :=
  { addr := addr, num_bytes := num_bytes, acc_mode := acc_mode, addr_map := addr_map,
    type := TAS_RW_TT_FILL, wdata := value, rdata := 0 }

/-- A connection info with the smallest PL2 packet sizes an agent must support
and the largest number of micro-ops the `uint8_t` field can hold. -/
def minConInfo : tas_con_info_st :=
  { max_pl2rq_pkt_size := TAS_PL2_MAX_PKT_SIZE_MIN, max_pl2rsp_pkt_size := TAS_PL2_MAX_PKT_SIZE_MIN,
    pl0_max_num_rw := 255 }

/-- The connection info of the default limits: the largest PL2 packets that fit
the default buffers (`PKT_BUF_SIZE_DEFAULT - BUF_ALLOWANCE` bytes), 255 micro-ops. -/
def defaultConInfo : tas_con_info_st :=
  { max_pl2rq_pkt_size := 0xFFC0, max_pl2rsp_pkt_size := 0xFFC0, pl0_max_num_rw := 255 }

/-- The connection info of the largest PL2 packets that fit the default buffers
with at most `n` micro-ops in a PL2 packet. -/
def conInfoMaxRw (n : Nat) : tas_con_info_st :=
  { max_pl2rq_pkt_size := 0xFFC0, max_pl2rsp_pkt_size := 0xFFC0, pl0_max_num_rw := n }

/-- What a micro-op or user transaction shows to the caller: type, address, size. -/
def opView (t : tas_rw_trans_st) : Nat × Nat × Nat := (t.type, t.addr, t.num_bytes)

/-- The cursor of `rw_add_rd` stands `off` bytes into the transaction `t`, and
the handler is the one reached from `h0` by the trace `tr`. -/
structure RdProg (t : tas_rw_trans_st) (h0 : CTasPktHandlerRw) (c : RdCursor)
    (tr : List (Option Nat)) (off : Nat) : Prop where
  run : c.h = runTrace t h0 0 tr
  a : c.a = u64 (t.addr + off)
  d : c.d = t.rdata + off
  nb : c.nb = t.num_bytes - off
  le : off ≤ t.num_bytes
  ok : TraceOK t.addr 0 tr
  sum : (traceSizes tr).sum = off
  pos : ∀ k ∈ traceSizes tr, k ≠ 0

/-- The cursor of `rw_add_wr` stands `off` bytes into the transaction `t`, and
the handler is the one reached from `h0` by the trace `tr`. -/
structure WrProg (t : tas_rw_trans_st) (h0 : CTasPktHandlerRw) (c : WrCursor)
    (tr : List (Option Nat)) (off : Nat) : Prop where
  run : c.h = runTrace t h0 0 tr
  a : c.a = u64 (t.addr + off)
  d : c.d = t.wdata.drop off
  nb : c.nb = t.num_bytes - off
  le : off ≤ t.num_bytes
  ok : TraceOK t.addr 0 tr
  sum : (traceSizes tr).sum = off
  pos : ∀ k ∈ traceSizes tr, k ≠ 0

/-- What holds of the cursor after the unaligned start: the address is as
aligned as the bytes left ask for. -/
def HeadPost (a nb : Nat) : Prop :=
  (1 ≤ nb → a % 2 = 0) ∧ (2 ≤ nb → a % 4 = 0) ∧ (4 ≤ nb → a % 8 = 0)

/-! ## Reading off results -/

/-- The call returned false. -/
def returnsFalse (r : Option (Bool × CTasPktHandlerRw)) : Bool :=
  match r with
  | some (false, _) => true
  | _ => false

/-- The call returned true. -/
def returnsTrue (r : Option (Bool × CTasPktHandlerRw)) : Bool :=
  match r with
  | some (true, _) => true
  | _ => false

/-- The handler after a call (the default handler if the call does not return). -/
def stateOf (r : Option (Bool × CTasPktHandlerRw)) : CTasPktHandlerRw :=
  match r with
  | some (_, h) => h
  | none => default

/-- The request handed out when a list was planned (an empty one otherwise). -/
def rqOf (r : Option (CTasPktHandlerRw × RqOut)) : RqOut :=
  match r with
  | some (_, o) => o
  | none => { rq := [], rq_num_bytes := 0, rsp_num_bytes_max := 0, num_pl2_pkt := 0 }

/-- The handler after a list was planned and its request handed out (the
default handler otherwise). -/
def handlerOf (r : Option (CTasPktHandlerRw × RqOut)) : CTasPktHandlerRw :=
  match r with
  | some (h, _) => h
  | none => default

/-- The length words of the PL2 packets of a planned request. -/
def pktLengths (r : Option (CTasPktHandlerRw × RqOut)) : List Nat :=
  match r with
  | some (_, o) => (rqPackets o).map pktLength
  | none => []

/-- The numbers of read, write and fill micro-ops in the PL2 packets of a planned request. -/
def pktOpCounts (r : Option (CTasPktHandlerRw × RqOut)) : List Nat :=
  match r with
  | some (_, o) => (rqPackets o).map (fun pkt => (pktOps pkt).length)
  | none => []

/-- Hand the response `rsp` to `rw_set_rsp` after a request was planned, then
call `rw_get_trans_rsp`: the value `rw_set_rsp` returns and the responses of
the user transactions. -/
def runRsp (r : Option (CTasPktHandlerRw × RqOut)) (rsp : List Nat) : Nat × List tas_rw_trans_rsp_st :=
  match r with
  | some (h, _) =>
    let s := rw_set_rsp h (fun _ => 0) rsp (4 * rsp.length)
    (s.1, (rw_get_trans_rsp s.2.1).2.mRwTransRsp)
  | none => (0, [])

/-- The responses of the user transactions that `rw_get_trans_rsp` hands out
when the micro-ops of a planned request have the results `rs`. -/
def aggregate (r : Option (CTasPktHandlerRw × RqOut)) (rs : List tas_rw_trans_rsp_st) :
    List tas_rw_trans_rsp_st :=
  match r with
  | some (h, _) => (rw_get_trans_rsp { h with mPl0TransRsp := rs }).2.mRwTransRsp
  | none => []

/-- The micro-ops of a planned request, as type, address and size. -/
def plannedOps (r : Option (CTasPktHandlerRw × RqOut)) : List (Nat × Nat × Nat) :=
  match r with
  | some (h, _) => h.mPl0Trans.map opView
  | none => []

/-! ## The request as its receiver reads it -/

/-- The state in which the decoding of a PL2 packet starts. -/
def decStart : DecState := { acc_mode := 0, addr_map := 0, base_addr := 0 }

/-- Decode the PL0 packets in `ws` with the fuel their number of words gives. -/
def dec (ws : List Nat) (st : DecState) : List Pl0Op := decodePl0 ws.length ws st

/-- The access mode, address map and base address the planner holds. -/
def decOf (h : CTasPktHandlerRw) : DecState :=
  { acc_mode := h.mPl0AccMode, addr_map := h.mPl0AddrMap, base_addr := h.mPl0BaseAddr }

/-- The OR of the bits `1 << addr_map` of the address maps of `ops`. -/
def maskOf (ops : List Pl0Op) : Nat := ops.foldl (fun m op => m ||| (1 <<< op.addr_map)) 0

/-- The address map rule of a PL2 packet: its micro-ops use address maps
below 12 only, or all of them use the same address map out of 12 to 15. -/
def MapRule (ops : List Pl0Op) : Prop :=
  (∀ op ∈ ops, op.addr_map < TAS_AM12) ∨
    (∃ a, TAS_AM12 ≤ a ∧ a ≤ TAS_AM15 ∧ ∀ op ∈ ops, op.addr_map = a)

/-- The address map rule in terms of the mask of a PL2 packet. -/
def MaskRule (m : Nat) : Prop :=
  m &&& TAS_AM_MASK_EXCLUSIVE = 0 ∨ m = 0x1000 ∨ m = 0x2000 ∨ m = 0x4000 ∨ m = 0x8000

/-- The words the planner writes for a PL2 packet when it finalizes it: length,
pl0-start, the PL0 packets `body`, pl0-end. -/
def finalPkt (h : CTasPktHandlerRw) (body : List Nat) : List Nat :=
  [u32 (sub32 (h.mRqBufWi + 1) h.mPl2HdrWi * 4), pl0StartWord0,
    u16 (h.mPl1CntOutstandingLast + 1) + u16 h.mPl0AddrMapMask * 2 ^ 16] ++ body ++
  [wordWlCmdU16 0 TAS_PL1_CMD_PL0_END h.mPl0NumTrans]

/-- What holds of a finalized PL2 packet: its length word counts its bytes
modulo `2^32`, its mask is the OR of the address maps of its micro-ops, which
follow the address map rule, it has at most `cap` micro-ops (one if `cap` is 0),
and it is a length word, the two words of the pl0-start, PL0 packets that decode
to its micro-ops, and the word of the pl0-end. -/
structure PktOK (cap : Nat) (p : List Nat) : Prop where
  len : 4 ≤ p.length
  word : p.getD 0 0 = u32 (4 * p.length)
  mask : pktAddrMapMask p = maskOf (pktOps p)
  rule : MapRule (pktOps p)
  count : (pktOps p).length ≤ max 1 cap
  shape : ∃ w2 body n st, p = [u32 (4 * p.length), pl0StartWord0, w2] ++ body
      ++ [wordWlCmdU16 0 TAS_PL1_CMD_PL0_END n]
    ∧ ∀ rest, dec (body ++ rest) decStart = pktOps p ++ dec rest st

/-- The state of the planner between two micro-ops: the request buffer holds
the finalized PL2 packets `pk` and the open one, whose PL0 packets `body` decode
to the micro-ops `ops`, leaving the decoder in the state the planner holds; the
PL1 counts of the finalized packets go up from `mPl1CntOutstandingOldest`. -/
structure PInv (cap : Nat) (h : CTasPktHandlerRw) (pk : List (List Nat)) (body : List Nat)
    (ops : List Pl0Op) : Prop where
  buf : h.mRqBuf = pk.flatten ++ (0 :: 0 :: 0 :: body)
  hdr : h.mPl2HdrWi = pk.flatten.length
  num : h.mNumPl2Pkt = u32 pk.length
  decode : ∀ rest, dec (body ++ rest) decStart = ops ++ dec rest (decOf h)
  planned : h.mPl0Trans.map plannedOp = (pk.map pktOps).flatten ++ ops
  cnt : h.mPl2NumTrans = ops.length
  count : ops.length ≤ max 1 cap
  base : h.mPl0BaseAddr % 65536 = 0
  base64 : h.mPl0BaseAddr < 2 ^ 64
  mask : h.mPl0AddrMapMask = maskOf ops
  maps : ∀ op ∈ ops, op.addr_map ≤ 15
  rule : MaskRule h.mPl0AddrMapMask
  pkts : ∀ p ∈ pk, PktOK cap p
  last : u16 (h.mPl1CntOutstandingLast + 1) = u16 (h.mPl1CntOutstandingOldest + pk.length)
  cnts : ∀ j p, pk.get? j = some p → pktPl1Cnt p = u16 (h.mPl1CntOutstandingOldest + j)

/-- The planner is between two micro-ops, for some finalized packets and open packet. -/
def PI (cap : Nat) (h : CTasPktHandlerRw) : Prop := ∃ pk body ops, PInv cap h pk body ops

/-! ## Responses without error (`tas_pkt.h`)

A response in which every micro-op of the request is answered without error: a
read with as many data words as its bytes take, a write or fill with the number
of words written.  The data words are arbitrary: `data j k` is data word `k` of
the answer to micro-op `j` of the request. -/

/-- The number of 32 bit words that hold `n` bytes. -/
def wordsOf (n : Nat) : Nat := (n + 3) / 4

/-- Byte `i` of the data words `dw` (little endian). -/
def byteOfData (dw : Nat → Nat) (i : Nat) : Nat := (dw (i / 4) >>> (8 * (i % 4))) % 2 ^ 8

/-- A response header word `{wl, cmd, wlrw, err}`. -/
def rspHdr (wl cmd wlrw err : Nat) : Nat := u8 wl + u8 cmd * 2 ^ 8 + u8 wlrw * 2 ^ 16 + u8 err * 2 ^ 24

/-- The response to a micro-op: `tas_pl0rsp_rd_st` followed by the data words
`dw` (`tas_pl0rsp_rdblk1kb_st` for 1024 bytes), or `tas_pl0rsp_wr_st`. -/
def opRsp (dw : Nat → Nat) (op : Pl0Op) : List Nat :=
  if ctprhcPl0CmdIsRd op.cmd then
    rspHdr (wordsOf op.size) (if op.size = TAS_PL0_DATA_BLK_SIZE then TAS_PL0_CMD_RDBLK1KB else op.cmd)
        (wordsOf op.size) TAS_PL0_ERR_NO_ERROR ::
      (List.range (wordsOf op.size)).map dw
  else [rspHdr 0 op.cmd (wordsOf op.size) TAS_PL0_ERR_NO_ERROR]

/-- The responses to the micro-ops `ops`, one after the other; the first of
them is micro-op `j` of the request. -/
def opsRsp (data : Nat → Nat → Nat) : Nat → List Pl0Op → List Nat
  | _, [] => []
  | j, op :: r => opRsp (data j) op ++ opsRsp data (j + 1) r

/-- The PL2 response packet to a PL2 request packet with the micro-ops `ops`,
the first of them micro-op `j` of the request, and the PL1 count `cnt`: length,
`tas_pl1rsp_pl0_start_st`, the responses to the micro-ops, `tas_pl1rsp_pl0_end_st`. -/
def pktRspOf (data : Nat → Nat → Nat) (j : Nat) (ops : List Pl0Op) (cnt : Nat) : List Nat :=
  [4 * (3 + (opsRsp data j ops).length), rspHdr 0 TAS_PL1_CMD_PL0_START 0 TAS_PL_ERR_NO_ERROR] ++
    opsRsp data j ops ++ [wordWlCmdU16 0 TAS_PL1_CMD_PL0_END cnt]

/-- The PL2 response packets to the PL2 request packets `pk`, whose first
micro-op is micro-op `j` of the request. -/
def pktsRsp (data : Nat → Nat → Nat) : Nat → List (List Nat) → List Nat
  | _, [] => []
  | j, p :: r => pktRspOf data j (pktOps p) (pktPl1Cnt p) ++ pktsRsp data (j + (pktOps p).length) r

/-- The response to the request `o` that answers every micro-op without error,
micro-op `j` with the data words `data j`. -/
def serverRsp (data : Nat → Nat → Nat) (o : RqOut) : List Nat :=
  pktsRsp data 0 (rqPackets o)

/-- The host memory after the data bytes `dw` of a read micro-op were copied to
its destination (a write or fill leaves the host memory as it is). -/
def hostCopy (dw : Nat → Nat) (hm : Nat → Nat) (pt : tas_rw_trans_st) : Nat → Nat :=
  fun p =>
    if pt.type = TAS_RW_TT_RD ∧ pt.rdata ≤ p ∧ p < pt.rdata + pt.num_bytes then
      byteOfData dw (p - pt.rdata)
    else hm p

/-- The host memory after the micro-ops `pts`, the first of them micro-op `j`
of the request, were answered in this order. -/
def hostWrite (data : Nat → Nat → Nat) : Nat → (Nat → Nat) → List tas_rw_trans_st → Nat → Nat
  | _, hm, [] => hm
  | j, hm, pt :: r => hostWrite data (j + 1) (hostCopy (data j) hm pt) r

/-- The number of words of the response to a micro-op. -/
def opRspLen (op : Pl0Op) : Nat := if ctprhcPl0CmdIsRd op.cmd then 1 + wordsOf op.size else 1

/-- The number of words of the responses to the micro-ops `ops`. -/
def rspLen (ops : List Pl0Op) : Nat := (ops.map opRspLen).sum

/-- The number of bytes of the PL2 response packets to the PL2 request packets `pk`. -/
def rspBytes (pk : List (List Nat)) : Nat := (pk.map (fun p => 4 * (3 + rspLen (pktOps p)))).sum

/-- The response `rsp` handed to `rw_set_rsp` after a request was planned: the
value returned and the host memory afterwards. -/
def setRsp (r : Option (CTasPktHandlerRw × RqOut)) (hm : Nat → Nat) (rsp : List Nat) : Nat × (Nat → Nat) :=
  ((rw_set_rsp (handlerOf r) hm rsp (4 * rsp.length)).1, (rw_set_rsp (handlerOf r) hm rsp (4 * rsp.length)).2.2)

/-- The destination buffers of two transactions do not overlap (a write or
fill has no destination buffer). -/
def DestDisjoint (t1 t2 : tas_rw_trans_st) : Prop :=
  t1.type ≠ TAS_RW_TT_RD ∨ t2.type ≠ TAS_RW_TT_RD ∨ t1.rdata + t1.num_bytes ≤ t2.rdata
    ∨ t2.rdata + t2.num_bytes ≤ t1.rdata

instance (t1 t2 : tas_rw_trans_st) : Decidable (DestDisjoint t1 t2) := by unfold DestDisjoint; infer_instance

/-! ## The response the planner expects -/

/-- The state of the planner between two micro-ops, as to the response: the
response sizes it has added up are those of the responses to the finalized PL2
packets `pk` and to the micro-ops `ops` of the open one, no PL2 response packet
is longer than `lim`, and the PL1 counts of the packets go up from
`mPl1CntOutstandingOldest`. -/
structure RInv (lim : Nat) (h : CTasPktHandlerRw) (pk : List (List Nat)) (ops : List Pl0Op) : Prop where
  start : h.mPl2RspPktStart = u32 (rspBytes pk)
  size : h.mRspSize = u32 (rspBytes pk + 8 + 4 * rspLen ops)
  fit : 8 + 4 * rspLen ops + 4 ≤ lim
  pkts : ∀ p ∈ pk, 4 * (3 + rspLen (pktOps p)) ≤ lim
  cnt : u16 (h.mPl1CntOutstandingLast + 1) = u16 (h.mPl1CntOutstandingOldest + pk.length)
  cnts : ∀ j p, pk.get? j = some p → pktPl1Cnt p = u16 (h.mPl1CntOutstandingOldest + j)

/-- The planner is between two micro-ops, as to the request and as to the response. -/
def PR (cap lim : Nat) (h : CTasPktHandlerRw) : Prop :=
  ∃ pk body ops, PInv cap h pk body ops ∧ RInv lim h pk ops

/-! ## The micro-ops of a list of transactions -/

/-- The sizes of micro-ops: 1, 2, 4 or 8 bytes, or a multiple of 8 up to 1024 bytes. -/
def SizeOK (k : Nat) : Prop := k = 1 ∨ k = 2 ∨ k = 4 ∨ k = 8 ∨ (8 < k ∧ k ≤ 1024 ∧ k % 8 = 0)

instance (k : Nat) : Decidable (SizeOK k) := by unfold SizeOK; infer_instance

/-- A micro-op as the planner records it: a read, write or fill of a size of micro-ops. -/
def OpOK (pt : tas_rw_trans_st) : Prop :=
  (pt.type = TAS_RW_TT_RD ∨ pt.type = TAS_RW_TT_WR ∨ pt.type = TAS_RW_TT_FILL) ∧ SizeOK pt.num_bytes

/-- The micro-ops `pts` are those of the transactions of a list, one transaction
after the other: the micro-ops of a transaction lie end to end from its first to
its last byte. -/
inductive Planned : List tas_rw_trans_st → List tas_rw_trans_st → Prop
  | nil : Planned [] []
  | cons {t : tas_rw_trans_st} {ts : List tas_rw_trans_st} {ks : List Nat} {pts : List tas_rw_trans_st} :
      Accepted t → ks.sum = t.num_bytes → (∀ k ∈ ks, SizeOK k) → Planned ts pts →
      Planned (t :: ts) (opsOf t 0 ks ++ pts)

/-! ## The parser at work -/

/-- The PL2 response packets to PL2 request packets with the micro-ops `opss`,
the first of them micro-op `j` of the request, whose PL1 counts go up from `cnt`. -/
def rspFrom (data : Nat → Nat → Nat) : Nat → Nat → List (List Pl0Op) → List Nat
  | _, _, [] => []
  | j, cnt, ops :: r => pktRspOf data j ops (u16 cnt) ++ rspFrom data (j + ops.length) (cnt + 1) r

/-- The cursor of `rw_set_rsp` after `done` micro-ops and `j` PL2 packets of the
response were worked off: no error is set, and the host memory holds what the
reads among these micro-ops delivered. -/
structure RspAt (data : Nat → Nat → Nat) (hm0 : Nat → Nat) (h0 : CTasPktHandlerRw) (c : RspCursor)
    (done j : Nat) : Prop where
  iTrans : c.iTrans = done
  trans : c.h.mPl0Trans = h0.mPl0Trans
  lim : c.h.mMaxRspSize = h0.mMaxRspSize
  err : c.h.tas_err = TAS_ERR_NONE
  oldest : c.h.mPl1CntOutstandingOldest = u16 (h0.mPl1CntOutstandingOldest + j)
  hm : c.hm = hostWrite data 0 hm0 (h0.mPl0Trans.take done)

/-- From the cursor `c` on, the loop of `rw_set_rsp` over the response `rsp`
comes to an end, returns `TAS_ERR_NONE` and leaves the host memory `hmF`, given
as many iterations as there are words after the cursor. -/
def RunsTo (rsp : List Nat) (c : RspCursor) (hmF : Nat → Nat) : Prop :=
  ∀ fuel, rsp.length - c.wi ≤ fuel →
    (rspLoop rsp rsp.length fuel c).1 = TAS_ERR_NONE ∧ (rspLoop rsp rsp.length fuel c).2.hm = hmF

/-! ## Session start and ping response (`tas_pkt_handler_base.cpp`, `tas_utils.h`, `tas_utils.cpp`) -/

def TAS_PL_ERR_NOT_SUPPORTED : Nat := 0x12
def TAS_PL_ERR_USAGE : Nat := 0x14
def TAS_PL1_ERR_CMD_FAILED : Nat := 0x20
def TAS_PL1_ERR_SESSION : Nat := 0x38
def TAS_PL1_CMD_SESSION_START : Nat := 0xA1
def TAS_PL1_CMD_PING : Nat := 0xA2
def TAS_PL1_CHL_MAX_MSG_SIZE : Nat := 1024
def TAS_PKT_PROTOC_VER_1 : Nat := 1
def TAS_CLIENT_TYPE_UNKNOWN : Nat := 0
def TAS_CLIENT_TYPE_RW : Nat := 1
def TAS_CLIENT_TYPE_CHL : Nat := 2
def TAS_CLIENT_TYPE_TRC : Nat := 3
def TAS_ERR_GENERAL : Nat := 0x0F00
def TAS_ERR_FN_NOT_SUPPORTED : Nat := 0x0100
def TAS_ERR_FN_USAGE : Nat := 0x0110
def TAS_ERR_FN_PARAM : Nat := 0x0120
def TAS_ERR_CHL_SETUP : Nat := 0x0800

/-- The value of `sizeof(tas_pl1rsp_header_st)`. -/
def SIZEOF_PL1RSP_HEADER : Nat := 4
/-- The value of `sizeof(tas_pl1rsp_ping_d2s_st)`: two header words and the 48 bytes of `tas_con_info_d2s_st`. -/
def SIZEOF_PL1RSP_PING_D2S : Nat := 56
/-- The value of `sizeof(tas_pl1rsp_ping_st)`: two header words and the 124 bytes of `tas_con_info_st`. -/
def SIZEOF_PL1RSP_PING : Nat := 132

/-- The members of `CTasPktHandlerBase` that `set_pkt_rsp_ping` writes: the
connection info and the `tas_err` of the error info `mEip` points to. -/
structure CTasPktHandlerBase where
  mConInfo : tas_con_info_st
  tas_err : Nat
  deriving DecidableEq, Repr, Inhabited

/-- The enumerator `CTasPktHandlerBase::PROTOC_VER`. -/
def CTasPktHandlerBase.PROTOC_VER : Nat := TAS_PKT_PROTOC_VER_1

/-- The low half of a word: a `uint16_t` field at offset 0 of the word. -/
def lo16 (w : Nat) : Nat := w % 2 ^ 16

/-- The four bytes of a word in memory order (little endian). -/
def bytesOfWord (w : Nat) : List Nat := [byte0 w, byte1 w, byte2 w, byte3 w]

/-- The bytes of the `n` words of `rsp` from word `i` on. -/
def bytesOfWords (rsp : List Nat) (i n : Nat) : List Nat :=
  ((List.range n).map (fun k => bytesOfWord (rspWord rsp (i + k)))).flatten

/-- The `tas_con_info_st` stored in the words of `rsp` from word `i` on, field
by field in the order and with the sizes of the struct. -/
def conInfoAt (rsp : List Nat) (i : Nat) : tas_con_info_st :=
  { max_pl2rq_pkt_size := rspWord rsp i
    max_pl2rsp_pkt_size := rspWord rsp (i + 1)
    device_type := rspWord rsp (i + 2)
    device_id := (List.range 4).map (fun k => rspWord rsp (i + 3 + k))
    ipv4_addr := rspWord rsp (i + 7)
    dev_con_feat := lo16 (rspWord rsp (i + 8))
    dev_con_phys := byte2 (rspWord rsp (i + 8))
    pl0_max_num_rw := byte3 (rspWord rsp (i + 8))
    pl0_rw_mode_mask := lo16 (rspWord rsp (i + 9))
    pl0_addr_map_mask := hi16 (rspWord rsp (i + 9))
    msg_length_c2d := lo16 (rspWord rsp (i + 10))
    msg_length_d2c := hi16 (rspWord rsp (i + 10))
    msg_num_c2d := byte0 (rspWord rsp (i + 11))
    msg_num_d2c := byte1 (rspWord rsp (i + 11))
    reserved := hi16 (rspWord rsp (i + 11))
    identifier := bytesOfWords rsp (i + 12) 16
    device_id_hash := rspWord rsp (i + 28)
    device_id_hash_str := bytesOfWords rsp (i + 29) 2 }

/-- The zero initialised connection info: the value of `mConInfo = {}`. -/
def conInfoZero : tas_con_info_st :=
  { max_pl2rq_pkt_size := 0, max_pl2rsp_pkt_size := 0, pl0_max_num_rw := 0 }

/-- The table `crcTable` of `tasutil_crc32`. -/
def crcTable : List Nat :=
  [0x4DBDF21C, 0x500AE278, 0x76D3D2D4, 0x6B64C2B0, 0x3B61B38C, 0x26D6A3E8, 0x000F9344, 0x1DB88320,
   0xA005713C, 0xBDB26158, 0x9B6B51F4, 0x86DC4190, 0xD6D930AC, 0xCB6E20C8, 0xEDB71064, 0xF0000000]

/-- One iteration of the loop of `tasutil_crc32`, for the byte `b`. -/
def crcStep (crc b : Nat) : Nat :=
  let crc1 := (crc >>> 4) ^^^ crcTable.getD ((crc ^^^ (b >>> 0)) &&& 0x0F) 0
  (crc1 >>> 4) ^^^ crcTable.getD ((crc1 ^^^ (b >>> 4)) &&& 0x0F) 0

/-- The function `tasutil_crc32` on the first `n_bytes` bytes of `data8`. -/
def tasutil_crc32 (data8 : List Nat) (n_bytes : Nat) : Nat :=
  (data8.take n_bytes).foldl crcStep 0

/-- The string `asciiMap` of `tasutil_hash32_to_str`:
`ABCDEFGHJKLMNPQRTUVWXYZ012346789` as character codes. -/
def asciiMap : List Nat :=
  [65, 66, 67, 68, 69, 70, 71, 72, 74, 75, 76, 77, 78, 80, 81, 82, 84, 85, 86, 87, 88, 89, 90,
   48, 49, 50, 51, 52, 54, 55, 56, 57]

/-- The function `tasutil_hash32_to_str`: the buffer `hash32_str` after the call.
Bytes 0 to 6 are written, the others are left as they are. -/
def tasutil_hash32_to_str (hash32 : Nat) (hash32_str : List Nat) : List Nat :=
  let c5 := asciiMap.getD (hash32 % 32) 0
  let v4 := hash32 / 32
  let c4 := asciiMap.getD (v4 % 32) 0
  let v3 := v4 / 32
  let c3 := asciiMap.getD (v3 % 32) 0
  let v2 := v3 / 32
  let c2 := asciiMap.getD (v2 % 32) 0
  let v1 := v2 / 32
  let c1 := asciiMap.getD (v1 % 32) 0
  let v0 := v1 / 32
  let c0 := asciiMap.getD (v0 % (32 - 10)) 0
  [c0, c1, c2, c3, c4, c5, 0] ++ hash32_str.drop 7

/-- The bytes written by `snprintf(buf, 6, "NoUid")`: the five characters and the terminating 0. -/
def noUidBytes : List Nat := [78, 111, 85, 105, 100, 0]

/-- The characters of a C string held in a buffer: the bytes before the first 0. -/
def cstr (buf : List Nat) : List Nat := buf.takeWhile (fun b => b != 0)

/-- The function `CTasPktHandlerBase::mSetPktRspErrConnectionProtocol` of the base class. -/
def CTasPktHandlerBase.mSetPktRspErrConnectionProtocol (b : CTasPktHandlerBase) : Nat × CTasPktHandlerBase :=
  (TAS_ERR_SERVER_CON, { b with tas_err := TAS_ERR_SERVER_CON })

/-- The function `CTasPktHandlerBase::mHandlePktError`. -/
def mHandlePktError (b : CTasPktHandlerBase) (pkt_rsp : List Nat) (cmd : Nat) : Nat × CTasPktHandlerBase :=
  let w := rspWord pkt_rsp 1
  if rspWord pkt_rsp 0 = 4 + SIZEOF_PL1RSP_HEADER ∧ byte1 w = cmd then
    if byte3 w = TAS_PL_ERR_USAGE then (TAS_ERR_FN_USAGE, { b with tas_err := TAS_ERR_FN_USAGE })
    else if byte3 w = TAS_PL_ERR_NOT_SUPPORTED then
      (TAS_ERR_FN_NOT_SUPPORTED, { b with tas_err := TAS_ERR_FN_NOT_SUPPORTED })
    else (TAS_ERR_GENERAL, { b with tas_err := TAS_ERR_GENERAL })
  else b.mSetPktRspErrConnectionProtocol

/-- The 16 bytes of the array `device_id` in memory order. -/
def deviceIdBytes (ci : tas_con_info_st) : List Nat := (ci.device_id.map bytesOfWord).flatten

/-- The hash fields `set_pkt_rsp_ping` computes for the connection info `ci`
copied from the packet: `memcmp` of the 16 bytes of `device_id` with zeros, then
`snprintf` of `NoUid`, or `tasutil_crc32` and `tasutil_hash32_to_str`. -/
def withDeviceIdHash (ci : tas_con_info_st) : tas_con_info_st :=
  if (deviceIdBytes ci).all (fun x => x == 0) then
    { ci with device_id_hash := 0, device_id_hash_str := noUidBytes ++ ci.device_id_hash_str.drop 6 }
  else
    let hash := tasutil_crc32 (deviceIdBytes ci) 16
    { ci with device_id_hash := hash, device_id_hash_str := tasutil_hash32_to_str hash ci.device_id_hash_str }

/-- The local variable `pl1PktSize` of `set_pkt_rsp_ping`. -/
def pingPktSize (client_type : Nat) : Nat :=
  if client_type = TAS_CLIENT_TYPE_UNKNOWN then SIZEOF_PL1RSP_PING_D2S else SIZEOF_PL1RSP_PING

/-- The function `CTasPktHandlerBase::set_pkt_rsp_ping`: the value returned and
the handler afterwards. -/
def set_pkt_rsp_ping (b : CTasPktHandlerBase) (cmd client_type : Nat) (pkt_rsp : List Nat) :
    Nat × CTasPktHandlerBase :=
  let b0 := { b with mConInfo := conInfoZero }
  let w := rspWord pkt_rsp 1
  let v := rspWord pkt_rsp 2
  let err := byte3 w
  let pl1PktSize := pingPktSize client_type
  if rspWord pkt_rsp 0 ≠ 4 + pl1PktSize then mHandlePktError b0 pkt_rsp cmd
  else if byte1 w ≠ cmd ∨ byte0 w ≠ pl1PktSize / 4 - 1 then b0.mSetPktRspErrConnectionProtocol
  else if CTasPktHandlerBase.PROTOC_VER < byte0 v ∨ CTasPktHandlerBase.PROTOC_VER > byte1 v then
    b0.mSetPktRspErrConnectionProtocol
  else if ¬ (err = TAS_PL_ERR_NO_ERROR ∨ err = TAS_PL1_ERR_CMD_FAILED ∨ err = TAS_PL1_ERR_SESSION
      ∨ err = TAS_PL_ERR_NOT_SUPPORTED) then b0.mSetPktRspErrConnectionProtocol
  else if err = TAS_PL1_ERR_SESSION then (TAS_ERR_FN_PARAM, { b0 with tas_err := TAS_ERR_FN_PARAM })
  else if err = TAS_PL_ERR_NOT_SUPPORTED then (TAS_ERR_FN_PARAM, { b0 with tas_err := TAS_ERR_FN_PARAM })
  else if err = TAS_PL1_ERR_CMD_FAILED then
    if client_type = TAS_CLIENT_TYPE_CHL then (TAS_ERR_CHL_SETUP, { b0 with tas_err := TAS_ERR_CHL_SETUP })
    else (TAS_ERR_DEVICE_ACCESS, { b0 with tas_err := TAS_ERR_DEVICE_ACCESS })
  else
    let ci := conInfoAt pkt_rsp 3
    let mpsRq := ci.max_pl2rq_pkt_size
    let mpsRsp := ci.max_pl2rsp_pkt_size
    let msgLenC2d := ci.msg_length_c2d
    let msgLenD2c := ci.msg_length_d2c
    if mpsRq % 4 ≠ 0 ∨ mpsRq < TAS_PL2_MAX_PKT_SIZE_MIN ∨ mpsRq > TAS_PL2_MAX_PKT_SIZE then
      b0.mSetPktRspErrConnectionProtocol
    else if mpsRsp % 4 ≠ 0 ∨ mpsRsp < TAS_PL2_MAX_PKT_SIZE_MIN ∨ mpsRsp > TAS_PL2_MAX_PKT_SIZE then
      b0.mSetPktRspErrConnectionProtocol
    else if msgLenC2d % 4 ≠ 0 ∨ msgLenC2d > TAS_PL1_CHL_MAX_MSG_SIZE then b0.mSetPktRspErrConnectionProtocol
    else if msgLenD2c % 4 ≠ 0 ∨ msgLenD2c > TAS_PL1_CHL_MAX_MSG_SIZE then b0.mSetPktRspErrConnectionProtocol
    else (TAS_ERR_NONE, { mConInfo := withDeviceIdHash ci, tas_err := TAS_ERR_NONE })

/-- A response to a session start or ping of a client: outer size, the two
header words with `cmd` and `err` (protocol versions 1 to 1), and a connection
info with PL2 packet sizes of `0xFFC0` bytes, 16 micro-ops and the device id `device_id`. -/
def pingRspOf (cmd err : Nat) (device_id : List Nat) : List Nat :=
  [136, 32 + cmd * 2 ^ 8 + err * 2 ^ 24, 1 + 1 * 2 ^ 8, 0xFFC0, 0xFFC0, 0x1234] ++ device_id ++
    [0x0A000001, 3 + 2 * 2 ^ 16 + 16 * 2 ^ 24, 0xFFFF + 0x8003 * 2 ^ 16, 0, 0] ++
    List.replicate 16 0x41424344 ++ [0xDEAD, 0x61626364, 0x65666768]

/-! ## The read/write client (`tas_client_rw_base.cpp`) -/

/-- The call `mMbIfRw->execute(rq, rsp, num_pl2_pkt, &num_bytes_received)` of the
mailbox interface: the response words and the number of bytes received, or
nothing when the exchange failed. -/
abbrev Mailbox := List Nat → Nat → Option (List Nat × Nat)

/-- State of a `CTasClientRwBase` object: the packet handler (absent before the
session is started), `mEi.tas_err`, the host memory holding the caller buffers,
and the requests handed to the mailbox so far. -/
structure CTasClientRwBase where
  mTphRw : Option CTasPktHandlerRw
  tas_err : Nat
  hm : Nat → Nat
  sent : List (List Nat)

/-- The function `CTasClientRwBase::execute_trans`: the value returned and the
client afterwards; `none` when `rw_set_trans` does not return. -/
def execute_trans (fuel : Nat) (mb : Mailbox) (cl : CTasClientRwBase) (trans : List tas_rw_trans_st) :
    Option (Nat × CTasClientRwBase) :=
  match cl.mTphRw with
  | none => some (TAS_ERR_FN_USAGE, cl)
  | some h =>
    match rw_set_trans fuel h trans with
    | none => none
    | some (false, h1) => some (TAS_ERR_FN_PARAM, { cl with mTphRw := some h1 })
    | some (true, h1) =>
      let g := rw_get_rq h1
      let cl1 := { cl with sent := cl.sent ++ [g.2.rq] }
      match mb g.2.rq g.2.num_pl2_pkt with
      | none =>
        some (TAS_ERR_SERVER_CON,
          { cl1 with mTphRw := some { g.1 with tas_err := TAS_ERR_SERVER_CON }, tas_err := TAS_ERR_SERVER_CON })
      | some (rsp, rspNumBytesReceived) =>
        let r := rw_set_rsp g.1 cl.hm rsp rspNumBytesReceived
        if r.1 ≠ TAS_ERR_NONE then
          some (r.2.1.tas_err, { cl1 with mTphRw := some r.2.1, tas_err := r.2.1.tas_err, hm := r.2.2 })
        else
          some (TAS_ERR_NONE,
            { cl1 with mTphRw := some { r.2.1 with tas_err := TAS_ERR_NONE }, tas_err := TAS_ERR_NONE, hm := r.2.2 })

/-- The function `CTasClientRwBase::mExecuteSingleTrans`: the value returned,
the client afterwards and `*num_bytes_ok`. -/
def mExecuteSingleTrans (fuel : Nat) (mb : Mailbox) (cl : CTasClientRwBase) (trans : tas_rw_trans_st) :
    Option (Nat × CTasClientRwBase × Nat) :=
  match execute_trans fuel mb cl [trans] with
  | none => none
  | some (ret, cl1) =>
    if ret ≠ TAS_ERR_NONE then some (ret, cl1, 0)
    else
      match cl1.mTphRw with
      | none => some (TAS_ERR_NONE, { cl1 with tas_err := TAS_ERR_NONE }, 0)
      | some h =>
        let r := rw_get_trans_rsp h
        some (TAS_ERR_NONE, { cl1 with mTphRw := some { r.2 with tas_err := TAS_ERR_NONE }, tas_err := TAS_ERR_NONE },
          (r.2.mRwTransRsp.getD 0 default).num_bytes_ok)

/-- The function `CTasClientRwBase::fill64`: the value returned and the client afterwards. -/
def fill64 (fuel : Nat) (mb : Mailbox) (cl : CTasClientRwBase) (addr value num_bytes addr_map : Nat) :
    Option (Nat × CTasClientRwBase) :=
  if addr % 8 ≠ 0 then some (TAS_ERR_FN_PARAM, cl)
  else if num_bytes = 0 ∨ num_bytes % 8 ≠ 0 then some (TAS_ERR_FN_PARAM, cl)
  else
    match mExecuteSingleTrans fuel mb cl (fillTrans addr num_bytes (bytesOfU64 value) 0 addr_map) with
    | none => none
    | some (ret, cl1, _) => some (ret, cl1)

/-- The transactions `fill32` builds in its array `trans` (the first `t` entries)
once its parameter checks have passed. -/
def fill32Trans (addr value num_bytes addr_map : Nat) : List tas_rw_trans_st :=
  let lead := if addr % 8 ≠ 0 then [wrTrans addr 4 (bytesOfWord value) 0 addr_map] else []
  let addrTr1 := if addr % 8 ≠ 0 then u64 (addr + 4) else addr
  let numBytesTr1 := if addr % 8 ≠ 0 then sub32 num_bytes 4 else num_bytes
  let numBytesTr64 := u32 (numBytesTr1 / 8 * 8)
  let value64 := u64 (value <<< 32) ||| value
  let mid := if numBytesTr1 ≥ 8 then [fillTrans addrTr1 numBytesTr64 (bytesOfU64 value64) 0 addr_map] else []
  let addrTr2 := if numBytesTr1 ≥ 8 then u64 (addrTr1 + numBytesTr64) else addrTr1
  let numBytesTr2 := if numBytesTr1 ≥ 8 then sub32 numBytesTr1 numBytesTr64 else numBytesTr1
  let tail := if numBytesTr2 > 0 then [wrTrans addrTr2 4 (bytesOfWord value) 0 addr_map] else []
  lead ++ mid ++ tail

/-- The function `CTasClientRwBase::fill32`: the value returned and the client afterwards. -/
def fill32 (fuel : Nat) (mb : Mailbox) (cl : CTasClientRwBase) (addr value num_bytes addr_map : Nat) :
    Option (Nat × CTasClientRwBase) :=
  if addr % 4 ≠ 0 then some (TAS_ERR_FN_PARAM, cl)
  else if num_bytes = 0 ∨ num_bytes % 4 ≠ 0 then some (TAS_ERR_FN_PARAM, cl)
  else execute_trans fuel mb cl (fill32Trans addr value num_bytes addr_map)

/-- A client whose session is started, with the packet handler `h`, and which
has handed no request to the mailbox yet. -/
def clientOf (h : CTasPktHandlerRw) : CTasClientRwBase :=
  { mTphRw := some h, tas_err := TAS_ERR_NONE, hm := fun _ => 0, sent := [] }

/-- A client whose session is not started. -/
def clientNoSession : CTasClientRwBase :=
  { mTphRw := none, tas_err := TAS_ERR_NONE, hm := fun _ => 0, sent := [] }

/-- A mailbox that answers every request with an empty response. -/
def mbEmpty : Mailbox := fun _ _ => some ([], 0)

/-- The value a call of the client returned (0xFFFF when it did not return). -/
def retOf (r : Option (Nat × CTasClientRwBase)) : Nat :=
  match r with
  | some (ret, _) => ret
  | none => 0xFFFF

/-- The requests handed to the mailbox up to the end of a call of the client. -/
def sentOf (r : Option (Nat × CTasClientRwBase)) : List (List Nat) :=
  match r with
  | some (_, cl) => cl.sent
  | none => []

/-- The checks a response has passed when `set_pkt_rsp_ping` returns `TAS_ERR_NONE`;
`n` is the size of the PL1 packet expected. -/
def PingOK (n cmd : Nat) (pkt_rsp : List Nat) : Prop :=
  rspWord pkt_rsp 0 = 4 + n ∧ byte1 (rspWord pkt_rsp 1) = cmd ∧ byte0 (rspWord pkt_rsp 1) = n / 4 - 1
    ∧ byte0 (rspWord pkt_rsp 2) ≤ 1 ∧ 1 ≤ byte1 (rspWord pkt_rsp 2)
    ∧ byte3 (rspWord pkt_rsp 1) = TAS_PL_ERR_NO_ERROR
    ∧ (conInfoAt pkt_rsp 3).max_pl2rq_pkt_size % 4 = 0
    ∧ 128 ≤ (conInfoAt pkt_rsp 3).max_pl2rq_pkt_size ∧ (conInfoAt pkt_rsp 3).max_pl2rq_pkt_size ≤ 65544
    ∧ (conInfoAt pkt_rsp 3).max_pl2rsp_pkt_size % 4 = 0
    ∧ 128 ≤ (conInfoAt pkt_rsp 3).max_pl2rsp_pkt_size ∧ (conInfoAt pkt_rsp 3).max_pl2rsp_pkt_size ≤ 65544
    ∧ (conInfoAt pkt_rsp 3).msg_length_c2d % 4 = 0 ∧ (conInfoAt pkt_rsp 3).msg_length_c2d ≤ 1024
    ∧ (conInfoAt pkt_rsp 3).msg_length_d2c % 4 = 0 ∧ (conInfoAt pkt_rsp 3).msg_length_d2c ≤ 1024

/-! ## Notions used for single micro-ops -/

/-- The open PL2 packet holds nothing but its three header words, and its
response so far is the length word and the pl0-start. -/
def FreshPkt (h : CTasPktHandlerRw) : Prop :=
  sub32 h.mRqBufWi h.mPl2HdrWi = 3 ∧ sub32 h.mRspSize h.mPl2RspPktStart = 8

/-- The three header words of the open PL2 packet lie within the words written. -/
def LenInv (h : CTasPktHandlerRw) : Prop := h.mPl2HdrWi + 3 ≤ h.mRqBuf.length

/-- The block size caps are those `rw_start` computes from the connection info. -/
def CapsSet (h : CTasPktHandlerRw) : Prop :=
  h.mMaxWrDataBlkSizeInPktRq =
      (if sub32 h.mConInfo.max_pl2rq_pkt_size 24 > TAS_PL0_DATA_BLK_SIZE then TAS_PL0_DATA_BLK_SIZE
       else sub32 h.mConInfo.max_pl2rq_pkt_size 24)
    ∧ h.mMaxRdDataBlkSizeInPktRsp =
      (if sub32 h.mConInfo.max_pl2rsp_pkt_size 24 > TAS_PL0_DATA_BLK_SIZE then TAS_PL0_DATA_BLK_SIZE
       else sub32 h.mConInfo.max_pl2rsp_pkt_size 24)

/-- The limits leave room for a block of `n` bytes: the negotiated PL2 packet
sizes and the sizes of the buffers of the handler are at least `n + 32`. -/
def Room (n : Nat) (h : CTasPktHandlerRw) : Prop :=
  n + 32 ≤ h.mConInfo.max_pl2rq_pkt_size ∧ h.mConInfo.max_pl2rq_pkt_size < 2 ^ 32
    ∧ n + 32 ≤ h.mConInfo.max_pl2rsp_pkt_size ∧ h.mConInfo.max_pl2rsp_pkt_size < 2 ^ 32
    ∧ n + 32 ≤ 4 * h.mRqWiMax ∧ 4 * h.mRqWiMax < 2 ^ 32 ∧ n + 32 ≤ h.mMaxRspSize

/-- The limits of a handler with the default buffer sizes whose PL2 packet sizes
are those of the buffers, as `mInit` sets them for `PKT_BUF_SIZE_DEFAULT`. -/
def DefaultLimits (h : CTasPktHandlerRw) : Prop :=
  h.mRqWiMax = 0x3FF0 ∧ h.mMaxRspSize = 0xFFC0 ∧ h.mConInfo.max_pl2rq_pkt_size = 0xFFC0
    ∧ h.mConInfo.max_pl2rsp_pkt_size = 0xFFC0

instance (h : CTasPktHandlerRw) : Decidable (DefaultLimits h) := by unfold DefaultLimits; infer_instance

/-- The handler built by the constructor taking the sizes, called with the
default limits `PKT_BUF_SIZE_DEFAULT` and `MAX_NUM_RW_DEFAULT`. -/
def defaultHandler : CTasPktHandlerRw := mInit PKT_BUF_SIZE_DEFAULT PKT_BUF_SIZE_DEFAULT MAX_NUM_RW_DEFAULT

/-! ## The iterations of the response parser -/

/-- The cursor with which the loop of `rw_set_rsp` starts. -/
def rspCursor0 (h : CTasPktHandlerRw) (hm : Nat → Nat) : RspCursor :=
  { h := { h with tas_err := TAS_ERR_NONE }, hm := hm, wi := 0, wiPktStartNext := 0, iTrans := 0 }

/-- The cursors at the head of the iterations of the loop of `rw_set_rsp`, in
the order of the iterations: the loop goes on after an iteration that ends with
`continue` (or at the end of the loop body). -/
def rspRun (rsp : List Nat) (wiMax : Nat) : Nat → RspCursor → List RspCursor
  | 0, _ => []
  | fuel + 1, c =>
    if c.wi < wiMax then
      c :: (match rspStep rsp c with
            | .next c1 => rspRun rsp wiMax fuel c1
            | _ => [])
    else []

/-- The iterations of the loop in the call `rw_set_rsp(rsp, num_bytes)`. -/
def rspIters (h : CTasPktHandlerRw) (hm : Nat → Nat) (rsp : List Nat) (num_bytes : Nat) : List RspCursor :=
  if num_bytes < 8 ∨ num_bytes % 4 ≠ 0 ∨ num_bytes > h.mRspSize then []
  else rspRun rsp (num_bytes / 4) (num_bytes / 4) (rspCursor0 h hm)

/-- The iteration at `c` takes the branch of the pl0-start. -/
def atPl0Start (c : RspCursor) : Bool := decide (c.wi = c.wiPktStartNext)

/-- The iteration at `c` takes the branch of the pl0-end. -/
def atPl0End (rsp : List Nat) (c : RspCursor) : Bool :=
  !atPl0Start c && decide (byte1 (rspWord rsp c.wi) = TAS_PL1_CMD_PL0_END)

/-- The iterations of `rw_set_rsp` that read a pl0-end, in the order of the response. -/
def pl0Ends (h : CTasPktHandlerRw) (hm : Nat → Nat) (rsp : List Nat) (num_bytes : Nat) : List RspCursor :=
  (rspIters h hm rsp num_bytes).filter (atPl0End rsp)

/-- The loop goes on after this iteration. -/
def RspStep.isNext : RspStep → Bool
  | .next _ => true
  | _ => false

/-- The iteration at `c` reads a pl0-start with the code `TAS_PL_ERR_NO_ERROR` and the loop goes on. -/
def startAccepted (rsp : List Nat) (c : RspCursor) : Bool :=
  atPl0Start c && decide (byte3 (rspWord rsp (c.wi + 1)) = TAS_PL_ERR_NO_ERROR) && (rspStep rsp c).isNext

/-- The envelopes of a response whose pl0-start `rw_set_rsp` reads and accepts
with the code `TAS_PL_ERR_NO_ERROR`, each given by the index of its first word. -/
def startsAccepted (h : CTasPktHandlerRw) (hm : Nat → Nat) (rsp : List Nat) (num_bytes : Nat) : List Nat :=
  ((rspIters h hm rsp num_bytes).filter (startAccepted rsp)).map (fun c => c.wi)

/-- A response word with its byte `err` replaced by `TAS_PL1_ERR_DEV_RESET`. -/
def resetWord (w : Nat) : Nat := w % 2 ^ 24 + TAS_PL1_ERR_DEV_RESET * 2 ^ 24

/-- The response `rsp` in which the pl0-start of every envelope that starts at
a word of `S` carries the code `TAS_PL1_ERR_DEV_RESET`. -/
def resetAt (rsp : List Nat) (S : List Nat) : List Nat :=
  (List.range rsp.length).map (fun i =>
    if 0 < i ∧ (i - 1) ∈ S then resetWord (rspWord rsp i) else rspWord rsp i)

/-- The handler with `n` more device resets counted. -/
def addResets (n : Nat) (h : CTasPktHandlerRw) : CTasPktHandlerRw :=
  { h with mDeviceResetCount := u32 (h.mDeviceResetCount + n) }

/-- The cursor whose handler has `n` more device resets counted. -/
def RspCursor.addResets (n : Nat) (c : RspCursor) : RspCursor := { c with h := Tas.addResets n c.h }

/-- The outcome of an iteration with `n` more device resets counted. -/
def RspStep.addResets (n : Nat) : RspStep → RspStep
  | .ret c => .ret (c.addResets n)
  | .next c => .next (c.addResets n)
  | .brk c => .brk (c.addResets n)

/-- Every read that `rw_set_rsp` finds answered without error and not as an
rdblk1kb comes with data words (`wl` is not 0). -/
def RdAnswersSized (h : CTasPktHandlerRw) (hm : Nat → Nat) (rsp : List Nat) (num_bytes : Nat) : Prop :=
  ∀ c ∈ rspIters h hm rsp num_bytes, c.wi ≠ c.wiPktStartNext →
    ctprhcPl0CmdIsRd (byte1 (rspWord rsp c.wi)) = true →
    byte1 (rspWord rsp c.wi) ≠ TAS_PL0_CMD_RDBLK1KB →
    byte3 (rspWord rsp c.wi) = TAS_PL0_ERR_NO_ERROR → byte0 (rspWord rsp c.wi) ≠ 0

instance (h : CTasPktHandlerRw) (hm : Nat → Nat) (rsp : List Nat) (num_bytes : Nat) :
    Decidable (RdAnswersSized h hm rsp num_bytes) := by unfold RdAnswersSized; infer_instance


end Tas

namespace Tas

/-! ## The Ethernet CRC-32, bit by bit

The CRC as the specification words it: reflected, polynomial `0xEDB88320`,
initial value `0xFFFFFFFF`, final XOR `0xFFFFFFFF`.  It is compared with
`tasutil_crc32`, which works on half bytes with a table. -/

/-- The reflected polynomial of the Ethernet CRC-32. -/
def CRC32_POLY : Nat := 0xEDB88320

/-- One bit of the reflected CRC: the register moves right by one bit, and the
polynomial is XORed in when the bit moved out is 1. -/
def crc32Bit (crc : Nat) : Nat := if crc % 2 = 1 then (crc >>> 1) ^^^ CRC32_POLY else crc >>> 1

/-- One byte of the reflected CRC: the byte is XORed into the low byte of the
register, then the register makes eight bit steps. -/
def crc32Byte (crc b : Nat) : Nat := crc32Bit^[8] (crc ^^^ b)

/-- The Ethernet CRC-32 of a byte sequence. -/
def ethernetCrc32 (bytes : List Nat) : Nat := (bytes.foldl crc32Byte 0xFFFFFFFF) ^^^ 0xFFFFFFFF

/-- One of the two statements in the body of the loop of `tasutil_crc32`:
`crc = (crc >> 4) ^ crcTable[(crc ^ t) & 0x0F]`. -/
def crcNibble (crc t : Nat) : Nat := (crc >>> 4) ^^^ crcTable.getD ((crc ^^^ t) &&& 0x0F) 0

/-- The nine ASCII bytes of `123456789`. -/
def crcCheckInput : List Nat := [49, 50, 51, 52, 53, 54, 55, 56, 57]

/-- The letters of `asciiMap`: its first 23 characters. -/
def asciiLetters : List Nat := asciiMap.take 23

/-! ## Ping of the read/write client (`tas_pkt_handler_base.cpp`, `tas_client_rw_base.cpp`) -/

/-- The value of `sizeof(tas_pl1rq_ping_st)`. -/
def SIZEOF_PL1RQ_PING : Nat := 4

/-- The members of the base class `CTasPktHandlerBase` within a read/write handler. -/
def CTasPktHandlerRw.toBase (h : CTasPktHandlerRw) : CTasPktHandlerBase :=
  { mConInfo := h.mConInfo, tas_err := h.tas_err }

/-- The function `CTasPktHandlerBase::set_pkt_rsp_ping` called on a read/write
handler, which inherits it: it works on the members of the base class. -/
def CTasPktHandlerRw.set_pkt_rsp_ping (h : CTasPktHandlerRw) (cmd client_type : Nat) (pkt_rsp : List Nat) :
    Nat × CTasPktHandlerRw :=
  let r := Tas.set_pkt_rsp_ping h.toBase cmd client_type pkt_rsp
  (r.1, { h with mConInfo := r.2.mConInfo, tas_err := r.2.tas_err })

/-- Stores to the first words of the request buffer that leave the write index
as it is: of the words of the buffer the list holds those below the write index. -/
def pokeWords (buf : List Nat) (ws : List Nat) : List Nat := ws.take buf.length ++ buf.drop ws.length

/-- The function `CTasPktHandlerBase::get_pkt_rq_ping` called on a read/write
handler: the request and the handler afterwards. -/
def get_pkt_rq_ping (h : CTasPktHandlerRw) (cmd : Nat) : List Nat × CTasPktHandlerRw :=
  let rq := [4 + SIZEOF_PL1RQ_PING, wordWlCmdU16 (SIZEOF_PL1RQ_PING / 4 - 1) cmd 0]
  (rq, { h with mRqBuf := pokeWords h.mRqBuf rq })

/-- The function `CTasClientRwBase::target_ping`: the value returned, the client
afterwards and `*con_info`.  The mailbox is called with one PL2 packet. -/
def target_ping (mb : Mailbox) (cl : CTasClientRwBase) : Nat × CTasClientRwBase × tas_con_info_st :=
  match cl.mTphRw with
  | none => (TAS_ERR_FN_USAGE, cl, conInfoZero)
  | some h =>
    let g := get_pkt_rq_ping h TAS_PL1_CMD_PING
    let cl1 := { cl with sent := cl.sent ++ [g.1] }
    match mb g.1 1 with
    | none =>
      (TAS_ERR_SERVER_CON,
        { cl1 with mTphRw := some { g.2 with tas_err := TAS_ERR_SERVER_CON }, tas_err := TAS_ERR_SERVER_CON },
        conInfoZero)
    | some (rsp, _) =>
      let r := g.2.set_pkt_rsp_ping TAS_PL1_CMD_PING TAS_CLIENT_TYPE_RW rsp
      if r.1 ≠ TAS_ERR_NONE then
        (r.2.tas_err, { cl1 with mTphRw := some r.2, tas_err := r.2.tas_err }, conInfoZero)
      else
        (TAS_ERR_NONE,
          { cl1 with mTphRw := some { r.2 with tas_err := TAS_ERR_NONE }, tas_err := TAS_ERR_NONE },
          r.2.mConInfo)

/-- The connection info the packet handler of a client holds (none before the session is started). -/
def conInfoOf (cl : CTasClientRwBase) : Option tas_con_info_st := cl.mTphRw.map (fun h => h.mConInfo)

/-- The cursor an iteration of the loop of `rw_set_rsp` ends with. -/
def RspStep.cursor : RspStep → RspCursor
  | .ret c => c
  | .next c => c
  | .brk c => c

/-- A mailbox that answers every request with the response `rsp`. -/
def mbConst (rsp : List Nat) : Mailbox := fun _ _ => some (rsp, 4 * rsp.length)

/-- A mailbox whose exchange fails. -/
def mbFail : Mailbox := fun _ _ => none

/-! ## The packet handler of the server connection (`tas_pkt_handler_server_con.cpp`)

The lists of targets and of clients are tables indexed by the natural numbers,
an entry holding the words of a record; the entries from `NUM_TARGET_MAX`
(`NUM_TARGET_CLIENT_MAX`) on lie outside the C++ arrays.  The error info `mEip`
points to is kept with the handler: `tas_err` and the text `info`. -/

def TAS_PL_ERR_PARAM : Nat := 0x10
def TAS_PL1_ERR_SERVER_LOCKED : Nat := 0x32
def TAS_PL1_CMD_SERVER_CONNECT : Nat := 0x80
def TAS_PL1_CMD_GET_TARGETS : Nat := 0x86
def TAS_PL1_CMD_GET_CLIENTS : Nat := 0x87
def TAS_PL1_CMD_DEVICE_CONNECT : Nat := 0xA8
def TAS_ERR_SERVER_LOCKED : Nat := 0x0210
def TAS_DEV_CON_FEAT_RESET : Nat := 0x0001
def TAS_DEV_CON_FEAT_RESET_AND_HALT : Nat := 0x0003
def TAS_NAME_LEN64 : Nat := 64
def TAS_NAME_LEN32 : Nat := 32
def TAS_NAME_LEN16 : Nat := 16
/-- The enumerator `CTasPktHandlerServerCon::NUM_TARGET_MAX`. -/
def NUM_TARGET_MAX : Nat := 64
/-- The enumerator `CTasPktHandlerServerCon::NUM_TARGET_CLIENT_MAX`. -/
def NUM_TARGET_CLIENT_MAX : Nat := 32
/-- The enumerator `CTasClientServerCon::IP_ADDR_NAME_BUF_SIZE`. -/
def IP_ADDR_NAME_BUF_SIZE : Nat := 256

/-- The value of `sizeof(tas_server_info_st)`: 64 + 2 + 2 + 3 * 4 + 16 + 16 + 8 bytes. -/
def SIZEOF_SERVER_INFO : Nat := 120
/-- The value of `sizeof(tas_pl1rq_server_connect_st)`: 4 + 32 + 16 + 4 bytes. -/
def SIZEOF_PL1RQ_SERVER_CONNECT : Nat := 56
/-- The value of `sizeof(tas_pl1rsp_server_connect_st)`: two words, the server info and the challenge. -/
def SIZEOF_PL1RSP_SERVER_CONNECT : Nat := 136
/-- The value of `sizeof(tas_target_info_st)`: 64 + 4 + 16 + 4 bytes. -/
def SIZEOF_TARGET_INFO : Nat := 88
/-- The value of `sizeof(tas_pl1rq_get_targets_st)`. -/
def SIZEOF_PL1RQ_GET_TARGETS : Nat := 4
/-- The value of `sizeof(tas_pl1rsp_get_targets_st)`. -/
def SIZEOF_PL1RSP_GET_TARGETS : Nat := 8
/-- The value of `sizeof(tas_target_client_info_st)`: 32 + 16 + 4 + 4 + 3 * 8 bytes. -/
def SIZEOF_TARGET_CLIENT_INFO : Nat := 80
/-- The value of `sizeof(tas_pl1rq_get_clients_st)`: 4 + 64 bytes. -/
def SIZEOF_PL1RQ_GET_CLIENTS : Nat := 68
/-- The value of `sizeof(tas_pl1rsp_get_clients_st)`: 4 + 4 + 16 + 8 bytes. -/
def SIZEOF_PL1RSP_GET_CLIENTS : Nat := 32
/-- The value of `sizeof(tas_pl1rq_device_connect_st)`. -/
def SIZEOF_PL1RQ_DEVICE_CONNECT : Nat := 8
/-- The value of `sizeof(tas_pl1rsp_device_connect_st)`. -/
def SIZEOF_PL1RSP_DEVICE_CONNECT : Nat := 12

/-- State of a `CTasPktHandlerServerCon` object: the members the functions below
use, and the error info `mEip` points to. -/
structure CTasPktHandlerServerCon where
  mConInfo : tas_con_info_st
  mDeviceConnectOption : Nat
  mServerInfo : List Nat
  mServerChallenge : Nat
  mTargetInfo : Nat → List Nat
  mNumTarget : Nat
  mSessionName : List Nat
  mSessionStartTimeUs : Nat
  mTargetClientInfo : Nat → List Nat
  mNumTargetClient : Nat
  mStartIndex : Nat
  tas_err : Nat
  info : String

namespace CTasPktHandlerServerCon

/-- The function `tas_clear_error_info` on the error info of the handler. -/
def clear (h : CTasPktHandlerServerCon) : CTasPktHandlerServerCon := { h with tas_err := TAS_ERR_NONE, info := "" }

/-- The error info is set to the code `e` with the text `s`. -/
def fail (h : CTasPktHandlerServerCon) (e : Nat) (s : String) : CTasPktHandlerServerCon :=
  { h with tas_err := e, info := s }

/-- The function `CTasPktHandlerBase::mSetPktRspErrConnectionProtocol`. -/
def mSetPktRspErrConnectionProtocol (h : CTasPktHandlerServerCon) : CTasPktHandlerServerCon :=
  h.fail TAS_ERR_SERVER_CON "ERROR: Server connection protocol"

/-- The function `CTasPktHandlerServerCon::mSetPktRspErrServerConnectionSetup`. -/
def mSetPktRspErrServerConnectionSetup (h : CTasPktHandlerServerCon) : CTasPktHandlerServerCon :=
  h.fail TAS_ERR_SERVER_CON "ERROR: Server connection setup failed"

/-- The function `CTasPktHandlerServerCon::mSetPktRspErrServerLocked`. -/
def mSetPktRspErrServerLocked (h : CTasPktHandlerServerCon) : CTasPktHandlerServerCon :=
  h.fail TAS_ERR_SERVER_LOCKED "ERROR: Server is locked"

/-- The function `CTasPktHandlerServerCon::mSetPktRspErrDeviceAccess`. -/
def mSetPktRspErrDeviceAccess (h : CTasPktHandlerServerCon) : CTasPktHandlerServerCon :=
  h.fail TAS_ERR_DEVICE_ACCESS "ERROR: Device access (power-down, reset active, etc.)"

/-- The function `CTasPktHandlerServerCon::mSetPktRspErrDeviceLocked`. -/
def mSetPktRspErrDeviceLocked (h : CTasPktHandlerServerCon) : CTasPktHandlerServerCon :=
  h.fail TAS_ERR_DEVICE_LOCKED "ERROR: Device is locked"

/-- The function `CTasPktHandlerBase::mHandlePktError` called on the handler of
the server connection. -/
def mHandlePktError (h : CTasPktHandlerServerCon) (pkt_rsp : List Nat) (cmd : Nat) : CTasPktHandlerServerCon :=
  let w := rspWord pkt_rsp 1
  if rspWord pkt_rsp 0 = 4 + SIZEOF_PL1RSP_HEADER ∧ byte1 w = cmd then
    if byte3 w = TAS_PL_ERR_USAGE then h.fail TAS_ERR_FN_USAGE "ERROR: Wrong TAS API usage"
    else if byte3 w = TAS_PL_ERR_NOT_SUPPORTED then
      h.fail TAS_ERR_FN_NOT_SUPPORTED "ERROR: Function is not supported"
    else if byte3 w = TAS_PL1_ERR_CMD_FAILED then h.fail TAS_ERR_GENERAL "ERROR: Function failed at TasServer"
    else h.fail TAS_ERR_GENERAL "ERROR: Unknown error"
  else h.mSetPktRspErrConnectionProtocol

end CTasPktHandlerServerCon

/-- The handler the constructor `CTasPktHandlerServerCon(ei)` builds; the
members it leaves uninitialised are zero here, the records of the tables empty. -/
def newServerCon : CTasPktHandlerServerCon :=
  { mConInfo := conInfoZero, mDeviceConnectOption := 0, mServerInfo := List.replicate 30 0, mServerChallenge := 0,
    mTargetInfo := fun _ => [], mNumTarget := 0, mSessionName := List.replicate 16 0,
    mSessionStartTimeUs := 0, mTargetClientInfo := fun _ => [], mNumTargetClient := 0,
    mStartIndex := 0, tas_err := TAS_ERR_NONE, info := "" }

/-- The bytes `snprintf(dst, n, "%s", src)` leaves in `dst`: the characters of
`src` before its first zero, at most `n - 1` of them, and a terminating zero. -/
def snprintfS (n : Nat) (src dst : List Nat) : List Nat :=
  (cstr src).take (n - 1) ++ [0] ++ dst.drop ((cstr src).take (n - 1)).length.succ

/-- The words of a field of `n` chars, zero before, into which the string `src`
is printed with `snprintf(field, n, "%s", src)`. -/
def strField (src : List Nat) (n : Nat) : List Nat := packWords ((cstr src).take (n - 1)) n (n / 4)

/-- Record `k` of the records of `nw` words each that start at word `wi` of `rsp`. -/
def recordAt (rsp : List Nat) (wi nw k : Nat) : List Nat :=
  (List.range nw).map (fun j => rspWord rsp (wi + nw * k + j))

/-- The call `memcpy(&tab[first], &rsp[wi], n * sizeof(record))` for records of `nw` words. -/
def storeRecords (tab : Nat → List Nat) (first : Nat) (rsp : List Nat) (wi nw n : Nat) : Nat → List Nat :=
  fun i => if first ≤ i ∧ i < first + n then recordAt rsp wi nw (i - first) else tab i

/-- The function `CTasPktHandlerServerCon::get_pkt_rq_server_connect`: the request. -/
def get_pkt_rq_server_connect (client_name user_name : List Nat) (client_pid : Nat) : List Nat :=
  [4 + SIZEOF_PL1RQ_SERVER_CONNECT, wordWlCmdU16 (SIZEOF_PL1RQ_SERVER_CONNECT / 4 - 1) TAS_PL1_CMD_SERVER_CONNECT 0]
    ++ strField client_name TAS_NAME_LEN32 ++ strField user_name TAS_NAME_LEN16 ++ [u32 client_pid]

/-- The server info of a server connect response as `set_pkt_rsp_server_connect`
stores it: the 30 words from word 3 on, with the last char of `server_name`
(byte 63) and of `date` (byte 111) set to zero. -/
def serverInfoAt (pkt_rsp : List Nat) : List Nat :=
  (List.range 30).map (fun k =>
    if k = 15 ∨ k = 27 then rspWord pkt_rsp (3 + k) % 2 ^ 24 else rspWord pkt_rsp (3 + k))

/-- The field `challenge` of a server connect response: the `uint64_t` in the words 33 and 34. -/
def challengeAt (pkt_rsp : List Nat) : Nat := rspWord pkt_rsp 33 + rspWord pkt_rsp 34 * 2 ^ 32

/-- The function `CTasPktHandlerServerCon::set_pkt_rsp_server_connect`: the value
returned, the handler afterwards and `*challenge` (`*server_info` points at the
member `mServerInfo` of the handler). -/
def set_pkt_rsp_server_connect (h : CTasPktHandlerServerCon) (pkt_rsp : List Nat) :
    Nat × CTasPktHandlerServerCon × Nat :=
  let h0 := { h with mServerInfo := List.replicate 30 0, mServerChallenge := 0 }
  let challenge := h0.mServerChallenge
  let w := rspWord pkt_rsp 1
  let err := byte3 w
  let pl1PktSize := SIZEOF_PL1RSP_SERVER_CONNECT
  if rspWord pkt_rsp 0 ≠ 4 + pl1PktSize then (TAS_ERR_SERVER_CON, h0.mSetPktRspErrConnectionProtocol, challenge)
  else if byte1 w ≠ TAS_PL1_CMD_SERVER_CONNECT ∨ byte0 w ≠ pl1PktSize / 4 - 1 then
    (TAS_ERR_SERVER_CON, h0.mSetPktRspErrConnectionProtocol, challenge)
  else if ¬ (err = TAS_PL_ERR_NO_ERROR ∨ err = TAS_PL1_ERR_CMD_FAILED ∨ err = TAS_PL1_ERR_SERVER_LOCKED) then
    (TAS_ERR_SERVER_CON, h0.mSetPktRspErrConnectionProtocol, challenge)
  else
    let h1 := { h0 with mServerInfo := serverInfoAt pkt_rsp, mServerChallenge := challengeAt pkt_rsp }
    if err = TAS_PL_ERR_NO_ERROR then (TAS_ERR_NONE, h1.clear, challenge)
    else if err = TAS_PL1_ERR_SERVER_LOCKED then (TAS_ERR_SERVER_LOCKED, h1.mSetPktRspErrServerLocked, challenge)
    else (TAS_ERR_SERVER_CON, h1.mSetPktRspErrServerConnectionSetup, challenge)

/-- The function `CTasPktHandlerServerCon::get_pkt_rq_get_targets`: the request
and the handler afterwards. -/
def get_pkt_rq_get_targets (h : CTasPktHandlerServerCon) (start_index : Nat) :
    List Nat × CTasPktHandlerServerCon :=
  ([4 + SIZEOF_PL1RQ_GET_TARGETS,
    wordWlCmdU16 (SIZEOF_PL1RQ_GET_TARGETS / 4 - 1) TAS_PL1_CMD_GET_TARGETS (u8 start_index)],
   { h with mStartIndex := u8 start_index })

/-- The function `CTasPktHandlerServerCon::set_pkt_rsp_get_targets`: the value
returned, the handler afterwards, `*num_target` and `*num_now`. -/
def set_pkt_rsp_get_targets (h : CTasPktHandlerServerCon) (pkt_rsp : List Nat) :
    Nat × CTasPktHandlerServerCon × Nat × Nat :=
  let h0 := if h.mStartIndex = 0 then { h with mNumTarget := 0 } else h
  let w := rspWord pkt_rsp 1
  let v := rspWord pkt_rsp 2
  let err := byte3 w
  let num_target := byte0 v
  let start_index := byte1 v
  let num_now := byte2 v
  let pl1PktSize := SIZEOF_PL1RSP_GET_TARGETS
  if rspWord pkt_rsp 0 ≠ 4 + pl1PktSize + num_now * SIZEOF_TARGET_INFO then
    (TAS_ERR_SERVER_CON, h0.mSetPktRspErrConnectionProtocol, 0, 0)
  else if byte1 w ≠ TAS_PL1_CMD_GET_TARGETS ∨ byte0 w ≠ sub32 (rspWord pkt_rsp 0) 8 / 4 then
    (TAS_ERR_SERVER_CON, h0.mSetPktRspErrConnectionProtocol, 0, 0)
  else if ¬ (err = TAS_PL_ERR_NO_ERROR ∨ err = TAS_PL1_ERR_SERVER_LOCKED) then
    (TAS_ERR_SERVER_CON, h0.mSetPktRspErrConnectionProtocol, 0, 0)
  else if start_index ≠ h0.mStartIndex
      ∨ (h0.mStartIndex > 0 ∧ h0.mNumTarget < NUM_TARGET_MAX ∧ num_target ≠ h0.mNumTarget) then
    (TAS_ERR_SERVER_CON, h0.mSetPktRspErrConnectionProtocol, 0, 0)
  else if start_index ≠ 0 ∧ start_index + num_now > h0.mNumTarget then
    (TAS_ERR_SERVER_CON, h0.mSetPktRspErrConnectionProtocol, 0, 0)
  else if err = TAS_PL_ERR_NO_ERROR then
    let h1 := if h0.mStartIndex = 0 then
        { h0 with mNumTarget := if num_target > NUM_TARGET_MAX then NUM_TARGET_MAX else num_target }
      else h0
    let tab := storeRecords h1.mTargetInfo h1.mStartIndex pkt_rsp 3 (SIZEOF_TARGET_INFO / 4) num_now
    let h2 := { h1 with mTargetInfo := tab }
    (TAS_ERR_NONE, h2.clear, u8 h2.mNumTarget, num_now)
  else (TAS_ERR_SERVER_LOCKED, h0.mSetPktRspErrServerLocked, 0, 0)

/-- The function `CTasPktHandlerServerCon::get_pkt_rq_get_target_clients`: the
request and the handler afterwards. -/
def get_pkt_rq_get_target_clients (h : CTasPktHandlerServerCon) (identifier : List Nat) (start_index : Nat) :
    List Nat × CTasPktHandlerServerCon :=
  ([4 + SIZEOF_PL1RQ_GET_CLIENTS,
    wordWlCmdU16 (SIZEOF_PL1RQ_GET_CLIENTS / 4 - 1) TAS_PL1_CMD_GET_CLIENTS (u8 start_index)]
      ++ strField identifier TAS_NAME_LEN64,
   { h with mStartIndex := u8 start_index })

/-- The function `CTasPktHandlerServerCon::set_pkt_rsp_get_target_clients`: the
value returned, the handler afterwards, `*num_client` and `*num_now`. -/
def set_pkt_rsp_get_target_clients (h : CTasPktHandlerServerCon) (pkt_rsp : List Nat) :
    Nat × CTasPktHandlerServerCon × Nat × Nat :=
  let h0 := if h.mStartIndex = 0 then
      { h with mSessionName := h.mSessionName.set 0 0, mSessionStartTimeUs := 0, mNumTargetClient := 0 }
    else h
  let w := rspWord pkt_rsp 1
  let v := rspWord pkt_rsp 2
  let err := byte3 w
  let num_client := byte0 v
  let start_index := byte1 v
  let num_now := byte2 v
  let pl1PktSize := SIZEOF_PL1RSP_GET_CLIENTS
  if rspWord pkt_rsp 0 ≠ 4 + pl1PktSize + num_now * SIZEOF_TARGET_CLIENT_INFO then
    (TAS_ERR_SERVER_CON, h0.mSetPktRspErrConnectionProtocol, 0, 0)
  else if byte1 w ≠ TAS_PL1_CMD_GET_CLIENTS ∨ byte0 w ≠ sub32 (rspWord pkt_rsp 0) 8 / 4 then
    (TAS_ERR_SERVER_CON, h0.mSetPktRspErrConnectionProtocol, 0, 0)
  else if ¬ (err = TAS_PL_ERR_NO_ERROR ∨ err = TAS_PL_ERR_PARAM ∨ err = TAS_PL1_ERR_SERVER_LOCKED) then
    (TAS_ERR_SERVER_CON, h0.mSetPktRspErrConnectionProtocol, 0, 0)
  else if start_index ≠ h0.mStartIndex
      ∨ (h0.mStartIndex > 0 ∧ h0.mNumTargetClient < NUM_TARGET_CLIENT_MAX ∧ num_client ≠ h0.mNumTargetClient) then
    (TAS_ERR_SERVER_CON, h0.mSetPktRspErrConnectionProtocol, 0, 0)
  else if start_index ≠ 0 ∧ start_index + num_now > h0.mNumTargetClient then
    (TAS_ERR_SERVER_CON, h0.mSetPktRspErrConnectionProtocol, 0, 0)
  else if err = TAS_PL_ERR_NO_ERROR then
    let h1 := if h0.mStartIndex = 0 then
        { h0 with
          mSessionName := snprintfS TAS_NAME_LEN16 (bytesOfWords pkt_rsp 3 4) h0.mSessionName
          mSessionStartTimeUs := rspWord pkt_rsp 7 + rspWord pkt_rsp 8 * 2 ^ 32
          mNumTargetClient := if num_client > NUM_TARGET_CLIENT_MAX then NUM_TARGET_CLIENT_MAX else num_client }
      else h0
    let wiTciStart := (4 + SIZEOF_PL1RSP_GET_CLIENTS) / 4
    let tab := storeRecords h1.mTargetClientInfo 0 pkt_rsp wiTciStart (SIZEOF_TARGET_CLIENT_INFO / 4) num_now
    let h2 := { h1 with mTargetClientInfo := tab }
    (TAS_ERR_NONE, h2.clear, 0, 0)
  else if err = TAS_PL_ERR_PARAM then
    (TAS_ERR_FN_PARAM, h0.fail TAS_ERR_FN_PARAM "ERROR: Target does not exist", 0, 0)
  else (TAS_ERR_SERVER_LOCKED, h0.mSetPktRspErrServerLocked, 0, 0)

/-- The function `CTasPktHandlerServerCon::get_pkt_rq_device_connect`: the
request and the handler afterwards. -/
def get_pkt_rq_device_connect (h : CTasPktHandlerServerCon) (option : Nat) : List Nat × CTasPktHandlerServerCon :=
  ([4 + SIZEOF_PL1RQ_DEVICE_CONNECT,
    wordWlCmdU16 (SIZEOF_PL1RQ_DEVICE_CONNECT / 4 - 1) TAS_PL1_CMD_DEVICE_CONNECT 0, u16 option],
   { h with mDeviceConnectOption := u16 option })

/-- The function `CTasPktHandlerServerCon::set_pkt_rsp_device_connect`: the value
returned, the handler afterwards, `*dev_con_feat_used` and `*device_type`. -/
def set_pkt_rsp_device_connect (h : CTasPktHandlerServerCon) (pkt_rsp : List Nat) :
    Nat × CTasPktHandlerServerCon × Nat × Nat :=
  let w := rspWord pkt_rsp 1
  let err := byte3 w
  let feat_used := lo16 (rspWord pkt_rsp 2)
  let device_type := rspWord pkt_rsp 3
  let pl1PktSize := SIZEOF_PL1RSP_DEVICE_CONNECT
  if rspWord pkt_rsp 0 ≠ 4 + pl1PktSize then
    ((h.mHandlePktError pkt_rsp TAS_PL1_CMD_DEVICE_CONNECT).tas_err,
      h.mHandlePktError pkt_rsp TAS_PL1_CMD_DEVICE_CONNECT, 0, 0)
  else if byte1 w ≠ TAS_PL1_CMD_DEVICE_CONNECT ∨ byte0 w ≠ pl1PktSize / 4 - 1 then
    (TAS_ERR_SERVER_CON, h.mSetPktRspErrConnectionProtocol, 0, 0)
  else if err = TAS_PL_ERR_NO_ERROR then (TAS_ERR_NONE, h.clear, feat_used, device_type)
  else if err = TAS_PL1_ERR_DEV_ACCESS then
    (TAS_ERR_DEVICE_ACCESS, h.mSetPktRspErrDeviceAccess, feat_used, device_type)
  else if err = TAS_PL1_ERR_DEV_LOCKED then
    (TAS_ERR_DEVICE_LOCKED, h.mSetPktRspErrDeviceLocked, feat_used, device_type)
  else if err = TAS_PL1_ERR_CMD_FAILED then
    if device_type ≠ 0 then
      let info :=
        if h.mDeviceConnectOption &&& TAS_DEV_CON_FEAT_RESET ≠ 0 ∧ ¬ (feat_used &&& TAS_DEV_CON_FEAT_RESET ≠ 0) then
          "ERROR: Reset not supported for this device connection"
        else if h.mDeviceConnectOption &&& TAS_DEV_CON_FEAT_RESET_AND_HALT ≠ 0
            ∧ ¬ (feat_used &&& TAS_DEV_CON_FEAT_RESET_AND_HALT ≠ 0) then
          "ERROR: Halt after reset not supported for this device connection"
        else h.info
      (TAS_ERR_FN_PARAM, h.fail TAS_ERR_FN_PARAM info, feat_used, device_type)
    else (TAS_ERR_DEVICE_ACCESS, h.fail TAS_ERR_DEVICE_ACCESS "ERROR: No device connected", feat_used, device_type)
  else (TAS_ERR_SERVER_CON, h.mSetPktRspErrConnectionProtocol, feat_used, device_type)

/-! ## The client of the server connection (`tas_client_server_con.cpp`)

The client and its packet handler `mTphsc` share one error info, kept with the
handler.  The socket connection to the server is made outside; its result is an
argument of `server_connect`. -/

/-- State of a `CTasClientServerCon` object.  `mServerInfo` is true when the
pointer of this name points at the server info of the packet handler, false
when it is null; `mDeviceResetCount` is the member of this name, which the
class initialises with `~0`; `sent` are the requests handed to the mailbox so far. -/
structure CTasClientServerCon where
  mTphsc : CTasPktHandlerServerCon
  mClientName : List Nat
  mUserName : List Nat
  mClientPid : Nat
  mServerIpAddr : String
  mServerPortNum : Nat
  mServerInfo : Bool
  mServerChallenge : Nat
  mSessionStarted : Bool
  mRcvChlActive : Bool
  mDeviceResetCount : Nat
  sent : List (List Nat)

namespace CTasClientServerCon

/-- The function `tas_client_handle_error_server_con` on the error info of the client. -/
def handleErrorServerCon (cl : CTasClientServerCon) : Nat × CTasClientServerCon :=
  (TAS_ERR_SERVER_CON, { cl with mTphsc := cl.mTphsc.fail TAS_ERR_SERVER_CON "ERROR: Server connection" })

/-- The function `CTasClientServerCon::mHandleErrorRcvChlActive`. -/
def mHandleErrorRcvChlActive (cl : CTasClientServerCon) : Nat × CTasClientServerCon :=
  (TAS_ERR_FN_USAGE, { cl with mTphsc := cl.mTphsc.fail TAS_ERR_FN_USAGE "ERROR: Receive channel is active" })

/-- The function `CTasClientServerCon::get_server_challenge`. -/
def get_server_challenge (cl : CTasClientServerCon) : Nat := cl.mServerChallenge

end CTasClientServerCon

/-- The function `CTasClientServerCon::server_connect` (as built for other
systems than Windows): the value returned and the client afterwards.
`sockOk` is what `mMbSocket->server_connect(ip_addr, port_num)` returns. -/
def server_connect (sockOk : Bool) (mb : Mailbox) (cl : CTasClientServerCon) (ip_addr : String)
    (port_num : Nat) : Nat × CTasClientServerCon :=
  if cl.mServerIpAddr ≠ "" then
    (TAS_ERR_FN_USAGE, { cl with mTphsc := cl.mTphsc.fail TAS_ERR_FN_USAGE "ERROR: Already connected to server" })
  else
    let cl0 := { cl with mServerInfo := false, mServerIpAddr := "", mServerPortNum := 0, mServerChallenge := 0 }
    if sockOk = false then
      let text := "ERROR: Server " ++ ip_addr ++ " port " ++ toString port_num
      (TAS_ERR_SERVER_CON, { cl0 with mTphsc := cl0.mTphsc.fail TAS_ERR_SERVER_CON text })
    else
      let rq := get_pkt_rq_server_connect cl0.mClientName cl0.mUserName cl0.mClientPid
      let cl1 := { cl0 with sent := cl0.sent ++ [rq] }
      match mb rq 1 with
      | none => cl1.handleErrorServerCon
      | some (rsp, _) =>
        let r := set_pkt_rsp_server_connect cl1.mTphsc rsp
        let cl2 := { cl1 with mTphsc := r.2.1, mServerInfo := true, mServerChallenge := r.2.2 }
        if r.1 ≠ TAS_ERR_NONE then (r.2.1.tas_err, cl2)
        else
          let name := ip_addr.take (IP_ADDR_NAME_BUF_SIZE - 1)
          (TAS_ERR_NONE, { cl2 with mTphsc := cl2.mTphsc.clear, mServerIpAddr := name, mServerPortNum := port_num })

/-- The `do ... while (startIndex < numTarget)` loop of `get_targets`, entered
with the value `startIndex`: the value the function returns when it returns from
within the loop, or `TAS_ERR_NONE` when the loop is left by its condition, then
the client and the values of `startIndex` and `numTarget` at that point.  The
loop can go on for ever; it is given `fuel` iterations. -/
def getTargetsLoop (mb : Mailbox) : Nat → CTasClientServerCon → Nat → Option (Nat × CTasClientServerCon × Nat × Nat)
  | 0, _, _ => none
  | fuel + 1, cl, startIndex =>
    let g := get_pkt_rq_get_targets cl.mTphsc startIndex
    let cl1 := { cl with mTphsc := g.2, sent := cl.sent ++ [g.1] }
    match mb g.1 1 with
    | none => some (cl1.handleErrorServerCon.1, cl1.handleErrorServerCon.2, startIndex, 0)
    | some (rsp, _) =>
      let r := set_pkt_rsp_get_targets cl1.mTphsc rsp
      let cl2 := { cl1 with mTphsc := r.2.1 }
      if r.1 ≠ TAS_ERR_NONE then some (r.2.1.tas_err, cl2, startIndex, r.2.2.1)
      else if u8 (startIndex + r.2.2.2) < r.2.2.1 then getTargetsLoop mb fuel cl2 (u8 (startIndex + r.2.2.2))
      else some (TAS_ERR_NONE, cl2, u8 (startIndex + r.2.2.2), r.2.2.1)

/-- The function `CTasClientServerCon::get_targets`: the value returned, the
client afterwards and `*num_target` (`*target_info` points at the table of the
packet handler, or is null when `*num_target` is 0). -/
def get_targets (fuel : Nat) (mb : Mailbox) (cl : CTasClientServerCon) : Option (Nat × CTasClientServerCon × Nat) :=
  if cl.mRcvChlActive then some (cl.mHandleErrorRcvChlActive.1, cl.mHandleErrorRcvChlActive.2, 0)
  else
    match getTargetsLoop mb fuel cl 0 with
    | none => none
    | some (ret, cl1, _, _) =>
      if ret ≠ TAS_ERR_NONE then some (ret, cl1, 0)
      else some (TAS_ERR_NONE, { cl1 with mTphsc := cl1.mTphsc.clear }, cl1.mTphsc.mNumTarget)

/-- The `do ... while (startIndex < numClient)` loop of `get_target_clients`,
entered with the value `startIndex`: the value the function returns when it
returns from within the loop, or `TAS_ERR_NONE` when the loop is left by its
condition, then the client and the values of `startIndex` and `numClient` at
that point.  The loop is given `fuel` iterations. -/
def getTargetClientsLoop (mb : Mailbox) (identifier : List Nat) :
    Nat → CTasClientServerCon → Nat → Option (Nat × CTasClientServerCon × Nat × Nat)
  | 0, _, _ => none
  | fuel + 1, cl, startIndex =>
    let g := get_pkt_rq_get_target_clients cl.mTphsc identifier startIndex
    let cl1 := { cl with mTphsc := g.2, sent := cl.sent ++ [g.1] }
    match mb g.1 1 with
    | none => some (cl1.handleErrorServerCon.1, cl1.handleErrorServerCon.2, startIndex, 0)
    | some (rsp, _) =>
      let r := set_pkt_rsp_get_target_clients cl1.mTphsc rsp
      let cl2 := { cl1 with mTphsc := r.2.1 }
      if r.1 ≠ TAS_ERR_NONE then some (r.2.1.tas_err, cl2, startIndex, r.2.2.1)
      else if u8 (startIndex + r.2.2.2) < r.2.2.1 then
        getTargetClientsLoop mb identifier fuel cl2 (u8 (startIndex + r.2.2.2))
      else some (TAS_ERR_NONE, cl2, u8 (startIndex + r.2.2.2), r.2.2.1)

/-- The function `CTasClientServerCon::mDeviceConnect`: the value returned and
the client afterwards. -/
def mDeviceConnect (mb : Mailbox) (cl : CTasClientServerCon) (dco : Nat) : Nat × CTasClientServerCon :=
  if cl.mRcvChlActive then cl.mHandleErrorRcvChlActive
  else
    let g := get_pkt_rq_device_connect cl.mTphsc dco
    let cl1 := { cl with mTphsc := g.2, sent := cl.sent ++ [g.1] }
    match mb g.1 1 with
    | none => cl1.handleErrorServerCon
    | some (rsp, _) =>
      let r := set_pkt_rsp_device_connect cl1.mTphsc rsp
      if r.1 ≠ TAS_ERR_NONE then (r.2.1.tas_err, { cl1 with mTphsc := r.2.1 })
      else (TAS_ERR_NONE, { cl1 with mTphsc := r.2.1.clear })

/-- The client the constructor `CTasClientServerCon(client_name, ei, mb_if)`
builds, with the client name `Test`, for a user without name and the process 1. -/
def newClientServerCon : CTasClientServerCon :=
  { mTphsc := newServerCon, mClientName := [84, 101, 115, 116, 0], mUserName := [0], mClientPid := 1,
    mServerIpAddr := "", mServerPortNum := 0, mServerInfo := false, mServerChallenge := 0,
    mSessionStarted := false, mRcvChlActive := false, mDeviceResetCount := 0xFFFFFFFF, sent := [] }

/-- A well-formed server connect response with the code `err` and the challenge
`challenge`; every word of the server info is `0x41414141`. -/
def serverConnectRspOf (err challenge : Nat) : List Nat :=
  [4 + SIZEOF_PL1RSP_SERVER_CONNECT, 33 + TAS_PL1_CMD_SERVER_CONNECT * 2 ^ 8 + err * 2 ^ 24, 0]
    ++ List.replicate 30 0x41414141 ++ [challenge % 2 ^ 32, challenge / 2 ^ 32]

/-- A well-formed page of the list of targets without error: `num_target`
targets in all, of which the page holds the `num_now` from `start_index` on;
every word of their records is `w`. -/
def targetsPageOf (num_target start_index num_now w : Nat) : List Nat :=
  [12 + 88 * num_now, (1 + 22 * num_now) + TAS_PL1_CMD_GET_TARGETS * 2 ^ 8 + TAS_PL_ERR_NO_ERROR * 2 ^ 24,
    num_target + start_index * 2 ^ 8 + num_now * 2 ^ 16] ++ List.replicate (22 * num_now) w

/-- A well-formed page of the list of clients of a target without error:
`num_client` clients in all, of which the page holds the `num_now` from
`start_index` on; every word of their records is `w`, the session is `S`
started at time 5. -/
def clientsPageOf (num_client start_index num_now w : Nat) : List Nat :=
  [36 + 80 * num_now, (7 + 20 * num_now) + TAS_PL1_CMD_GET_CLIENTS * 2 ^ 8 + TAS_PL_ERR_NO_ERROR * 2 ^ 24,
    num_client + start_index * 2 ^ 8 + num_now * 2 ^ 16, 0x53, 0, 0, 0, 5, 0] ++ List.replicate (20 * num_now) w

/-- A well-formed device connect response with the code `err`, the features
`feat_used` and the device type `device_type`. -/
def deviceConnectRspOf (err feat_used device_type : Nat) : List Nat :=
  [4 + SIZEOF_PL1RSP_DEVICE_CONNECT, 2 + TAS_PL1_CMD_DEVICE_CONNECT * 2 ^ 8 + err * 2 ^ 24, feat_used, device_type]

/-- What the paging loops of `getTargetsLoop` and `getTargetClientsLoop` end
with, without the client: the value returned and the two local variables. -/
def loopEnd (r : Option (Nat × CTasClientServerCon × Nat × Nat)) : Option (Nat × Nat × Nat) :=
  r.map (fun x => (x.1, x.2.2.1, x.2.2.2))

/-- The number of requests the client has handed to the mailbox when a paging loop ends. -/
def loopSent (r : Option (Nat × CTasClientServerCon × Nat × Nat)) : Nat :=
  match r with
  | some x => x.2.1.sent.length
  | none => 0

/-! ## Sending a channel message (`tas_pkt_handler_chl.cpp`, `tas_client_chl.cpp`)

The request buffer of the channel handler is a function from the word index to
the word; the indices from `(TAS_PL1_CHL_MAX_MSG_SIZE + 64) / 4` on lie outside
the C++ buffer.  The client and its packet handler share one error info, kept
with the handler. -/

def TAS_CHT_NONE : Nat := 0
def TAS_CHT_SEND : Nat := 0x01
def TAS_CHT_RCV : Nat := 0x02
def TAS_CHT_BIDI : Nat := 0x03
def TAS_CHO_NONE : Nat := 0
def TAS_CHO_INIT : Nat := 0x01
def TAS_CHL_NUM_MAX : Nat := 32
def TAS_PL1_CMD_CHL_MSG_C2D : Nat := 0xCC
/-- The value of `sizeof(tas_pl1rq_chl_subscribe_st)`. -/
def SIZEOF_PL1RQ_CHL_SUBSCRIBE : Nat := 8

/-- State of a `CTasPktHandlerChl` object: the members the functions of the
channel use, and the error info `mEip` points to. -/
structure CTasPktHandlerChl where
  mConInfo : tas_con_info_st
  mRqBuf : Nat → Nat
  mChl : Nat
  mCht : Nat
  mChso : Nat
  mDeviceResetCount : Nat
  tas_err : Nat
  info : String

/-- The store `buf[i] = w`. -/
def setWord (buf : Nat → Nat) (i w : Nat) : Nat → Nat := fun j => if j = i then w else buf j

/-- Byte `k` of a word (little endian). -/
def byteK (w k : Nat) : Nat := (w >>> (8 * k)) % 2 ^ 8

/-- Byte `p` of the destination of `memcpy(&buf[wi], msg, n)`, of which `old`
is the value before: byte `p` of `msg` when `p < n`. -/
def msgByte (msg : List Nat) (n p old : Nat) : Nat := if p < n then byteAt msg p else old

/-- The call `memcpy(&buf[wi], msg, n)` on a buffer of words. -/
def memcpyMsg (buf : Nat → Nat) (wi : Nat) (msg : List Nat) (n : Nat) : Nat → Nat :=
  fun j =>
    if wi ≤ j ∧ 4 * (j - wi) < n then
      msgByte msg n (4 * (j - wi)) (byteK (buf j) 0)
        + msgByte msg n (4 * (j - wi) + 1) (byteK (buf j) 1) * 2 ^ 8
        + msgByte msg n (4 * (j - wi) + 2) (byteK (buf j) 2) * 2 ^ 16
        + msgByte msg n (4 * (j - wi) + 3) (byteK (buf j) 3) * 2 ^ 24
    else buf j

/-- The function `CTasPktHandlerChl::get_pkt_send_msg`: the handler afterwards;
the request is its buffer `mRqBuf`.  The buffer of the model has no end, the
one of the code has `CHL_MAX_RQ_SIZE` bytes; `sendMsgCopyEnd` is the byte at
which the `memcpy` ends. -/
def get_pkt_send_msg (h : CTasPktHandlerChl) (chl : Nat) (msg : List Nat) (msg_length init : Nat) :
    CTasPktHandlerChl :=
  let msgLength := if init = 0 then u16 msg_length else u16 (msg_length + 4)
  let msgWl := u16 ((msgLength + 3) / 4)
  let pl1PktSize := SIZEOF_PL1RQ_CHL_SUBSCRIBE
  let b0 := setWord h.mRqBuf 0 (u32 (4 + pl1PktSize + msgWl * 4))
  let b1 := setWord b0 1 (wordWlCmdU16 (pl1PktSize / 4 - 1) TAS_PL1_CMD_CHL_MSG_C2D 0)
  let cho := if init ≠ 0 then TAS_CHO_INIT else TAS_CHO_NONE
  let b2 := setWord b1 2 (u8 chl + cho * 2 ^ 8 + msgLength * 2 ^ 16)
  let b3 := if init ≠ 0 then memcpyMsg (setWord b2 3 (u32 init)) 4 msg msg_length
    else memcpyMsg b2 3 msg msg_length
  { h with mChl := 0xFF, mRqBuf := b3 }

/-- The conditions of the three assertions of `get_pkt_send_msg`:
`chl < TAS_CHL_NUM_MAX`, and `msg_length <= 252` with an init word,
`msg_length <= 256` without. -/
def sendMsgAsserts (chl msg_length init : Nat) : Bool :=
  decide (chl < TAS_CHL_NUM_MAX) && (if init ≠ 0 then decide (msg_length ≤ 252) else decide (msg_length ≤ 256))

/-- The PL2 packet at the start of a buffer: as many words as its first word gives bytes. -/
def pl2Frame (buf : Nat → Nat) : List Nat := (List.range (buf 0 / 4)).map buf

/-- State of a `CTasClientChl` object: the base class `CTasClientServerCon`
(`con`), the packet handler, the type and number of the subscribed channel, and
the packets the functions of the channel handed to the mailbox. -/
structure CTasClientChl where
  con : CTasClientServerCon
  mTphChl : CTasPktHandlerChl
  mChlCht : Nat
  mChlNum : Nat
  sent : List (List Nat)

/-- The function `CTasClientChl::send_msg`: the value returned and the client
afterwards.  `send` is the call `mMbIfChl->send(pktRq)` of the mailbox. -/
def send_msg (send : List Nat → Bool) (cl : CTasClientChl) (msg : List Nat) (msg_length init : Nat) :
    Nat × CTasClientChl :=
  if cl.mChlCht ≠ TAS_CHT_SEND ∧ cl.mChlCht ≠ TAS_CHT_BIDI then
    let text := "ERROR: Channel " ++ toString cl.mChlNum ++ " not subscribed for sending messages"
    (TAS_ERR_FN_USAGE, { cl with mTphChl := { cl.mTphChl with tas_err := TAS_ERR_FN_USAGE, info := text } })
  else
    let msgLength := if init = 0 then u16 msg_length else u16 (msg_length + 4)
    let msgLengthC2d := cl.mTphChl.mConInfo.msg_length_c2d
    if msgLength > msgLengthC2d then
      let text := "ERROR: msg_length " ++ toString msg_length ++ " higher than msg_length_c2d "
        ++ toString msgLengthC2d
      (TAS_ERR_FN_PARAM, { cl with mTphChl := { cl.mTphChl with tas_err := TAS_ERR_FN_PARAM, info := text } })
    else
      let h1 := get_pkt_send_msg cl.mTphChl cl.mChlNum msg msg_length init
      let cl1 := { cl with mTphChl := h1, sent := cl.sent ++ [pl2Frame h1.mRqBuf] }
      if send (pl2Frame h1.mRqBuf) = false then
        (TAS_ERR_SERVER_CON,
          { cl1 with mTphChl := { h1 with tas_err := TAS_ERR_SERVER_CON, info := "ERROR: Server connection" } })
      else (TAS_ERR_NONE, { cl1 with mTphChl := { h1 with tas_err := TAS_ERR_NONE, info := "" } })

/-- A connection info of a channel client: messages of up to `c2d` bytes to the
device and of up to `d2c` bytes from it. -/
def chlConInfo (c2d d2c : Nat) : tas_con_info_st :=
  { max_pl2rq_pkt_size := 0xFFC0, max_pl2rsp_pkt_size := 0xFFC0, pl0_max_num_rw := 0,
    msg_length_c2d := c2d, msg_length_d2c := d2c }

/-- The channel handler the constructor `CTasPktHandlerChl(ei)` builds, with the
connection info `ci` set; its request buffer holds zeros. -/
def newHandlerChl (ci : tas_con_info_st) : CTasPktHandlerChl :=
  { mConInfo := ci, mRqBuf := fun _ => 0, mChl := 0, mCht := 0, mChso := 0, mDeviceResetCount := 0,
    tas_err := TAS_ERR_NONE, info := "" }

/-- The base class of a channel client whose session is started; `rcv` is `mRcvChlActive`. -/
def chlBaseOf (rcv : Bool) : CTasClientServerCon :=
  { newClientServerCon with mSessionStarted := true, mRcvChlActive := rcv }

/-- A channel client with the connection info `ci` that is subscribed to the
channel `chl` with the type `cht`; its request buffer holds zeros. -/
def chlClientOf (ci : tas_con_info_st) (cht chl : Nat) : CTasClientChl :=
  { con := chlBaseOf (decide (cht = TAS_CHT_RCV ∨ cht = TAS_CHT_BIDI)),
    mTphChl := { newHandlerChl ci with mChl := chl, mCht := cht },
    mChlCht := cht, mChlNum := chl, sent := [] }

/-- A mailbox that sends every packet. -/
def sendOk : List Nat → Bool := fun _ => true

/-- A message of `n` bytes: byte `i` is `i` modulo 251. -/
def msgOf (n : Nat) : List Nat := (List.range n).map (fun i => i % 251)

/-- The handler of `newServerCon` whose error info holds the text `s`. -/
def serverConWithInfo (s : String) : CTasPktHandlerServerCon := { newServerCon with info := s }

/-! ## The count of the pl0-end (`tas_pkt.h`, `mPktFinalize`) -/

/-- The field `num_pl0_rw` of the `tas_pl1rq_pl0_end_st` that ends the PL2 packet
`pkt`: the upper half of its last word. -/
def pktNumPl0Rw (pkt : List Nat) : Nat := hi16 (pkt.getD (pkt.length - 1) 0)

/-! ## The JTAG scan (`tas_utils_jtag.cpp`)

The table `rwTrans` of `tasutil_jtag_scan` is followed by its stores: a store is
the index written and the address, the number of bytes and the type of the
transaction written there.  The data pointers of the transactions are left out. -/

def TJS_NONE : Nat := 0
def TJS_TAP_RESET : Nat := 0x01
def TAS_AM15_JTAG_MAX_NUM_SCAN_BITS_PER_TRANSACTION : Nat := 1024 * 8
def TAS_AM15_RW_JTAG_SCAN_MODE_ENABLE : Nat := 0x000C1100
def TAS_AM15_W_JTAG_SCAN_MODE_DISABLE : Nat := 0x000C1200
def TAS_AM15_W_JTAG_SET_IR : Nat := 0x000C1300
def TAS_AM15_W_JTAG_CAPTURE : Nat := 0x000C1400
def TAS_AM15_RW_JTAG_DATA_SHIFT : Nat := 0x000C1500
def TAS_AM15_W_JTAG_RESET : Nat := 0x000C1800

/-- A scan description `tasutil_jtag_scan_st`: the option, the width of the
instruction register, the number of bits, and whether `data_in` and `data_out`
are set (true) or null (false). -/
structure tasutil_jtag_scan_st where
  tjs : Nat
  ir_width : Nat
  num_bits : Nat
  data_in : Bool
  data_out : Bool
  deriving DecidableEq, Repr

/-- A store `rwTrans[index] = { addr, num_bytes, 0, TAS_AM15, type, ... }`. -/
structure JtagStore where
  index : Nat
  addr : Nat
  num_bytes : Nat
  type : Nat
  deriving DecidableEq, Repr

/-- The local variables of `tasutil_jtag_scan` the table depends on: the value
to return, the index `t`, and the stores made so far. -/
structure JtagState where
  ret : Nat
  t : Nat
  stores : List JtagStore
  deriving DecidableEq, Repr

/-- The `do ... while ((bitsRemaining > 0) && (t < numTransMax - 6))` loop of
`tasutil_jtag_scan`: the value of `bitsRemaining`, the index `t` and the stores
when the loop is left, or nothing when it is not left within `fuel` iterations. -/
def jtagShiftLoop (numTransMax : Nat) (dataOut : Bool) :
    Nat → Nat → Nat → List JtagStore → Option (Nat × Nat × List JtagStore)
  | 0, _, _, _ => none
  | fuel + 1, bitsRemaining, t, ws =>
    let maxBitsTrans := TAS_AM15_JTAG_MAX_NUM_SCAN_BITS_PER_TRANSACTION
    let bitsNow := if bitsRemaining > maxBitsTrans then maxBitsTrans else bitsRemaining
    let bytesNow := u32 (u32 (bitsNow + 63) / 64 * 8)
    let ws1 := ws ++ [{ index := t, addr := TAS_AM15_RW_JTAG_DATA_SHIFT, num_bytes := bytesNow, type := TAS_RW_TT_WR }]
    let t1 := u32 (t + 1)
    let ws2 := if dataOut then
        ws1 ++ [{ index := t1, addr := TAS_AM15_RW_JTAG_DATA_SHIFT, num_bytes := bytesNow, type := TAS_RW_TT_RD }]
      else ws1
    let t2 := if dataOut then u32 (t1 + 1) else t1
    let rest := sub32 bitsRemaining bitsNow
    if rest > 0 ∧ t2 < sub32 numTransMax 6 then jtagShiftLoop numTransMax dataOut fuel rest t2 ws2
    else some (rest, t2, ws2)

/-- The `for (s)` loop of `tasutil_jtag_scan` over the scan descriptions. -/
def jtagScanLoop (numTransMax : Nat) : List tasutil_jtag_scan_st → JtagState → Option JtagState
  | [], st => some st
  | s :: scans, st =>
    let ws1 := if s.tjs = TJS_TAP_RESET then
        st.stores ++ [{ index := st.t, addr := TAS_AM15_W_JTAG_RESET, num_bytes := 4, type := TAS_RW_TT_WR }]
      else st.stores
    let t1 := if s.tjs = TJS_TAP_RESET then u32 (st.t + 1) else st.t
    let ws2 := if s.ir_width > 0 then
        ws1 ++ [{ index := t1, addr := TAS_AM15_W_JTAG_SET_IR, num_bytes := 8, type := TAS_RW_TT_WR }]
      else ws1
    let t2 := if s.ir_width > 0 then u32 (t1 + 1) else t1
    let ws3 := ws2 ++ [{ index := t2, addr := TAS_AM15_W_JTAG_CAPTURE, num_bytes := 4, type := TAS_RW_TT_WR }]
    let t3 := u32 (t2 + 1)
    match jtagShiftLoop numTransMax s.data_out numTransMax s.num_bits t3 ws3 with
    | none => none
    | some (rest, t4, ws4) =>
      if rest > 0 then some { ret := TAS_ERR_FN_PARAM, t := t4, stores := ws4 }
      else jtagScanLoop numTransMax scans { st with t := t4, stores := ws4 }

/-- The size `numTransMax` of the table `tasutil_jtag_scan` allocates. -/
def jtagNumTransMax (num_scan : Nat) : Nat := u32 (16 + 6 * u8 num_scan)

/-- The function `tasutil_jtag_scan` up to its call of `execute_trans`: the
value of `ret`, the index `t` and the stores made to the table.  When `ret` is
`TAS_ERR_NONE` the function goes on to call `execute_trans(rwTrans, t)`.  The
shift loop is given `numTransMax` iterations, which it cannot use up, for each
iteration but the last ends with `t < numTransMax - 6` and adds to `t`. -/
def tasutil_jtag_scan (scan : List tasutil_jtag_scan_st) (num_scan : Nat) : Option JtagState :=
  let numTransMax := jtagNumTransMax num_scan
  let st0 : JtagState :=
    { ret := TAS_ERR_NONE, t := 1
      stores := [{ index := 0, addr := TAS_AM15_RW_JTAG_SCAN_MODE_ENABLE, num_bytes := 4, type := TAS_RW_TT_WR }] }
  match jtagScanLoop numTransMax (scan.take (u8 num_scan)) st0 with
  | none => none
  | some st =>
    some { st with
      t := u32 (st.t + 1)
      stores := st.stores ++
        [{ index := st.t, addr := TAS_AM15_W_JTAG_SCAN_MODE_DISABLE, num_bytes := 4, type := TAS_RW_TT_WR }] }

/-- A scan description with a TAP reset, an instruction register of 8 bits,
`num_bits` bits, input data and output data. -/
def jtagScanOf (num_bits : Nat) : tasutil_jtag_scan_st :=
  { tjs := TJS_TAP_RESET, ir_width := 8, num_bits := num_bits, data_in := true, data_out := true }

/-- The value returned by the part of `tasutil_jtag_scan` before `execute_trans`
(0xFFFF when it did not get there). -/
def jtagRet (r : Option JtagState) : Nat :=
  match r with
  | some st => st.ret
  | none => 0xFFFF

/-- The indices of the table `tasutil_jtag_scan` wrote to, in the order of the stores. -/
def jtagIndices (r : Option JtagState) : List Nat :=
  match r with
  | some st => st.stores.map (fun w => w.index)
  | none => []

/-! ## Session start (`tas_pkt_handler_server_con.cpp`, `tas_client_server_con.cpp`) -/

/-- The value of `sizeof(tas_pl1rq_session_start_st)`: 4 + 4 + 8 + 64 + 16 + 16 bytes. -/
def SIZEOF_PL1RQ_SESSION_START : Nat := 112
/-- The enumerator `TAS_CHL_TGT_UNKNOWN`. -/
def TAS_CHL_TGT_UNKNOWN : Nat := 0

/-- The function `CTasPktHandlerServerCon::get_pkt_rq_session_start`: the request. -/
def get_pkt_rq_session_start (client_type : Nat) (identifier session_name session_pw : List Nat)
    (chl_target chl_param : Nat) : List Nat :=
  [4 + SIZEOF_PL1RQ_SESSION_START,
    u8 (SIZEOF_PL1RQ_SESSION_START / 4 - 1) + TAS_PL1_CMD_SESSION_START * 2 ^ 8 + u8 client_type * 2 ^ 24,
    u8 chl_target, u32 chl_param, u32 (u64 chl_param >>> 32)]
    ++ strField identifier TAS_NAME_LEN64 ++ strField session_name TAS_NAME_LEN16
    ++ strField session_pw TAS_NAME_LEN16

/-- The members of the base class `CTasPktHandlerBase` within the handler of the
server connection. -/
def CTasPktHandlerServerCon.toBase (h : CTasPktHandlerServerCon) : CTasPktHandlerBase :=
  { mConInfo := h.mConInfo, tas_err := h.tas_err }

/-- The function `CTasPktHandlerServerCon::set_pkt_rsp_session_start`, which is
`set_pkt_rsp_ping` of the base class for the command `TAS_PL1_CMD_SESSION_START`:
the value returned and the handler afterwards.  Of the error info the code is
followed, the text is left as it is. -/
def set_pkt_rsp_session_start (h : CTasPktHandlerServerCon) (client_type : Nat) (pkt_rsp : List Nat) :
    Nat × CTasPktHandlerServerCon :=
  let r := Tas.set_pkt_rsp_ping h.toBase TAS_PL1_CMD_SESSION_START client_type pkt_rsp
  (r.1, { h with mConInfo := r.2.mConInfo, tas_err := r.2.tas_err })

/-- The function `CTasClientServerCon::mSessionStart`: the value returned and
the client afterwards. -/
def mSessionStart (mb : Mailbox) (cl : CTasClientServerCon) (client_type : Nat)
    (identifier session_name session_pw : List Nat) (chl_target chl_param : Nat) : Nat × CTasClientServerCon :=
  if cl.mSessionStarted then
    (TAS_ERR_FN_USAGE, { cl with mTphsc := cl.mTphsc.fail TAS_ERR_FN_USAGE "ERROR: Session was already started" })
  else
    let rq := get_pkt_rq_session_start client_type identifier session_name session_pw chl_target chl_param
    let cl1 := { cl with mDeviceResetCount := 0xFFFFFFFF, sent := cl.sent ++ [rq] }
    match mb rq 1 with
    | none => cl1.handleErrorServerCon
    | some (rsp, _) =>
      let r := set_pkt_rsp_session_start cl1.mTphsc client_type rsp
      if r.1 ≠ TAS_ERR_NONE then (r.2.tas_err, { cl1 with mTphsc := r.2 })
      else (TAS_ERR_NONE, { cl1 with mTphsc := r.2.clear, mSessionStarted := true })

/-! ## The read/write client (`tas_client_rw.h`) -/

/-- State of a `CTasClientRw` object: its two base classes. -/
structure CTasClientRw where
  rw : CTasClientRwBase
  con : CTasClientServerCon

namespace CTasClientRw

/-- The function `CTasClientRw::session_start`: the value returned and the client afterwards. -/
def session_start (mb : Mailbox) (f : CTasClientRw) (identifier session_name session_pw : List Nat) :
    Nat × CTasClientRw :=
  let r := mSessionStart mb f.con TAS_CLIENT_TYPE_RW identifier session_name session_pw TAS_CHL_TGT_UNKNOWN 0
  if r.1 = TAS_ERR_NONE then
    (r.1, { rw := { f.rw with mTphRw := some (newFromConInfo r.2.mTphsc.mConInfo) }, con := r.2 })
  else (r.1, { f with con := r.2 })

/-- The function `CTasClientRw::device_reset_occurred`: the value returned and
the client afterwards; nothing when the null pointer `mTphRw` is dereferenced. -/
def device_reset_occurred (f : CTasClientRw) : Option (Bool × CTasClientRw) :=
  if f.con.mSessionStarted = false then some (false, f)
  else
    match f.rw.mTphRw with
    | none => none
    | some h =>
      let resetCount := h.mDeviceResetCount
      if f.con.mDeviceResetCount > resetCount then some (false, f)
      else
        some (decide (resetCount > f.con.mDeviceResetCount),
          { f with con := { f.con with mDeviceResetCount := resetCount } })

/-- The function `CTasClientRw::device_connect`: the value returned and the client afterwards. -/
def device_connect (mb : Mailbox) (f : CTasClientRw) (dco : Nat) : Nat × CTasClientRw :=
  let r := mDeviceConnect mb f.con dco
  match f.rw.mTphRw with
  | some h => (r.1, { f with con := { r.2 with mDeviceResetCount := h.mDeviceResetCount } })
  | none => (r.1, { f with con := r.2 })

end CTasClientRw

/-- The client the constructor `CTasClientRw(client_name)` builds (with the
client name of `newClientServerCon`). -/
def newClientRw : CTasClientRw := { rw := clientNoSession, con := newClientServerCon }

/-- The client the constructor `CTasClientRw(mb_if, max_rq_size, max_rsp_size,
max_num_rw)` builds, which is meant for tests. -/
def newClientRwTest (max_rq_size max_rsp_size max_num_rw : Nat) : CTasClientRw :=
  { rw := clientOf (mInit max_rq_size max_rsp_size max_num_rw),
    con := { newClientServerCon with mSessionStarted := true } }

/-- A read/write client is before its session: the session is not started and
there is no packet handler. -/
def NoSession (f : CTasClientRw) : Prop := f.con.mSessionStarted = false ∧ f.rw.mTphRw = none

/-! ## The channel: subscribing and receiving (`tas_pkt_handler_chl.cpp`, `tas_client_chl.cpp`)

The mailbox hands out the packets it has received in their order: a queue of
packets, of which `receive` takes the first; `receive` fails when the queue is
empty.  The time `tasutil_time_ms` gives is `clock k` at its call number `k`. -/

def TAS_CHSO_DEFAULT : Nat := 0
def TAS_CHSO_EXCLUSIVE : Nat := 0x01
def TAS_CHL_LOWEST_PRIORITY : Nat := 31
def TAS_PL1_CMD_CHL_SUBSCRIBE : Nat := 0xC0
def TAS_PL1_CMD_CHL_UNSUBSCRIBE : Nat := 0xC2
def TAS_PL1_CMD_CHL_MSG_D2C : Nat := 0xCD
def TAS_ERR_CHL_RCV : Nat := 0x0820
/-- The enumerator `TAS_DEFAULT_TIMEOUT_MS` of a build without `_DEBUG`. -/
def TAS_DEFAULT_TIMEOUT_MS : Nat := 20000
/-- The value of `sizeof(tas_pl1rsp_chl_subscribe_st)`. -/
def SIZEOF_PL1RSP_CHL_SUBSCRIBE : Nat := 8
/-- The value of `sizeof(tas_pl1rq_chl_unsubscribe_st)`. -/
def SIZEOF_PL1RQ_CHL_UNSUBSCRIBE : Nat := 4
/-- The value of `sizeof(tas_pl1rsp_chl_unsubscribe_st)`. -/
def SIZEOF_PL1RSP_CHL_UNSUBSCRIBE : Nat := 4
/-- The value of `sizeof(tas_pl1rsp_chl_msg_d2c_st)`. -/
def SIZEOF_PL1RSP_CHL_MSG_D2C : Nat := 8

namespace CTasPktHandlerChl

/-- The function `tas_clear_error_info` on the error info of the handler. -/
def clear (h : CTasPktHandlerChl) : CTasPktHandlerChl := { h with tas_err := TAS_ERR_NONE, info := "" }

/-- The error info is set to the code `e` with the text `s`. -/
def fail (h : CTasPktHandlerChl) (e : Nat) (s : String) : CTasPktHandlerChl := { h with tas_err := e, info := s }

/-- The function `CTasPktHandlerBase::mSetPktRspErrConnectionProtocol`. -/
def mSetPktRspErrConnectionProtocol (h : CTasPktHandlerChl) : CTasPktHandlerChl :=
  h.fail TAS_ERR_SERVER_CON "ERROR: Server connection protocol"

/-- The members of the base class `CTasPktHandlerBase` within a channel handler. -/
def toBase (h : CTasPktHandlerChl) : CTasPktHandlerBase := { mConInfo := h.mConInfo, tas_err := h.tas_err }

end CTasPktHandlerChl

/-- The function `CTasPktHandlerChl::get_pkt_rq_subscribe`: the handler
afterwards; the request is its buffer `mRqBuf`. -/
def get_pkt_rq_subscribe (h : CTasPktHandlerChl) (chl cht chso prio : Nat) : CTasPktHandlerChl :=
  let pl1PktSize := SIZEOF_PL1RQ_CHL_SUBSCRIBE
  let b0 := setWord h.mRqBuf 0 (4 + pl1PktSize)
  let b1 := setWord b0 1 (wordWlCmdU16 (pl1PktSize / 4 - 1) TAS_PL1_CMD_CHL_SUBSCRIBE 0)
  let b2 := setWord b1 2 (u8 chl + u8 cht * 2 ^ 8 + u8 chso * 2 ^ 16 + u8 prio * 2 ^ 24)
  { h with mChl := u8 chl, mCht := cht, mChso := chso, mRqBuf := b2 }

/-- The outputs of `set_pkt_rsp_subscribe`: the value returned, the handler
afterwards, `*cht`, `*chso` and `*prio`. -/
structure SubscribeRsp where
  ret : Nat
  h : CTasPktHandlerChl
  cht : Nat
  chso : Nat
  prio : Nat

/-- The function `CTasPktHandlerChl::set_pkt_rsp_subscribe`. -/
def set_pkt_rsp_subscribe (h : CTasPktHandlerChl) (pkt_rsp : List Nat) : SubscribeRsp :=
  let w := rspWord pkt_rsp 1
  let v := rspWord pkt_rsp 2
  let err := byte3 w
  let pl1PktSize := SIZEOF_PL1RSP_CHL_SUBSCRIBE
  let bad : SubscribeRsp :=
    { ret := TAS_ERR_SERVER_CON, h := h.mSetPktRspErrConnectionProtocol, cht := TAS_CHT_NONE,
      chso := TAS_CHSO_DEFAULT, prio := 0xFF }
  if rspWord pkt_rsp 0 ≠ 4 + pl1PktSize then bad
  else if byte1 w ≠ TAS_PL1_CMD_CHL_SUBSCRIBE ∨ byte0 w ≠ pl1PktSize / 4 - 1 then bad
  else if byte0 v ≠ h.mChl then bad
  else if err = TAS_PL_ERR_NO_ERROR ∧ byte1 v ≠ TAS_CHT_SEND ∧ byte1 v ≠ TAS_CHT_RCV ∧ byte1 v ≠ TAS_CHT_BIDI then bad
  else if byte2 v > TAS_CHSO_EXCLUSIVE then bad
  else if byte3 v > TAS_CHL_LOWEST_PRIORITY then bad
  else if err ≠ TAS_PL_ERR_NO_ERROR then
    if err = TAS_PL1_ERR_CMD_FAILED ∧ byte1 v ≠ h.mCht then
      let text :=
        if h.mChso = TAS_CHSO_EXCLUSIVE then
          "ERROR: Could not exclusively subscribe to channel " ++ toString h.mChl
            ++ " since already used by another client"
        else
          "ERROR: Could not subscribe to channel " ++ toString h.mChl
            ++ " since exclusively used by another client"
      { ret := TAS_ERR_CHL_SETUP, h := h.fail TAS_ERR_CHL_SETUP text, cht := TAS_CHT_NONE,
        chso := TAS_CHSO_DEFAULT, prio := 0xFF }
    else bad
  else { ret := TAS_ERR_NONE, h := h.clear, cht := byte1 v, chso := byte2 v, prio := byte3 v }

/-- The function `CTasPktHandlerChl::get_pkt_rq_unsubscribe`: the handler
afterwards; the request is its buffer `mRqBuf`. -/
def get_pkt_rq_unsubscribe (h : CTasPktHandlerChl) (chl : Nat) : CTasPktHandlerChl :=
  let pl1PktSize := SIZEOF_PL1RQ_CHL_UNSUBSCRIBE
  let b0 := setWord h.mRqBuf 0 (4 + pl1PktSize)
  let b1 := setWord b0 1 (u8 (pl1PktSize / 4 - 1) + TAS_PL1_CMD_CHL_UNSUBSCRIBE * 2 ^ 8 + u8 chl * 2 ^ 16)
  { h with mChl := u8 chl, mRqBuf := b1 }

/-- The function `CTasPktHandlerChl::set_pkt_rsp_unsubscribe`: the value
returned and the handler afterwards. -/
def set_pkt_rsp_unsubscribe (h : CTasPktHandlerChl) (pkt_rsp : List Nat) : Nat × CTasPktHandlerChl :=
  let w := rspWord pkt_rsp 1
  let pl1PktSize := SIZEOF_PL1RSP_CHL_UNSUBSCRIBE
  if rspWord pkt_rsp 0 ≠ 4 + pl1PktSize then (TAS_ERR_SERVER_CON, h.mSetPktRspErrConnectionProtocol)
  else if byte1 w ≠ TAS_PL1_CMD_CHL_UNSUBSCRIBE ∨ byte0 w ≠ pl1PktSize / 4 - 1 ∨ byte3 w ≠ TAS_PL_ERR_NO_ERROR then
    (TAS_ERR_SERVER_CON, h.mSetPktRspErrConnectionProtocol)
  else if byte2 w ≠ h.mChl then (TAS_ERR_SERVER_CON, h.mSetPktRspErrConnectionProtocol)
  else (TAS_ERR_NONE, h.clear)

/-- The outputs of `set_pkt_rcv_msg`: the value returned, the handler
afterwards, `*msg` as the index of the word of the packet it points at (nothing
for the null pointer), `*msg_length` and `*init`. -/
structure RcvMsgRsp where
  ret : Nat
  h : CTasPktHandlerChl
  msg : Option Nat
  msg_length : Nat
  init : Nat

/-- The function `CTasPktHandlerChl::set_pkt_rcv_msg`. -/
def set_pkt_rcv_msg (h : CTasPktHandlerChl) (pkt_rsp : List Nat) (chl : Nat) : RcvMsgRsp :=
  let w := rspWord pkt_rsp 1
  let v := rspWord pkt_rsp 2
  let err := byte3 w
  let msgLength := hi16 v
  let pl1PktSize := SIZEOF_PL1RSP_CHL_MSG_D2C
  let bad (h1 : CTasPktHandlerChl) : RcvMsgRsp :=
    { ret := TAS_ERR_SERVER_CON, h := h1.mSetPktRspErrConnectionProtocol, msg := none, msg_length := 0, init := 0 }
  let hr := { h with mDeviceResetCount := u32 (h.mDeviceResetCount + 1) }
  if rspWord pkt_rsp 0 = 4 + pl1PktSize ∧ byte1 w = TAS_PL1_CMD_CHL_MSG_D2C ∧ err = TAS_PL1_ERR_DEV_RESET then
    if byte0 w ≠ 1 ∨ byte0 v ≠ 0 ∨ byte1 v ≠ 0 ∨ msgLength ≠ 0 then bad h
    else { ret := TAS_ERR_NONE, h := hr.clear, msg := none, msg_length := 0, init := 0 }
  else if rspWord pkt_rsp 0 < 4 + pl1PktSize + 4 then bad h
  else if byte1 w ≠ TAS_PL1_CMD_CHL_MSG_D2C ∨ byte0 w ≠ pl1PktSize / 4 - 1 then bad h
  else if err ≠ TAS_PL1_ERR_DEV_RESET ∧ err ≠ TAS_PL_ERR_NO_ERROR then bad h
  else
    let h1 := if err = TAS_PL1_ERR_DEV_RESET then hr else h
    if byte0 v ≥ TAS_CHL_NUM_MAX ∨ byte1 v > TAS_CHO_INIT then bad h1
    else if rspWord pkt_rsp 0 ≠ u32 (4 + 8 + (msgLength + 3) / 4 * 4) then bad h1
    else if byte0 v ≠ chl then bad h1
    else if byte1 v = TAS_CHO_INIT then
      { ret := TAS_ERR_NONE, h := h1.clear, msg := some 4, msg_length := u16 (msgLength + (2 ^ 16 - 4)),
        init := rspWord pkt_rsp 3 }
    else { ret := TAS_ERR_NONE, h := h1.clear, msg := some 3, msg_length := msgLength, init := 0 }

/-- The condition of the assertion `pkt->msg_length >= 4` in the branch of
`set_pkt_rcv_msg` for a packet with the option `TAS_CHO_INIT`. -/
def rcvMsgAssert (pkt_rsp : List Nat) : Bool := decide (hi16 (rspWord pkt_rsp 2) ≥ 4)

/-- The first `n` bytes from word `wi` of a packet on: what a pointer to this
word with the length `n` gives the caller. -/
def msgBytes (pkt : List Nat) (wi n : Nat) : List Nat := (bytesOfWords pkt wi ((n + 3) / 4)).take n

/-- The function `CTasClientChl::session_start`: the value returned and the client afterwards. -/
def CTasClientChl.session_start (mb : Mailbox) (cl : CTasClientChl) (identifier session_name session_pw : List Nat)
    (chl_target chl_param : Nat) : Nat × CTasClientChl :=
  if cl.mChlCht ≠ TAS_CHT_NONE then
    (TAS_ERR_FN_USAGE, { cl with mTphChl := cl.mTphChl.fail TAS_ERR_FN_USAGE "ERROR: Channel is already subscribed." })
  else
    let r := mSessionStart mb cl.con TAS_CLIENT_TYPE_CHL identifier session_name session_pw chl_target chl_param
    if r.1 = TAS_ERR_NONE then
      (r.1, { cl with con := r.2, mTphChl := { cl.mTphChl with mConInfo := r.2.mTphsc.mConInfo } })
    else (r.1, { cl with con := r.2 })

/-- The function `CTasClientChl::device_connect`: the value returned and the client afterwards. -/
def CTasClientChl.device_connect (mb : Mailbox) (cl : CTasClientChl) (dco : Nat) : Nat × CTasClientChl :=
  if cl.mChlCht ≠ TAS_CHT_NONE then
    (TAS_ERR_FN_USAGE, { cl with mTphChl := cl.mTphChl.fail TAS_ERR_FN_USAGE "ERROR: Channel is already subscribed." })
  else
    let r := mDeviceConnect mb cl.con dco
    (r.1, { cl with con := { r.2 with mDeviceResetCount := cl.mTphChl.mDeviceResetCount } })

/-- The function `CTasClientChl::target_ping`: the value returned, the client
afterwards and `*con_info`. -/
def CTasClientChl.target_ping (mb : Mailbox) (cl : CTasClientChl) : Nat × CTasClientChl × tas_con_info_st :=
  if cl.mChlCht ≠ TAS_CHT_NONE then
    (TAS_ERR_FN_USAGE,
      { cl with mTphChl := cl.mTphChl.fail TAS_ERR_FN_USAGE "ERROR: Channel is already subscribed." }, conInfoZero)
  else
    let b0 := setWord cl.mTphChl.mRqBuf 0 (4 + SIZEOF_PL1RQ_PING)
    let b1 := setWord b0 1 (wordWlCmdU16 (SIZEOF_PL1RQ_PING / 4 - 1) TAS_PL1_CMD_PING 0)
    let h1 := { cl.mTphChl with mRqBuf := b1 }
    let cl1 := { cl with mTphChl := h1, sent := cl.sent ++ [pl2Frame b1] }
    match mb (pl2Frame b1) 1 with
    | none => (TAS_ERR_SERVER_CON, { cl1 with mTphChl := h1.fail TAS_ERR_SERVER_CON "ERROR: Server connection" }, conInfoZero)
    | some (rsp, _) =>
      let r := Tas.set_pkt_rsp_ping h1.toBase TAS_PL1_CMD_PING TAS_CLIENT_TYPE_CHL rsp
      let h2 := { h1 with mConInfo := r.2.mConInfo, tas_err := r.2.tas_err }
      if r.1 ≠ TAS_ERR_NONE then (r.2.tas_err, { cl1 with mTphChl := h2 }, conInfoZero)
      else (TAS_ERR_NONE, { cl1 with mTphChl := h2.clear }, r.2.mConInfo)

/-- The outputs of `subscribe`: the value returned, the client afterwards and
`*prio` (nothing when `prio` is the null pointer). -/
structure SubscribeOut where
  ret : Nat
  cl : CTasClientChl
  prio : Option Nat

/-- The function `CTasClientChl::subscribe`.  `prio` is nothing for the null
pointer, or the value `*prio` at the call. -/
def subscribe (mb : Mailbox) (cl : CTasClientChl) (chl cht chso : Nat) (prio : Option Nat) : SubscribeOut :=
  if cl.con.mSessionStarted = false then
    { ret := TAS_ERR_FN_USAGE, prio := prio
      cl := { cl with mTphChl := cl.mTphChl.fail TAS_ERR_FN_USAGE "ERROR: Session not yet started" } }
  else if cl.mChlCht ≠ TAS_CHT_NONE then
    { ret := TAS_ERR_FN_USAGE, prio := prio
      cl := { cl with mTphChl := cl.mTphChl.fail TAS_ERR_FN_USAGE "ERROR: Channel is already subscribed." } }
  else
    let cl0 := { cl with mChlNum := TAS_CHL_NUM_MAX }
    if chl ≥ TAS_CHL_NUM_MAX then
      let text := "ERROR: Channel number " ++ toString chl ++ " is too high. Only 0 to "
        ++ toString (TAS_CHL_NUM_MAX - 1) ++ " allowed."
      { ret := TAS_ERR_FN_PARAM, prio := prio, cl := { cl0 with mTphChl := cl0.mTphChl.fail TAS_ERR_FN_PARAM text } }
    else if cht ≠ TAS_CHT_SEND ∧ cht ≠ TAS_CHT_RCV ∧ cht ≠ TAS_CHT_BIDI then
      { ret := TAS_ERR_FN_PARAM, prio := prio
        cl := { cl0 with mTphChl := cl0.mTphChl.fail TAS_ERR_FN_PARAM "ERROR: Channel type is not supported" } }
    else if chso ≠ TAS_CHSO_DEFAULT ∧ chso ≠ TAS_CHSO_EXCLUSIVE then
      { ret := TAS_ERR_FN_PARAM, prio := prio
        cl := { cl0 with mTphChl := cl0.mTphChl.fail TAS_ERR_FN_PARAM "ERROR: Channel option is not supported" } }
    else
      let prioRequested :=
        match prio with
        | some p => if p ≤ TAS_CHL_LOWEST_PRIORITY then p else TAS_CHL_LOWEST_PRIORITY
        | none => TAS_CHL_LOWEST_PRIORITY
      let h1 := get_pkt_rq_subscribe cl0.mTphChl chl cht chso prioRequested
      let cl1 := { cl0 with mTphChl := h1, sent := cl0.sent ++ [pl2Frame h1.mRqBuf] }
      match mb (pl2Frame h1.mRqBuf) 1 with
      | none =>
        { ret := TAS_ERR_SERVER_CON, prio := prio
          cl := { cl1 with mTphChl := h1.fail TAS_ERR_SERVER_CON "ERROR: Server connection" } }
      | some (rsp, _) =>
        let r := set_pkt_rsp_subscribe h1 rsp
        if r.ret ≠ TAS_ERR_NONE then { ret := r.h.tas_err, prio := prio, cl := { cl1 with mTphChl := r.h } }
        else
          let rcv := decide (cht = TAS_CHT_RCV ∨ cht = TAS_CHT_BIDI)
          let con1 := { cl1.con with mRcvChlActive := rcv }
          { ret := TAS_ERR_NONE, prio := prio.map (fun _ => r.prio)
            cl := { cl1 with mTphChl := r.h.clear, mChlCht := cht, mChlNum := chl, con := con1 } }

/-- The `while (true)` loop of `unsubscribe`, entered with `k` calls of
`tasutil_time_ms` made: the packet in `pktRsp` when the loop is left by `break`
(nothing when `receive` failed) and the packets left in the mailbox. -/
def unsubscribeLoop (clock : Nat → Nat) (timeStartMs : Nat) : Nat → List (List Nat) → Option (List Nat) × List (List Nat)
  | _, [] => (none, [])
  | k, pkt :: q =>
    if byte1 (rspWord pkt 1) = TAS_PL1_CMD_CHL_UNSUBSCRIBE
        ∨ clock k > u64 (timeStartMs + u32 TAS_DEFAULT_TIMEOUT_MS) then (some pkt, q)
    else unsubscribeLoop clock timeStartMs (k + 1) q

/-- The function `CTasClientChl::unsubscribe`: the value returned, the client
afterwards and the packets left in the mailbox.  `send` is the call
`mMbIfChl->send(pktRq)`, `q` the packets the mailbox will receive. -/
def unsubscribe (send : List Nat → Bool) (clock : Nat → Nat) (q : List (List Nat)) (cl : CTasClientChl) :
    Nat × CTasClientChl × List (List Nat) :=
  if cl.mChlCht = TAS_CHT_NONE then (TAS_ERR_NONE, { cl with mTphChl := cl.mTphChl.clear }, q)
  else
    let h1 := get_pkt_rq_unsubscribe cl.mTphChl cl.mChlNum
    let con1 := { cl.con with mRcvChlActive := false }
    let cl1 := { cl with mTphChl := h1, mChlNum := TAS_CHL_NUM_MAX, mChlCht := TAS_CHT_NONE, con := con1,
                         sent := cl.sent ++ [pl2Frame h1.mRqBuf] }
    if send (pl2Frame h1.mRqBuf) = false then
      (TAS_ERR_SERVER_CON, { cl1 with mTphChl := h1.fail TAS_ERR_SERVER_CON "ERROR: Server connection" }, q)
    else
      match unsubscribeLoop clock (clock 0) 1 q with
      | (none, q1) =>
        (TAS_ERR_SERVER_CON, { cl1 with mTphChl := h1.fail TAS_ERR_SERVER_CON "ERROR: Server connection" }, q1)
      | (some pktRsp, q1) =>
        let r := set_pkt_rsp_unsubscribe h1 pktRsp
        if r.1 ≠ TAS_ERR_NONE then (r.2.tas_err, { cl1 with mTphChl := r.2 }, q1)
        else (TAS_ERR_NONE, { cl1 with mTphChl := r.2.clear }, q1)

/-- The outputs of `rcv_msg`: the value returned, the client afterwards, `*msg`
as the bytes it points at (nothing for the null pointer), `*msg_length`, `*init`
and the packets left in the mailbox. -/
structure RcvMsgOut where
  ret : Nat
  cl : CTasClientChl
  msg : Option (List Nat)
  msg_length : Nat
  init : Nat
  left : List (List Nat)

/-- The function `CTasClientChl::rcv_msg`; `q` are the packets the mailbox
receives within the timeout. -/
def rcv_msg (q : List (List Nat)) (cl : CTasClientChl) : RcvMsgOut :=
  if cl.mChlCht ≠ TAS_CHT_RCV ∧ cl.mChlCht ≠ TAS_CHT_BIDI then
    let text := "ERROR: Channel " ++ toString cl.mChlNum ++ " not subscribed for receiving messages"
    { ret := TAS_ERR_FN_USAGE, cl := { cl with mTphChl := cl.mTphChl.fail TAS_ERR_FN_USAGE text },
      msg := none, msg_length := 0, init := 0, left := q }
  else
    match q with
    | [] =>
      { ret := TAS_ERR_CHL_RCV, cl := { cl with mTphChl := cl.mTphChl.clear }, msg := none, msg_length := 0,
        init := 0, left := [] }
    | pktRsp :: q1 =>
      let r := set_pkt_rcv_msg cl.mTphChl pktRsp cl.mChlNum
      if r.ret ≠ TAS_ERR_NONE then
        { ret := r.h.tas_err, cl := { cl with mTphChl := r.h }, msg := none, msg_length := 0, init := 0, left := q1 }
      else if r.msg_length > r.h.mConInfo.msg_length_d2c then
        let text := "ERROR: Received message is longer than msg_length_d2c"
        { ret := TAS_ERR_GENERAL, cl := { cl with mTphChl := r.h.fail TAS_ERR_GENERAL text }, msg := none,
          msg_length := 0, init := 0, left := q1 }
      else
        { ret := TAS_ERR_NONE, cl := { cl with mTphChl := r.h.clear },
          msg := r.msg.map (fun wi => msgBytes pktRsp wi r.msg_length), msg_length := r.msg_length,
          init := r.init, left := q1 }

/-- The client the constructor `CTasClientChl(client_name)` builds. -/
def newClientChl : CTasClientChl :=
  { con := newClientServerCon, mTphChl := newHandlerChl conInfoZero, mChlCht := TAS_CHT_NONE,
    mChlNum := TAS_CHL_NUM_MAX, sent := [] }

/-- The client the constructor `CTasClientChl(mb_if)` builds, which is meant for tests. -/
def newClientChlTest : CTasClientChl :=
  { con := { newClientServerCon with mSessionStarted := true }, mTphChl := newHandlerChl conInfoZero,
    mChlCht := TAS_CHT_NONE, mChlNum := TAS_CHL_NUM_MAX, sent := [] }

/-- The states of a channel client: those the two constructors build, and those
the member functions lead to from there, for every mailbox and every argument. -/
inductive ChlReachable : CTasClientChl → Prop
  | new : ChlReachable newClientChl
  | test : ChlReachable newClientChlTest
  | session_start (mb : Mailbox) (cl : CTasClientChl) (i n p : List Nat) (t c : Nat) :
      ChlReachable cl → ChlReachable (cl.session_start mb i n p t c).2
  | device_connect (mb : Mailbox) (cl : CTasClientChl) (dco : Nat) :
      ChlReachable cl → ChlReachable (cl.device_connect mb dco).2
  | target_ping (mb : Mailbox) (cl : CTasClientChl) : ChlReachable cl → ChlReachable (cl.target_ping mb).2.1
  | subscribe (mb : Mailbox) (cl : CTasClientChl) (chl cht chso : Nat) (prio : Option Nat) :
      ChlReachable cl → ChlReachable (subscribe mb cl chl cht chso prio).cl
  | unsubscribe (send : List Nat → Bool) (clock : Nat → Nat) (q : List (List Nat)) (cl : CTasClientChl) :
      ChlReachable cl → ChlReachable (unsubscribe send clock q cl).2.1
  | send_msg (send : List Nat → Bool) (cl : CTasClientChl) (msg : List Nat) (msg_length init : Nat) :
      ChlReachable cl → ChlReachable (Tas.send_msg send cl msg msg_length init).2
  | rcv_msg (q : List (List Nat)) (cl : CTasClientChl) : ChlReachable cl → ChlReachable (Tas.rcv_msg q cl).cl

/-- The state of a channel client is consistent: the type of the channel is
none exactly when the number of the channel is `TAS_CHL_NUM_MAX` (no channel),
and `mRcvChlActive` holds exactly when the type is receive or bidirectional. -/
def ChlInv (cl : CTasClientChl) : Prop :=
  (cl.mChlCht = TAS_CHT_NONE ↔ cl.mChlNum = TAS_CHL_NUM_MAX)
    ∧ (cl.con.mRcvChlActive = true ↔ (cl.mChlCht = TAS_CHT_RCV ∨ cl.mChlCht = TAS_CHT_BIDI))

/-- The client is not subscribed to a channel. -/
def Unsubscribed (cl : CTasClientChl) : Prop :=
  cl.mChlCht = TAS_CHT_NONE ∧ cl.mChlNum = TAS_CHL_NUM_MAX ∧ cl.con.mRcvChlActive = false

/-- A device reset notification: the packet of 12 bytes with the command
`TAS_PL1_CMD_CHL_MSG_D2C`, `wl = 1`, the code `TAS_PL1_ERR_DEV_RESET`, and the
channel, the option and the message length 0. -/
def resetFrame : List Nat :=
  [12, 1 + TAS_PL1_CMD_CHL_MSG_D2C * 2 ^ 8 + TAS_PL1_ERR_DEV_RESET * 2 ^ 24, 0]

/-- A message from the device without error on the channel `chl`: the option
`cho`, the message length `msg_length`, and the words `ws` after the header. -/
def msgFrame (chl cho msg_length : Nat) (ws : List Nat) : List Nat :=
  [4 + 8 + (msg_length + 3) / 4 * 4, 1 + TAS_PL1_CMD_CHL_MSG_D2C * 2 ^ 8 + TAS_PL_ERR_NO_ERROR * 2 ^ 24,
    u8 chl + u8 cho * 2 ^ 8 + u16 msg_length * 2 ^ 16] ++ ws

/-- A well-formed response to a subscribe request without error. -/
def subscribeRspOf (chl cht chso prio : Nat) : List Nat :=
  [12, 1 + TAS_PL1_CMD_CHL_SUBSCRIBE * 2 ^ 8 + TAS_PL_ERR_NO_ERROR * 2 ^ 24,
    u8 chl + u8 cht * 2 ^ 8 + u8 chso * 2 ^ 16 + u8 prio * 2 ^ 24]

/-- A clock that stands still. -/
def clockZero : Nat → Nat := fun _ => 0

/-- The members of a channel client that tell its subscription: the type and
the number of the channel, and `mRcvChlActive`. -/
def chlView (cl : CTasClientChl) : Nat × Nat × Bool := (cl.mChlCht, cl.mChlNum, cl.con.mRcvChlActive)

/-! ## Notions for the block loops and the response parser -/

/-- One iteration of the block loop of `rw_add_rd`: the cursor at the end of the body. -/
def rdBlkIter (c : RdCursor) (acc_mode addrMap : Nat) : RdCursor :=
  let nbBlk := mGetRdDataBlkSizeInPktRsp c.h c.nb
  let h1 := mPktAdd_Rd c.h c.a nbBlk c.d acc_mode addrMap
  let h2 := if nbBlk < TAS_PL0_DATA_BLK_SIZE ∧ nbBlk < and_not7 c.nb then mPktFinalize h1 true else h1
  { h := h2, a := u64 (c.a + nbBlk), d := c.d + nbBlk, nb := sub32 c.nb nbBlk }

/-- One iteration of the block loop of `rw_add_wr`: the cursor at the end of the body. -/
def wrBlkIter (c : WrCursor) (acc_mode addrMap : Nat) : WrCursor :=
  let nbBlk := mGetWrDataBlkSizeInPktRq c.h c.nb c.a
  let h1 := mPktAdd_Wr c.h c.a nbBlk c.d acc_mode addrMap
  let h2 := if nbBlk < TAS_PL0_DATA_BLK_SIZE ∧ nbBlk < and_not7 c.nb then mPktFinalize h1 true else h1
  { h := h2, a := u64 (c.a + nbBlk), d := c.d.drop nbBlk, nb := sub32 c.nb nbBlk }

/-- The limits of a handler while a request is planned with negotiated PL2
packet sizes of at least 128 bytes: both sizes are 32 bit values of at least
128, the request buffer and the response limit of the handler are at least 128
bytes (the constructors assert buffers of at least 256 bytes, of which 64 are
kept free), and the block size caps are those `rw_start` computes from the sizes. -/
def PlanLimits (h : CTasPktHandlerRw) : Prop := Room 96 h ∧ CapsSet h

/-- The iteration of the loop of `rw_set_rsp` at `c` reads the entry
`mPl0Trans[iTrans]`: it is neither at a pl0-start nor at a pl0-end. -/
def pl0EntryRead (rsp : List Nat) (c : RspCursor) : Bool := !atPl0Start c && !atPl0End rsp c

/-- The index `wi` with which the loop of `rw_set_rsp(rsp, num_bytes)` ends. -/
def rspEndWi (h : CTasPktHandlerRw) (hm : Nat → Nat) (rsp : List Nat) (num_bytes : Nat) : Nat :=
  (rspLoop rsp (num_bytes / 4) (num_bytes / 4) (rspCursor0 h hm)).2.wi

/-! ## Inputs of the examples -/

/-- A channel client subscribed to channel 3 for receiving, with messages of up
to 1024 bytes in both directions. -/
def chlRcvClient : CTasClientChl := chlClientOf (chlConInfo 1024 1024) TAS_CHT_RCV 3

/-- A message of the device on channel 3 without init word: the five bytes `ABCDE`. -/
def helloFrame : List Nat := msgFrame 3 TAS_CHO_NONE 5 [0x44434241, 0x45]

/-- Three reads of 4 bytes each, at `0x1000`, `0x2000` and `0x3000`. -/
def threeReads : List tas_rw_trans_st :=
  [rdTrans 0x1000 4 0x100 0 0, rdTrans 0x2000 4 0x200 0 0, rdTrans 0x3000 4 0x300 0 0]

/-- The word of a response that answers a pl0-start without error. -/
def pl0StartRsp : Nat := TAS_PL1_CMD_PL0_START * 2 ^ 8 + TAS_PL_ERR_NO_ERROR * 2 ^ 24

/-- A read/write client as the constructor for tests builds it (buffers of 256
bytes, 16 micro-ops), whose reference `mDeviceResetCount` is `ref` and whose
packet handler has counted `count` device resets. -/
def rwClientAt (ref count : Nat) : CTasClientRw :=
  { rw := clientOf (addResets count (mInit 256 256 16)),
    con := { newClientServerCon with mSessionStarted := true, mDeviceResetCount := ref } }

/-! ## The arrays of the handlers -/

/-- The request words and the table entries of `h` lie inside the arrays that
`mInit` allocates.  `mRqBuf` has `max_rq_size / 4` words and `mMaxRqSize` is
`max_rq_size - BUF_ALLOWANCE`, so the first condition is the assertion at the
head of `rw_get_rq_size`; `mPktAdd_Wr` copies the data of a block only when the
block ends below `mRqWiMax`, and `mPktAdd_Fill` asserts the same bound; the four
tables have `mNumTransMax` entries each.  The buffer and the tables only grow
while a request is planned, so a state with this property was reached without a
store outside the arrays. -/
def InArrays (h : CTasPktHandlerRw) : Prop :=
  4 * h.mRqBufWi ≤ h.mMaxRqSize + BUF_ALLOWANCE ∧ h.mRqBufWi ≤ h.mRqWiMax
    ∧ h.mPl0NumTrans ≤ h.mNumTransMax ∧ h.mRwNumTrans ≤ h.mNumTransMax

instance (h : CTasPktHandlerRw) : Decidable (InArrays h) := by unfold InArrays; infer_instance

/-- If the call of `rw_add_rd` or `rw_add_wr` with the result `r` returned, the
request that `rw_get_rq` would hand out in the state it left lies inside the
arrays: the words and entries written and the word of the pl0-end that closes
the open PL2 packet.  Nothing is said when the call did not return. -/
def PlanInArrays (r : Option (Bool × CTasPktHandlerRw)) : Prop :=
  match r with
  | some (_, h) => InArrays (rw_get_rq h).1
  | none => True

instance (r : Option (Bool × CTasPktHandlerRw)) : Decidable (PlanInArrays r) :=
  match r with
  | some (_, h) => inferInstanceAs (Decidable (InArrays (rw_get_rq h).1))
  | none => isTrue trivial

/-- The sums and the product that `mCheckLimits(num_bytes_rd, num_bytes_wr)`
compares are below `2^32`: the `uint32_t` arithmetic of the check is exact. -/
def CheckLimitsExact (h : CTasPktHandlerRw) (num_bytes_rd num_bytes_wr : Nat) : Prop :=
  h.mRqBufWi * 4 + num_bytes_wr + 4 < 2 ^ 32 ∧ h.mRqWiMax * 4 < 2 ^ 32
    ∧ h.mRspSize + num_bytes_rd + 4 < 2 ^ 32

instance (h : CTasPktHandlerRw) (a b : Nat) : Decidable (CheckLimitsExact h a b) := by
  unfold CheckLimitsExact; infer_instance

/-- Every iteration of the loop of `rw_set_rsp(rsp, num_bytes)` that reads an
entry of `mPl0Trans` reads one of the entries planned for this request.  (An
entry beyond them holds what an earlier request left in the table.) -/
def ReadsPlanned (h : CTasPktHandlerRw) (hm : Nat → Nat) (rsp : List Nat) (num_bytes : Nat) : Prop :=
  ∀ c ∈ rspIters h hm rsp num_bytes, pl0EntryRead rsp c = true → c.iTrans < h.mPl0NumTrans

instance (h : CTasPktHandlerRw) (hm : Nat → Nat) (rsp : List Nat) (num_bytes : Nat) :
    Decidable (ReadsPlanned h hm rsp num_bytes) := by
  unfold ReadsPlanned; infer_instance

/-- The value the constructor `CTasPktHandlerChl(ei)` gives `mMaxRqSize`; the
request buffer `mRqBuf` it allocates has `mMaxRqSize / 4` words. -/
def CHL_MAX_RQ_SIZE : Nat := TAS_PL1_CHL_MAX_MSG_SIZE + 64

/-- The byte offset in `mRqBuf` at which the `memcpy` of `get_pkt_send_msg`
ends: it copies `msg_length` bytes to `&mRqBuf[4]` with an init word and to
`&mRqBuf[3]` without. -/
def sendMsgCopyEnd (msg_length init : Nat) : Nat := (if init ≠ 0 then 4 else 3) * 4 + msg_length

/-- A 7 byte read at the odd address `0x70000001`: it needs three micro-ops. -/
def read7 : List tas_rw_trans_st := [rdTrans 0x70000001 7 0x1000 0 0]

end Tas


/-!
# Basic facts: machine arithmetic and the members each planner step leaves alone
-/

namespace Tas

/-! ## Machine arithmetic -/

theorem u8_eq (x : Nat) : u8 x = x % 256 := rfl
theorem u16_eq (x : Nat) : u16 x = x % 65536 := rfl
theorem u32_eq (x : Nat) : u32 x = x % 4294967296 := rfl
theorem u64_eq (x : Nat) : u64 x = x % 18446744073709551616 := rfl

theorem sub32_eq (a b : Nat) (hb : b ≤ a) (ha : a < 2 ^ 32) : sub32 a b = a - b := by
  unfold sub32
  have h1 : b % 2 ^ 32 = b := Nat.mod_eq_of_lt (by omega)
  rw [h1]
  omega

/-- Masking the low `a` bits away: for `x` below `2^(a+b)`, `x & (2^a * (2^b - 1))` is `x - x % 2^a`. -/
theorem and_high_mask (x a b : Nat) (hx : x < 2 ^ (a + b)) :
    x &&& (2 ^ a * (2 ^ b - 1)) = x - x % 2 ^ a := by
  have hx2 : x - x % 2 ^ a = 2 ^ a * (x / 2 ^ a) + 0 := by
    have := Nat.div_add_mod x (2 ^ a)
    omega
  rw [hx2]
  apply Nat.eq_of_testBit_eq
  intro i
  have hm : 2 ^ a * (2 ^ b - 1) = 2 ^ a * (2 ^ b - 1) + 0 := by omega
  rw [Nat.testBit_and, hm, Nat.testBit_mul_pow_two_add _ (Nat.two_pow_pos a),
    Nat.testBit_mul_pow_two_add _ (Nat.two_pow_pos a)]
  by_cases hi : i < a
  · simp [hi]
  · simp only [hi, if_false, Nat.testBit_two_pow_sub_one]
    have e1 : (x / 2 ^ a).testBit (i - a) = x.testBit i := by
      rw [← Nat.shiftRight_eq_div_pow, Nat.testBit_shiftRight]
      congr 1
      omega
    rw [e1]
    by_cases hb : i - a < b
    · simp [hb]
    · have hxi : x.testBit i = false := by
        apply Nat.testBit_lt_two_pow
        calc x < 2 ^ (a + b) := hx
          _ ≤ 2 ^ i := Nat.pow_le_pow_right (by decide) (by omega)
      simp [hb, hxi]

theorem and_not7_eq (nb : Nat) (h : nb < 2 ^ 32) : and_not7 nb = nb - nb % 8 := by
  have := and_high_mask nb 3 29 (by simpa using h)
  simpa [and_not7] using this

theorem and_base_mask (addr : Nat) (h : addr < 2 ^ 64) :
    addr &&& 0xFFFFFFFFFFFF0000 = addr - addr % 65536 := by
  have := and_high_mask addr 16 48 (by simpa using h)
  simpa using this

theorem and_ffff (addr : Nat) : addr &&& 0xFFFF = addr % 65536 :=
  Nat.and_pow_two_sub_one_eq_mod addr 16

theorem and_one_ne (a : Nat) : (a &&& 1 ≠ 0) ↔ a % 2 = 1 := by
  rw [Nat.and_one_is_mod]; omega

theorem and_two_ne (a : Nat) : (a &&& 2 ≠ 0) ↔ a % 4 ≥ 2 := by
  have h := Nat.and_two_pow a 1
  have t := Nat.testBit_to_div_mod (x := a) (i := 1)
  simp only [pow_one] at h t
  rw [h]
  by_cases c : a / 2 % 2 = 1
  · simp [t, c]; omega
  · simp [t, c]; omega

theorem and_four_ne (a : Nat) : (a &&& 4 ≠ 0) ↔ a % 8 ≥ 4 := by
  have h := Nat.and_two_pow a 2
  have t := Nat.testBit_to_div_mod (x := a) (i := 2)
  norm_num at h t
  rw [h]
  by_cases c : a / 4 % 2 = 1
  · simp [t, c]; omega
  · simp [t, c]; omega

/-! ## Members left alone by the steps of the planner -/

@[simp] theorem Caps_mPl2PktInit (h : CTasPktHandlerRw) : Caps (mPl2PktInit h) = Caps h := rfl
@[simp] theorem Recs_mPl2PktInit (h : CTasPktHandlerRw) : Recs (mPl2PktInit h) = Recs h := rfl

@[simp] theorem Caps_mPktFinalize (h : CTasPktHandlerRw) (b : Bool) :
    Caps (mPktFinalize h b) = Caps h := by
  cases b <;> rfl

@[simp] theorem Recs_mPktFinalize (h : CTasPktHandlerRw) (b : Bool) :
    Recs (mPktFinalize h b) = Recs h := by
  cases b <;> rfl

@[simp] theorem Caps_emit (h : CTasPktHandlerRw) (ws : List Nat) (r : Nat) :
    Caps (emit h ws r) = Caps h := rfl
@[simp] theorem Recs_emit (h : CTasPktHandlerRw) (ws : List Nat) (r : Nat) :
    Recs (emit h ws r) = Recs h := rfl

@[simp] theorem Caps_finalizeIfFull (h : CTasPktHandlerRw) : Caps (finalizeIfFull h) = Caps h := by
  unfold finalizeIfFull; split <;> simp
@[simp] theorem Recs_finalizeIfFull (h : CTasPktHandlerRw) : Recs (finalizeIfFull h) = Recs h := by
  unfold finalizeIfFull; split <;> simp

@[simp] theorem Caps_mPktFinalizeIfNeeded (h : CTasPktHandlerRw) (a b : Nat) :
    Caps (mPktFinalizeIfNeeded h a b) = Caps h := by
  unfold mPktFinalizeIfNeeded; split <;> simp
@[simp] theorem Recs_mPktFinalizeIfNeeded (h : CTasPktHandlerRw) (a b : Nat) :
    Recs (mPktFinalizeIfNeeded h a b) = Recs h := by
  unfold mPktFinalizeIfNeeded; split <;> simp

@[simp] theorem Caps_orAddrMapMask (h : CTasPktHandlerRw) (a : Nat) : Caps (orAddrMapMask h a) = Caps h := rfl
@[simp] theorem Recs_orAddrMapMask (h : CTasPktHandlerRw) (a : Nat) : Recs (orAddrMapMask h a) = Recs h := rfl
@[simp] theorem Caps_setAddrMap (h : CTasPktHandlerRw) (a : Nat) : Caps (setAddrMap h a) = Caps h := by
  unfold setAddrMap; split <;> rfl
@[simp] theorem Recs_setAddrMap (h : CTasPktHandlerRw) (a : Nat) : Recs (setAddrMap h a) = Recs h := by
  unfold setAddrMap; split <;> rfl
@[simp] theorem Caps_setAccMode (h : CTasPktHandlerRw) (a : Nat) : Caps (setAccMode h a) = Caps h := by
  unfold setAccMode; split <;> rfl
@[simp] theorem Recs_setAccMode (h : CTasPktHandlerRw) (a : Nat) : Recs (setAccMode h a) = Recs h := by
  unfold setAccMode; split <;> rfl
@[simp] theorem Caps_setBaseAddr (h : CTasPktHandlerRw) (a : Nat) : Caps (setBaseAddr h a) = Caps h := by
  unfold setBaseAddr; split <;> rfl
@[simp] theorem Recs_setBaseAddr (h : CTasPktHandlerRw) (a : Nat) : Recs (setBaseAddr h a) = Recs h := by
  unfold setBaseAddr; split <;> rfl

@[simp] theorem Caps_setAddr (h : CTasPktHandlerRw) (a b c : Nat) :
    Caps (mPktAdd_SetAddrMapAccModeBaseAddr h a b c) = Caps h := by
  simp [mPktAdd_SetAddrMapAccModeBaseAddr]
@[simp] theorem Recs_setAddr (h : CTasPktHandlerRw) (a b c : Nat) :
    Recs (mPktAdd_SetAddrMapAccModeBaseAddr h a b c) = Recs h := by
  simp [mPktAdd_SetAddrMapAccModeBaseAddr]

@[simp] theorem Caps_pktPrep (h : CTasPktHandlerRw) (a b c d e : Nat) :
    Caps (pktPrep h a b c d e) = Caps h := by
  simp [pktPrep]
@[simp] theorem Recs_pktPrep (h : CTasPktHandlerRw) (a b c d e : Nat) :
    Recs (pktPrep h a b c d e) = Recs h := by
  simp [pktPrep]

@[simp] theorem Caps_recordPl0 (h : CTasPktHandlerRw) (a b c : Nat) (d : List Nat) (e : Nat) :
    Caps (recordPl0 h a b c d e) = Caps h := rfl
@[simp] theorem Caps_recordRw (h : CTasPktHandlerRw) (a b c : Nat) (d : List Nat) (e : Nat) :
    Caps (recordRw h a b c d e) = Caps h := rfl

@[simp] theorem setAddr_accMode (h : CTasPktHandlerRw) (a b c : Nat) :
    (mPktAdd_SetAddrMapAccModeBaseAddr h a b c).mPl0AccMode = b := by
  simp only [mPktAdd_SetAddrMapAccModeBaseAddr, setBaseAddr, setAccMode]
  split_ifs <;> simp_all [emit]

@[simp] theorem setAddr_addrMap (h : CTasPktHandlerRw) (a b c : Nat) :
    (mPktAdd_SetAddrMapAccModeBaseAddr h a b c).mPl0AddrMap = a := by
  simp only [mPktAdd_SetAddrMapAccModeBaseAddr, setBaseAddr, setAccMode, setAddrMap]
  split_ifs <;> simp_all [emit, orAddrMapMask]

@[simp] theorem pktPrep_accMode (h : CTasPktHandlerRw) (a b c d e : Nat) :
    (pktPrep h a b c d e).mPl0AccMode = b := by
  simp [pktPrep]

@[simp] theorem pktPrep_addrMap (h : CTasPktHandlerRw) (a b c d e : Nat) :
    (pktPrep h a b c d e).mPl0AddrMap = a := by
  simp [pktPrep]

theorem Caps_mPktAdd_Rd (h : CTasPktHandlerRw) (a n d m am : Nat) :
    Caps (mPktAdd_Rd h a n d m am) = Caps h := by
  unfold mPktAdd_Rd; split <;> simp

theorem Caps_mPktAdd_Wr (h : CTasPktHandlerRw) (a n : Nat) (d : List Nat) (m am : Nat) :
    Caps (mPktAdd_Wr h a n d m am) = Caps h := by
  unfold mPktAdd_Wr; split <;> simp

theorem Caps_mPktAdd_Fill (h : CTasPktHandlerRw) (a n v m am : Nat) :
    Caps (mPktAdd_Fill h a n v m am) = Caps h := by
  unfold mPktAdd_Fill; simp

attribute [simp] Caps_mPktAdd_Rd Caps_mPktAdd_Wr Caps_mPktAdd_Fill

@[simp] theorem Caps_addOp (t : tas_rw_trans_st) (h : CTasPktHandlerRw) (off k : Nat) :
    Caps (addOp t h off k) = Caps h := by
  unfold addOp; split_ifs <;> simp

@[simp] theorem Caps_runTrace (t : tas_rw_trans_st) (tr : List (Option Nat)) :
    ∀ (h : CTasPktHandlerRw) (off : Nat), Caps (runTrace t h off tr) = Caps h := by
  induction tr with
  | nil => intro h off; rfl
  | cons e r ih =>
    intro h off
    cases e with
    | none => simp [runTrace, ih]
    | some k => simp [runTrace, ih]

/-- The response entry with which a micro-op or a user transaction is recorded. -/
theorem Recs_recordPl0 (h : CTasPktHandlerRw) (a b c : Nat) (d : List Nat) (e : Nat) :
    Recs (recordPl0 h a b c d e) =
      (h.mPl0Trans ++ [{ addr := a, num_bytes := b, acc_mode := h.mPl0AccMode, addr_map := h.mPl0AddrMap,
                         type := c, wdata := d, rdata := e }],
       h.mPl0TransRsp ++ [{ num_bytes_ok := 0, pl_err := TAS_PL_ERR_PROTOCOL }], h.mRwTrans, h.mRwTransRsp) := rfl

theorem Recs_eq_iff (h h' : CTasPktHandlerRw) :
    Recs h' = Recs h ↔ h'.mPl0Trans = h.mPl0Trans ∧ h'.mPl0TransRsp = h.mPl0TransRsp
      ∧ h'.mRwTrans = h.mRwTrans ∧ h'.mRwTransRsp = h.mRwTransRsp := by
  simp [Recs, Prod.ext_iff]

theorem Recs_mPktAdd_Rd (h : CTasPktHandlerRw) (a n d m am : Nat) (hn : n ≠ 0) :
    Recs (mPktAdd_Rd h a n d m am) =
      (h.mPl0Trans ++ [{ addr := a, num_bytes := n, acc_mode := m, addr_map := am,
                         type := TAS_RW_TT_RD, wdata := [], rdata := d }],
       h.mPl0TransRsp ++ [{ num_bytes_ok := 0, pl_err := TAS_PL_ERR_PROTOCOL }], h.mRwTrans, h.mRwTransRsp) := by
  have e := (Recs_eq_iff h (pktPrep h am m a (8 + 4) (u32 (4 + roundUp4 n + 4)))).1 (Recs_pktPrep _ _ _ _ _ _)
  simp only [mPktAdd_Rd, if_neg hn, Recs_recordPl0]
  simp [emit, e]

theorem Recs_mPktAdd_Wr (h : CTasPktHandlerRw) (a n : Nat) (d : List Nat) (m am : Nat) (hn : n ≠ 0) :
    Recs (mPktAdd_Wr h a n d m am) =
      (h.mPl0Trans ++ [{ addr := a, num_bytes := n, acc_mode := m, addr_map := am,
                         type := TAS_RW_TT_WR, wdata := d, rdata := 0 }],
       h.mPl0TransRsp ++ [{ num_bytes_ok := 0, pl_err := TAS_PL_ERR_PROTOCOL }], h.mRwTrans, h.mRwTransRsp) := by
  have e := (Recs_eq_iff h (pktPrep h am m a (4 + roundUp4 n + 4) (4 + 4))).1 (Recs_pktPrep _ _ _ _ _ _)
  simp only [mPktAdd_Wr, if_neg hn, Recs_recordPl0]
  simp [emit, e]

theorem Recs_mPktAdd_Fill (h : CTasPktHandlerRw) (a n v m am : Nat) :
    Recs (mPktAdd_Fill h a n v m am) =
      (h.mPl0Trans ++ [{ addr := a, num_bytes := n, acc_mode := m, addr_map := am,
                         type := TAS_RW_TT_FILL, wdata := bytesOfU64 v, rdata := 0 }],
       h.mPl0TransRsp ++ [{ num_bytes_ok := 0, pl_err := TAS_PL_ERR_PROTOCOL }], h.mRwTrans, h.mRwTransRsp) := by
  have e := (Recs_eq_iff h (pktPrep h am m a (4 + 8 + 4) (4 + 4))).1 (Recs_pktPrep _ _ _ _ _ _)
  simp only [mPktAdd_Fill, Recs_recordPl0]
  simp [emit, e]

theorem Recs_addOp (t : tas_rw_trans_st) (h : CTasPktHandlerRw) (off k : Nat) (hk : k ≠ 0) :
    Recs (addOp t h off k) =
      (h.mPl0Trans ++ [opOf t off k],
       h.mPl0TransRsp ++ [{ num_bytes_ok := 0, pl_err := TAS_PL_ERR_PROTOCOL }], h.mRwTrans, h.mRwTransRsp) := by
  unfold addOp opOf
  split_ifs
  · exact Recs_mPktAdd_Rd _ _ _ _ _ _ hk
  · exact Recs_mPktAdd_Wr _ _ _ _ _ _ hk
  · exact Recs_mPktAdd_Fill _ _ _ _ _ _

theorem Recs_runTrace (t : tas_rw_trans_st) (tr : List (Option Nat)) :
    ∀ (h : CTasPktHandlerRw) (off : Nat), (∀ k ∈ traceSizes tr, k ≠ 0) →
      Recs (runTrace t h off tr) =
        (h.mPl0Trans ++ opsOf t off (traceSizes tr),
         h.mPl0TransRsp ++ List.replicate (traceSizes tr).length { num_bytes_ok := 0, pl_err := TAS_PL_ERR_PROTOCOL },
         h.mRwTrans, h.mRwTransRsp) := by
  induction tr with
  | nil => intro h off _; simp [runTrace, traceSizes, opsOf, Recs]
  | cons e r ih =>
    intro h off hk
    cases e with
    | none =>
      have hk2 : ∀ k ∈ traceSizes r, k ≠ 0 := by simpa [traceSizes] using hk
      have e := (Recs_eq_iff h (mPktFinalize h true)).1 (Recs_mPktFinalize h true)
      simp only [runTrace, ih _ _ hk2]
      simp [traceSizes, e]
    | some k =>
      have hk1 : k ≠ 0 := hk k (by simp [traceSizes])
      have hk2 : ∀ k ∈ traceSizes r, k ≠ 0 := by
        intro k' hk'
        exact hk k' (by simp [traceSizes] at hk' ⊢; exact Or.inr hk')
      have e := Recs_addOp t h off k hk1
      simp only [Recs, Prod.mk.injEq] at e
      simp only [runTrace, ih _ _ hk2]
      simp [traceSizes, opsOf, e, List.replicate_succ]

end Tas


/-!
# The calls made while a transaction is added

`rw_add_rd`, `rw_add_wr` and `rw_add_fill` are a prologue of at most two calls
of `mPktFinalize`, then a sequence of micro-ops and calls of `mPktFinalize` (a
trace), then the record of the user transaction.
-/

namespace Tas

theorem runTrace_append (t : tas_rw_trans_st) (tr1 tr2 : List (Option Nat)) :
    ∀ (h : CTasPktHandlerRw) (off : Nat),
      runTrace t h off (tr1 ++ tr2) = runTrace t (runTrace t h off tr1) (off + (traceSizes tr1).sum) tr2 := by
  induction tr1 with
  | nil => intro h off; simp [runTrace, traceSizes]
  | cons e r ih =>
    intro h off
    cases e with
    | none => simp [runTrace, ih, traceSizes]
    | some k => simp [runTrace, ih, traceSizes, Nat.add_assoc]

theorem TraceOK_append (addr : Nat) (tr1 tr2 : List (Option Nat)) :
    ∀ off : Nat, TraceOK addr off (tr1 ++ tr2) ↔
      TraceOK addr off tr1 ∧ TraceOK addr (off + (traceSizes tr1).sum) tr2 := by
  induction tr1 with
  | nil => intro off; simp [TraceOK, traceSizes]
  | cons e r ih =>
    intro off
    cases e with
    | none => simp [TraceOK, ih, traceSizes]
    | some k => simp [TraceOK, ih, traceSizes, Nat.add_assoc, and_assoc]

@[simp] theorem traceSizes_append (tr1 tr2 : List (Option Nat)) :
    traceSizes (tr1 ++ tr2) = traceSizes tr1 ++ traceSizes tr2 := by
  simp [traceSizes]

@[simp] theorem traceSizes_nil : traceSizes [] = [] := rfl
@[simp] theorem traceSizes_some (k : Nat) : traceSizes [some k] = [k] := rfl
@[simp] theorem traceSizes_none : traceSizes [none] = [] := rfl

/-! ## Reads -/

theorem rdProg_step {t : tas_rw_trans_st} {h0 : CTasPktHandlerRw} {c : RdCursor}
    {tr : List (Option Nat)} {off : Nat} (p : RdProg t h0 c tr off)
    (ht : t.type = TAS_RW_TT_RD) (hn : t.num_bytes < 2 ^ 32) (k : Nat)
    (hk : k ≤ c.nb) (hk0 : k ≠ 0) (hv : ValidOp (t.addr + off) k) :
    RdProg t h0 (rdStep c k t.acc_mode (aliasMap t.addr_map)) (tr ++ [some k]) (off + k) := by
  have hnb := p.nb
  have hle := p.le
  refine ⟨?_, ?_, ?_, ?_, ?_, ?_, ?_, ?_⟩
  · rw [runTrace_append, ← p.run, p.sum]
    simp [runTrace, addOp, ht, rdStep, p.a, p.d]
  · simp only [rdStep, p.a, u64_eq]; omega
  · simp only [rdStep, p.d]; omega
  · simp only [rdStep]; rw [sub32_eq _ _ hk (by omega)]; omega
  · omega
  · rw [TraceOK_append]; exact ⟨p.ok, by simpa [TraceOK, p.sum] using hv⟩
  · simp [p.sum]
  · intro k' hk'
    simp only [traceSizes_append, traceSizes_some, List.mem_append, List.mem_singleton] at hk'
    rcases hk' with h | h
    · exact p.pos k' h
    · exact h ▸ hk0

theorem rdProg_fin {t : tas_rw_trans_st} {h0 : CTasPktHandlerRw} {c : RdCursor}
    {tr : List (Option Nat)} {off : Nat} (p : RdProg t h0 c tr off) :
    RdProg t h0 { c with h := mPktFinalize c.h true } (tr ++ [none]) off := by
  refine ⟨?_, p.a, p.d, p.nb, p.le, ?_, ?_, ?_⟩
  · rw [runTrace_append, ← p.run]; simp [runTrace]
  · rw [TraceOK_append]; exact ⟨p.ok, by simp [TraceOK]⟩
  · simpa using p.sum
  · simpa using p.pos

theorem rdProg_maybe {t : tas_rw_trans_st} {h0 : CTasPktHandlerRw} {c : RdCursor}
    {tr : List (Option Nat)} {off : Nat} (p : RdProg t h0 c tr off)
    (ht : t.type = TAS_RW_TT_RD) (hn : t.num_bytes < 2 ^ 32) (cond : Prop) [Decidable cond] (k : Nat)
    (hk0 : k ≠ 0) (hc : cond → k ≤ c.nb ∧ ValidOp (t.addr + off) k) :
    ∃ tr' off', RdProg t h0 (if cond then rdStep c k t.acc_mode (aliasMap t.addr_map) else c) tr' off'
      ∧ ((¬cond ∧ tr' = tr ∧ off' = off) ∨ (cond ∧ tr' = tr ++ [some k] ∧ off' = off + k)) := by
  by_cases h : cond
  · exact ⟨tr ++ [some k], off + k, by simpa [h] using rdProg_step p ht hn k (hc h).1 hk0 (hc h).2,
      Or.inr ⟨h, rfl, rfl⟩⟩
  · exact ⟨tr, off, by simpa [h] using p, Or.inl ⟨h, rfl, rfl⟩⟩

theorem validOp_1 (a : Nat) : ValidOp a 1 := Or.inl ⟨Or.inl rfl, Nat.mod_one a⟩
theorem validOp_2 (a : Nat) (h : a % 2 = 0) : ValidOp a 2 := Or.inl ⟨Or.inr (Or.inl rfl), h⟩
theorem validOp_4 (a : Nat) (h : a % 4 = 0) : ValidOp a 4 := Or.inl ⟨Or.inr (Or.inr (Or.inl rfl)), h⟩
theorem validOp_8 (a : Nat) (h : a % 8 = 0) : ValidOp a 8 :=
  Or.inl ⟨Or.inr (Or.inr (Or.inr rfl)), h⟩

theorem rdHead_trace {t : tas_rw_trans_st} {h0 : CTasPktHandlerRw} {c : RdCursor}
    (p : RdProg t h0 c [] 0) (ht : t.type = TAS_RW_TT_RD) (hn : t.num_bytes < 2 ^ 32) :
    ∃ tr off, RdProg t h0 (rdHead c t.acc_mode (aliasMap t.addr_map)) tr off
      ∧ (traceSizes tr).length ≤ 3 ∧ (∀ k ∈ traceSizes tr, k < 8)
      ∧ HeadPost (t.addr + off) (t.num_bytes - off) := by
  simp only [rdHead]
  have a0 := p.a
  have n0 := p.nb
  obtain ⟨tr1, off1, p1, d1⟩ := rdProg_maybe p ht hn (c.nb > 0 ∧ c.a &&& 1 ≠ 0) 1 (by decide)
    (fun hc => ⟨hc.1, validOp_1 _⟩)
  rw [and_one_ne, a0, u64_eq, n0] at d1
  generalize (if c.nb > 0 ∧ c.a &&& 1 ≠ 0 then rdStep c 1 t.acc_mode (aliasMap t.addr_map) else c) = c1
    at p1 ⊢
  have a1 := p1.a
  have n1 := p1.nb
  have l1 := p1.le
  obtain ⟨tr2, off2, p2, d2⟩ := rdProg_maybe p1 ht hn (c1.nb ≥ 2 ∧ c1.a &&& 2 ≠ 0) 2 (by decide)
    (fun hc => ⟨hc.1, validOp_2 _ (by
      have h2 := hc.2; rw [and_two_ne, a1, u64_eq] at h2
      have h1 := hc.1; rw [n1] at h1
      omega)⟩)
  rw [and_two_ne, a1, u64_eq, n1] at d2
  generalize (if c1.nb ≥ 2 ∧ c1.a &&& 2 ≠ 0 then rdStep c1 2 t.acc_mode (aliasMap t.addr_map) else c1) = c2
    at p2 ⊢
  have a2 := p2.a
  have n2 := p2.nb
  have l2 := p2.le
  obtain ⟨tr3, off3, p3, d3⟩ := rdProg_maybe p2 ht hn (c2.nb ≥ 4 ∧ c2.a &&& 4 ≠ 0) 4 (by decide)
    (fun hc => ⟨hc.1, validOp_4 _ (by
      have h2 := hc.2; rw [and_four_ne, a2, u64_eq] at h2
      have h1 := hc.1; rw [n2] at h1
      omega)⟩)
  have l3 := p3.le
  rw [and_four_ne, a2, u64_eq, n2] at d3
  refine ⟨tr3, off3, p3, ?_, ?_, ?_⟩
  · rcases d1 with ⟨_, rfl, rfl⟩ | ⟨_, rfl, rfl⟩ <;> rcases d2 with ⟨_, rfl, rfl⟩ | ⟨_, rfl, rfl⟩ <;>
      rcases d3 with ⟨_, rfl, rfl⟩ | ⟨_, rfl, rfl⟩ <;> simp [traceSizes]
  · rcases d1 with ⟨_, rfl, rfl⟩ | ⟨_, rfl, rfl⟩ <;> rcases d2 with ⟨_, rfl, rfl⟩ | ⟨_, rfl, rfl⟩ <;>
      rcases d3 with ⟨_, rfl, rfl⟩ | ⟨_, rfl, rfl⟩ <;> simp [traceSizes]
  · unfold HeadPost
    rcases d1 with ⟨c1, rfl, rfl⟩ | ⟨c1, rfl, rfl⟩ <;> rcases d2 with ⟨c2, rfl, rfl⟩ | ⟨c2, rfl, rfl⟩ <;>
      rcases d3 with ⟨c3, rfl, rfl⟩ | ⟨c3, rfl, rfl⟩ <;> omega

theorem rdBlkSize_spec (h : CTasPktHandlerRw) (nb : Nat) (hnb : nb < 2 ^ 32)
    (hcap : h.mMaxRdDataBlkSizeInPktRsp ≤ 1024) :
    mGetRdDataBlkSizeInPktRsp h nb ≤ nb ∧ mGetRdDataBlkSizeInPktRsp h nb % 8 = 0
      ∧ mGetRdDataBlkSizeInPktRsp h nb ≤ 1024 := by
  unfold mGetRdDataBlkSizeInPktRsp
  simp only []
  split
  · simp
  · generalize sub32 (mGetRemainingSizeInPktRsp h) (4 + 4) = m1
    split_ifs <;> (rw [and_not7_eq _ (by omega)]; omega)

theorem wrBlkSize_spec (h : CTasPktHandlerRw) (nb a : Nat) (hnb : nb < 2 ^ 32)
    (hcap : h.mMaxWrDataBlkSizeInPktRq ≤ 1024) :
    mGetWrDataBlkSizeInPktRq h nb a ≤ nb ∧ mGetWrDataBlkSizeInPktRq h nb a % 8 = 0
      ∧ mGetWrDataBlkSizeInPktRq h nb a ≤ 1024 := by
  unfold mGetWrDataBlkSizeInPktRq
  simp only []
  split
  · simp
  · generalize sub32 (mGetRemainingSizeInPktRq h) (4 + 4) = m1
    generalize sub32 m1 8 = m2
    split_ifs <;> (rw [and_not7_eq _ (by omega)]; omega)

theorem validOp_blk (a k : Nat) (h8 : 8 ≤ k) (hk : k ≤ 1024) (hm : k % 8 = 0) (ha : a % 8 = 0) :
    ValidOp a k := by
  by_cases h : k = 8
  · exact h ▸ validOp_8 a ha
  · exact Or.inr ⟨by omega, hk, hm, ha⟩

theorem Caps_rd_cap {h h' : CTasPktHandlerRw} (e : Caps h' = Caps h) :
    h'.mMaxRdDataBlkSizeInPktRsp = h.mMaxRdDataBlkSizeInPktRsp := by
  simp only [Caps, Prod.mk.injEq] at e
  exact e.2.1

theorem Caps_wr_cap {h h' : CTasPktHandlerRw} (e : Caps h' = Caps h) :
    h'.mMaxWrDataBlkSizeInPktRq = h.mMaxWrDataBlkSizeInPktRq := by
  simp only [Caps, Prod.mk.injEq] at e
  exact e.1

theorem rdBlkLoop_trace {t : tas_rw_trans_st} {h0 : CTasPktHandlerRw}
    (ht : t.type = TAS_RW_TT_RD) (hn : t.num_bytes < 2 ^ 32)
    (hcap : h0.mMaxRdDataBlkSizeInPktRsp ≤ 1024) :
    ∀ (fuel : Nat) (c c' : RdCursor) (tr : List (Option Nat)) (off : Nat),
      RdProg t h0 c tr off → 8 ≤ c.nb → (t.addr + off) % 8 = 0 →
      rdBlkLoop fuel c t.acc_mode (aliasMap t.addr_map) = some c' →
      ∃ tr2 off', RdProg t h0 c' (tr ++ tr2) off' ∧ c'.nb < 8 ∧ (t.addr + off') % 8 = 0
        ∧ (∀ k ∈ traceSizes tr2, 8 ≤ k) := by
  intro fuel
  induction fuel with
  | zero => intro c c' tr off _ _ _ h; simp [rdBlkLoop] at h
  | succ fuel ih =>
    intro c c' tr off p h8 hal hrun
    have hnb := p.nb
    have hle := p.le
    have hc : c.h.mMaxRdDataBlkSizeInPktRsp ≤ 1024 := by
      rw [p.run, Caps_rd_cap (Caps_runTrace t tr h0 0)]; exact hcap
    obtain ⟨s1, s2, s3⟩ := rdBlkSize_spec c.h c.nb (by omega) hc
    simp only [rdBlkLoop] at hrun
    generalize mGetRdDataBlkSizeInPktRsp c.h c.nb = nbBlk at hrun s1 s2 s3
    have hand : and_not7 c.nb = c.nb - c.nb % 8 := and_not7_eq _ (by omega)
    by_cases hz : nbBlk = 0
    · subst hz
      have hfin : (0 < TAS_PL0_DATA_BLK_SIZE ∧ 0 < and_not7 c.nb) := by
        rw [hand]; exact ⟨by decide, by omega⟩
      have hsub : sub32 c.nb 0 = c.nb := by rw [sub32_eq _ _ (by omega) (by omega)]; rfl
      have p2 := rdProg_fin p
      simp only [mPktAdd_Rd, if_true, hfin, and_self, hsub, Nat.add_zero] at hrun
      have hgt : c.nb > 7 := by omega
      simp only [hgt, if_true] at hrun
      have hu : u64 c.a = c.a := by rw [p.a, u64_eq, u64_eq]; omega
      rw [hu] at hrun
      obtain ⟨tr2, off', q, r1, r2, r3⟩ := ih _ c' _ off p2 h8 hal hrun
      exact ⟨[none] ++ tr2, off', by simpa using q, r1, r2, by simpa using r3⟩
    · have h8k : 8 ≤ nbBlk := by omega
      have p1 := rdProg_step p ht hn nbBlk s1 hz (validOp_blk _ _ h8k s3 s2 hal)
      have hsub : sub32 c.nb nbBlk = c.nb - nbBlk := sub32_eq _ _ s1 (by omega)
      by_cases hf : nbBlk < TAS_PL0_DATA_BLK_SIZE ∧ nbBlk < and_not7 c.nb
      · have p2 := rdProg_fin p1
        simp only [hf, and_self, if_true, hsub] at hrun
        have hgt : c.nb - nbBlk > 7 := by rw [hand] at hf; omega
        simp only [hgt, if_true] at hrun
        obtain ⟨tr2, off', q, r1, r2, r3⟩ := ih _ c' _ (off + nbBlk)
          (by simpa [rdStep, hsub] using p2) (by simpa using hgt) (by omega) hrun
        refine ⟨[some nbBlk, none] ++ tr2, off', by simpa using q, r1, r2, ?_⟩
        intro k hk
        simp only [traceSizes_append, List.mem_append] at hk
        rcases hk with hk | hk
        · simp [traceSizes] at hk; omega
        · exact r3 k hk
      · simp only [hf, if_false, hsub] at hrun
        by_cases hgt : c.nb - nbBlk > 7
        · simp only [hgt, if_true] at hrun
          obtain ⟨tr2, off', q, r1, r2, r3⟩ := ih _ c' _ (off + nbBlk)
            (by simpa [rdStep, hsub] using p1) (by simpa using hgt) (by omega) hrun
          refine ⟨[some nbBlk] ++ tr2, off', by simpa using q, r1, r2, ?_⟩
          intro k hk
          simp only [traceSizes_append, List.mem_append] at hk
          rcases hk with hk | hk
          · simp [traceSizes] at hk; omega
          · exact r3 k hk
        · simp only [hgt, if_false, Option.some.injEq] at hrun
          subst hrun
          refine ⟨[some nbBlk], off + nbBlk, by simpa [rdStep, hsub] using p1, by simp only []; omega,
            by omega, ?_⟩
          intro k hk
          simp [traceSizes] at hk; omega

theorem rdTail_trace {t : tas_rw_trans_st} {h0 : CTasPktHandlerRw} {c : RdCursor}
    {tr : List (Option Nat)} {off : Nat}
    (p : RdProg t h0 c tr off) (ht : t.type = TAS_RW_TT_RD) (hn : t.num_bytes < 2 ^ 32)
    (h8 : c.nb < 8) (hp : HeadPost (t.addr + off) (t.num_bytes - off)) :
    ∃ tr2, RdProg t h0 (rdTail c t.acc_mode (aliasMap t.addr_map)) (tr ++ tr2) t.num_bytes
      ∧ (traceSizes tr2).length ≤ 3 ∧ (∀ k ∈ traceSizes tr2, k < 8) := by
  simp only [rdTail]
  have n0 := p.nb
  have l0 := p.le
  unfold HeadPost at hp
  obtain ⟨tr1, off1, p1, d1⟩ := rdProg_maybe p ht hn (c.nb ≥ 4) 4 (by decide)
    (fun hc => ⟨hc, validOp_4 _ (by omega)⟩)
  rw [n0] at d1
  generalize (if c.nb ≥ 4 then rdStep c 4 t.acc_mode (aliasMap t.addr_map) else c) = c1 at p1 ⊢
  have n1 := p1.nb
  have l1 := p1.le
  obtain ⟨tr2, off2, p2, d2⟩ := rdProg_maybe p1 ht hn (c1.nb ≥ 2) 2 (by decide)
    (fun hc => ⟨hc, validOp_2 _ (by
      rcases d1 with ⟨_, _, rfl⟩ | ⟨_, _, rfl⟩ <;> omega)⟩)
  rw [n1] at d2
  generalize (if c1.nb ≥ 2 then rdStep c1 2 t.acc_mode (aliasMap t.addr_map) else c1) = c2 at p2 ⊢
  have n2 := p2.nb
  have l2 := p2.le
  obtain ⟨tr3, off3, p3, d3⟩ := rdProg_maybe p2 ht hn (c2.nb > 0) 1 (by decide)
    (fun hc => ⟨hc, validOp_1 _⟩)
  rw [n2] at d3
  have l3 := p3.le
  have hoff : off3 = t.num_bytes := by
    rcases d1 with ⟨_, _, rfl⟩ | ⟨_, _, rfl⟩ <;> rcases d2 with ⟨_, _, rfl⟩ | ⟨_, _, rfl⟩ <;>
      rcases d3 with ⟨_, _, rfl⟩ | ⟨_, _, rfl⟩ <;> omega
  rw [hoff] at p3
  rcases d1 with ⟨_, rfl, rfl⟩ | ⟨_, rfl, rfl⟩ <;> rcases d2 with ⟨_, rfl, rfl⟩ | ⟨_, rfl, rfl⟩ <;>
    rcases d3 with ⟨_, rfl, _⟩ | ⟨_, rfl, _⟩
  · exact ⟨[], by simpa using p3, by simp, by simp⟩
  · exact ⟨[some 1], by simpa using p3, by simp, by simp⟩
  · exact ⟨[some 2], by simpa using p3, by simp, by simp⟩
  · exact ⟨[some 2, some 1], by simpa using p3, by simp [traceSizes], by simp [traceSizes]⟩
  · exact ⟨[some 4], by simpa using p3, by simp, by simp⟩
  · exact ⟨[some 4, some 1], by simpa using p3, by simp [traceSizes], by simp [traceSizes]⟩
  · exact ⟨[some 4, some 2], by simpa using p3, by simp [traceSizes], by simp [traceSizes]⟩
  · exact ⟨[some 4, some 2, some 1], by simpa using p3, by simp [traceSizes], by simp [traceSizes]⟩

/-- The micro-ops and calls of `mPktFinalize` made by the body of `rw_add_rd`. -/
theorem rdSplit_trace {t : tas_rw_trans_st} {h : CTasPktHandlerRw} {fuel : Nat} {c : RdCursor}
    (ht : t.type = TAS_RW_TT_RD) (ha : t.addr < 2 ^ 64) (hn : t.num_bytes < 2 ^ 32)
    (hcap : h.mMaxRdDataBlkSizeInPktRsp ≤ 1024)
    (hrun : rdSplit fuel h t.addr t.num_bytes t.rdata t.acc_mode (aliasMap t.addr_map) = some c) :
    ∃ tr, c.h = runTrace t h 0 tr ∧ TraceOK t.addr 0 tr ∧ (traceSizes tr).sum = t.num_bytes
      ∧ (∀ k ∈ traceSizes tr, k ≠ 0) ∧ Shape (traceSizes tr) := by
  have p0 : RdProg t h { h := h, a := t.addr, d := t.rdata, nb := t.num_bytes } [] 0 :=
    ⟨rfl, by simp only [u64_eq]; omega, rfl, rfl, Nat.zero_le _, trivial, rfl, by simp⟩
  obtain ⟨tr1, off1, p1, s1, s2, hp⟩ := rdHead_trace p0 ht hn
  simp only [rdSplit] at hrun
  generalize rdHead { h := h, a := t.addr, d := t.rdata, nb := t.num_bytes } t.acc_mode
    (aliasMap t.addr_map) = c3 at hrun p1
  have n1 := p1.nb
  have l1 := p1.le
  by_cases h8 : c3.nb ≥ 8
  · simp only [h8, if_true] at hrun
    cases hb : rdBlkLoop fuel c3 t.acc_mode (aliasMap t.addr_map) with
    | none => simp [hb] at hrun
    | some c4 =>
      simp only [hb, Option.some.injEq] at hrun
      obtain ⟨tr2, off2, p2, r1, r2, r3⟩ := rdBlkLoop_trace ht hn hcap fuel c3 c4 tr1 off1 p1 h8
        (by unfold HeadPost at hp; omega) hb
      obtain ⟨tr3, p3, t1, t2⟩ := rdTail_trace p2 ht hn r1 (by unfold HeadPost; omega)
      subst hrun
      refine ⟨tr1 ++ tr2 ++ tr3, p3.run, p3.ok, p3.sum, p3.pos, ?_⟩
      exact ⟨traceSizes tr1, traceSizes tr2, traceSizes tr3, by simp, s1, t1, s2, t2, r3⟩
  · simp only [h8, if_false, Option.some.injEq] at hrun
    obtain ⟨tr3, p3, t1, t2⟩ := rdTail_trace p1 ht hn (by omega) hp
    subst hrun
    refine ⟨tr1 ++ tr3, p3.run, p3.ok, p3.sum, p3.pos, ?_⟩
    exact ⟨traceSizes tr1, [], traceSizes tr3, by simp, s1, t1, s2, t2, by simp⟩

/-! ## Writes -/

theorem wrProg_step {t : tas_rw_trans_st} {h0 : CTasPktHandlerRw} {c : WrCursor}
    {tr : List (Option Nat)} {off : Nat} (p : WrProg t h0 c tr off)
    (ht : t.type = TAS_RW_TT_WR) (hn : t.num_bytes < 2 ^ 32) (k : Nat)
    (hk : k ≤ c.nb) (hk0 : k ≠ 0) (hv : ValidOp (t.addr + off) k) :
    WrProg t h0 (wrStep c k t.acc_mode (aliasMap t.addr_map)) (tr ++ [some k]) (off + k) := by
  have hnb := p.nb
  have hle := p.le
  refine ⟨?_, ?_, ?_, ?_, ?_, ?_, ?_, ?_⟩
  · rw [runTrace_append, ← p.run, p.sum]
    simp [runTrace, addOp, ht, wrStep, p.a, p.d, TAS_RW_TT_WR, TAS_RW_TT_RD]
  · simp only [wrStep, p.a, u64_eq]; omega
  · simp [wrStep, p.d, List.drop_drop, Nat.add_comm]
  · simp only [wrStep]; rw [sub32_eq _ _ hk (by omega)]; omega
  · omega
  · rw [TraceOK_append]; exact ⟨p.ok, by simpa [TraceOK, p.sum] using hv⟩
  · simp [p.sum]
  · intro k' hk'
    simp only [traceSizes_append, traceSizes_some, List.mem_append, List.mem_singleton] at hk'
    rcases hk' with h | h
    · exact p.pos k' h
    · exact h ▸ hk0

theorem wrProg_fin {t : tas_rw_trans_st} {h0 : CTasPktHandlerRw} {c : WrCursor}
    {tr : List (Option Nat)} {off : Nat} (p : WrProg t h0 c tr off) :
    WrProg t h0 { c with h := mPktFinalize c.h true } (tr ++ [none]) off := by
  refine ⟨?_, p.a, p.d, p.nb, p.le, ?_, ?_, ?_⟩
  · rw [runTrace_append, ← p.run]; simp [runTrace]
  · rw [TraceOK_append]; exact ⟨p.ok, by simp [TraceOK]⟩
  · simpa using p.sum
  · simpa using p.pos

theorem wrProg_maybe {t : tas_rw_trans_st} {h0 : CTasPktHandlerRw} {c : WrCursor}
    {tr : List (Option Nat)} {off : Nat} (p : WrProg t h0 c tr off)
    (ht : t.type = TAS_RW_TT_WR) (hn : t.num_bytes < 2 ^ 32) (cond : Prop) [Decidable cond] (k : Nat)
    (hk0 : k ≠ 0) (hc : cond → k ≤ c.nb ∧ ValidOp (t.addr + off) k) :
    ∃ tr' off', WrProg t h0 (if cond then wrStep c k t.acc_mode (aliasMap t.addr_map) else c) tr' off'
      ∧ ((¬cond ∧ tr' = tr ∧ off' = off) ∨ (cond ∧ tr' = tr ++ [some k] ∧ off' = off + k)) := by
  by_cases h : cond
  · exact ⟨tr ++ [some k], off + k, by simpa [h] using wrProg_step p ht hn k (hc h).1 hk0 (hc h).2,
      Or.inr ⟨h, rfl, rfl⟩⟩
  · exact ⟨tr, off, by simpa [h] using p, Or.inl ⟨h, rfl, rfl⟩⟩

theorem wrHead_trace {t : tas_rw_trans_st} {h0 : CTasPktHandlerRw} {c : WrCursor}
    (p : WrProg t h0 c [] 0) (ht : t.type = TAS_RW_TT_WR) (hn : t.num_bytes < 2 ^ 32) :
    ∃ tr off, WrProg t h0 (wrHead c t.acc_mode (aliasMap t.addr_map)) tr off
      ∧ (traceSizes tr).length ≤ 3 ∧ (∀ k ∈ traceSizes tr, k < 8)
      ∧ HeadPost (t.addr + off) (t.num_bytes - off) := by
  simp only [wrHead]
  have a0 := p.a
  have n0 := p.nb
  obtain ⟨tr1, off1, p1, d1⟩ := wrProg_maybe p ht hn (c.nb > 0 ∧ c.a &&& 1 ≠ 0) 1 (by decide)
    (fun hc => ⟨hc.1, validOp_1 _⟩)
  rw [and_one_ne, a0, u64_eq, n0] at d1
  generalize (if c.nb > 0 ∧ c.a &&& 1 ≠ 0 then wrStep c 1 t.acc_mode (aliasMap t.addr_map) else c) = c1
    at p1 ⊢
  have a1 := p1.a
  have n1 := p1.nb
  have l1 := p1.le
  obtain ⟨tr2, off2, p2, d2⟩ := wrProg_maybe p1 ht hn (c1.nb ≥ 2 ∧ c1.a &&& 2 ≠ 0) 2 (by decide)
    (fun hc => ⟨hc.1, validOp_2 _ (by
      have h2 := hc.2; rw [and_two_ne, a1, u64_eq] at h2
      have h1 := hc.1; rw [n1] at h1
      omega)⟩)
  rw [and_two_ne, a1, u64_eq, n1] at d2
  generalize (if c1.nb ≥ 2 ∧ c1.a &&& 2 ≠ 0 then wrStep c1 2 t.acc_mode (aliasMap t.addr_map) else c1) = c2
    at p2 ⊢
  have a2 := p2.a
  have n2 := p2.nb
  have l2 := p2.le
  obtain ⟨tr3, off3, p3, d3⟩ := wrProg_maybe p2 ht hn (c2.nb ≥ 4 ∧ c2.a &&& 4 ≠ 0) 4 (by decide)
    (fun hc => ⟨hc.1, validOp_4 _ (by
      have h2 := hc.2; rw [and_four_ne, a2, u64_eq] at h2
      have h1 := hc.1; rw [n2] at h1
      omega)⟩)
  have l3 := p3.le
  rw [and_four_ne, a2, u64_eq, n2] at d3
  refine ⟨tr3, off3, p3, ?_, ?_, ?_⟩
  · rcases d1 with ⟨_, rfl, rfl⟩ | ⟨_, rfl, rfl⟩ <;> rcases d2 with ⟨_, rfl, rfl⟩ | ⟨_, rfl, rfl⟩ <;>
      rcases d3 with ⟨_, rfl, rfl⟩ | ⟨_, rfl, rfl⟩ <;> simp [traceSizes]
  · rcases d1 with ⟨_, rfl, rfl⟩ | ⟨_, rfl, rfl⟩ <;> rcases d2 with ⟨_, rfl, rfl⟩ | ⟨_, rfl, rfl⟩ <;>
      rcases d3 with ⟨_, rfl, rfl⟩ | ⟨_, rfl, rfl⟩ <;> simp [traceSizes]
  · unfold HeadPost
    rcases d1 with ⟨c1, rfl, rfl⟩ | ⟨c1, rfl, rfl⟩ <;> rcases d2 with ⟨c2, rfl, rfl⟩ | ⟨c2, rfl, rfl⟩ <;>
      rcases d3 with ⟨c3, rfl, rfl⟩ | ⟨c3, rfl, rfl⟩ <;> omega

theorem wrBlkLoop_trace {t : tas_rw_trans_st} {h0 : CTasPktHandlerRw}
    (ht : t.type = TAS_RW_TT_WR) (hn : t.num_bytes < 2 ^ 32)
    (hcap : h0.mMaxWrDataBlkSizeInPktRq ≤ 1024) :
    ∀ (fuel : Nat) (c c' : WrCursor) (tr : List (Option Nat)) (off : Nat),
      WrProg t h0 c tr off → 8 ≤ c.nb → (t.addr + off) % 8 = 0 →
      wrBlkLoop fuel c t.acc_mode (aliasMap t.addr_map) = some c' →
      ∃ tr2 off', WrProg t h0 c' (tr ++ tr2) off' ∧ c'.nb < 8 ∧ (t.addr + off') % 8 = 0
        ∧ (∀ k ∈ traceSizes tr2, 8 ≤ k) := by
  intro fuel
  induction fuel with
  | zero => intro c c' tr off _ _ _ h; simp [wrBlkLoop] at h
  | succ fuel ih =>
    intro c c' tr off p h8 hal hrun
    have hnb := p.nb
    have hle := p.le
    have hc : c.h.mMaxWrDataBlkSizeInPktRq ≤ 1024 := by
      rw [p.run, Caps_wr_cap (Caps_runTrace t tr h0 0)]; exact hcap
    obtain ⟨s1, s2, s3⟩ := wrBlkSize_spec c.h c.nb c.a (by omega) hc
    simp only [wrBlkLoop] at hrun
    generalize mGetWrDataBlkSizeInPktRq c.h c.nb c.a = nbBlk at hrun s1 s2 s3
    have hand : and_not7 c.nb = c.nb - c.nb % 8 := and_not7_eq _ (by omega)
    by_cases hz : nbBlk = 0
    · subst hz
      have hfin : (0 < TAS_PL0_DATA_BLK_SIZE ∧ 0 < and_not7 c.nb) := by
        rw [hand]; exact ⟨by decide, by omega⟩
      have hsub : sub32 c.nb 0 = c.nb := by rw [sub32_eq _ _ (by omega) (by omega)]; rfl
      have p2 := wrProg_fin p
      simp only [mPktAdd_Wr, if_true, hfin, and_self, hsub, Nat.add_zero] at hrun
      have hgt : c.nb > 7 := by omega
      simp only [hgt, if_true] at hrun
      have hu : u64 c.a = c.a := by rw [p.a, u64_eq, u64_eq]; omega
      rw [hu] at hrun
      obtain ⟨tr2, off', q, r1, r2, r3⟩ := ih _ c' _ off p2 h8 hal hrun
      exact ⟨[none] ++ tr2, off', by simpa using q, r1, r2, by simpa using r3⟩
    · have h8k : 8 ≤ nbBlk := by omega
      have p1 := wrProg_step p ht hn nbBlk s1 hz (validOp_blk _ _ h8k s3 s2 hal)
      have hsub : sub32 c.nb nbBlk = c.nb - nbBlk := sub32_eq _ _ s1 (by omega)
      by_cases hf : nbBlk < TAS_PL0_DATA_BLK_SIZE ∧ nbBlk < and_not7 c.nb
      · have p2 := wrProg_fin p1
        simp only [hf, and_self, if_true, hsub] at hrun
        have hgt : c.nb - nbBlk > 7 := by rw [hand] at hf; omega
        simp only [hgt, if_true] at hrun
        obtain ⟨tr2, off', q, r1, r2, r3⟩ := ih _ c' _ (off + nbBlk)
          (by simpa [wrStep, hsub] using p2) (by simpa using hgt) (by omega) hrun
        refine ⟨[some nbBlk, none] ++ tr2, off', by simpa using q, r1, r2, ?_⟩
        intro k hk
        simp only [traceSizes_append, List.mem_append] at hk
        rcases hk with hk | hk
        · simp [traceSizes] at hk; omega
        · exact r3 k hk
      · simp only [hf, if_false, hsub] at hrun
        by_cases hgt : c.nb - nbBlk > 7
        · simp only [hgt, if_true] at hrun
          obtain ⟨tr2, off', q, r1, r2, r3⟩ := ih _ c' _ (off + nbBlk)
            (by simpa [wrStep, hsub] using p1) (by simpa using hgt) (by omega) hrun
          refine ⟨[some nbBlk] ++ tr2, off', by simpa using q, r1, r2, ?_⟩
          intro k hk
          simp only [traceSizes_append, List.mem_append] at hk
          rcases hk with hk | hk
          · simp [traceSizes] at hk; omega
          · exact r3 k hk
        · simp only [hgt, if_false, Option.some.injEq] at hrun
          subst hrun
          refine ⟨[some nbBlk], off + nbBlk, by simpa [wrStep, hsub] using p1, by simp only []; omega,
            by omega, ?_⟩
          intro k hk
          simp [traceSizes] at hk; omega

theorem wrTail_trace {t : tas_rw_trans_st} {h0 : CTasPktHandlerRw} {c : WrCursor}
    {tr : List (Option Nat)} {off : Nat}
    (p : WrProg t h0 c tr off) (ht : t.type = TAS_RW_TT_WR) (hn : t.num_bytes < 2 ^ 32)
    (h8 : c.nb < 8) (hp : HeadPost (t.addr + off) (t.num_bytes - off)) :
    ∃ tr2, WrProg t h0 (wrTail c t.acc_mode (aliasMap t.addr_map)) (tr ++ tr2) t.num_bytes
      ∧ (traceSizes tr2).length ≤ 3 ∧ (∀ k ∈ traceSizes tr2, k < 8) := by
  simp only [wrTail]
  have n0 := p.nb
  have l0 := p.le
  unfold HeadPost at hp
  obtain ⟨tr1, off1, p1, d1⟩ := wrProg_maybe p ht hn (c.nb ≥ 4) 4 (by decide)
    (fun hc => ⟨hc, validOp_4 _ (by omega)⟩)
  rw [n0] at d1
  generalize (if c.nb ≥ 4 then wrStep c 4 t.acc_mode (aliasMap t.addr_map) else c) = c1 at p1 ⊢
  have n1 := p1.nb
  have l1 := p1.le
  obtain ⟨tr2, off2, p2, d2⟩ := wrProg_maybe p1 ht hn (c1.nb ≥ 2) 2 (by decide)
    (fun hc => ⟨hc, validOp_2 _ (by
      rcases d1 with ⟨_, _, rfl⟩ | ⟨_, _, rfl⟩ <;> omega)⟩)
  rw [n1] at d2
  generalize (if c1.nb ≥ 2 then wrStep c1 2 t.acc_mode (aliasMap t.addr_map) else c1) = c2 at p2 ⊢
  have n2 := p2.nb
  have l2 := p2.le
  obtain ⟨tr3, off3, p3, d3⟩ := wrProg_maybe p2 ht hn (c2.nb > 0) 1 (by decide)
    (fun hc => ⟨hc, validOp_1 _⟩)
  rw [n2] at d3
  have l3 := p3.le
  have hoff : off3 = t.num_bytes := by
    rcases d1 with ⟨_, _, rfl⟩ | ⟨_, _, rfl⟩ <;> rcases d2 with ⟨_, _, rfl⟩ | ⟨_, _, rfl⟩ <;>
      rcases d3 with ⟨_, _, rfl⟩ | ⟨_, _, rfl⟩ <;> omega
  rw [hoff] at p3
  rcases d1 with ⟨_, rfl, rfl⟩ | ⟨_, rfl, rfl⟩ <;> rcases d2 with ⟨_, rfl, rfl⟩ | ⟨_, rfl, rfl⟩ <;>
    rcases d3 with ⟨_, rfl, _⟩ | ⟨_, rfl, _⟩
  · exact ⟨[], by simpa using p3, by simp, by simp⟩
  · exact ⟨[some 1], by simpa using p3, by simp, by simp⟩
  · exact ⟨[some 2], by simpa using p3, by simp, by simp⟩
  · exact ⟨[some 2, some 1], by simpa using p3, by simp [traceSizes], by simp [traceSizes]⟩
  · exact ⟨[some 4], by simpa using p3, by simp, by simp⟩
  · exact ⟨[some 4, some 1], by simpa using p3, by simp [traceSizes], by simp [traceSizes]⟩
  · exact ⟨[some 4, some 2], by simpa using p3, by simp [traceSizes], by simp [traceSizes]⟩
  · exact ⟨[some 4, some 2, some 1], by simpa using p3, by simp [traceSizes], by simp [traceSizes]⟩

/-- The micro-ops and calls of `mPktFinalize` made by the body of `rw_add_wr`. -/
theorem wrSplit_trace {t : tas_rw_trans_st} {h : CTasPktHandlerRw} {fuel : Nat} {c : WrCursor}
    (ht : t.type = TAS_RW_TT_WR) (ha : t.addr < 2 ^ 64) (hn : t.num_bytes < 2 ^ 32)
    (hcap : h.mMaxWrDataBlkSizeInPktRq ≤ 1024)
    (hrun : wrSplit fuel h t.addr t.num_bytes t.wdata t.acc_mode (aliasMap t.addr_map) = some c) :
    ∃ tr, c.h = runTrace t h 0 tr ∧ TraceOK t.addr 0 tr ∧ (traceSizes tr).sum = t.num_bytes
      ∧ (∀ k ∈ traceSizes tr, k ≠ 0) ∧ Shape (traceSizes tr) := by
  have p0 : WrProg t h { h := h, a := t.addr, d := t.wdata, nb := t.num_bytes } [] 0 :=
    ⟨rfl, by simp only [u64_eq]; omega, rfl, rfl, Nat.zero_le _, trivial, rfl, by simp⟩
  obtain ⟨tr1, off1, p1, s1, s2, hp⟩ := wrHead_trace p0 ht hn
  simp only [wrSplit] at hrun
  generalize wrHead { h := h, a := t.addr, d := t.wdata, nb := t.num_bytes } t.acc_mode
    (aliasMap t.addr_map) = c3 at hrun p1
  have n1 := p1.nb
  have l1 := p1.le
  by_cases h8 : c3.nb ≥ 8
  · simp only [h8, if_true] at hrun
    cases hb : wrBlkLoop fuel c3 t.acc_mode (aliasMap t.addr_map) with
    | none => simp [hb] at hrun
    | some c4 =>
      simp only [hb, Option.some.injEq] at hrun
      obtain ⟨tr2, off2, p2, r1, r2, r3⟩ := wrBlkLoop_trace ht hn hcap fuel c3 c4 tr1 off1 p1 h8
        (by unfold HeadPost at hp; omega) hb
      obtain ⟨tr3, p3, t1, t2⟩ := wrTail_trace p2 ht hn r1 (by unfold HeadPost; omega)
      subst hrun
      refine ⟨tr1 ++ tr2 ++ tr3, p3.run, p3.ok, p3.sum, p3.pos, ?_⟩
      exact ⟨traceSizes tr1, traceSizes tr2, traceSizes tr3, by simp, s1, t1, s2, t2, r3⟩
  · simp only [h8, if_false, Option.some.injEq] at hrun
    obtain ⟨tr3, p3, t1, t2⟩ := wrTail_trace p1 ht hn (by omega) hp
    subst hrun
    refine ⟨tr1 ++ tr3, p3.run, p3.ok, p3.sum, p3.pos, ?_⟩
    exact ⟨traceSizes tr1, [], traceSizes tr3, by simp, s1, t1, s2, t2, by simp⟩

/-! ## Fills -/

theorem fillLoop_trace {t : tas_rw_trans_st} (ht : t.type = TAS_RW_TT_FILL) (hn : t.num_bytes < 2 ^ 32)
    (hm : t.addr_map < TAS_AM12) :
    ∀ (fuel : Nat) (h h' : CTasPktHandlerRw) (off nb : Nat),
      nb = t.num_bytes - off → off ≤ t.num_bytes → 0 < nb → nb % 8 = 0 → (t.addr + off) % 8 = 0 →
      fillLoop fuel h (u64 (t.addr + off)) nb (fillValue t.wdata) t.acc_mode t.addr_map = some h' →
      ∃ tr, h' = runTrace t h off tr ∧ TraceOK t.addr off tr ∧ (traceSizes tr).sum = nb
        ∧ (∀ k ∈ traceSizes tr, 8 ≤ k) := by
  have hal : aliasMap t.addr_map = t.addr_map := by
    unfold aliasMap; unfold TAS_AM12 at hm; unfold TAS_AM132
    split_ifs with h
    · omega
    · rfl
  have hadd : ∀ (h : CTasPktHandlerRw) (off k : Nat),
      addOp t h off k = mPktAdd_Fill h (u64 (t.addr + off)) k (fillValue t.wdata) t.acc_mode t.addr_map := by
    intro h off k
    simp [addOp, ht, hal, TAS_RW_TT_FILL, TAS_RW_TT_RD, TAS_RW_TT_WR]
  intro fuel
  induction fuel with
  | zero => intro h h' off nb _ _ _ _ _ hrun; simp [fillLoop] at hrun
  | succ fuel ih =>
    intro h h' off nb hnb hle hpos hmod hal8 hrun
    simp only [fillLoop] at hrun
    generalize hk : (if nb > TAS_PL0_DATA_BLK_SIZE then TAS_PL0_DATA_BLK_SIZE else nb) = k at hrun
    have hk1 : k ≤ nb ∧ 8 ≤ k ∧ k ≤ 1024 ∧ k % 8 = 0 := by
      unfold TAS_PL0_DATA_BLK_SIZE at hk
      split_ifs at hk <;> omega
    have hsub : sub32 nb k = nb - k := sub32_eq _ _ hk1.1 (by omega)
    have hu : u64 (u64 (t.addr + off) + k) = u64 (t.addr + (off + k)) := by
      simp only [u64_eq]; omega
    rw [hsub, hu, ← hadd] at hrun
    have hv : ValidOp (t.addr + off) k := validOp_blk _ _ hk1.2.1 hk1.2.2.1 hk1.2.2.2 hal8
    by_cases hgt : nb - k > 0
    · simp only [hgt, if_true] at hrun
      obtain ⟨tr, r1, r2, r3, r4⟩ := ih _ h' (off + k) (nb - k) (by omega) (by omega) hgt (by omega)
        (by omega) hrun
      refine ⟨some k :: tr, by simpa [runTrace] using r1, ⟨hv, r2⟩, ?_, ?_⟩
      · have e : traceSizes (some k :: tr) = k :: traceSizes tr := rfl
        rw [e, List.sum_cons]; omega
      · intro k' hk'
        have e : traceSizes (some k :: tr) = k :: traceSizes tr := rfl
        rw [e, List.mem_cons] at hk'
        rcases hk' with hk' | hk'
        · exact hk' ▸ hk1.2.1
        · exact r4 k' hk'
    · simp only [hgt, if_false, Option.some.injEq] at hrun
      refine ⟨[some k], by simpa [runTrace] using hrun.symm, ⟨hv, trivial⟩, by simp; omega, ?_⟩
      intro k' hk'
      simp at hk'
      exact hk' ▸ hk1.2.1

/-! ## A whole transaction -/

theorem mask_mPktFinalize (h : CTasPktHandlerRw) : (mPktFinalize h true).mPl0AddrMapMask = 0 := rfl

theorem rules_of_mask_zero (h : CTasPktHandlerRw) (am : Nat) (hz : h.mPl0AddrMapMask = 0) :
    mCheckAddrMapRulesInPkt h am = true := by
  simp [mCheckAddrMapRulesInPkt, hz]

theorem addPrologue_trace (t : tas_rw_trans_st) (h : CTasPktHandlerRw) (m : Bool) (rq rsp am : Nat) :
    ∃ pro : List (Option Nat), (∀ e ∈ pro, e = none) ∧ pro.length ≤ 2
      ∧ addPrologue h m rq rsp am = runTrace t h 0 pro
      ∧ mCheckAddrMapRulesInPkt (addPrologue h m rq rsp am) am = true := by
  have key : ∀ h1 : CTasPktHandlerRw, ∃ pro : List (Option Nat), (∀ e ∈ pro, e = none) ∧ pro.length ≤ 1
      ∧ (if (!mCheckRemainingPktSizeSufficient h1 rq rsp || !mCheckAddrMapRulesInPkt h1 am) = true
          then mPktFinalize h1 true else h1) = runTrace t h1 0 pro
      ∧ mCheckAddrMapRulesInPkt
          (if (!mCheckRemainingPktSizeSufficient h1 rq rsp || !mCheckAddrMapRulesInPkt h1 am) = true
            then mPktFinalize h1 true else h1) am = true := by
    intro h1
    by_cases h2 : (!mCheckRemainingPktSizeSufficient h1 rq rsp || !mCheckAddrMapRulesInPkt h1 am) = true
    · rw [if_pos h2]
      exact ⟨[none], by simp, by simp, rfl, rules_of_mask_zero _ _ rfl⟩
    · rw [if_neg h2]
      refine ⟨[], by simp, by simp, rfl, ?_⟩
      simp only [Bool.or_eq_true, Bool.not_eq_true', not_or, Bool.not_eq_false] at h2
      exact h2.2
  unfold addPrologue
  cases m with
  | true =>
    obtain ⟨pro, p1, p2, p3, p4⟩ := key h
    exact ⟨pro, p1, by omega, by simpa using p3, by simpa using p4⟩
  | false =>
    obtain ⟨pro, p1, p2, p3, p4⟩ := key (mPktFinalize h true)
    refine ⟨none :: pro, ?_, by simp; omega, by simpa [runTrace] using p3, by simpa using p4⟩
    intro e he
    rcases List.mem_cons.1 he with rfl | he
    · rfl
    · exact p1 e he

theorem traceSizes_of_all_none (pro : List (Option Nat)) (hp : ∀ e ∈ pro, e = none) :
    traceSizes pro = [] := by
  induction pro with
  | nil => rfl
  | cons e r ih =>
    have he : e = none := hp e (by simp)
    subst he
    simpa [traceSizes] using ih (fun e he => hp e (by simp [he]))

theorem TraceOK_of_all_none (addr off : Nat) (pro : List (Option Nat)) (hp : ∀ e ∈ pro, e = none) :
    TraceOK addr off pro := by
  induction pro with
  | nil => trivial
  | cons e r ih =>
    have he : e = none := hp e (by simp)
    subst he
    exact ih (fun e he => hp e (by simp [he]))

theorem rw_add_rd_true {fuel : Nat} {h h' : CTasPktHandlerRw} {addr n data m am : Nat}
    (hrun : rw_add_rd fuel h addr n data m am = some (true, h')) :
    n ≠ 0 ∧ mCheckLimits h n 0 = true ∧ aliasMap am ≤ TAS_AM15 ∧
      ∃ c, rdSplit fuel (addPrologue h (mNumTransManageableRd h addr n) 32 (rdPrologueRsp am n)
          (aliasMap am)) addr n data m (aliasMap am) = some c
        ∧ h' = recordRw c.h addr n TAS_RW_TT_RD [] data := by
  unfold rw_add_rd at hrun
  by_cases c1 : n = 0
  · simp [c1] at hrun
  by_cases c2 : mCheckLimits h n 0 = true
  swap
  · simp [c1, c2] at hrun
  by_cases c3 : aliasMap am > TAS_AM15
  · simp [c1, c2, c3] at hrun
  simp only [c1, c2, c3, if_false, Bool.not_true, Bool.false_eq_true] at hrun
  cases hs : rdSplit fuel (addPrologue h (mNumTransManageableRd h addr n) 32 (rdPrologueRsp am n)
      (aliasMap am)) addr n data m (aliasMap am) with
  | none => simp [hs] at hrun
  | some c =>
    simp only [hs, Option.some.injEq, Prod.mk.injEq, true_and] at hrun
    exact ⟨c1, c2, by omega, c, rfl, hrun.symm⟩

theorem rw_add_wr_true {fuel : Nat} {h h' : CTasPktHandlerRw} {addr n : Nat} {data : List Nat}
    {m am : Nat} (hrun : rw_add_wr fuel h addr n data m am = some (true, h')) :
    n ≠ 0 ∧ mCheckLimits h 0 n = true ∧ aliasMap am ≤ TAS_AM15 ∧
      ∃ c, wrSplit fuel (addPrologue h (mNumTransManageableWr h addr n) (wrPrologueRq am n) 32
          (aliasMap am)) addr n data m (aliasMap am) = some c
        ∧ h' = recordRw c.h addr n TAS_RW_TT_WR data 0 := by
  unfold rw_add_wr at hrun
  by_cases c1 : n = 0
  · simp [c1] at hrun
  by_cases c2 : mCheckLimits h 0 n = true
  swap
  · simp [c1, c2] at hrun
  by_cases c3 : aliasMap am > TAS_AM15
  · simp [c1, c2, c3] at hrun
  simp only [c1, c2, c3, if_false, Bool.not_true, Bool.false_eq_true] at hrun
  cases hs : wrSplit fuel (addPrologue h (mNumTransManageableWr h addr n) (wrPrologueRq am n) 32
      (aliasMap am)) addr n data m (aliasMap am) with
  | none => simp [hs] at hrun
  | some c =>
    simp only [hs, Option.some.injEq, Prod.mk.injEq, true_and] at hrun
    exact ⟨c1, c2, by omega, c, rfl, hrun.symm⟩

theorem rw_add_fill_true {fuel : Nat} {h h' : CTasPktHandlerRw} {addr n v m am : Nat}
    (hrun : rw_add_fill fuel h addr n v m am = some (true, h')) :
    (addr % 8 = 0 ∧ n ≠ 0 ∧ n % 8 = 0 ∧ m = 0 ∧ am < TAS_AM12) ∧ mCheckLimits h 0 n = true ∧
      ∃ h2, fillLoop fuel (addPrologue h (mNumTransManageableWr h addr 8) (32 + 8) 32 am)
          addr n v m am = some h2
        ∧ h' = recordRw h2 addr n TAS_RW_TT_FILL [] 0 := by
  unfold rw_add_fill at hrun
  by_cases c1 : addr % 8 ≠ 0 ∨ n = 0 ∨ n % 8 ≠ 0 ∨ m ≠ 0 ∨ am ≥ TAS_AM12
  · simp [c1] at hrun
  by_cases c2 : mCheckLimits h 0 n = true
  swap
  · simp [c1, c2] at hrun
  simp only [c1, c2, if_false, Bool.not_true, Bool.false_eq_true] at hrun
  cases hs : fillLoop fuel (addPrologue h (mNumTransManageableWr h addr 8) (32 + 8) 32 am)
      addr n v m am with
  | none => simp [hs] at hrun
  | some h2 =>
    simp only [hs, Option.some.injEq, Prod.mk.injEq, true_and] at hrun
    refine ⟨?_, c2, h2, rfl, hrun.symm⟩
    simp only [not_or, not_not, ge_iff_le, not_le] at c1
    exact ⟨c1.1, c1.2.1, c1.2.2.1, c1.2.2.2.1, c1.2.2.2.2⟩

/-- The calls made by `rw_add_rd`, `rw_add_wr` or `rw_add_fill` when it returns
true: a prologue `pro` of at most two calls of `mPktFinalize`, the trace `tr` of
the micro-ops, the record of the user transaction. -/
theorem rw_add_trans_trace {fuel : Nat} {h h' : CTasPktHandlerRw} {t : tas_rw_trans_st}
    (ha : t.addr < 2 ^ 64) (hn : t.num_bytes < 2 ^ 32) (hcap : CapsOK h)
    (hrun : rw_add_trans fuel h t = some (true, h')) :
    ∃ pro tr, (∀ e ∈ pro, e = none) ∧ pro.length ≤ 2
      ∧ h' = recordUser (runTrace t h 0 (pro ++ tr)) t
      ∧ mCheckAddrMapRulesInPkt (runTrace t h 0 pro) (aliasMap t.addr_map) = true
      ∧ TraceOK t.addr 0 tr ∧ (traceSizes tr).sum = t.num_bytes ∧ (∀ k ∈ traceSizes tr, k ≠ 0)
      ∧ (t.type = TAS_RW_TT_FILL ∨ Shape (traceSizes tr)) ∧ Accepted t
      ∧ (t.type = TAS_RW_TT_FILL → ∀ k ∈ traceSizes tr, 8 ≤ k) := by
  unfold rw_add_trans at hrun
  by_cases t1 : t.type = TAS_RW_TT_RD
  · simp only [t1, if_true] at hrun
    obtain ⟨c1, c2, c3, c, hs, hh⟩ := rw_add_rd_true hrun
    obtain ⟨pro, p1, p2, p3, p4⟩ := addPrologue_trace t h (mNumTransManageableRd h t.addr t.num_bytes) 32
      (rdPrologueRsp t.addr_map t.num_bytes) (aliasMap t.addr_map)
    rw [p3] at hs p4
    have hc2 : (runTrace t h 0 pro).mMaxRdDataBlkSizeInPktRsp ≤ 1024 := by
      rw [Caps_rd_cap (Caps_runTrace t pro h 0)]; exact hcap.2
    obtain ⟨tr, r1, r2, r3, r4, r5⟩ := rdSplit_trace t1 ha hn hc2 hs
    refine ⟨pro, tr, p1, p2, ?_, p4, r2, r3, r4, Or.inr r5, ⟨c1, c3, Or.inl t1⟩,
      (by intro hf; rw [t1] at hf; exact absurd hf (by decide))⟩
    rw [hh, runTrace_append, traceSizes_of_all_none pro p1, r1]
    simp [recordUser, t1, TAS_RW_TT_RD, TAS_RW_TT_WR]
  · by_cases t2 : t.type = TAS_RW_TT_WR
    · simp only [t1, t2, if_true, if_false] at hrun
      obtain ⟨c1, c2, c3, c, hs, hh⟩ := rw_add_wr_true hrun
      obtain ⟨pro, p1, p2, p3, p4⟩ := addPrologue_trace t h (mNumTransManageableWr h t.addr t.num_bytes)
        (wrPrologueRq t.addr_map t.num_bytes) 32 (aliasMap t.addr_map)
      rw [p3] at hs p4
      have hc2 : (runTrace t h 0 pro).mMaxWrDataBlkSizeInPktRq ≤ 1024 := by
        rw [Caps_wr_cap (Caps_runTrace t pro h 0)]; exact hcap.1
      obtain ⟨tr, r1, r2, r3, r4, r5⟩ := wrSplit_trace t2 ha hn hc2 hs
      refine ⟨pro, tr, p1, p2, ?_, p4, r2, r3, r4, Or.inr r5, ⟨c1, c3, Or.inr (Or.inl t2)⟩,
        (by intro hf; rw [t2] at hf; exact absurd hf (by decide))⟩
      rw [hh, runTrace_append, traceSizes_of_all_none pro p1, r1]
      simp [recordUser, t2, TAS_RW_TT_RD, TAS_RW_TT_WR]
    · by_cases t3 : t.type = TAS_RW_TT_FILL
      · simp only [t1, t2, t3, if_true, if_false] at hrun
        obtain ⟨⟨f1, f2, f3, f4, f5⟩, c2, h2, hs, hh⟩ := rw_add_fill_true hrun
        have hal : aliasMap t.addr_map = t.addr_map := by
          unfold aliasMap; unfold TAS_AM12 at f5; unfold TAS_AM132
          split_ifs with h
          · omega
          · rfl
        obtain ⟨pro, p1, p2, p3, p4⟩ := addPrologue_trace t h (mNumTransManageableWr h t.addr 8)
          (32 + 8) 32 t.addr_map
        rw [p3] at hs p4
        have hu : u64 (t.addr + 0) = t.addr := by simp only [u64_eq]; omega
        obtain ⟨tr, r1, r2, r3, r4⟩ := fillLoop_trace t3 hn f5 fuel (runTrace t h 0 pro) h2 0
          t.num_bytes rfl (Nat.zero_le _) (by omega) f3 (by simpa using f1) (by rw [hu]; exact hs)
        refine ⟨pro, tr, p1, p2, ?_, by rw [hal]; exact p4, r2, r3, ?_, Or.inl t3,
          ⟨f2, by rw [hal]; unfold TAS_AM12 at f5; unfold TAS_AM15; omega,
            Or.inr (Or.inr ⟨t3, f1, f3, f4, f5⟩)⟩, fun _ => r4⟩
        · rw [hh, runTrace_append, traceSizes_of_all_none pro p1, r1]
          simp [recordUser, t3, TAS_RW_TT_RD, TAS_RW_TT_WR, TAS_RW_TT_FILL]
        · intro k hk
          have := r4 k hk
          omega
      · simp [t1, t2, t3] at hrun

end Tas


/-!
# Properties of the decomposition into micro-ops, and of rejected lists
-/

namespace Tas

theorem CapsOK_rw_start (h : CTasPktHandlerRw) : CapsOK (rw_start h) := by
  unfold CapsOK rw_start
  simp only [TAS_PL0_DATA_BLK_SIZE]
  constructor <;> split_ifs <;> omega

theorem CapsOK_of_Caps {h h' : CTasPktHandlerRw} (e : Caps h' = Caps h) (c : CapsOK h) : CapsOK h' := by
  unfold CapsOK at *
  rw [Caps_wr_cap e, Caps_rd_cap e]
  exact c

theorem Caps_recordUser (h : CTasPktHandlerRw) (t : tas_rw_trans_st) :
    Caps (recordUser h t) = Caps h := rfl

theorem Planning_CapsOK {h : CTasPktHandlerRw} (p : Planning h) : CapsOK h := by
  induction p with
  | start h0 => exact CapsOK_rw_start h0
  | add _ hw hrun ih =>
    obtain ⟨pro, tr, _, _, e, _⟩ := rw_add_trans_trace hw.1 hw.2.1 ih hrun
    rw [e]
    exact CapsOK_of_Caps (by rw [Caps_recordUser, Caps_runTrace]) ih

/-! ## The micro-ops of a transaction -/

theorem Recs_recordUser_pl0 (h : CTasPktHandlerRw) (t : tas_rw_trans_st) :
    (recordUser h t).mPl0Trans = h.mPl0Trans := rfl

theorem opsOf_contig (t : tas_rw_trans_st) (ks : List Nat) :
    ∀ off : Nat, (∀ k ∈ ks, k ≠ 0) → t.addr + off + ks.sum ≤ 2 ^ 64 →
      Contig (t.addr + off) (opsOf t off ks) (t.addr + off + ks.sum) := by
  induction ks with
  | nil => intro off _ _; simp [opsOf, Contig]
  | cons k r ih =>
    intro off hk hs
    have hk0 : k ≠ 0 := hk k (by simp)
    have hr : ∀ k ∈ r, k ≠ 0 := fun k' h' => hk k' (by simp [h'])
    simp only [List.sum_cons] at hs ⊢
    have := ih (off + k) hr (by omega)
    refine ⟨?_, ?_, ?_⟩
    · unfold opOf; simp only [u64_eq]; split_ifs <;> (simp only []; omega)
    · unfold opOf; split_ifs <;> (simp only []; omega)
    · have e : (opOf t off k).num_bytes = k := by unfold opOf; split_ifs <;> rfl
      rw [e]
      have e2 : t.addr + off + k = t.addr + (off + k) := by omega
      rw [e2]
      have e3 : t.addr + (off + k) + r.sum = t.addr + off + (k + r.sum) := by omega
      rw [← e3]
      exact this

theorem opsOf_sizes (t : tas_rw_trans_st) (ks : List Nat) :
    ∀ off : Nat, (opsOf t off ks).map (fun o => o.num_bytes) = ks := by
  induction ks with
  | nil => intro off; rfl
  | cons k r ih =>
    intro off
    have e : (opOf t off k).num_bytes = k := by unfold opOf; split_ifs <;> rfl
    simp [opsOf, ih, e]

theorem opsOf_valid (t : tas_rw_trans_st) (tr : List (Option Nat)) :
    ∀ off : Nat, TraceOK t.addr off tr → t.addr + off + (traceSizes tr).sum ≤ 2 ^ 64 →
      (∀ k ∈ traceSizes tr, k ≠ 0) →
      ∀ o ∈ opsOf t off (traceSizes tr), ValidOp o.addr o.num_bytes := by
  induction tr with
  | nil => intro off _ _ _ o ho; simp [traceSizes, opsOf] at ho
  | cons e r ih =>
    intro off hok hs hk o ho
    cases e with
    | none =>
      have e1 : traceSizes (none :: r) = traceSizes r := rfl
      rw [e1] at hs hk ho
      exact ih off hok hs hk o ho
    | some k =>
      have e1 : traceSizes (some k :: r) = k :: traceSizes r := rfl
      rw [e1] at hs hk ho
      simp only [List.sum_cons] at hs
      have hk0 : k ≠ 0 := hk k (by simp)
      simp only [opsOf, List.mem_cons] at ho
      rcases ho with rfl | ho
      · have ea : (opOf t off k).addr = t.addr + off := by
          unfold opOf; simp only [u64_eq]; split_ifs <;> (simp only []; omega)
        have en : (opOf t off k).num_bytes = k := by unfold opOf; split_ifs <;> rfl
        rw [ea, en]
        exact hok.1
      · exact ih (off + k) hok.2 (by omega) (fun k' h' => hk k' (by simp [h'])) o ho

theorem opsOf_type (t : tas_rw_trans_st) (ht : t.type = TAS_RW_TT_RD ∨ t.type = TAS_RW_TT_WR ∨ t.type = TAS_RW_TT_FILL)
    (ks : List Nat) : ∀ off : Nat, ∀ o ∈ opsOf t off ks, o.type = t.type := by
  induction ks with
  | nil => intro off o ho; simp [opsOf] at ho
  | cons k r ih =>
    intro off o ho
    simp only [opsOf, List.mem_cons] at ho
    rcases ho with rfl | ho
    · unfold opOf
      rcases ht with h | h | h <;> simp [h, TAS_RW_TT_RD, TAS_RW_TT_WR, TAS_RW_TT_FILL]
    · exact ih (off + k) o ho

/-- The micro-ops added for an accepted transaction that does not run over the
end of the 64 bit address space. -/
theorem rw_add_trans_ops {fuel : Nat} {h h' : CTasPktHandlerRw} {t : tas_rw_trans_st}
    (hp : Planning h) (ha : t.addr < 2 ^ 64) (hn : t.num_bytes < 2 ^ 32)
    (hwrap : t.addr + t.num_bytes ≤ 2 ^ 64)
    (hrun : rw_add_trans fuel h t = some (true, h')) :
    ∃ ops, h'.mPl0Trans = h.mPl0Trans ++ ops ∧ Contig t.addr ops (t.addr + t.num_bytes)
      ∧ (∀ o ∈ ops, ValidOp o.addr o.num_bytes ∧ o.type = t.type)
      ∧ (t.type = TAS_RW_TT_FILL ∨ Shape (ops.map (fun o => o.num_bytes))) := by
  obtain ⟨pro, tr, p1, p2, e, _, ok, hsum, hpos, hshape, hacc, _⟩ :=
    rw_add_trans_trace ha hn (Planning_CapsOK hp) hrun
  have hsz : traceSizes (pro ++ tr) = traceSizes tr := by
    rw [traceSizes_append, traceSizes_of_all_none pro p1, List.nil_append]
  have hrec := Recs_runTrace t (pro ++ tr) h 0 (by rw [hsz]; exact hpos)
  simp only [Recs, Prod.mk.injEq] at hrec
  refine ⟨opsOf t 0 (traceSizes tr), ?_, ?_, ?_, ?_⟩
  · rw [e, Recs_recordUser_pl0, hrec.1, hsz]
  · have := opsOf_contig t (traceSizes tr) 0 hpos (by omega)
    simpa [hsum] using this
  · intro o ho
    have hty : t.type = TAS_RW_TT_RD ∨ t.type = TAS_RW_TT_WR ∨ t.type = TAS_RW_TT_FILL := by
      rcases hacc.2.2 with h1 | h1 | h1
      · exact Or.inl h1
      · exact Or.inr (Or.inl h1)
      · exact Or.inr (Or.inr h1.1)
    exact ⟨opsOf_valid t tr 0 ok (by omega) hpos o ho, opsOf_type t hty _ 0 o ho⟩
  · rw [opsOf_sizes]; exact hshape

/-! ## Members left alone by a whole transaction -/

theorem Caps_rdStep (c : RdCursor) (k m am : Nat) : Caps (rdStep c k m am).h = Caps c.h := by
  simp [rdStep]

theorem Caps_wrStep (c : WrCursor) (k m am : Nat) : Caps (wrStep c k m am).h = Caps c.h := by
  simp [wrStep]

theorem Caps_rdBlkLoop (m am : Nat) : ∀ (fuel : Nat) (c c' : RdCursor),
    rdBlkLoop fuel c m am = some c' → Caps c'.h = Caps c.h := by
  intro fuel
  induction fuel with
  | zero => intro c c' h; simp [rdBlkLoop] at h
  | succ fuel ih =>
    intro c c' h
    simp only [rdBlkLoop] at h
    split_ifs at h <;> first | (rw [ih _ _ h]; simp) | (cases h; simp)

theorem Caps_wrBlkLoop (m am : Nat) : ∀ (fuel : Nat) (c c' : WrCursor),
    wrBlkLoop fuel c m am = some c' → Caps c'.h = Caps c.h := by
  intro fuel
  induction fuel with
  | zero => intro c c' h; simp [wrBlkLoop] at h
  | succ fuel ih =>
    intro c c' h
    simp only [wrBlkLoop] at h
    split_ifs at h <;> first | (rw [ih _ _ h]; simp) | (cases h; simp)

theorem Caps_fillLoop (v m am : Nat) : ∀ (fuel : Nat) (h h' : CTasPktHandlerRw) (a nb : Nat),
    fillLoop fuel h a nb v m am = some h' → Caps h' = Caps h := by
  intro fuel
  induction fuel with
  | zero => intro h h' a nb hr; simp [fillLoop] at hr
  | succ fuel ih =>
    intro h h' a nb hr
    simp only [fillLoop] at hr
    split_ifs at hr <;> first | (rw [ih _ _ _ _ hr]; simp) | (cases hr; simp)

theorem Caps_rdHead (c : RdCursor) (m am : Nat) : Caps (rdHead c m am).h = Caps c.h := by
  simp only [rdHead]
  split_ifs <;> simp [Caps_rdStep]

theorem Caps_rdTail (c : RdCursor) (m am : Nat) : Caps (rdTail c m am).h = Caps c.h := by
  simp only [rdTail]
  split_ifs <;> simp [Caps_rdStep]

theorem Caps_wrHead (c : WrCursor) (m am : Nat) : Caps (wrHead c m am).h = Caps c.h := by
  simp only [wrHead]
  split_ifs <;> simp [Caps_wrStep]

theorem Caps_wrTail (c : WrCursor) (m am : Nat) : Caps (wrTail c m am).h = Caps c.h := by
  simp only [wrTail]
  split_ifs <;> simp [Caps_wrStep]

theorem Caps_rdSplit {fuel : Nat} {h : CTasPktHandlerRw} {a n d m am : Nat} {c : RdCursor}
    (hr : rdSplit fuel h a n d m am = some c) : Caps c.h = Caps h := by
  simp only [rdSplit] at hr
  split at hr
  · cases hr
  · next c4 hb =>
    cases hr
    rw [Caps_rdTail]
    split_ifs at hb with h8
    · rw [Caps_rdBlkLoop _ _ _ _ _ hb, Caps_rdHead]
    · cases hb; rw [Caps_rdHead]

theorem Caps_wrSplit {fuel : Nat} {h : CTasPktHandlerRw} {a n : Nat} {d : List Nat} {m am : Nat}
    {c : WrCursor} (hr : wrSplit fuel h a n d m am = some c) : Caps c.h = Caps h := by
  simp only [wrSplit] at hr
  split at hr
  · cases hr
  · next c4 hb =>
    cases hr
    rw [Caps_wrTail]
    split_ifs at hb with h8
    · rw [Caps_wrBlkLoop _ _ _ _ _ hb, Caps_wrHead]
    · cases hb; rw [Caps_wrHead]

theorem Caps_addPrologue (h : CTasPktHandlerRw) (m : Bool) (rq rsp am : Nat) :
    Caps (addPrologue h m rq rsp am) = Caps h := by
  unfold addPrologue
  simp only []
  split_ifs <;> simp

/-- A call of `rw_add_rd`, `rw_add_wr` or `rw_add_fill` that returns false leaves the handler as it is. -/
theorem rw_add_trans_false {fuel : Nat} {h h' : CTasPktHandlerRw} {t : tas_rw_trans_st}
    (hr : rw_add_trans fuel h t = some (false, h')) : h' = h := by
  unfold rw_add_trans at hr
  split_ifs at hr
  · unfold rw_add_rd at hr
    split_ifs at hr <;> first | (cases hr; rfl) | (simp only [] at hr; split at hr <;> cases hr)
  · unfold rw_add_wr at hr
    split_ifs at hr <;> first | (cases hr; rfl) | (simp only [] at hr; split at hr <;> cases hr)
  · unfold rw_add_fill at hr
    split_ifs at hr <;> first | (cases hr; rfl) | (simp only [] at hr; split at hr <;> cases hr)
  · cases hr; rfl

theorem Caps_rw_add_trans {fuel : Nat} {h h' : CTasPktHandlerRw} {t : tas_rw_trans_st} {b : Bool}
    (hr : rw_add_trans fuel h t = some (b, h')) : Caps h' = Caps h := by
  cases b with
  | false => rw [rw_add_trans_false hr]
  | true =>
    unfold rw_add_trans at hr
    split_ifs at hr
    · obtain ⟨_, _, _, c, hs, e⟩ := rw_add_rd_true hr
      rw [e, Caps_recordRw, Caps_rdSplit hs, Caps_addPrologue]
    · obtain ⟨_, _, _, c, hs, e⟩ := rw_add_wr_true hr
      rw [e, Caps_recordRw, Caps_wrSplit hs, Caps_addPrologue]
    · obtain ⟨_, _, h2, hs, e⟩ := rw_add_fill_true hr
      rw [e, Caps_recordRw, Caps_fillLoop _ _ _ _ _ _ _ _ hs, Caps_addPrologue]
    · cases hr

theorem Static_of_Caps {h h' : CTasPktHandlerRw} (e : Caps h' = Caps h) : Static h' = Static h := by
  simp only [Caps, Prod.mk.injEq] at e
  exact e.2.2.2.2

/-- The state left by `rw_start` depends on the members the planner never
writes and on `mPl1CntOutstandingLast` only. -/
theorem rw_start_congr {h1 h2 : CTasPktHandlerRw} (e : Static h1 = Static h2)
    (l : h1.mPl1CntOutstandingLast = h2.mPl1CntOutstandingLast) : rw_start h1 = rw_start h2 := by
  cases h1; cases h2
  simp only [Static, Prod.mk.injEq] at e
  simp only at l
  simp_all [rw_start, mPl2PktInit, CTasPktHandlerRw.mRqBufWi]

/-- The loop of `rw_set_trans` ends with false either on the empty list or
after `rw_start` was called again on a state with the same limits. -/
theorem setTransLoop_false (fuel : Nat) : ∀ (ts : List tas_rw_trans_st) (b : Bool) (h h' : CTasPktHandlerRw),
    setTransLoop fuel ts b h = some (false, h') →
      (b = false ∧ h' = h) ∨ ∃ h1, Static h1 = Static h ∧ h' = rw_start h1 := by
  intro ts
  induction ts with
  | nil =>
    intro b h h' hr
    simp only [setTransLoop, Option.some.injEq, Prod.mk.injEq] at hr
    exact Or.inl ⟨hr.1, hr.2.symm⟩
  | cons t ts ih =>
    intro b h h' hr
    simp only [setTransLoop] at hr
    split at hr
    · cases hr
    · next h1 hadd =>
      have e := Static_of_Caps (Caps_rw_add_trans hadd)
      rcases ih true h1 h' hr with ⟨hb, _⟩ | ⟨h2, e2, e3⟩
      · cases hb
      · exact Or.inr ⟨h2, e2.trans e, e3⟩
    · next h1 hadd =>
      have e := Static_of_Caps (Caps_rw_add_trans hadd)
      simp only [Option.some.injEq, Prod.mk.injEq, true_and] at hr
      exact Or.inr ⟨h1, e, hr.symm⟩

/-! ## When a call does not return false -/

theorem rw_add_wr_not_false (fuel : Nat) (h : CTasPktHandlerRw) (addr n : Nat) (data : List Nat)
    (m am : Nat) (hn : n ≠ 0) (hl : mCheckLimits h 0 n = true) (hm : aliasMap am ≤ TAS_AM15) :
    returnsFalse (rw_add_wr fuel h addr n data m am) = false := by
  unfold rw_add_wr
  rw [if_neg hn, hl, if_neg (by simp), if_neg (by omega)]
  simp only []
  split <;> rfl

theorem rw_add_rd_not_false (fuel : Nat) (h : CTasPktHandlerRw) (addr n data m am : Nat)
    (hn : n ≠ 0) (hl : mCheckLimits h n 0 = true) (hm : aliasMap am ≤ TAS_AM15) :
    returnsFalse (rw_add_rd fuel h addr n data m am) = false := by
  unfold rw_add_rd
  rw [if_neg hn, hl, if_neg (by simp), if_neg (by omega)]
  simp only []
  split <;> rfl

theorem rw_add_fill_not_false (fuel : Nat) (h : CTasPktHandlerRw) (addr n v m am : Nat)
    (hp : ¬ (addr % 8 ≠ 0 ∨ n = 0 ∨ n % 8 ≠ 0 ∨ m ≠ 0 ∨ am ≥ TAS_AM12))
    (hl : mCheckLimits h 0 n = true) :
    returnsFalse (rw_add_fill fuel h addr n v m am) = false := by
  unfold rw_add_fill
  rw [if_neg hp, hl, if_neg (by simp)]
  simp only []
  split <;> rfl

end Tas


/-!
# The request as its receiver reads it: decoding what the planner writes
-/

namespace Tas

/-! ## Fields of a header word -/

theorem byte0_word (wl cmd p : Nat) : byte0 (wordWlCmdU16 wl cmd p) = wl % 256 := by
  simp only [byte0, wordWlCmdU16, u8, u16]; omega

theorem byte1_word (wl cmd p : Nat) : byte1 (wordWlCmdU16 wl cmd p) = cmd % 256 := by
  simp only [byte1, wordWlCmdU16, u8, u16, Nat.shiftRight_eq_div_pow]; omega

theorem byte2_word (wl cmd p : Nat) : byte2 (wordWlCmdU16 wl cmd p) = p % 256 := by
  simp only [byte2, wordWlCmdU16, u8, u16, Nat.shiftRight_eq_div_pow]; omega

theorem hi16_word (wl cmd p : Nat) : hi16 (wordWlCmdU16 wl cmd p) = p % 65536 := by
  simp only [hi16, wordWlCmdU16, u8, u16, Nat.shiftRight_eq_div_pow]; omega

theorem decodePl0_fuel : ∀ (f1 f2 : Nat) (ws : List Nat) (st : DecState),
    ws.length ≤ f1 → ws.length ≤ f2 → decodePl0 f1 ws st = decodePl0 f2 ws st := by
  intro f1
  induction f1 with
  | zero =>
    intro f2 ws st h1 _
    have : ws = [] := List.length_eq_zero.1 (by omega)
    subst this
    cases f2 <;> rfl
  | succ n ih =>
    intro f2 ws st h1 h2
    cases ws with
    | nil => cases f2 <;> rfl
    | cons w rest =>
      cases f2 with
      | zero => simp at h2
      | succ m =>
        simp only [List.length_cons] at h1 h2
        have key : ∀ (k : Nat) (s : DecState), decodePl0 n (rest.drop k) s = decodePl0 m (rest.drop k) s := by
          intro k s
          apply ih
          · simp only [List.length_drop]; omega
          · simp only [List.length_drop]; omega
        show (match decHead w rest st with
              | none => []
              | some (out, k, st1) => out ++ decodePl0 n (rest.drop k) st1) =
             (match decHead w rest st with
              | none => []
              | some (out, k, st1) => out ++ decodePl0 m (rest.drop k) st1)
        cases decHead w rest st with
        | none => rfl
        | some r => obtain ⟨out, k, st1⟩ := r; simp only [key]

theorem decodePl0_dec (f : Nat) (ws : List Nat) (st : DecState) (h : ws.length ≤ f) :
    decodePl0 f ws st = dec ws st := decodePl0_fuel _ _ _ _ h (le_refl _)

theorem dec_cons (w : Nat) (rest : List Nat) (st : DecState) :
    dec (w :: rest) st =
      match decHead w rest st with
      | none => []
      | some (out, k, st1) => out ++ dec (rest.drop k) st1 := by
  show (match decHead w rest st with
        | none => []
        | some (out, k, st1) => out ++ decodePl0 rest.length (rest.drop k) st1) = _
  cases decHead w rest st with
  | none => rfl
  | some r =>
    obtain ⟨out, k, st1⟩ := r
    simp only
    rw [decodePl0_dec]
    simp only [List.length_drop]; omega

theorem dec_of_head {w : Nat} {rest : List Nat} {st st1 : DecState} {out : List Pl0Op} {k : Nat}
    (h : decHead w rest st = some (out, k, st1)) :
    dec (w :: rest) st = out ++ dec (rest.drop k) st1 := by
  rw [dec_cons, h]

theorem dec_end (n : Nat) (rest : List Nat) (st : DecState) :
    dec (wordWlCmdU16 0 TAS_PL1_CMD_PL0_END n :: rest) st = [] := by
  rw [dec_cons]
  have : decHead (wordWlCmdU16 0 TAS_PL1_CMD_PL0_END n) rest st = none := by
    simp [decHead, byte1_word, TAS_PL1_CMD_PL0_END, TAS_PL0_CMD_ACCESS_MODE, TAS_PL0_CMD_ADDR_MAP,
      TAS_PL0_CMD_BASE_ADDR32, TAS_PL0_CMD_BASE_ADDR64, TAS_PL0_CMD_RD8, TAS_PL0_CMD_WR8,
      TAS_PL0_CMD_RD16, TAS_PL0_CMD_WR16, TAS_PL0_CMD_RD32, TAS_PL0_CMD_WR32, TAS_PL0_CMD_RD64,
      TAS_PL0_CMD_WR64, TAS_PL0_CMD_WRBLK, TAS_PL0_CMD_FILL, TAS_PL0_CMD_RDBLK]
  rw [this]

/-! ## The mask of address maps -/

theorem maskOf_append (ops : List Pl0Op) (op : Pl0Op) :
    maskOf (ops ++ [op]) = maskOf ops ||| (1 <<< op.addr_map) := by
  simp [maskOf, List.foldl_append]

theorem maskOf_nil : maskOf [] = 0 := rfl

theorem maskOf_testBit (ops : List Pl0Op) (i : Nat) :
    (maskOf ops).testBit i = true ↔ ∃ op ∈ ops, op.addr_map = i := by
  induction ops using List.reverseRecOn with
  | nil => simp [maskOf]
  | append_singleton l a ih =>
    rw [maskOf_append, Nat.testBit_or, Bool.or_eq_true, ih, Nat.one_shiftLeft, Nat.testBit_two_pow]
    simp only [List.mem_append, List.mem_singleton, decide_eq_true_eq]
    constructor
    · rintro (⟨op, h1, h2⟩ | h)
      · exact ⟨op, Or.inl h1, h2⟩
      · exact ⟨a, Or.inr rfl, h⟩
    · rintro ⟨op, h1 | h1, h2⟩
      · exact Or.inl ⟨op, h1, h2⟩
      · subst h1; exact Or.inr h2

theorem maskOf_lt (ops : List Pl0Op) (h : ∀ op ∈ ops, op.addr_map ≤ 15) : maskOf ops < 2 ^ 16 := by
  induction ops using List.reverseRecOn with
  | nil => simp [maskOf]
  | append_singleton l a ih =>
    rw [maskOf_append]
    apply Nat.or_lt_two_pow
    · exact ih (fun op hop => h op (by simp [hop]))
    · rw [Nat.one_shiftLeft]
      exact Nat.pow_lt_pow_right (by decide) (by have := h a (by simp); omega)

theorem mapRule_of_mask (ops : List Pl0Op) (h : ∀ op ∈ ops, op.addr_map ≤ 15)
    (hr : MaskRule (maskOf ops)) : MapRule ops := by
  have single : ∀ a, maskOf ops = 2 ^ a → ∀ op ∈ ops, op.addr_map = a := by
    intro a ha op hop
    have := (maskOf_testBit ops op.addr_map).2 ⟨op, hop, rfl⟩
    rw [ha, Nat.testBit_two_pow] at this
    exact (by simpa using this : a = op.addr_map).symm
  rcases hr with h0 | h1 | h2 | h3 | h4
  · left
    intro op hop
    have hb := (maskOf_testBit ops op.addr_map).2 ⟨op, hop, rfl⟩
    have hle := h op hop
    by_contra hc
    have h12 : 12 ≤ op.addr_map := by simpa [TAS_AM12] using hc
    have : (maskOf ops &&& TAS_AM_MASK_EXCLUSIVE).testBit op.addr_map = true := by
      rw [Nat.testBit_and, hb]
      generalize op.addr_map = a at h12 hle
      interval_cases a <;> decide
    rw [h0] at this
    simp at this
  · right; exact ⟨12, by decide, by decide, single 12 h1⟩
  · right; exact ⟨13, by decide, by decide, single 13 h2⟩
  · right; exact ⟨14, by decide, by decide, single 14 h3⟩
  · right; exact ⟨15, by decide, by decide, single 15 h4⟩

/-! ## One PL0 packet -/

theorem decHead_access_mode (w : Nat) (rest : List Nat) (st : DecState) (h : byte1 w = 0x10) :
    decHead w rest st = some ([], byte0 w, { st with acc_mode := hi16 w }) := by
  simp [decHead, h, TAS_PL0_CMD_ACCESS_MODE]

theorem decHead_addr_map (w : Nat) (rest : List Nat) (st : DecState) (h : byte1 w = 0x11) :
    decHead w rest st = some ([], byte0 w, { st with addr_map := byte2 w }) := by
  simp [decHead, h, TAS_PL0_CMD_ACCESS_MODE, TAS_PL0_CMD_ADDR_MAP]

theorem decHead_base32 (w : Nat) (rest : List Nat) (st : DecState) (h : byte1 w = 0x15) :
    decHead w rest st = some ([], byte0 w, { st with base_addr := hi16 w * 2 ^ 16 }) := by
  simp [decHead, h, TAS_PL0_CMD_ACCESS_MODE, TAS_PL0_CMD_ADDR_MAP, TAS_PL0_CMD_BASE_ADDR32]

theorem decHead_base64 (w : Nat) (rest : List Nat) (st : DecState) (h : byte1 w = 0x16) :
    decHead w rest st =
      some ([], byte0 w, { st with base_addr := hi16 w * 2 ^ 16 + rest.getD 0 0 * 2 ^ 32 }) := by
  simp [decHead, h, TAS_PL0_CMD_ACCESS_MODE, TAS_PL0_CMD_ADDR_MAP, TAS_PL0_CMD_BASE_ADDR32,
    TAS_PL0_CMD_BASE_ADDR64]

/-- The size of the micro-op of a command for at most 8 bytes. -/
theorem decHead_small (w : Nat) (rest : List Nat) (st : DecState) (c k : Nat)
    (h : byte1 w = c)
    (hc : (c = 0x21 ∧ k = 1) ∨ (c = 0x20 ∧ k = 1) ∨ (c = 0x23 ∧ k = 2) ∨ (c = 0x22 ∧ k = 2)
      ∨ (c = 0x25 ∧ k = 4) ∨ (c = 0x24 ∧ k = 4) ∨ (c = 0x27 ∧ k = 8) ∨ (c = 0x26 ∧ k = 8)) :
    decHead w rest st =
      some ([⟨c, st.base_addr + hi16 w, k, st.addr_map, st.acc_mode, st.base_addr⟩], byte0 w, st) := by
  have key : ∀ c0 k0 : Nat, c = c0 ∧ k = k0 → (c0 = 0x21 ∨ c0 = 0x20 ∨ c0 = 0x23 ∨ c0 = 0x22 ∨ c0 = 0x25
      ∨ c0 = 0x24 ∨ c0 = 0x27 ∨ c0 = 0x26) →
      (k0 = if c0 < 0x22 then 1 else if c0 < 0x24 then 2 else if c0 < 0x26 then 4 else 8) →
      decHead w rest st =
        some ([⟨c, st.base_addr + hi16 w, k, st.addr_map, st.acc_mode, st.base_addr⟩], byte0 w, st) := by
    intro c0 k0 hck hc0 hk0
    obtain ⟨e1, e2⟩ := hck
    subst e1 e2
    rcases hc0 with e | e | e | e | e | e | e | e <;> subst e <;> subst hk0 <;>
    simp [decHead, h, TAS_PL0_CMD_ACCESS_MODE, TAS_PL0_CMD_ADDR_MAP, TAS_PL0_CMD_BASE_ADDR32,
      TAS_PL0_CMD_BASE_ADDR64, TAS_PL0_CMD_RD8, TAS_PL0_CMD_WR8, TAS_PL0_CMD_RD16, TAS_PL0_CMD_WR16,
      TAS_PL0_CMD_RD32, TAS_PL0_CMD_WR32, TAS_PL0_CMD_RD64, TAS_PL0_CMD_WR64]
  rcases hc with a | a | a | a | a | a | a | a <;> exact key _ _ a (by simp) (by simp)

theorem decHead_wrblk (w : Nat) (rest : List Nat) (st : DecState) (h : byte1 w = 0x2A) :
    decHead w rest st =
      some ([⟨0x2A, st.base_addr + hi16 w, wl256 (byte0 w) * 4, st.addr_map, st.acc_mode, st.base_addr⟩],
        wl256 (byte0 w), st) := by
  simp [decHead, h, TAS_PL0_CMD_ACCESS_MODE, TAS_PL0_CMD_ADDR_MAP, TAS_PL0_CMD_BASE_ADDR32,
    TAS_PL0_CMD_BASE_ADDR64, TAS_PL0_CMD_RD8, TAS_PL0_CMD_WR8, TAS_PL0_CMD_RD16, TAS_PL0_CMD_WR16,
    TAS_PL0_CMD_RD32, TAS_PL0_CMD_WR32, TAS_PL0_CMD_RD64, TAS_PL0_CMD_WR64, TAS_PL0_CMD_WRBLK]

theorem decHead_blk (w : Nat) (rest : List Nat) (st : DecState) (c : Nat) (h : byte1 w = c)
    (hc : c = 0x2B ∨ c = 0x2C) :
    decHead w rest st =
      some ([⟨c, st.base_addr + hi16 w, wl256 (byte0 (rest.getD 0 0)) * 4, st.addr_map, st.acc_mode,
        st.base_addr⟩], byte0 w, st) := by
  rcases hc with rfl | rfl <;>
  simp [decHead, h, TAS_PL0_CMD_ACCESS_MODE, TAS_PL0_CMD_ADDR_MAP, TAS_PL0_CMD_BASE_ADDR32,
    TAS_PL0_CMD_BASE_ADDR64, TAS_PL0_CMD_RD8, TAS_PL0_CMD_WR8, TAS_PL0_CMD_RD16, TAS_PL0_CMD_WR16,
    TAS_PL0_CMD_RD32, TAS_PL0_CMD_WR32, TAS_PL0_CMD_RD64, TAS_PL0_CMD_WR64, TAS_PL0_CMD_WRBLK,
    TAS_PL0_CMD_FILL, TAS_PL0_CMD_RDBLK]

/-! ## The packets that set address map, access mode and base address -/

theorem dec_addrMapWord (am : Nat) (rest : List Nat) (st : DecState) :
    dec (addrMapWord am :: rest) st = dec rest { st with addr_map := am % 256 } := by
  have h1 : byte1 (addrMapWord am) = 0x11 := by
    simp only [byte1, addrMapWord, u8, TAS_PL0_CMD_ADDR_MAP, Nat.shiftRight_eq_div_pow]; omega
  have h0 : byte0 (addrMapWord am) = 0 := by
    simp only [byte0, addrMapWord, u8, TAS_PL0_CMD_ADDR_MAP]; omega
  have h2 : byte2 (addrMapWord am) = am % 256 := by
    simp only [byte2, addrMapWord, u8, TAS_PL0_CMD_ADDR_MAP, Nat.shiftRight_eq_div_pow]; omega
  rw [dec_of_head (decHead_addr_map _ rest st h1), h0, h2]
  simp

theorem dec_accModeWord (acc : Nat) (rest : List Nat) (st : DecState) :
    dec (wordWlCmdU16 0 TAS_PL0_CMD_ACCESS_MODE acc :: rest) st = dec rest { st with acc_mode := acc % 65536 } := by
  rw [dec_of_head (decHead_access_mode _ rest st (by rw [byte1_word]; rfl)), byte0_word, hi16_word]
  simp

theorem dec_baseAddrWords (a : Nat) (ha : a < 2 ^ 64) (rest : List Nat) (st : DecState) :
    dec (baseAddrWords a ++ rest) st = dec rest { st with base_addr := a - a % 65536 } := by
  unfold baseAddrWords
  split_ifs with h
  · rw [List.singleton_append, dec_of_head (decHead_base32 _ rest st (by rw [byte1_word]; rfl)),
      byte0_word, hi16_word]
    have : a >>> 16 % 65536 * 65536 = a - a % 65536 := by
      rw [Nat.shiftRight_eq_div_pow]; omega
    simp [this]
  · have e : [wordWlCmdU16 1 TAS_PL0_CMD_BASE_ADDR64 (a >>> 16), u32 (a >>> 32)] ++ rest
        = wordWlCmdU16 1 TAS_PL0_CMD_BASE_ADDR64 (a >>> 16) :: (u32 (a >>> 32) :: rest) := rfl
    rw [e, dec_of_head (decHead_base64 _ _ st (by rw [byte1_word]; rfl)), byte0_word, hi16_word]
    have : a >>> 16 % 65536 * 65536 + u32 (a >>> 32) * 4294967296 = a - a % 65536 := by
      simp only [u32, Nat.shiftRight_eq_div_pow]; omega
    simp [this]


theorem setAddrMap_spec (h : CTasPktHandlerRw) (am : Nat) (ham : am < 256) :
    ∃ ws r, setAddrMap h am = { h with mRqBuf := h.mRqBuf ++ ws, mRspSize := r, mPl0AddrMap := am }
      ∧ (h.mRspSize < 2 ^ 32 → r = h.mRspSize)
      ∧ ∀ rest st, st.addr_map = h.mPl0AddrMap →
          dec (ws ++ rest) st = dec rest { st with addr_map := am } := by
  unfold setAddrMap
  split_ifs with hc
  · refine ⟨[addrMapWord am], u32 (h.mRspSize + 0), rfl, ?_, ?_⟩
    · intro hr; exact Nat.mod_eq_of_lt hr
    · intro rest st _
      rw [List.singleton_append, dec_addrMapWord, Nat.mod_eq_of_lt ham]
  · have e : am = h.mPl0AddrMap := by simpa using hc
    refine ⟨[], h.mRspSize, ?_, fun _ => rfl, ?_⟩
    · subst e; simp
    · intro rest st hst
      rw [e, ← hst]; rfl

theorem setAccMode_spec (h : CTasPktHandlerRw) (acc : Nat) (hacc : acc < 65536) :
    ∃ ws r, setAccMode h acc = { h with mRqBuf := h.mRqBuf ++ ws, mRspSize := r, mPl0AccMode := acc }
      ∧ (h.mRspSize < 2 ^ 32 → r = h.mRspSize)
      ∧ ∀ rest st, st.acc_mode = h.mPl0AccMode →
          dec (ws ++ rest) st = dec rest { st with acc_mode := acc } := by
  unfold setAccMode
  split_ifs with hc
  · refine ⟨[wordWlCmdU16 0 TAS_PL0_CMD_ACCESS_MODE acc], u32 (h.mRspSize + 0), rfl, ?_, ?_⟩
    · intro hr; exact Nat.mod_eq_of_lt hr
    · intro rest st _
      rw [List.singleton_append, dec_accModeWord, Nat.mod_eq_of_lt hacc]
  · have e : acc = h.mPl0AccMode := by simpa using hc
    refine ⟨[], h.mRspSize, ?_, fun _ => rfl, ?_⟩
    · subst e; simp
    · intro rest st hst
      rw [e, ← hst]; rfl

theorem setBaseAddr_spec (h : CTasPktHandlerRw) (a : Nat) (ha : a < 2 ^ 64)
    (hb : h.mPl0BaseAddr % 65536 = 0) (hb64 : h.mPl0BaseAddr < 2 ^ 64) :
    ∃ ws r, setBaseAddr h a = { h with mRqBuf := h.mRqBuf ++ ws, mRspSize := r,
                                       mPl0BaseAddr := a - a % 65536 }
      ∧ (h.mRspSize < 2 ^ 32 → r = h.mRspSize)
      ∧ ∀ rest st, st.base_addr = h.mPl0BaseAddr →
          dec (ws ++ rest) st = dec rest { st with base_addr := a - a % 65536 } := by
  unfold setBaseAddr
  split_ifs with hc
  · refine ⟨baseAddrWords a, u32 (h.mRspSize + 0), ?_, ?_, ?_⟩
    · rw [and_base_mask a ha]; rfl
    · intro hr; exact Nat.mod_eq_of_lt hr
    · intro rest st _
      rw [dec_baseAddrWords a ha]
  · have e : a - a % 65536 = h.mPl0BaseAddr := by
      simp only [baseAddrChange, Bool.or_eq_true, decide_eq_true_eq, not_or, not_lt, u64] at hc
      have : (h.mPl0BaseAddr + 65535) % 2 ^ 64 = h.mPl0BaseAddr + 65535 := by
        apply Nat.mod_eq_of_lt; omega
      rw [this] at hc
      omega
    refine ⟨[], h.mRspSize, ?_, fun _ => rfl, ?_⟩
    · rw [e]; simp
    · intro rest st hst
      rw [e, ← hst]; rfl

theorem setAddr_spec (h : CTasPktHandlerRw) (am acc a : Nat) (ham : am < 256) (hacc : acc < 65536)
    (ha : a < 2 ^ 64) (hb : h.mPl0BaseAddr % 65536 = 0) (hb64 : h.mPl0BaseAddr < 2 ^ 64) :
    ∃ ws r, mPktAdd_SetAddrMapAccModeBaseAddr h am acc a =
        { h with mRqBuf := h.mRqBuf ++ ws, mRspSize := r, mPl0AddrMap := am, mPl0AccMode := acc,
                 mPl0BaseAddr := a - a % 65536,
                 mPl0AddrMapMask := h.mPl0AddrMapMask ||| u16 (1 <<< am) }
      ∧ (h.mRspSize < 2 ^ 32 → r = h.mRspSize)
      ∧ ∀ rest, dec (ws ++ rest) (decOf h) =
          dec rest { acc_mode := acc, addr_map := am, base_addr := a - a % 65536 } := by
  obtain ⟨w1, r1, e1, b1, d1⟩ := setAddrMap_spec (orAddrMapMask h am) am ham
  obtain ⟨w2, r2, e2, b2, d2⟩ := setAccMode_spec (setAddrMap (orAddrMapMask h am) am) acc hacc
  obtain ⟨w3, r3, e3, b3, d3⟩ := setBaseAddr_spec (setAccMode (setAddrMap (orAddrMapMask h am) am) acc) a ha
    (by rw [e2, e1]; exact hb) (by rw [e2, e1]; exact hb64)
  refine ⟨w1 ++ w2 ++ w3, r3, ?_, ?_, ?_⟩
  · unfold mPktAdd_SetAddrMapAccModeBaseAddr
    rw [e3, e2, e1]
    simp [orAddrMapMask, List.append_assoc]
  · intro hr
    have h1 : r1 = h.mRspSize := b1 hr
    have h2 : r2 = h.mRspSize := by
      have := b2 (by rw [e1]; simpa [h1] using hr)
      rw [this, e1]; simpa using h1
    have := b3 (by rw [e2]; simpa [h2] using hr)
    rw [this, e2]; simpa using h2
  · intro rest
    rw [List.append_assoc, List.append_assoc, d1 _ _ rfl, d2 _ _ (by rw [e1]; rfl),
      d3 _ _ (by rw [e2, e1]; rfl)]

/-! ## The packets of the micro-ops -/

theorem wl256_blk (k : Nat) (h8 : 8 < k) (hk : k ≤ 1024) (hm : k % 8 = 0) :
    wl256 (k / 4 % 256) * 4 = k := by
  unfold wl256
  split_ifs with h <;> omega

theorem dec_rdWords (a k acc am : Nat) (ha : a < 2 ^ 64) (hv : ValidOp a k) (rest : List Nat)
    (wd : List Nat) (rd : Nat) :
    dec (rdWords a k ++ rest) { acc_mode := acc, addr_map := am, base_addr := a - a % 65536 } =
      plannedOp { addr := a, num_bytes := k, acc_mode := acc, addr_map := am, type := TAS_RW_TT_RD,
                  wdata := wd, rdata := rd }
        :: dec rest { acc_mode := acc, addr_map := am, base_addr := a - a % 65536 } := by
  have hadd : a - a % 65536 + a % 65536 = a := by omega
  rcases hv with ⟨hk, _⟩ | ⟨h8, hk, hm, _⟩
  · have hw : rdWords a k = [wordWlCmdU16 0 (rdCmd k) (a &&& 0xFFFF)] := by
      unfold rdWords; rw [if_pos (by omega)]
    rw [hw, List.singleton_append,
      dec_of_head (decHead_small _ rest _ (rdCmd k) k (by
        rw [byte1_word]; rcases hk with rfl | rfl | rfl | rfl <;> rfl) (by
        rcases hk with rfl | rfl | rfl | rfl <;> simp [rdCmd, TAS_PL0_CMD_RD8, TAS_PL0_CMD_RD16,
          TAS_PL0_CMD_RD32, TAS_PL0_CMD_RD64])),
      byte0_word, hi16_word, and_ffff, Nat.mod_mod, hadd]
    rcases hk with rfl | rfl | rfl | rfl <;>
      simp [plannedOp, rdCmd, TAS_RW_TT_RD, TAS_RW_TT_FILL, and_base_mask a ha]
  · have hw : rdWords a k = [wordWlCmdU16 1 TAS_PL0_CMD_RDBLK (a &&& 0xFFFF), u8 (k >>> 2)] := by
      unfold rdWords; rw [if_neg (by omega)]
    have e : [wordWlCmdU16 1 TAS_PL0_CMD_RDBLK (a &&& 0xFFFF), u8 (k >>> 2)] ++ rest
        = wordWlCmdU16 1 TAS_PL0_CMD_RDBLK (a &&& 0xFFFF) :: (u8 (k >>> 2) :: rest) := rfl
    rw [hw, e, dec_of_head (decHead_blk _ _ _ TAS_PL0_CMD_RDBLK (by rw [byte1_word]; rfl)
      (Or.inr rfl)), byte0_word, hi16_word, and_ffff, Nat.mod_mod, hadd]
    have hs : wl256 (byte0 ((u8 (k >>> 2) :: rest).getD 0 0)) * 4 = k := by
      simp only [List.getD_cons_zero, byte0, u8, Nat.shiftRight_eq_div_pow, Nat.mod_mod]
      exact wl256_blk k h8 hk hm
    rw [hs]
    have h1 : k ≠ 1 := by omega
    have h2 : k ≠ 2 := by omega
    have h4 : k ≠ 4 := by omega
    have h8' : k ≠ 8 := by omega
    simp [plannedOp, TAS_RW_TT_RD, TAS_RW_TT_FILL, and_base_mask a ha, h1, h2, h4, h8']

theorem packWords_length (d : List Nat) (n nw : Nat) : (packWords d n nw).length = nw := by
  simp [packWords]

theorem dec_wrWords (wi wiMax a k acc am : Nat) (data : List Nat) (ha : a < 2 ^ 64) (hv : ValidOp a k)
    (rest : List Nat) (wd : List Nat) (rd : Nat) :
    dec (wrWords wi wiMax a k data ++ rest) { acc_mode := acc, addr_map := am, base_addr := a - a % 65536 } =
      plannedOp { addr := a, num_bytes := k, acc_mode := acc, addr_map := am, type := TAS_RW_TT_WR,
                  wdata := wd, rdata := rd }
        :: dec rest { acc_mode := acc, addr_map := am, base_addr := a - a % 65536 } := by
  have hadd : a - a % 65536 + a % 65536 = a := by omega
  rcases hv with ⟨hk, _⟩ | ⟨h8, hk, hm, _⟩
  · have hw : wrWords wi wiMax a k data =
        wordWlCmdU16 (if k > 4 then 2 else 1) (wrCmd k) (a &&& 0xFFFF) ::
          packWords data k (if k > 4 then 2 else 1) := by
      unfold wrWords; rw [if_pos (by omega)]
    have hdrop : List.drop ((if k > 4 then 2 else 1) % 256)
        (packWords data k (if k > 4 then 2 else 1) ++ rest) = rest := by
      apply List.drop_left'
      rw [packWords_length]
      split_ifs <;> rfl
    rw [hw, List.cons_append,
      dec_of_head (decHead_small _ _ _ (wrCmd k) k (by
        rw [byte1_word]; rcases hk with rfl | rfl | rfl | rfl <;> rfl) (by
        rcases hk with rfl | rfl | rfl | rfl <;> simp [wrCmd, TAS_PL0_CMD_WR8, TAS_PL0_CMD_WR16,
          TAS_PL0_CMD_WR32, TAS_PL0_CMD_WR64])),
      byte0_word, hi16_word, and_ffff, Nat.mod_mod, hadd, hdrop]
    rcases hk with rfl | rfl | rfl | rfl <;>
      simp [plannedOp, wrCmd, TAS_RW_TT_RD, TAS_RW_TT_WR, TAS_RW_TT_FILL, and_base_mask a ha]
  · obtain ⟨tl, hw, hl⟩ : ∃ tl, wrWords wi wiMax a k data =
        wordWlCmdU16 (u8 (k / 4)) TAS_PL0_CMD_WRBLK (a &&& 0xFFFF) :: tl
        ∧ tl.length = wl256 (k / 4 % 256) := by
      unfold wrWords
      rw [if_neg (by omega)]
      refine ⟨_, rfl, ?_⟩
      have e8 : (2 : Nat) ^ 8 = 256 := by norm_num
      simp only [u8, e8, wl256]
      by_cases hz : k / 4 % 256 = 0
      · simp only [hz, if_true]
        split_ifs <;> simp only [packWords_length, List.length_replicate]
      · simp only [hz, if_false]
        split_ifs <;> simp only [packWords_length, List.length_replicate]
    have hb0 : u8 (k / 4) % 256 = k / 4 % 256 := by simp [u8]
    rw [hw, List.cons_append, dec_of_head (decHead_wrblk _ _ _ (by rw [byte1_word]; rfl)),
      byte0_word, hi16_word, and_ffff, Nat.mod_mod, hadd, hb0, List.drop_left' hl,
      wl256_blk k h8 hk hm]
    have h1 : k ≠ 1 := by omega
    have h2 : k ≠ 2 := by omega
    have h4 : k ≠ 4 := by omega
    have h8' : k ≠ 8 := by omega
    simp [plannedOp, TAS_RW_TT_RD, TAS_RW_TT_WR, TAS_RW_TT_FILL, TAS_PL0_CMD_WRBLK,
      and_base_mask a ha, h1, h2, h4, h8']

theorem dec_fillWords (a k v acc am : Nat) (ha : a < 2 ^ 64) (h0 : k ≠ 0) (hk : k ≤ 1024) (hm : k % 8 = 0)
    (rest : List Nat) (wd : List Nat) (rd : Nat) :
    dec (fillWords a k v ++ rest) { acc_mode := acc, addr_map := am, base_addr := a - a % 65536 } =
      plannedOp { addr := a, num_bytes := k, acc_mode := acc, addr_map := am, type := TAS_RW_TT_FILL,
                  wdata := wd, rdata := rd }
        :: dec rest { acc_mode := acc, addr_map := am, base_addr := a - a % 65536 } := by
  have hadd : a - a % 65536 + a % 65536 = a := by omega
  have e : fillWords a k v ++ rest = wordWlCmdU16 3 TAS_PL0_CMD_FILL (a &&& 0xFFFF) ::
      (u8 (k / 4) :: u32 v :: u32 (v >>> 32) :: rest) := rfl
  rw [e, dec_of_head (decHead_blk _ _ _ TAS_PL0_CMD_FILL (by rw [byte1_word]; rfl) (Or.inl rfl)),
    byte0_word, hi16_word, and_ffff, Nat.mod_mod, hadd]
  have hs : wl256 (byte0 ((u8 (k / 4) :: u32 v :: u32 (v >>> 32) :: rest).getD 0 0)) * 4 = k := by
    simp only [List.getD_cons_zero, byte0, u8, Nat.mod_mod]
    unfold wl256
    split_ifs with h <;> omega
  rw [hs]
  simp [plannedOp, TAS_RW_TT_FILL, and_base_mask a ha]

/-! ## Finalizing a PL2 packet -/

theorem setWords_mid (P : List Nat) (old ws tl : List Nat) (h : old.length = ws.length) :
    setWords (P ++ old ++ tl) P.length ws = P ++ ws ++ tl := by
  unfold setWords
  have h1 : List.take P.length (P ++ old ++ tl) = P := by
    rw [List.append_assoc]; exact List.take_left' rfl
  have h2 : List.drop (P.length + ws.length) (P ++ old ++ tl) = tl := by
    apply List.drop_left'
    simp [h]
  rw [h1, h2]

theorem setWords_end (buf ws : List Nat) : setWords buf buf.length ws = buf ++ ws := by
  unfold setWords
  simp

theorem finalize_words (P body : List Nat) (x y e l : Nat) :
    setWords (setWords (setWords (P ++ (0 :: 0 :: 0 :: body)) (P.length + 1) [x, y])
        (P ++ (0 :: 0 :: 0 :: body)).length [e]) P.length [l] = P ++ ([l, x, y] ++ body ++ [e]) := by
  have e1 : setWords (P ++ (0 :: 0 :: 0 :: body)) (P.length + 1) [x, y] = P ++ [0] ++ [x, y] ++ body := by
    have := setWords_mid (P ++ [0]) [0, 0] [x, y] body rfl
    simpa using this
  have e2 : (P ++ (0 :: 0 :: 0 :: body)).length = (P ++ [0] ++ [x, y] ++ body).length := by
    simp
  rw [e1, e2, setWords_end]
  have := setWords_mid P [0] [l] ([x, y] ++ body ++ [e]) rfl
  simpa using this

theorem finalize_buf (h : CTasPktHandlerRw) (b : Bool) (P body : List Nat)
    (hb : h.mRqBuf = P ++ (0 :: 0 :: 0 :: body)) (hh : h.mPl2HdrWi = P.length) :
    (mPktFinalize h b).mRqBuf = P ++ finalPkt h body ++ (if b then [0, 0, 0] else []) := by
  have key := finalize_words P body pl0StartWord0
    (u16 (h.mPl1CntOutstandingLast + 1) + u16 h.mPl0AddrMapMask * 2 ^ 16)
    (wordWlCmdU16 0 TAS_PL1_CMD_PL0_END h.mPl0NumTrans)
    (u32 (sub32 (h.mRqBufWi + 1) h.mPl2HdrWi * 4))
  rw [← hb, ← hh] at key
  cases b
  · simp only [mPktFinalize, CTasPktHandlerRw.mRqBufWi] at key ⊢
    rw [key]; simp [finalPkt, CTasPktHandlerRw.mRqBufWi]
  · simp only [mPktFinalize, mPl2PktInit, CTasPktHandlerRw.mRqBufWi] at key ⊢
    rw [key]; simp [finalPkt, CTasPktHandlerRw.mRqBufWi]

theorem pktOps_finalPkt (h : CTasPktHandlerRw) (body : List Nat) (ops : List Pl0Op)
    (hd : ∀ rest, dec (body ++ rest) decStart = ops ++ dec rest (decOf h)) :
    pktOps (finalPkt h body) = ops := by
  have e : (finalPkt h body).drop 3 = body ++ [wordWlCmdU16 0 TAS_PL1_CMD_PL0_END h.mPl0NumTrans] := by
    simp [finalPkt]
  unfold pktOps
  rw [e, decodePl0_dec _ _ _ (by simp [finalPkt])]
  have := hd [wordWlCmdU16 0 TAS_PL1_CMD_PL0_END h.mPl0NumTrans]
  rw [dec_end] at this
  simpa [decStart] using this

theorem maskRule_zero : MaskRule 0 := Or.inl (by simp)

theorem PktOK_finalPkt {cap : Nat} {h : CTasPktHandlerRw} {pk : List (List Nat)} {body : List Nat}
    {ops : List Pl0Op} (hi : PInv cap h pk body ops) : PktOK cap (finalPkt h body) := by
  have hops := pktOps_finalPkt h body ops hi.decode
  have hlt : h.mPl0AddrMapMask < 2 ^ 16 := by rw [hi.mask]; exact maskOf_lt ops hi.maps
  have hl : (finalPkt h body).length = body.length + 4 := by simp [finalPkt]
  have hw : h.mRqBufWi = pk.flatten.length + 3 + body.length := by
    simp [CTasPktHandlerRw.mRqBufWi, hi.buf]; omega
  have hword : u32 (sub32 (h.mRqBufWi + 1) h.mPl2HdrWi * 4) = u32 (4 * (finalPkt h body).length) := by
    rw [hl, hw, hi.hdr]
    simp only [u32, sub32]
    omega
  refine ⟨by simp [finalPkt], ?_, ?_, ?_, ?_, ?_⟩
  · rw [← hword]
    simp only [finalPkt, List.cons_append, List.getD_cons_zero]
  · rw [hops, ← hi.mask]
    simp only [pktAddrMapMask, finalPkt, hi16, u16, Nat.shiftRight_eq_div_pow]
    simp only [List.cons_append, List.getD_cons_succ, List.getD_cons_zero]
    omega
  · rw [hops]; exact mapRule_of_mask ops hi.maps (by rw [← hi.mask]; exact hi.rule)
  · rw [hops]; exact hi.count
  · refine ⟨u16 (h.mPl1CntOutstandingLast + 1) + u16 h.mPl0AddrMapMask * 2 ^ 16, body, h.mPl0NumTrans,
      decOf h, ?_, ?_⟩
    · rw [← hword]; rfl
    · intro rest; rw [hops]; exact hi.decode rest

theorem pktPl1Cnt_finalPkt (h : CTasPktHandlerRw) (body : List Nat) :
    pktPl1Cnt (finalPkt h body) = u16 (h.mPl1CntOutstandingLast + 1) := by
  simp only [pktPl1Cnt, finalPkt, List.cons_append, List.getD_cons_succ, List.getD_cons_zero, u16]
  omega

theorem PInv_finalize {cap : Nat} {h : CTasPktHandlerRw} {pk : List (List Nat)} {body : List Nat}
    {ops : List Pl0Op} (hi : PInv cap h pk body ops) :
    PInv cap (mPktFinalize h true) (pk ++ [finalPkt h body]) [] [] := by
  have hops := pktOps_finalPkt h body ops hi.decode
  have hbuf := finalize_buf h true _ _ hi.buf hi.hdr
  have hbuf0 := finalize_buf h false _ _ hi.buf hi.hdr
  refine ⟨?_, ?_, ?_, ?_, ?_, rfl, by simp, rfl, by show (0 : Nat) < 2 ^ 64; norm_num, rfl, by simp, maskRule_zero,
    ?_, ?_, ?_⟩
  · rw [hbuf]; simp
  · show (mPktFinalize h false).mRqBuf.length = _
    rw [hbuf0]; simp
  · show u32 (h.mNumPl2Pkt + 1) = _
    rw [hi.num]; simp only [u32, List.length_append, List.length_singleton]; omega
  · intro rest; rfl
  · show h.mPl0Trans.map plannedOp = _
    rw [hi.planned]; simp [hops]
  · intro p hp
    rcases List.mem_append.1 hp with hp | hp
    · exact hi.pkts p hp
    · rw [List.mem_singleton.1 hp]; exact PktOK_finalPkt hi
  · show u16 (u16 (h.mPl1CntOutstandingLast + 1) + 1) = u16 (h.mPl1CntOutstandingOldest + _)
    have := hi.last
    simp only [u16, List.length_append, List.length_singleton] at this ⊢
    omega
  · intro j p hj
    show pktPl1Cnt p = u16 (h.mPl1CntOutstandingOldest + j)
    by_cases hlt : j < pk.length
    · rw [List.get?_append hlt] at hj
      exact hi.cnts j p hj
    · have hj2 : j = pk.length := by
        have hl := List.get?_eq_some.1 hj
        obtain ⟨hl, _⟩ := hl
        simp only [List.length_append, List.length_singleton] at hl
        omega
      subst hj2
      rw [List.get?_append_right (le_refl _)] at hj
      simp only [Nat.sub_self, List.get?_cons_zero, Option.some.injEq] at hj
      rw [← hj, pktPl1Cnt_finalPkt, hi.last]

/-! ## Adding a micro-op -/

theorem u16_bit (am : Nat) (ham : am ≤ 15) : u16 (1 <<< am) = 1 <<< am := by
  interval_cases am <;> rfl

theorem compat_or (m am : Nat) (ham : am ≤ 15)
    (hc : (m = 0 ∨ m = 1 <<< am) ∨ ((1 <<< am) &&& TAS_AM_MASK_SHARED ≠ 0 ∧ m &&& TAS_AM_MASK_EXCLUSIVE = 0)) :
    MaskRule (m ||| (1 <<< am)) ∧
      ((m ||| (1 <<< am) = 0 ∨ m ||| (1 <<< am) = 1 <<< am) ∨
        ((1 <<< am) &&& TAS_AM_MASK_SHARED ≠ 0 ∧ (m ||| (1 <<< am)) &&& TAS_AM_MASK_EXCLUSIVE = 0)) := by
  have hbit : MaskRule (1 <<< am) := by
    unfold MaskRule
    interval_cases am <;> decide
  rcases hc with (rfl | rfl) | ⟨h1, h2⟩
  · rw [Nat.zero_or]; exact ⟨hbit, Or.inl (Or.inr rfl)⟩
  · rw [Nat.or_self]; exact ⟨hbit, Or.inl (Or.inr rfl)⟩
  · have h3 : (1 <<< am) &&& TAS_AM_MASK_EXCLUSIVE = 0 := by
      revert h1
      interval_cases am <;> decide
    have h4 : (m ||| (1 <<< am)) &&& TAS_AM_MASK_EXCLUSIVE = 0 := by
      rw [Nat.and_distrib_right, h2, h3]; rfl
    exact ⟨Or.inl h4, Or.inr ⟨h1, h4⟩⟩

theorem check_iff (h : CTasPktHandlerRw) (am : Nat) (ham : am ≤ 15) :
    mCheckAddrMapRulesInPkt h am = true ↔
      ((h.mPl0AddrMapMask = 0 ∨ h.mPl0AddrMapMask = 1 <<< am) ∨
        ((1 <<< am) &&& TAS_AM_MASK_SHARED ≠ 0 ∧ h.mPl0AddrMapMask &&& TAS_AM_MASK_EXCLUSIVE = 0)) := by
  unfold mCheckAddrMapRulesInPkt
  rw [u16_bit am ham]
  simp only []
  split_ifs with h1 h2
  · simp [h1]
  · simp [h2]
  · simp [h1, h2]


theorem plannedOp_addr_map (t : tas_rw_trans_st) : (plannedOp t).addr_map = t.addr_map := rfl

theorem PInv_core {cap : Nat} {h : CTasPktHandlerRw} {pk : List (List Nat)} {body : List Nat}
    {ops : List Pl0Op} (hi : PInv cap h pk body ops) (am acc a k ty : Nat) (wd : List Nat)
    (rd rsp : Nat) (words : List Nat)
    (ham : am ≤ 15) (hacc : acc < 65536) (ha : a < 2 ^ 64) (hcap : cap < 2 ^ 32)
    (hcnt : h.mPl2NumTrans < cap ∨ h.mPl2NumTrans = 0)
    (hc : mCheckAddrMapRulesInPkt h am = true)
    (op : tas_rw_trans_st)
    (hop : op = { addr := a, num_bytes := k, acc_mode := acc, addr_map := am, type := ty,
                  wdata := wd, rdata := rd })
    (hw : ∀ rest, dec (words ++ rest) { acc_mode := acc, addr_map := am, base_addr := a - a % 65536 } =
      plannedOp op :: dec rest { acc_mode := acc, addr_map := am, base_addr := a - a % 65536 }) :
    (∃ body1, PInv cap (recordPl0 (emit (mPktAdd_SetAddrMapAccModeBaseAddr h am acc a) words rsp)
        a k ty wd rd) pk body1 (ops ++ [plannedOp op]))
    ∧ mCheckAddrMapRulesInPkt
        (recordPl0 (emit (mPktAdd_SetAddrMapAccModeBaseAddr h am acc a) words rsp) a k ty wd rd) am = true := by
  obtain ⟨ws, r, e, _, d⟩ := setAddr_spec h am acc a (by omega) hacc ha hi.base hi.base64
  have hco := compat_or h.mPl0AddrMapMask am ham ((check_iff h am ham).1 hc)
  rw [e]
  constructor
  · refine ⟨body ++ ws ++ words, ?_⟩
    refine ⟨?_, hi.hdr, hi.num, ?_, ?_, ?_, ?_, ?_, ?_, ?_, ?_, ?_, hi.pkts, hi.last, hi.cnts⟩
    · simp [recordPl0, emit, hi.buf]
    · intro rest
      rw [List.append_assoc, List.append_assoc, hi.decode, d, hw]
      simp [decOf, recordPl0, emit]
    · simp [recordPl0, emit, hi.planned, hop]
    · show u32 (h.mPl2NumTrans + 1) = _
      rw [hi.cnt] at hcnt ⊢
      simp only [u32, List.length_append, List.length_singleton]
      omega
    · have := hi.count
      rw [hi.cnt] at hcnt
      simp only [List.length_append, List.length_singleton]
      omega
    · show (a - a % 65536) % 65536 = 0
      omega
    · show a - a % 65536 < 2 ^ 64
      omega
    · show h.mPl0AddrMapMask ||| u16 (1 <<< am) = _
      rw [maskOf_append, plannedOp_addr_map, u16_bit am ham, hi.mask, hop]
    · intro o ho
      rcases List.mem_append.1 ho with ho | ho
      · exact hi.maps o ho
      · rw [List.mem_singleton.1 ho, plannedOp_addr_map, hop]; exact ham
    · show MaskRule (h.mPl0AddrMapMask ||| u16 (1 <<< am))
      rw [u16_bit am ham]; exact hco.1
  · rw [check_iff _ am ham]
    show ((h.mPl0AddrMapMask ||| u16 (1 <<< am) = 0 ∨ _) ∨ _)
    rw [u16_bit am ham]
    exact hco.2

theorem PI_finalize {cap : Nat} {h : CTasPktHandlerRw} (hI : PI cap h) : PI cap (mPktFinalize h true) := by
  obtain ⟨pk, body, ops, hi⟩ := hI
  exact ⟨_, _, _, PInv_finalize hi⟩

theorem check_finalize (h : CTasPktHandlerRw) (am : Nat) :
    mCheckAddrMapRulesInPkt (mPktFinalize h true) am = true :=
  rules_of_mask_zero _ _ rfl

theorem conInfo_of_Caps {h h' : CTasPktHandlerRw} (e : Caps h' = Caps h) : h'.mConInfo = h.mConInfo := by
  simp only [Caps, Static, Prod.mk.injEq] at e
  exact e.2.2.2.2.2.2.2.1

theorem prep_good {cap am : Nat} {h : CTasPktHandlerRw} (hI : PI cap h)
    (hc : mCheckAddrMapRulesInPkt h am = true) (hcap : h.mConInfo.pl0_max_num_rw = cap) (x y : Nat) :
    PI cap (mPktFinalizeIfNeeded (finalizeIfFull h) x y)
    ∧ mCheckAddrMapRulesInPkt (mPktFinalizeIfNeeded (finalizeIfFull h) x y) am = true
    ∧ ((mPktFinalizeIfNeeded (finalizeIfFull h) x y).mPl2NumTrans < cap
        ∨ (mPktFinalizeIfNeeded (finalizeIfFull h) x y).mPl2NumTrans = 0) := by
  have h1 : PI cap (finalizeIfFull h) ∧ mCheckAddrMapRulesInPkt (finalizeIfFull h) am = true
      ∧ ((finalizeIfFull h).mPl2NumTrans < cap ∨ (finalizeIfFull h).mPl2NumTrans = 0) := by
    unfold finalizeIfFull
    split_ifs with hf
    · exact ⟨PI_finalize hI, check_finalize _ _, Or.inr rfl⟩
    · exact ⟨hI, hc, Or.inl (by rw [hcap] at hf; omega)⟩
  unfold mPktFinalizeIfNeeded
  split_ifs with hf
  · exact ⟨PI_finalize h1.1, check_finalize _ _, Or.inr rfl⟩
  · exact h1

theorem validOp_u64 {a k : Nat} (hv : ValidOp a k) : ValidOp (u64 a) k := by
  unfold ValidOp at hv ⊢
  simp only [u64_eq]
  rcases hv with ⟨hk, h1⟩ | ⟨h8, hk, hm, h1⟩
  · left
    refine ⟨hk, ?_⟩
    rcases hk with rfl | rfl | rfl | rfl <;> omega
  · right
    exact ⟨h8, hk, hm, by omega⟩

theorem PI_addOp {cap : Nat} {h : CTasPktHandlerRw} (t : tas_rw_trans_st) (off k : Nat)
    (hI : PI cap h) (hc : mCheckAddrMapRulesInPkt h (aliasMap t.addr_map) = true)
    (hcap : h.mConInfo.pl0_max_num_rw = cap) (hlt : cap < 2 ^ 32)
    (hw : WellTyped t) (hacc : Accepted t) (hv : ValidOp (t.addr + off) k)
    (hfill : t.type = TAS_RW_TT_FILL → 8 ≤ k) :
    PI cap (addOp t h off k) ∧ mCheckAddrMapRulesInPkt (addOp t h off k) (aliasMap t.addr_map) = true := by
  have hk0 : k ≠ 0 := by
    rcases hv with ⟨hk, _⟩ | ⟨h8, _⟩ <;> omega
  have hv64 := validOp_u64 hv
  have ha64 : u64 (t.addr + off) < 2 ^ 64 := Nat.mod_lt _ (by norm_num)
  have ham : aliasMap t.addr_map ≤ 15 := hacc.2.1
  have hac : t.acc_mode < 65536 := hw.2.2.1
  unfold addOp
  split_ifs with t1 t2
  · simp only [mPktAdd_Rd, if_neg hk0, pktPrep]
    obtain ⟨g1, g2, g3⟩ := prep_good hI hc hcap
      (u32 (mGetNumBytesAddrMapAccModeBaseAddr (finalizeIfFull h) (aliasMap t.addr_map) t.acc_mode
        (u64 (t.addr + off)) + (8 + 4))) (u32 (4 + roundUp4 k + 4))
    obtain ⟨pk, body, ops, hi⟩ := g1
    obtain ⟨⟨b1, hb1⟩, hc1⟩ := PInv_core hi _ _ _ k TAS_RW_TT_RD [] (t.rdata + off) _ _ ham hac ha64 hlt g3 g2 _ rfl
      (fun rest => dec_rdWords _ _ _ _ ha64 hv64 rest _ _)
    exact ⟨⟨_, _, _, hb1⟩, hc1⟩
  · simp only [mPktAdd_Wr, if_neg hk0, pktPrep]
    obtain ⟨g1, g2, g3⟩ := prep_good hI hc hcap
      (u32 (mGetNumBytesAddrMapAccModeBaseAddr (finalizeIfFull h) (aliasMap t.addr_map) t.acc_mode
        (u64 (t.addr + off)) + (4 + roundUp4 k + 4))) (4 + 4)
    obtain ⟨pk, body, ops, hi⟩ := g1
    obtain ⟨⟨b1, hb1⟩, hc1⟩ := PInv_core hi _ _ _ k TAS_RW_TT_WR (t.wdata.drop off) 0 _ _ ham hac ha64 hlt g3 g2 _ rfl
      (fun rest => dec_wrWords _ _ _ _ _ _ _ ha64 hv64 rest _ _)
    exact ⟨⟨_, _, _, hb1⟩, hc1⟩
  · have t3 : t.type = TAS_RW_TT_FILL := by
      rcases hacc.2.2 with h1 | h1 | h1
      · exact absurd h1 t1
      · exact absurd h1 t2
      · exact h1.1
    have h8 := hfill t3
    have hk : k ≤ 1024 ∧ k % 8 = 0 := by
      rcases hv with ⟨hk, _⟩ | ⟨_, h2, h3, _⟩ <;> omega
    simp only [mPktAdd_Fill, pktPrep]
    obtain ⟨g1, g2, g3⟩ := prep_good hI hc hcap
      (u32 (mGetNumBytesAddrMapAccModeBaseAddr (finalizeIfFull h) (aliasMap t.addr_map) t.acc_mode
        (u64 (t.addr + off)) + (4 + 8 + 4))) (4 + 4)
    obtain ⟨pk, body, ops, hi⟩ := g1
    obtain ⟨⟨b1, hb1⟩, hc1⟩ := PInv_core hi _ _ _ k TAS_RW_TT_FILL (bytesOfU64 (fillValue t.wdata)) 0 _ _ ham hac
      ha64 hlt g3 g2
      _ rfl (fun rest => dec_fillWords _ _ _ _ _ ha64 hk0 hk.1 hk.2 rest _ _)
    exact ⟨⟨_, _, _, hb1⟩, hc1⟩

end Tas


/-!
# The request of a planned list of transactions
-/

namespace Tas

theorem PI_runTrace_none {cap : Nat} (t : tas_rw_trans_st) :
    ∀ (pro : List (Option Nat)) (h : CTasPktHandlerRw) (off : Nat), (∀ e ∈ pro, e = none) →
      PI cap h → PI cap (runTrace t h off pro) := by
  intro pro
  induction pro with
  | nil => intro h off _ hI; exact hI
  | cons e r ih =>
    intro h off hp hI
    have he : e = none := hp e (by simp)
    subst he
    exact ih _ _ (fun e he => hp e (by simp [he])) (PI_finalize hI)

theorem PI_runTrace {cap : Nat} (t : tas_rw_trans_st) (hlt : cap < 2 ^ 32) (hw : WellTyped t)
    (hacc : Accepted t) :
    ∀ (tr : List (Option Nat)) (h : CTasPktHandlerRw) (off : Nat),
      PI cap h → mCheckAddrMapRulesInPkt h (aliasMap t.addr_map) = true →
      h.mConInfo.pl0_max_num_rw = cap → TraceOK t.addr off tr →
      (t.type = TAS_RW_TT_FILL → ∀ k ∈ traceSizes tr, 8 ≤ k) →
      PI cap (runTrace t h off tr) := by
  intro tr
  induction tr with
  | nil => intro h off hI _ _ _ _; exact hI
  | cons e r ih =>
    intro h off hI hc hcap hok hfill
    cases e with
    | none =>
      have e1 : (mPktFinalize h true).mConInfo = h.mConInfo := conInfo_of_Caps (Caps_mPktFinalize h true)
      exact ih _ _ (PI_finalize hI) (check_finalize _ _) (by rw [e1]; exact hcap) hok
        (fun ht k hk => hfill ht k (by simpa [traceSizes] using hk))
    | some k =>
      have e1 : (addOp t h off k).mConInfo = h.mConInfo := conInfo_of_Caps (Caps_addOp t h off k)
      obtain ⟨g1, g2⟩ := PI_addOp t off k hI hc hcap hlt hw hacc hok.1
        (fun ht => hfill ht k (by simp [traceSizes]))
      exact ih _ _ g1 g2 (by rw [e1]; exact hcap) hok.2
        (fun ht k' hk' => hfill ht k' (by
          have e : traceSizes (some k :: r) = k :: traceSizes r := rfl
          rw [e]; exact List.mem_cons_of_mem _ hk'))

theorem PI_recordUser {cap : Nat} {h : CTasPktHandlerRw} (t : tas_rw_trans_st) (hI : PI cap h) :
    PI cap (recordUser h t) := by
  obtain ⟨pk, body, ops, hi⟩ := hI
  exact ⟨pk, body, ops, ⟨hi.buf, hi.hdr, hi.num, hi.decode, hi.planned, hi.cnt, hi.count, hi.base,
    hi.base64, hi.mask, hi.maps, hi.rule, hi.pkts, hi.last, hi.cnts⟩⟩

theorem PI_rw_start (cap : Nat) (h : CTasPktHandlerRw) : PI cap (rw_start h) := by
  refine ⟨[], [], [], ⟨rfl, rfl, rfl, fun _ => rfl, rfl, rfl, by simp, rfl, by show (0 : Nat) < 2 ^ 64; norm_num,
    rfl, by simp, maskRule_zero, by simp, ?_, by simp⟩⟩
  show u16 (h.mPl1CntOutstandingLast + 1) = u16 (u16 (h.mPl1CntOutstandingLast + 1) + 0)
  simp [u16]

theorem PI_rw_add_trans {cap fuel : Nat} {h h' : CTasPktHandlerRw} {t : tas_rw_trans_st}
    (hlt : cap < 2 ^ 32) (hw : WellTyped t) (hI : PI cap h) (hcaps : CapsOK h)
    (hcap : h.mConInfo.pl0_max_num_rw = cap) (hrun : rw_add_trans fuel h t = some (true, h')) :
    PI cap h' := by
  obtain ⟨pro, tr, p1, _, e, hc, ok, _, _, _, hacc, hfill⟩ := rw_add_trans_trace hw.1 hw.2.1 hcaps hrun
  rw [e, runTrace_append, traceSizes_of_all_none pro p1]
  apply PI_recordUser
  have e1 : (runTrace t h 0 pro).mConInfo = h.mConInfo := conInfo_of_Caps (Caps_runTrace t pro h 0)
  exact PI_runTrace t hlt hw hacc tr _ _ (PI_runTrace_none t pro h 0 p1 hI) hc (by rw [e1]; exact hcap)
    ok hfill

theorem setTransLoop_PI {cap fuel : Nat} (hlt : cap < 2 ^ 32) :
    ∀ (trans : List tas_rw_trans_st) (b : Bool) (h h' : CTasPktHandlerRw),
      (∀ t ∈ trans, WellTyped t) → PI cap h → CapsOK h → h.mConInfo.pl0_max_num_rw = cap →
      setTransLoop fuel trans b h = some (true, h') →
      PI cap h' ∧ Caps h' = Caps h ∧ h'.mRwTrans.length = h.mRwTrans.length + trans.length
        ∧ h'.mRwTransRsp.length = h.mRwTransRsp.length + trans.length := by
  intro trans
  induction trans with
  | nil =>
    intro b h h' _ hI _ _ hrun
    simp only [setTransLoop, Option.some.injEq, Prod.mk.injEq] at hrun
    rw [← hrun.2]
    exact ⟨hI, rfl, by simp, by simp⟩
  | cons t ts ih =>
    intro b h h' hw hI hcaps hcap hrun
    simp only [setTransLoop] at hrun
    cases hr : rw_add_trans fuel h t with
    | none => simp [hr] at hrun
    | some r =>
      obtain ⟨b1, h1⟩ := r
      cases b1 with
      | false => simp [hr] at hrun
      | true =>
        simp only [hr] at hrun
        have hc1 := Caps_rw_add_trans hr
        have hI1 := PI_rw_add_trans hlt (hw t (by simp)) hI hcaps hcap hr
        obtain ⟨g1, g2, g3, g4⟩ := ih true h1 h' (fun t' ht' => hw t' (by simp [ht'])) hI1
          (CapsOK_of_Caps hc1 hcaps) (by rw [conInfo_of_Caps hc1]; exact hcap) hrun
        obtain ⟨pro, tr, p1, _, e, _, _, _, hpos, _⟩ :=
          rw_add_trans_trace (hw t (by simp)).1 (hw t (by simp)).2.1 hcaps hr
        have hrec := Recs_runTrace t (pro ++ tr) h 0 (by
          rw [traceSizes_append, traceSizes_of_all_none pro p1, List.nil_append]; exact hpos)
        simp only [Recs, Prod.mk.injEq] at hrec
        have e3 : h1.mRwTrans.length = h.mRwTrans.length + 1 := by
          rw [e]
          show ((runTrace t h 0 (pro ++ tr)).mRwTrans ++ _).length = _
          rw [hrec.2.2.1]; simp
        have e4 : h1.mRwTransRsp.length = h.mRwTransRsp.length + 1 := by
          rw [e]
          show ((runTrace t h 0 (pro ++ tr)).mRwTransRsp ++ _).length = _
          rw [hrec.2.2.2]; simp
        refine ⟨g1, by rw [g2, hc1], ?_, ?_⟩
        · rw [g3, e3, List.length_cons]; omega
        · rw [g4, e4, List.length_cons]; omega


theorem length_le_flatten (pk : List (List Nat)) (p : List Nat) (hp : p ∈ pk) :
    p.length ≤ pk.flatten.length := by
  induction pk with
  | nil => simp at hp
  | cons q r ih =>
    rw [List.flatten_cons, List.length_append]
    rcases List.mem_cons.1 hp with rfl | h
    · omega
    · have := ih h; omega

theorem splitPl2_flatten : ∀ (pk : List (List Nat)),
    (∀ p ∈ pk, 4 ≤ p.length ∧ p.getD 0 0 = 4 * p.length) → splitPl2 pk.length pk.flatten = pk := by
  intro pk
  induction pk with
  | nil => intro _; rfl
  | cons p r ih =>
    intro hp
    obtain ⟨h4, hw⟩ := hp p (by simp)
    cases p with
    | nil => simp at h4
    | cons len p1 =>
      simp only [List.getD_cons_zero, List.length_cons] at hw h4
      have hl : len / 4 - 1 = p1.length := by omega
      rw [List.flatten_cons, List.length_cons, List.cons_append]
      have hne : ∀ x, splitPl2 (r.length + 1) (len :: x) =
          (len :: x.take (len / 4 - 1)) :: splitPl2 r.length (x.drop (len / 4 - 1)) := fun _ => rfl
      rw [hne, hl, List.take_left' rfl, List.drop_left' rfl, ih (fun q hq => hp q (by simp [hq]))]

theorem length_le_flatten_length (pk : List (List Nat)) (hp : ∀ p ∈ pk, 1 ≤ p.length) :
    pk.length ≤ pk.flatten.length := by
  induction pk with
  | nil => simp
  | cons q r ih =>
    rw [List.flatten_cons, List.length_append, List.length_cons]
    have := ih (fun p h => hp p (by simp [h]))
    have := hp q (by simp)
    omega

theorem rw_get_rq_first (h : CTasPktHandlerRw) (hc : h.mGetPktRqWasCalled = false) :
    (rw_get_rq h).1.mPl0Trans = h.mPl0Trans ∧ (rw_get_rq h).1.mRwTrans = h.mRwTrans
    ∧ (rw_get_rq h).1.mRwTransRsp = h.mRwTransRsp
    ∧ (rw_get_rq h).2.rq = (mPktFinalize h false).mRqBuf
    ∧ (rw_get_rq h).2.num_pl2_pkt = u32 (h.mNumPl2Pkt + 1) := by
  unfold rw_get_rq
  simp only [hc, if_true]
  refine ⟨?_, ?_, ?_, ?_, ?_⟩ <;> first | rfl | trivial

theorem planRq_spec {fuel : Nat} {h h' : CTasPktHandlerRw} {trans : List tas_rw_trans_st} {o : RqOut}
    (hw : ∀ t ∈ trans, WellTyped t) (hlt : h.mConInfo.pl0_max_num_rw < 2 ^ 32)
    (hlen : 4 * o.rq.length < 2 ^ 32) (hplan : planRq fuel h trans = some (h', o)) :
    (∀ p ∈ rqPackets o, PktOK h.mConInfo.pl0_max_num_rw p)
    ∧ ((rqPackets o).map pktOps).flatten = h'.mPl0Trans.map plannedOp
    ∧ (rqPackets o).flatten = o.rq
    ∧ h'.mRwTrans.length = trans.length ∧ h'.mRwTransRsp.length = trans.length := by
  unfold planRq at hplan
  cases hr : rw_set_trans fuel h trans with
  | none => simp [hr] at hplan
  | some r =>
    obtain ⟨b, h1⟩ := r
    cases b with
    | false => simp [hr] at hplan
    | true =>
      simp only [hr, Option.some.injEq] at hplan
      unfold rw_set_trans at hr
      obtain ⟨⟨pk, body, ops, hi⟩, hcaps, hl1, hl2⟩ := setTransLoop_PI hlt trans false (rw_start h) h1 hw
        (PI_rw_start _ h) (CapsOK_rw_start h) rfl hr
      have hcalled : h1.mGetPktRqWasCalled = false := by
        simp only [Caps, Prod.mk.injEq] at hcaps
        rw [hcaps.2.2.1]; rfl
      obtain ⟨q1, q2, q3, q4, q5⟩ := rw_get_rq_first h1 hcalled
      have hh : h' = (rw_get_rq h1).1 := by rw [hplan]
      have ho : o = (rw_get_rq h1).2 := by rw [hplan]
      have hbuf : o.rq = (pk ++ [finalPkt h1 body]).flatten := by
        rw [ho, q4, finalize_buf h1 false _ _ hi.buf hi.hdr]; simp
      have hok : ∀ p ∈ pk ++ [finalPkt h1 body], PktOK h.mConInfo.pl0_max_num_rw p := by
        intro p hp
        rcases List.mem_append.1 hp with hp | hp
        · exact hi.pkts p hp
        · rw [List.mem_singleton.1 hp]; exact PktOK_finalPkt hi
      have hnum : o.num_pl2_pkt = (pk ++ [finalPkt h1 body]).length := by
        have := length_le_flatten_length (pk ++ [finalPkt h1 body]) (fun p hp => by
          have := (hok p hp).len; omega)
        rw [← hbuf] at this
        rw [ho, q5, hi.num]
        simp only [List.length_append, List.length_singleton, u32] at this ⊢
        omega
      have hsplit : rqPackets o = pk ++ [finalPkt h1 body] := by
        unfold rqPackets
        rw [hnum, hbuf]
        apply splitPl2_flatten
        intro p hp
        refine ⟨(hok p hp).len, ?_⟩
        rw [(hok p hp).word]
        have := length_le_flatten _ p hp
        rw [← hbuf] at this
        simp only [u32]
        omega
      rw [hsplit]
      refine ⟨hok, ?_, hbuf.symm, ?_, ?_⟩
      · rw [hh, q1, hi.planned, List.map_append, List.flatten_append]
        simp [pktOps_finalPkt h1 body ops hi.decode]
      · rw [hh, q2, hl1]; simp [rw_start, mPl2PktInit]
      · rw [hh, q3, hl2]; simp [rw_start, mPl2PktInit]

theorem planRq_some {r : Option (CTasPktHandlerRw × RqOut)} (h : r.isSome = true) :
    r = some (handlerOf r, rqOf r) := by
  cases r with
  | none => simp at h
  | some x => rfl

theorem aggStep_length (h : CTasPktHandlerRw) (s : AggState) (p : Nat) :
    (aggStep h s p).rsp.length = s.rsp.length := by
  unfold aggStep
  simp only []
  split_ifs <;> simp

theorem rw_get_trans_rsp_length (h : CTasPktHandlerRw) :
    (rw_get_trans_rsp h).2.mRwTransRsp.length = h.mRwTransRsp.length := by
  unfold rw_get_trans_rsp
  simp only []
  have key : ∀ (l : List Nat) (s : AggState), (l.foldl (aggStep h) s).rsp.length = s.rsp.length := by
    intro l
    induction l with
    | nil => intro s; rfl
    | cons p r ih => intro s; rw [List.foldl_cons, ih, aggStep_length]
  rw [key]; simp

end Tas


/-!
# The response the planner expects: sizes and PL1 counts
-/

namespace Tas

theorem rspLen_nil : rspLen [] = 0 := rfl

theorem rspLen_append (a b : List Pl0Op) : rspLen (a ++ b) = rspLen a + rspLen b := by
  simp [rspLen]

theorem rspBytes_nil : rspBytes [] = 0 := rfl

theorem rspBytes_append (a b : List (List Nat)) : rspBytes (a ++ b) = rspBytes a + rspBytes b := by
  simp [rspBytes]

theorem rspBytes_single (p : List Nat) : rspBytes [p] = 4 * (3 + rspLen (pktOps p)) := by
  simp [rspBytes]

theorem RInv_used {lim : Nat} {h : CTasPktHandlerRw} {pk : List (List Nat)} {ops : List Pl0Op}
    (hr : RInv lim h pk ops) (hlim : lim < 2 ^ 32) :
    sub32 h.mRspSize h.mPl2RspPktStart = 8 + 4 * rspLen ops := by
  have := hr.fit
  rw [hr.size, hr.start]
  simp only [sub32, u32]
  omega

theorem RInv_finalize {cap lim : Nat} {h : CTasPktHandlerRw} {pk : List (List Nat)} {body : List Nat}
    {ops : List Pl0Op} (hi : PInv cap h pk body ops) (hr : RInv lim h pk ops) (h12 : 12 ≤ lim) :
    RInv lim (mPktFinalize h true) (pk ++ [finalPkt h body]) [] := by
  have hops := pktOps_finalPkt h body ops hi.decode
  have hb : rspBytes (pk ++ [finalPkt h body]) = rspBytes pk + 12 + 4 * rspLen ops := by
    rw [rspBytes_append, rspBytes_single, hops]; omega
  refine ⟨?_, ?_, by rw [rspLen_nil]; omega, ?_, ?_, ?_⟩
  · show u32 (h.mRspSize + 4) = _
    rw [hb, hr.size]; simp only [u32]; omega
  · show u32 (u32 (h.mRspSize + 4) + 4 + 4) = _
    rw [hb, hr.size, rspLen_nil]; simp only [u32]; omega
  · intro p hp
    rcases List.mem_append.1 hp with hp | hp
    · exact hr.pkts p hp
    · rw [List.mem_singleton.1 hp, hops]
      have := hr.fit; omega
  · show u16 (u16 (h.mPl1CntOutstandingLast + 1) + 1) = u16 (h.mPl1CntOutstandingOldest + _)
    have := hr.cnt
    simp only [u16, List.length_append, List.length_singleton] at this ⊢
    omega
  · intro j p hj
    show pktPl1Cnt p = u16 (h.mPl1CntOutstandingOldest + j)
    by_cases hlt : j < pk.length
    · rw [List.get?_append hlt] at hj
      exact hr.cnts j p hj
    · have hj2 : j = pk.length := by
        have hl := List.get?_eq_some.1 hj
        obtain ⟨hl, _⟩ := hl
        simp only [List.length_append, List.length_singleton] at hl
        omega
      subst hj2
      rw [List.get?_append_right (le_refl _)] at hj
      simp only [Nat.sub_self, List.get?_cons_zero, Option.some.injEq] at hj
      rw [← hj, pktPl1Cnt_finalPkt, hr.cnt]

theorem RInv_rw_start (lim : Nat) (h : CTasPktHandlerRw) (h12 : 12 ≤ lim) : RInv lim (rw_start h) [] [] := by
  refine ⟨rfl, rfl, by rw [rspLen_nil]; omega, by simp, ?_, by simp⟩
  show u16 (h.mPl1CntOutstandingLast + 1) = u16 (u16 (h.mPl1CntOutstandingLast + 1) + 0)
  simp [u16]

theorem remaining_of_sufficient {lim : Nat} {h : CTasPktHandlerRw} {pk : List (List Nat)}
    {ops : List Pl0Op} (hr : RInv lim h pk ops) (hlim : lim < 2 ^ 32) (hmax : h.mMaxRspSize = lim)
    (x y : Nat) (hy : 0 < y) (hs : mCheckRemainingPktSizeSufficient h x y = true) :
    8 + 4 * rspLen ops + y ≤ lim := by
  unfold mCheckRemainingPktSizeSufficient at hs
  split_ifs at hs with h1 h2
  have hu := RInv_used hr hlim
  simp only [mGetRemainingSizeInPktRsp, hu, hmax] at h2
  split_ifs at h2 <;> omega

theorem prepR {cap lim am : Nat} {h : CTasPktHandlerRw} {pk : List (List Nat)} {body : List Nat}
    {ops : List Pl0Op} (hi : PInv cap h pk body ops) (hr : RInv lim h pk ops)
    (hc : mCheckAddrMapRulesInPkt h am = true) (hcap : h.mConInfo.pl0_max_num_rw = cap)
    (hlim : lim < 2 ^ 32) (hmax : h.mMaxRspSize = lim) (h1040 : 1040 ≤ lim)
    (x y : Nat) (hy : 0 < y) (hy2 : y ≤ 1032) :
    ∃ pk2 body2 ops2, PInv cap (mPktFinalizeIfNeeded (finalizeIfFull h) x y) pk2 body2 ops2
      ∧ RInv lim (mPktFinalizeIfNeeded (finalizeIfFull h) x y) pk2 ops2
      ∧ mCheckAddrMapRulesInPkt (mPktFinalizeIfNeeded (finalizeIfFull h) x y) am = true
      ∧ ((mPktFinalizeIfNeeded (finalizeIfFull h) x y).mPl2NumTrans < cap
          ∨ (mPktFinalizeIfNeeded (finalizeIfFull h) x y).mPl2NumTrans = 0)
      ∧ 8 + 4 * rspLen ops2 + y ≤ lim := by
  have h1 : ∃ pk1 body1 ops1, PInv cap (finalizeIfFull h) pk1 body1 ops1
      ∧ RInv lim (finalizeIfFull h) pk1 ops1
      ∧ mCheckAddrMapRulesInPkt (finalizeIfFull h) am = true
      ∧ ((finalizeIfFull h).mPl2NumTrans < cap ∨ (finalizeIfFull h).mPl2NumTrans = 0)
      ∧ (finalizeIfFull h).mMaxRspSize = lim := by
    unfold finalizeIfFull
    split_ifs with hf
    · exact ⟨_, _, _, PInv_finalize hi, RInv_finalize hi hr (by omega), check_finalize _ _, Or.inr rfl, hmax⟩
    · exact ⟨_, _, _, hi, hr, hc, Or.inl (by rw [hcap] at hf; omega), hmax⟩
  obtain ⟨pk1, body1, ops1, i1, r1, c1, n1, m1⟩ := h1
  unfold mPktFinalizeIfNeeded
  split_ifs with hf
  · refine ⟨_, _, _, PInv_finalize i1, RInv_finalize i1 r1 (by omega), check_finalize _ _, Or.inr rfl, ?_⟩
    rw [rspLen_nil]; omega
  · refine ⟨_, _, _, i1, r1, c1, n1, ?_⟩
    exact remaining_of_sufficient r1 hlim m1 x y hy (by simpa using hf)

theorem RInv_core {cap lim : Nat} {h : CTasPktHandlerRw} {pk : List (List Nat)} {body : List Nat}
    {ops : List Pl0Op} (hi : PInv cap h pk body ops) (hr : RInv lim h pk ops)
    (am acc a k ty : Nat) (wd : List Nat) (rd rsp : Nat) (words : List Nat)
    (ham : am ≤ 15) (hacc : acc < 65536) (ha : a < 2 ^ 64) (op : Pl0Op)
    (hrsp : rsp = 4 * opRspLen op) (hfit : 8 + 4 * rspLen ops + rsp + 4 ≤ lim) :
    RInv lim (recordPl0 (emit (mPktAdd_SetAddrMapAccModeBaseAddr h am acc a) words rsp) a k ty wd rd)
      pk (ops ++ [op]) := by
  obtain ⟨ws, r, e, hr32, _⟩ := setAddr_spec h am acc a (by omega) hacc ha hi.base hi.base64
  have hlt : h.mRspSize < 2 ^ 32 := by rw [hr.size]; exact Nat.mod_lt _ (by norm_num)
  have hre := hr32 hlt
  rw [e]
  have hl : rspLen (ops ++ [op]) = rspLen ops + opRspLen op := by
    rw [rspLen_append]; simp [rspLen]
  refine ⟨hr.start, ?_, by rw [hl]; omega, hr.pkts, hr.cnt, hr.cnts⟩
  show u32 (r + rsp) = _
  rw [hre, hr.size, hl, hrsp]
  simp only [u32]; omega

theorem plannedOp_isRd (t : tas_rw_trans_st) (ht : t.type = TAS_RW_TT_RD) :
    ctprhcPl0CmdIsRd (plannedOp t).cmd = true := by
  have e : (plannedOp t).cmd =
      (if t.num_bytes = 1 then TAS_PL0_CMD_RD8 else if t.num_bytes = 2 then TAS_PL0_CMD_RD16
       else if t.num_bytes = 4 then TAS_PL0_CMD_RD32 else if t.num_bytes = 8 then TAS_PL0_CMD_RD64
       else TAS_PL0_CMD_RDBLK) := by
    simp only [plannedOp, ht]
    rw [if_neg (by decide)]
    simp only [if_true]
  rw [e]
  split_ifs <;> decide

theorem plannedOp_notRd (t : tas_rw_trans_st) (ht : t.type = TAS_RW_TT_WR ∨ t.type = TAS_RW_TT_FILL) :
    ctprhcPl0CmdIsRd (plannedOp t).cmd = false ∧ ctprhcPl0CmdIsWrOrFill (plannedOp t).cmd = true := by
  rcases ht with ht | ht
  · have e : (plannedOp t).cmd =
        (if t.num_bytes = 1 then TAS_PL0_CMD_WR8 else if t.num_bytes = 2 then TAS_PL0_CMD_WR16
         else if t.num_bytes = 4 then TAS_PL0_CMD_WR32 else if t.num_bytes = 8 then TAS_PL0_CMD_WR64
         else TAS_PL0_CMD_WRBLK) := by
      simp only [plannedOp, ht]
      rw [if_neg (by decide), if_neg (by decide)]
    rw [e]
    split_ifs <;> decide
  · have e : (plannedOp t).cmd = TAS_PL0_CMD_FILL := by
      simp only [plannedOp, ht, if_true]
    rw [e]
    decide

theorem opRspLen_rd (t : tas_rw_trans_st) (ht : t.type = TAS_RW_TT_RD) (a : Nat)
    (hv : ValidOp a t.num_bytes) :
    rdRspSize t.num_bytes = 4 * opRspLen (plannedOp t)
    ∧ u32 (4 + roundUp4 t.num_bytes + 4) = rdRspSize t.num_bytes + 4 := by
  have hsz : (plannedOp t).size = t.num_bytes := rfl
  simp only [opRspLen, plannedOp_isRd t ht, if_true, hsz, wordsOf, rdRspSize, roundUp4, u32, rdCmd]
  rcases hv with ⟨hk, _⟩ | ⟨h8, hk, hm, _⟩
  · rcases hk with hk | hk | hk | hk <;> rw [hk] <;> simp [TAS_PL0_CMD_RD8, TAS_PL0_CMD_RD16,
      TAS_PL0_CMD_RD32, TAS_PL0_CMD_RD64]
  · have h1 : ¬ t.num_bytes ≤ 8 := by omega
    simp only [h1, if_false]
    omega

theorem opRspLen_wr (t : tas_rw_trans_st) (ht : t.type = TAS_RW_TT_WR ∨ t.type = TAS_RW_TT_FILL) :
    opRspLen (plannedOp t) = 1 := by
  simp [opRspLen, (plannedOp_notRd t ht).1]

theorem PR_core {cap lim : Nat} {h : CTasPktHandlerRw} {pk : List (List Nat)} {body : List Nat}
    {ops : List Pl0Op} (hi : PInv cap h pk body ops) (hr : RInv lim h pk ops)
    (am acc a k ty : Nat) (wd : List Nat) (rd rsp : Nat) (words : List Nat)
    (ham : am ≤ 15) (hacc : acc < 65536) (ha : a < 2 ^ 64) (hcap : cap < 2 ^ 32)
    (hcnt : h.mPl2NumTrans < cap ∨ h.mPl2NumTrans = 0)
    (hc : mCheckAddrMapRulesInPkt h am = true)
    (op : tas_rw_trans_st)
    (hop : op.addr = a ∧ op.num_bytes = k ∧ op.acc_mode = acc ∧ op.addr_map = am ∧ op.type = ty
      ∧ op.wdata = wd ∧ op.rdata = rd)
    (hw : ∀ rest, dec (words ++ rest) { acc_mode := acc, addr_map := am, base_addr := a - a % 65536 } =
      plannedOp op :: dec rest { acc_mode := acc, addr_map := am, base_addr := a - a % 65536 })
    (hrsp : rsp = 4 * opRspLen (plannedOp op)) (hfit : 8 + 4 * rspLen ops + rsp + 4 ≤ lim) :
    PR cap lim (recordPl0 (emit (mPktAdd_SetAddrMapAccModeBaseAddr h am acc a) words rsp) a k ty wd rd)
    ∧ mCheckAddrMapRulesInPkt
        (recordPl0 (emit (mPktAdd_SetAddrMapAccModeBaseAddr h am acc a) words rsp) a k ty wd rd) am = true := by
  have hop2 : op = { addr := a, num_bytes := k, acc_mode := acc, addr_map := am, type := ty,
                     wdata := wd, rdata := rd } := by
    obtain ⟨h1, h2, h3, h4, h5, h6, h7⟩ := hop
    subst h1 h2 h3 h4 h5 h6 h7
    rfl
  obtain ⟨⟨b1, hb1⟩, hc1⟩ := PInv_core hi am acc a k ty wd rd rsp words ham hacc ha hcap hcnt hc op hop2 hw
  exact ⟨⟨_, _, _, hb1, RInv_core hi hr am acc a k ty wd rd rsp words ham hacc ha _ hrsp hfit⟩, hc1⟩

theorem PR_addOp {cap lim : Nat} {h : CTasPktHandlerRw} (t : tas_rw_trans_st) (off k : Nat)
    (hI : PR cap lim h) (hc : mCheckAddrMapRulesInPkt h (aliasMap t.addr_map) = true)
    (hcap : h.mConInfo.pl0_max_num_rw = cap) (hlt : cap < 2 ^ 32)
    (hlim : lim < 2 ^ 32) (hmax : h.mMaxRspSize = lim) (h1040 : 1040 ≤ lim)
    (hw : WellTyped t) (hacc : Accepted t) (hv : ValidOp (t.addr + off) k)
    (hfill : t.type = TAS_RW_TT_FILL → 8 ≤ k) :
    PR cap lim (addOp t h off k)
      ∧ mCheckAddrMapRulesInPkt (addOp t h off k) (aliasMap t.addr_map) = true := by
  have hk0 : k ≠ 0 := by
    rcases hv with ⟨hk, _⟩ | ⟨h8, _⟩ <;> omega
  have hk1024 : k ≤ 1024 := by
    rcases hv with ⟨hk, _⟩ | ⟨_, h8, _⟩ <;> omega
  have hv64 := validOp_u64 hv
  have ha64 : u64 (t.addr + off) < 2 ^ 64 := Nat.mod_lt _ (by norm_num)
  have ham : aliasMap t.addr_map ≤ 15 := hacc.2.1
  have hac : t.acc_mode < 65536 := hw.2.2.1
  obtain ⟨pk, body, ops, hi, hr⟩ := hI
  unfold addOp
  split_ifs with t1 t2
  · have hop : opOf t off k =
        rdTrans (u64 (t.addr + off)) k (t.rdata + off) t.acc_mode (aliasMap t.addr_map) := by
      unfold opOf; rw [if_pos t1]; rfl
    have hty : (opOf t off k).type = TAS_RW_TT_RD := by rw [hop]; rfl
    have hnb : (opOf t off k).num_bytes = k := by rw [hop]; rfl
    obtain ⟨e1, e2⟩ := opRspLen_rd (opOf t off k) hty (u64 (t.addr + off)) (by rw [hnb]; exact hv64)
    rw [hnb] at e1 e2
    simp only [mPktAdd_Rd, if_neg hk0, pktPrep]
    obtain ⟨pk2, body2, ops2, i2, r2, g2, g3, g4⟩ := prepR hi hr hc hcap hlim hmax h1040
      (u32 (mGetNumBytesAddrMapAccModeBaseAddr (finalizeIfFull h) (aliasMap t.addr_map) t.acc_mode
        (u64 (t.addr + off)) + (8 + 4))) (u32 (4 + roundUp4 k + 4)) (by rw [e2]; omega) (by
          have hsz : (plannedOp (opOf t off k)).size = k := hnb
          rw [e2, e1]; simp only [opRspLen, hsz, wordsOf]; split_ifs <;> omega)
    exact PR_core i2 r2 _ _ _ k TAS_RW_TT_RD [] (t.rdata + off) _ _ ham hac ha64 hlt g3 g2
      (opOf t off k) (by rw [hop]; exact ⟨rfl, rfl, rfl, rfl, rfl, rfl, rfl⟩)
      (fun rest => by rw [hop]; exact dec_rdWords _ _ _ _ ha64 hv64 rest _ _) e1
      (by rw [e2] at g4; omega)
  · have hop : opOf t off k =
        wrTrans (u64 (t.addr + off)) k (t.wdata.drop off) t.acc_mode (aliasMap t.addr_map) := by
      unfold opOf; rw [if_neg t1, if_pos t2]; rfl
    have hty : (opOf t off k).type = TAS_RW_TT_WR := by rw [hop]; rfl
    have e1 := opRspLen_wr (opOf t off k) (Or.inl hty)
    simp only [mPktAdd_Wr, if_neg hk0, pktPrep]
    obtain ⟨pk2, body2, ops2, i2, r2, g2, g3, g4⟩ := prepR hi hr hc hcap hlim hmax h1040
      (u32 (mGetNumBytesAddrMapAccModeBaseAddr (finalizeIfFull h) (aliasMap t.addr_map) t.acc_mode
        (u64 (t.addr + off)) + (4 + roundUp4 k + 4))) (4 + 4) (by omega) (by omega)
    exact PR_core i2 r2 _ _ _ k TAS_RW_TT_WR (t.wdata.drop off) 0 _ _ ham hac ha64 hlt g3 g2
      (opOf t off k) (by rw [hop]; exact ⟨rfl, rfl, rfl, rfl, rfl, rfl, rfl⟩)
      (fun rest => by rw [hop]; exact dec_wrWords _ _ _ _ _ _ _ ha64 hv64 rest _ _) (by rw [e1])
      (by omega)
  · have t3 : t.type = TAS_RW_TT_FILL := by
      rcases hacc.2.2 with h1 | h1 | h1
      · exact absurd h1 t1
      · exact absurd h1 t2
      · exact h1.1
    have h8 := hfill t3
    have hk : k ≤ 1024 ∧ k % 8 = 0 := by
      rcases hv with ⟨hk, _⟩ | ⟨_, h2, h3, _⟩ <;> omega
    have hop : opOf t off k = fillTrans (u64 (t.addr + off)) k (bytesOfU64 (fillValue t.wdata))
        t.acc_mode (aliasMap t.addr_map) := by
      unfold opOf; rw [if_neg t1, if_neg t2]; rfl
    have hty : (opOf t off k).type = TAS_RW_TT_FILL := by rw [hop]; rfl
    have e1 := opRspLen_wr (opOf t off k) (Or.inr hty)
    simp only [mPktAdd_Fill, pktPrep]
    obtain ⟨pk2, body2, ops2, i2, r2, g2, g3, g4⟩ := prepR hi hr hc hcap hlim hmax h1040
      (u32 (mGetNumBytesAddrMapAccModeBaseAddr (finalizeIfFull h) (aliasMap t.addr_map) t.acc_mode
        (u64 (t.addr + off)) + (4 + 8 + 4))) (4 + 4) (by omega) (by omega)
    exact PR_core i2 r2 _ _ _ k TAS_RW_TT_FILL (bytesOfU64 (fillValue t.wdata)) 0 _ _ ham
      hac ha64 hlt g3 g2 (opOf t off k) (by rw [hop]; exact ⟨rfl, rfl, rfl, rfl, rfl, rfl, rfl⟩)
      (fun rest => by rw [hop]; exact dec_fillWords _ _ _ _ _ ha64 hk0 hk.1 hk.2 rest _ _) (by rw [e1])
      (by omega)

theorem maxRsp_of_Caps {h h' : CTasPktHandlerRw} (e : Caps h' = Caps h) : h'.mMaxRspSize = h.mMaxRspSize := by
  simp only [Caps, Static, Prod.mk.injEq] at e
  exact e.2.2.2.2.2.1

theorem PR_finalize {cap lim : Nat} {h : CTasPktHandlerRw} (hI : PR cap lim h) (h12 : 12 ≤ lim) :
    PR cap lim (mPktFinalize h true) := by
  obtain ⟨pk, body, ops, hi, hr⟩ := hI
  exact ⟨_, _, _, PInv_finalize hi, RInv_finalize hi hr h12⟩

theorem PR_runTrace_none {cap lim : Nat} (t : tas_rw_trans_st) (h12 : 12 ≤ lim) :
    ∀ (pro : List (Option Nat)) (h : CTasPktHandlerRw) (off : Nat), (∀ e ∈ pro, e = none) →
      PR cap lim h → PR cap lim (runTrace t h off pro) := by
  intro pro
  induction pro with
  | nil => intro h off _ hI; exact hI
  | cons e r ih =>
    intro h off hp hI
    have he : e = none := hp e (by simp)
    subst he
    exact ih _ _ (fun e he => hp e (by simp [he])) (PR_finalize hI h12)

theorem PR_runTrace {cap lim : Nat} (t : tas_rw_trans_st) (hlt : cap < 2 ^ 32) (hlim : lim < 2 ^ 32)
    (h1040 : 1040 ≤ lim) (hw : WellTyped t) (hacc : Accepted t) :
    ∀ (tr : List (Option Nat)) (h : CTasPktHandlerRw) (off : Nat),
      PR cap lim h → mCheckAddrMapRulesInPkt h (aliasMap t.addr_map) = true →
      h.mConInfo.pl0_max_num_rw = cap → h.mMaxRspSize = lim → TraceOK t.addr off tr →
      (t.type = TAS_RW_TT_FILL → ∀ k ∈ traceSizes tr, 8 ≤ k) →
      PR cap lim (runTrace t h off tr) := by
  intro tr
  induction tr with
  | nil => intro h off hI _ _ _ _ _; exact hI
  | cons e r ih =>
    intro h off hI hc hcap hmax hok hfill
    cases e with
    | none =>
      have e1 : (mPktFinalize h true).mConInfo = h.mConInfo := conInfo_of_Caps (Caps_mPktFinalize h true)
      have e2 : (mPktFinalize h true).mMaxRspSize = h.mMaxRspSize := maxRsp_of_Caps (Caps_mPktFinalize h true)
      exact ih _ _ (PR_finalize hI (by omega)) (check_finalize _ _) (by rw [e1]; exact hcap)
        (by rw [e2]; exact hmax) hok (fun ht k hk => hfill ht k (by simpa [traceSizes] using hk))
    | some k =>
      have e1 : (addOp t h off k).mConInfo = h.mConInfo := conInfo_of_Caps (Caps_addOp t h off k)
      have e2 : (addOp t h off k).mMaxRspSize = h.mMaxRspSize := maxRsp_of_Caps (Caps_addOp t h off k)
      obtain ⟨g1, g2⟩ := PR_addOp t off k hI hc hcap hlt hlim hmax h1040 hw hacc hok.1
        (fun ht => hfill ht k (by simp [traceSizes]))
      exact ih _ _ g1 g2 (by rw [e1]; exact hcap) (by rw [e2]; exact hmax) hok.2
        (fun ht k' hk' => hfill ht k' (by
          have e : traceSizes (some k :: r) = k :: traceSizes r := rfl
          rw [e]; exact List.mem_cons_of_mem _ hk'))

theorem PR_recordUser {cap lim : Nat} {h : CTasPktHandlerRw} (t : tas_rw_trans_st) (hI : PR cap lim h) :
    PR cap lim (recordUser h t) := by
  obtain ⟨pk, body, ops, hi, hr⟩ := hI
  exact ⟨pk, body, ops, ⟨hi.buf, hi.hdr, hi.num, hi.decode, hi.planned, hi.cnt, hi.count, hi.base,
    hi.base64, hi.mask, hi.maps, hi.rule, hi.pkts, hi.last, hi.cnts⟩, ⟨hr.start, hr.size, hr.fit, hr.pkts, hr.cnt, hr.cnts⟩⟩

theorem PR_rw_start (cap lim : Nat) (h : CTasPktHandlerRw) (h12 : 12 ≤ lim) : PR cap lim (rw_start h) := by
  have hi : PInv cap (rw_start h) [] [] [] :=
    ⟨rfl, rfl, rfl, fun _ => rfl, rfl, rfl, by simp, rfl, by show (0 : Nat) < 2 ^ 64; norm_num,
      rfl, by simp, maskRule_zero, by simp, (RInv_rw_start lim h h12).cnt, by simp⟩
  exact ⟨_, _, _, hi, RInv_rw_start lim h h12⟩

theorem PR_rw_add_trans {cap lim fuel : Nat} {h h' : CTasPktHandlerRw} {t : tas_rw_trans_st}
    (hlt : cap < 2 ^ 32) (hlim : lim < 2 ^ 32) (h1040 : 1040 ≤ lim) (hw : WellTyped t)
    (hI : PR cap lim h) (hcaps : CapsOK h)
    (hcap : h.mConInfo.pl0_max_num_rw = cap) (hmax : h.mMaxRspSize = lim)
    (hrun : rw_add_trans fuel h t = some (true, h')) :
    PR cap lim h' := by
  obtain ⟨pro, tr, p1, _, e, hc, ok, _, _, _, hacc, hfill⟩ := rw_add_trans_trace hw.1 hw.2.1 hcaps hrun
  rw [e, runTrace_append, traceSizes_of_all_none pro p1]
  apply PR_recordUser
  have e1 : (runTrace t h 0 pro).mConInfo = h.mConInfo := conInfo_of_Caps (Caps_runTrace t pro h 0)
  have e2 : (runTrace t h 0 pro).mMaxRspSize = h.mMaxRspSize := maxRsp_of_Caps (Caps_runTrace t pro h 0)
  exact PR_runTrace t hlt hlim h1040 hw hacc tr _ _ (PR_runTrace_none t (by omega) pro h 0 p1 hI) hc
    (by rw [e1]; exact hcap) (by rw [e2]; exact hmax) ok hfill

theorem setTransLoop_PR {cap lim fuel : Nat} (hlt : cap < 2 ^ 32) (hlim : lim < 2 ^ 32)
    (h1040 : 1040 ≤ lim) :
    ∀ (trans : List tas_rw_trans_st) (b : Bool) (h h' : CTasPktHandlerRw),
      (∀ t ∈ trans, WellTyped t) → PR cap lim h → CapsOK h → h.mConInfo.pl0_max_num_rw = cap →
      h.mMaxRspSize = lim → setTransLoop fuel trans b h = some (true, h') → PR cap lim h' := by
  intro trans
  induction trans with
  | nil =>
    intro b h h' _ hI _ _ _ hrun
    simp only [setTransLoop, Option.some.injEq, Prod.mk.injEq] at hrun
    rw [← hrun.2]
    exact hI
  | cons t ts ih =>
    intro b h h' hw hI hcaps hcap hmax hrun
    simp only [setTransLoop] at hrun
    cases hr : rw_add_trans fuel h t with
    | none => simp [hr] at hrun
    | some r =>
      obtain ⟨b1, h1⟩ := r
      cases b1 with
      | false => simp [hr] at hrun
      | true =>
        simp only [hr] at hrun
        have hc1 := Caps_rw_add_trans hr
        exact ih true h1 h' (fun t' ht' => hw t' (by simp [ht']))
          (PR_rw_add_trans hlt hlim h1040 (hw t (by simp)) hI hcaps hcap hmax hr)
          (CapsOK_of_Caps hc1 hcaps) (by rw [conInfo_of_Caps hc1]; exact hcap)
          (by rw [maxRsp_of_Caps hc1]; exact hmax) hrun

theorem planRq_inv {fuel : Nat} {h h' : CTasPktHandlerRw} {trans : List tas_rw_trans_st} {o : RqOut}
    (hplan : planRq fuel h trans = some (h', o)) :
    ∃ h1, setTransLoop fuel trans false (rw_start h) = some (true, h1) ∧ rw_get_rq h1 = (h', o) := by
  unfold planRq at hplan
  cases hr : rw_set_trans fuel h trans with
  | none => simp [hr] at hplan
  | some r =>
    obtain ⟨b, h1⟩ := r
    cases b with
    | false => simp [hr] at hplan
    | true =>
      simp only [hr, Option.some.injEq] at hplan
      exact ⟨h1, hr, hplan⟩

theorem rqPackets_of {cap : Nat} {h1 : CTasPktHandlerRw} {pk : List (List Nat)} {body : List Nat}
    {ops : List Pl0Op} (hi : PInv cap h1 pk body ops) (hcalled : h1.mGetPktRqWasCalled = false)
    (hlen : 4 * (rw_get_rq h1).2.rq.length < 2 ^ 32) :
    rqPackets (rw_get_rq h1).2 = pk ++ [finalPkt h1 body] := by
  obtain ⟨q1, q2, q3, q4, q5⟩ := rw_get_rq_first h1 hcalled
  have hbuf : (rw_get_rq h1).2.rq = (pk ++ [finalPkt h1 body]).flatten := by
    rw [q4, finalize_buf h1 false _ _ hi.buf hi.hdr]; simp
  have hok : ∀ p ∈ pk ++ [finalPkt h1 body], PktOK cap p := by
    intro p hp
    rcases List.mem_append.1 hp with hp | hp
    · exact hi.pkts p hp
    · rw [List.mem_singleton.1 hp]; exact PktOK_finalPkt hi
  have hnum : (rw_get_rq h1).2.num_pl2_pkt = (pk ++ [finalPkt h1 body]).length := by
    have := length_le_flatten_length (pk ++ [finalPkt h1 body]) (fun p hp => by
      have := (hok p hp).len; omega)
    rw [← hbuf] at this
    rw [q5, hi.num]
    simp only [List.length_append, List.length_singleton, u32] at this ⊢
    omega
  unfold rqPackets
  rw [hnum, hbuf]
  apply splitPl2_flatten
  intro p hp
  refine ⟨(hok p hp).len, ?_⟩
  rw [(hok p hp).word]
  have := length_le_flatten _ p hp
  rw [← hbuf] at this
  simp only [u32]
  omega

theorem planRq_rsp {fuel : Nat} {h h' : CTasPktHandlerRw} {trans : List tas_rw_trans_st} {o : RqOut}
    (hw : ∀ t ∈ trans, WellTyped t) (hlt : h.mConInfo.pl0_max_num_rw < 2 ^ 32)
    (hlim : h.mMaxRspSize < 2 ^ 32) (h1040 : 1040 ≤ h.mMaxRspSize)
    (hlen : 4 * o.rq.length < 2 ^ 32) (hplan : planRq fuel h trans = some (h', o)) :
    h'.mRspSize = u32 (rspBytes (rqPackets o))
    ∧ (∀ p ∈ rqPackets o, 4 * (3 + rspLen (pktOps p)) ≤ h'.mMaxRspSize)
    ∧ (∀ j p, (rqPackets o).get? j = some p → pktPl1Cnt p = u16 (h'.mPl1CntOutstandingOldest + j))
    ∧ h'.mMaxRspSize = h.mMaxRspSize ∧ rqPackets o ≠ [] := by
  obtain ⟨h1, hr, hg⟩ := planRq_inv hplan
  have hcaps := (setTransLoop_PI hlt trans false (rw_start h) h1 hw (PI_rw_start _ h)
    (CapsOK_rw_start h) rfl hr).2.1
  obtain ⟨pk, body, ops, hi, hri⟩ := setTransLoop_PR hlt hlim h1040 trans false (rw_start h) h1 hw
    (PR_rw_start _ _ h (by omega)) (CapsOK_rw_start h) rfl rfl hr
  have hcalled : h1.mGetPktRqWasCalled = false := by
    simp only [Caps, Prod.mk.injEq] at hcaps
    rw [hcaps.2.2.1]; rfl
  have hh : h' = (rw_get_rq h1).1 := by rw [hg]
  have ho : o = (rw_get_rq h1).2 := by rw [hg]
  have hsplit := rqPackets_of hi hcalled (by rw [← ho]; exact hlen)
  rw [← ho] at hsplit
  have hfin := RInv_finalize hi hri (by omega)
  have hm : h1.mMaxRspSize = h.mMaxRspSize := by
    rw [maxRsp_of_Caps hcaps]; rfl
  have e1 : h'.mRspSize = (mPktFinalize h1 true).mPl2RspPktStart := by
    rw [hh]; unfold rw_get_rq; simp only [hcalled, if_true]; rfl
  have e2 : h'.mPl1CntOutstandingOldest = (mPktFinalize h1 true).mPl1CntOutstandingOldest := by
    rw [hh]; unfold rw_get_rq; simp only [hcalled, if_true]; rfl
  have e3 : h'.mMaxRspSize = h1.mMaxRspSize := by
    rw [hh]; unfold rw_get_rq; simp only [hcalled, if_true]; rfl
  rw [hsplit]
  refine ⟨by rw [e1]; exact hfin.start, ?_, ?_, by rw [e3, hm], by simp⟩
  · rw [e3, hm]; exact hfin.pkts
  · rw [e2]; exact hfin.cnts

end Tas


/-!
# The parser on the response of the reference server
-/

namespace Tas

theorem byte0_rspHdr (a b c d : Nat) : byte0 (rspHdr a b c d) = a % 256 := by
  simp only [byte0, rspHdr, u8]; omega

theorem byte1_rspHdr (a b c d : Nat) : byte1 (rspHdr a b c d) = b % 256 := by
  simp only [byte1, rspHdr, u8, Nat.shiftRight_eq_div_pow]; omega

theorem byte2_rspHdr (a b c d : Nat) : byte2 (rspHdr a b c d) = c % 256 := by
  simp only [byte2, rspHdr, u8, Nat.shiftRight_eq_div_pow]; omega

theorem byte3_rspHdr (a b c d : Nat) : byte3 (rspHdr a b c d) = d % 256 := by
  simp only [byte3, rspHdr, u8, Nat.shiftRight_eq_div_pow]; omega

theorem getD_mid (pre X post : List Nat) (k : Nat) (hk : k < X.length) :
    (pre ++ X ++ post).getD (pre.length + k) 0 = X.getD k 0 := by
  rw [List.append_assoc, List.getD_append_right _ _ _ _ (by omega)]
  simp only [Nat.add_sub_cancel_left]
  rw [List.getD_append _ _ _ _ hk]

theorem runs_next {R : List Nat} {c c1 : RspCursor} {F : Nat → Nat} (hwi : c.wi < R.length)
    (hs : rspStep R c = .next c1) (hadv : c.wi < c1.wi) (hr : RunsTo R c1 F) : RunsTo R c F := by
  intro fuel hf
  cases fuel with
  | zero => omega
  | succ f =>
    have : rspLoop R R.length (f + 1) c = rspLoop R R.length f c1 := by
      simp only [rspLoop, hwi, if_true, hs]
    rw [this]
    exact hr f (by omega)

theorem runs_brk {R : List Nat} {c c1 : RspCursor} {F : Nat → Nat} (hwi : c.wi < R.length)
    (hs : rspStep R c = .brk c1) (he : c1.h.tas_err = TAS_ERR_NONE) (hm : c1.hm = F) : RunsTo R c F := by
  intro fuel hf
  cases fuel with
  | zero => omega
  | succ f =>
    have : rspLoop R R.length (f + 1) c = (c1.h.tas_err, c1) := by
      simp only [rspLoop, hwi, if_true, hs]
    rw [this]
    exact ⟨he, hm⟩

theorem wrOrFill_cmd {cmd : Nat} (h : ctprhcPl0CmdIsWrOrFill cmd = true) :
    cmd % 256 = cmd ∧ cmd ≠ TAS_PL1_CMD_PL0_END := by
  simp only [ctprhcPl0CmdIsWrOrFill, decide_eq_true_eq] at h
  rcases h with h | h | h | h | h | h <;> subst h <;> decide

theorem rd_cmd {cmd : Nat} (h : ctprhcPl0CmdIsRd cmd = true) :
    cmd % 256 = cmd ∧ cmd ≠ TAS_PL1_CMD_PL0_END ∧ ctprhcPl0CmdIsWrOrFill cmd = false := by
  simp only [ctprhcPl0CmdIsRd, decide_eq_true_eq] at h
  rcases h with h | h | h | h | h | h <;> subst h <;> decide

theorem hostCopy_notRd (dw : Nat → Nat) (hm : Nat → Nat) (pt : tas_rw_trans_st)
    (h : pt.type ≠ TAS_RW_TT_RD) : hostCopy dw hm pt = hm := by
  funext p
  simp [hostCopy, h]

theorem hostWrite_append (data : Nat → Nat → Nat) : ∀ (l : List tas_rw_trans_st) (j : Nat) (hm : Nat → Nat)
    (pt : tas_rw_trans_st),
    hostWrite data j hm (l ++ [pt]) = hostCopy (data (j + l.length)) (hostWrite data j hm l) pt := by
  intro l
  induction l with
  | nil => intro j hm pt; rfl
  | cons q r ih =>
    intro j hm pt
    show hostWrite data (j + 1) (hostCopy (data j) hm q) (r ++ [pt]) = _
    rw [ih]
    have e : j + 1 + r.length = j + (q :: r).length := by simp; omega
    rw [e]
    rfl

theorem hostWrite_take_succ (data : Nat → Nat → Nat) (hm : Nat → Nat) (pts : List tas_rw_trans_st)
    (n : Nat) (pt : tas_rw_trans_st) (h : pts.get? n = some pt) :
    hostWrite data 0 hm (pts.take (n + 1)) = hostCopy (data n) (hostWrite data 0 hm (pts.take n)) pt := by
  have hn : n < pts.length := (List.get?_eq_some.1 h).1
  have : pts.take (n + 1) = pts.take n ++ [pt] := by
    rw [List.take_succ]
    simp [← List.get?_eq_getElem?, h]
  rw [this, hostWrite_append]
  simp [Nat.min_eq_left (Nat.le_of_lt hn)]

theorem step_wr {data : Nat → Nat → Nat} {hm0 : Nat → Nat} {h0 : CTasPktHandlerRw} {c : RspCursor}
    {done j : Nat} {R : List Nat} (hat : RspAt data hm0 h0 c done j) (pt : tas_rw_trans_st)
    (hpt : h0.mPl0Trans.get? done = some pt) (hok : OpOK pt)
    (hty : pt.type = TAS_RW_TT_WR ∨ pt.type = TAS_RW_TT_FILL)
    (hw : rspWord R c.wi = rspHdr 0 (plannedOp pt).cmd (wordsOf pt.num_bytes) TAS_PL0_ERR_NO_ERROR)
    (hne : c.wi ≠ c.wiPktStartNext) :
    ∃ c1, rspStep R c = .next c1 ∧ RspAt data hm0 h0 c1 (done + 1) j ∧ c1.wi = c.wi + 1
      ∧ c1.wiPktStartNext = c.wiPktStartNext := by
  obtain ⟨hnr, hwf⟩ := plannedOp_notRd pt hty
  obtain ⟨hc1, hc2⟩ := wrOrFill_cmd hwf
  have hgetD : c.h.mPl0Trans.getD c.iTrans default = pt := by
    rw [hat.trans, hat.iTrans, List.getD_eq_getElem?_getD, ← List.get?_eq_getElem?, hpt]; rfl
  have hsz : pt.num_bytes ≤ 1024 := by
    rcases hok.2 with h | h | h | h | h <;> omega
  have hwl : (0xFF &&& (u32 (pt.num_bytes + 3) / 4)) = wordsOf pt.num_bytes % 256 := by
    rw [Nat.and_comm, Nat.and_pow_two_sub_one_eq_mod _ 8]
    simp only [u32, wordsOf]
    omega
  refine ⟨{ c with h := setPl0Rsp c.h c.iTrans (u16 pt.num_bytes) TAS_PL0_ERR_NO_ERROR,
                   wi := c.wi + 1 + 0, iTrans := c.iTrans + 1 }, ?_, ?_, rfl, rfl⟩
  · unfold rspStep
    rw [if_neg hne]
    simp only [hw, byte1_rspHdr, hc1, if_neg hc2, hwf, if_true]
    unfold rspWr
    simp only [hw, byte0_rspHdr, byte1_rspHdr, byte2_rspHdr, byte3_rspHdr, hgetD, hwl]
    have ht : ¬ (pt.type ≠ TAS_RW_TT_WR ∧ pt.type ≠ TAS_RW_TT_FILL) := by
      rcases hty with h | h <;> simp [h]
    simp [ht, TAS_PL0_ERR_NO_ERROR]
  · refine ⟨by simp [hat.iTrans], hat.trans, hat.lim, hat.err, hat.oldest, ?_⟩
    show c.hm = _
    rw [hostWrite_take_succ data hm0 _ done pt hpt, hostCopy_notRd, hat.hm]
    rcases hty with h | h <;> rw [h] <;> decide

theorem memcpy_hostCopy (dw : Nat → Nat) (hm : Nat → Nat) (pt : tas_rw_trans_st) (R : List Nat)
    (wi : Nat) (ht : pt.type = TAS_RW_TT_RD)
    (hd : ∀ i, i < wordsOf pt.num_bytes → rspWord R (wi + i) = dw i) :
    memcpyWords hm pt.rdata R wi pt.num_bytes = hostCopy dw hm pt := by
  funext p
  unfold memcpyWords hostCopy
  by_cases hp : pt.rdata ≤ p ∧ p < pt.rdata + pt.num_bytes
  · rw [if_pos hp, if_pos ⟨ht, hp⟩]
    unfold byteOfWords byteOfData
    have hi : (p - pt.rdata) / 4 < wordsOf pt.num_bytes := by
      unfold wordsOf; omega
    rw [hd _ hi]
  · rw [if_neg hp, if_neg (fun h => hp h.2)]

theorem plannedOp_rd_cmd (pt : tas_rw_trans_st) (ht : pt.type = TAS_RW_TT_RD) :
    (plannedOp pt).cmd ≠ TAS_PL0_CMD_RDBLK1KB := by
  have e : (plannedOp pt).cmd =
      (if pt.num_bytes = 1 then TAS_PL0_CMD_RD8 else if pt.num_bytes = 2 then TAS_PL0_CMD_RD16
       else if pt.num_bytes = 4 then TAS_PL0_CMD_RD32 else if pt.num_bytes = 8 then TAS_PL0_CMD_RD64
       else TAS_PL0_CMD_RDBLK) := by
    simp only [plannedOp, ht]
    rw [if_neg (by decide)]
    simp only [if_true]
  rw [e]
  split_ifs <;> decide

theorem step_rd {data : Nat → Nat → Nat} {hm0 : Nat → Nat} {h0 : CTasPktHandlerRw} {c : RspCursor}
    {done j : Nat} {R : List Nat} (hat : RspAt data hm0 h0 c done j) (pt : tas_rw_trans_st)
    (hpt : h0.mPl0Trans.get? done = some pt) (hok : OpOK pt) (hty : pt.type = TAS_RW_TT_RD)
    (hw : rspWord R c.wi = rspHdr (wordsOf pt.num_bytes)
      (if pt.num_bytes = TAS_PL0_DATA_BLK_SIZE then TAS_PL0_CMD_RDBLK1KB else (plannedOp pt).cmd)
      (wordsOf pt.num_bytes) TAS_PL0_ERR_NO_ERROR)
    (hd : ∀ i, i < wordsOf pt.num_bytes → rspWord R (c.wi + 1 + i) = data done i)
    (hne : c.wi ≠ c.wiPktStartNext) :
    ∃ c1, rspStep R c = .next c1 ∧ RspAt data hm0 h0 c1 (done + 1) j
      ∧ c1.wi = c.wi + 1 + wordsOf pt.num_bytes ∧ c1.wiPktStartNext = c.wiPktStartNext := by
  have hrd := plannedOp_isRd pt hty
  obtain ⟨hc1, hc2, hc3⟩ := rd_cmd hrd
  have hc4 := plannedOp_rd_cmd pt hty
  have hgetD : c.h.mPl0Trans.getD c.iTrans default = pt := by
    rw [hat.trans, hat.iTrans, List.getD_eq_getElem?_getD, ← List.get?_eq_getElem?, hpt]; rfl
  have hwl : (0xFF &&& (u32 (pt.num_bytes + 3) / 4)) = wordsOf pt.num_bytes % 256 := by
    have hsz : pt.num_bytes ≤ 1024 := by
      rcases hok.2 with h | h | h | h | h <;> omega
    rw [Nat.and_comm, Nat.and_pow_two_sub_one_eq_mod _ 8]
    simp only [u32, wordsOf]
    omega
  have hstep : rspStep R c = .next { c with
      h := setPl0Rsp c.h c.iTrans pt.num_bytes TAS_PL0_ERR_NO_ERROR
      hm := memcpyWords c.hm pt.rdata R (c.wi + 1) pt.num_bytes
      wi := c.wi + 1 + wordsOf pt.num_bytes
      iTrans := c.iTrans + 1 } := by
    unfold rspStep
    rw [if_neg hne]
    by_cases hk : pt.num_bytes = TAS_PL0_DATA_BLK_SIZE
    · rw [if_pos hk] at hw
      have hk2 : pt.num_bytes = 1024 := hk
      have e1 : byte1 (rspWord R c.wi) = TAS_PL0_CMD_RDBLK1KB := by rw [hw, byte1_rspHdr]; rfl
      rw [e1]
      rw [if_neg (by decide)]
      simp only [show ctprhcPl0CmdIsWrOrFill TAS_PL0_CMD_RDBLK1KB = false from by decide,
        show ctprhcPl0CmdIsRd TAS_PL0_CMD_RDBLK1KB = true from by decide, if_true, Bool.false_eq_true,
        if_false]
      unfold rspRd
      simp only [hw, byte0_rspHdr, byte1_rspHdr, byte2_rspHdr, byte3_rspHdr, hgetD, hk2, wordsOf,
        TAS_PL0_CMD_RDBLK1KB, TAS_PL0_ERR_NO_ERROR, TAS_PL0_DATA_BLK_SIZE, u16, u32]
      simp [hty]
    · rw [if_neg hk] at hw
      have hk2 : pt.num_bytes ≤ 1016 := by
        unfold TAS_PL0_DATA_BLK_SIZE at hk
        rcases hok.2 with h | h | h | h | h <;> omega
      have e1 : byte1 (rspWord R c.wi) = (plannedOp pt).cmd := by rw [hw, byte1_rspHdr, hc1]
      have hww : wordsOf pt.num_bytes % 256 = wordsOf pt.num_bytes := by
        unfold wordsOf; omega
      have hu : u16 pt.num_bytes = pt.num_bytes := by unfold u16; omega
      rw [e1, if_neg hc2]
      simp only [hc3, hrd, if_true, Bool.false_eq_true, if_false]
      unfold rspRd
      simp only [hw, byte0_rspHdr, byte1_rspHdr, byte2_rspHdr, byte3_rspHdr, hgetD, hc1, hwl, hww, hu]
      simp [hty, hc4, TAS_PL0_ERR_NO_ERROR]
  refine ⟨_, hstep, ?_, rfl, rfl⟩
  refine ⟨by simp [hat.iTrans], hat.trans, hat.lim, hat.err, hat.oldest, ?_⟩
  show memcpyWords c.hm pt.rdata R (c.wi + 1) pt.num_bytes = _
  rw [hostWrite_take_succ data hm0 _ done pt hpt, ← hat.hm]
  exact memcpy_hostCopy (data done) c.hm pt R (c.wi + 1) hty hd

theorem step_start {data : Nat → Nat → Nat} {hm0 : Nat → Nat} {h0 : CTasPktHandlerRw} {c : RspCursor}
    {done j : Nat} {R : List Nat} (hat : RspAt data hm0 h0 c done j) (len : Nat)
    (hl : rspWord R c.wi = len)
    (hs : rspWord R (c.wi + 1) = rspHdr 0 TAS_PL1_CMD_PL0_START 0 TAS_PL_ERR_NO_ERROR)
    (h4 : len % 4 = 0) (hmax : len ≤ h0.mMaxRspSize) (h32 : c.wi + len / 4 < 2 ^ 32)
    (heq : c.wi = c.wiPktStartNext) :
    ∃ c1, rspStep R c = .next c1 ∧ RspAt data hm0 h0 c1 done j ∧ c1.wi = c.wi + 2
      ∧ c1.wiPktStartNext = c.wi + len / 4 := by
  have hstep : rspStep R c = .next { c with wiPktStartNext := c.wi + len / 4, wi := c.wi + 2 } := by
    unfold rspStep
    rw [if_pos heq]
    unfold rspStart
    have hu : u32 (c.wiPktStartNext + len / 4) = c.wi + len / 4 := by
      rw [← heq]; exact Nat.mod_eq_of_lt h32
    have hm : ¬ (len % 4 ≠ 0 ∨ len > c.h.mMaxRspSize) := by
      rw [hat.lim]; omega
    simp only [hl, hs, byte0_rspHdr, byte1_rspHdr, byte3_rspHdr, hu, if_neg hm]
    simp [TAS_PL1_CMD_PL0_START, TAS_PL_ERR_NO_ERROR, TAS_PL1_ERR_DEV_ACCESS, TAS_PL1_ERR_DEV_RESET]
  exact ⟨_, hstep, ⟨hat.iTrans, hat.trans, hat.lim, hat.err, hat.oldest, hat.hm⟩, rfl, rfl⟩

theorem step_end_next {data : Nat → Nat → Nat} {hm0 : Nat → Nat} {h0 : CTasPktHandlerRw} {c : RspCursor}
    {done j : Nat} {R : List Nat} (hat : RspAt data hm0 h0 c done j)
    (hw : rspWord R c.wi = wordWlCmdU16 0 TAS_PL1_CMD_PL0_END (u16 (h0.mPl1CntOutstandingOldest + j)))
    (hne : c.wi ≠ c.wiPktStartNext) (hn : done ≠ h0.mPl0Trans.length) :
    ∃ c1, rspStep R c = .next c1 ∧ RspAt data hm0 h0 c1 done (j + 1) ∧ c1.wi = c.wi + 1
      ∧ c1.wiPktStartNext = c.wiPktStartNext := by
  have hstep : rspStep R c = .next { c with
      h := { c.h with mPl1CntOutstandingOldest := u16 (c.h.mPl1CntOutstandingOldest + 1) }
      wi := c.wi + 1 } := by
    unfold rspStep
    rw [if_neg hne]
    have e1 : byte1 (rspWord R c.wi) = TAS_PL1_CMD_PL0_END := by rw [hw, byte1_word]; rfl
    rw [e1]
    simp only [if_true]
    unfold rspEnd
    have e2 : hi16 (wordWlCmdU16 0 TAS_PL1_CMD_PL0_END (u16 (h0.mPl1CntOutstandingOldest + j)))
        = c.h.mPl1CntOutstandingOldest := by
      rw [hi16_word, hat.oldest]; simp [u16]
    have e3 : ¬ c.iTrans = c.h.mPl0NumTrans := by
      rw [hat.iTrans, CTasPktHandlerRw.mPl0NumTrans, hat.trans]; exact hn
    simp only [hw, byte0_word, e2, if_neg e3]
    simp
  refine ⟨_, hstep, ⟨hat.iTrans, hat.trans, hat.lim, hat.err, ?_, hat.hm⟩, rfl, rfl⟩
  show u16 (c.h.mPl1CntOutstandingOldest + 1) = _
  rw [hat.oldest]; simp only [u16]; omega

theorem step_end_brk {data : Nat → Nat → Nat} {hm0 : Nat → Nat} {h0 : CTasPktHandlerRw} {c : RspCursor}
    {done j : Nat} {R : List Nat} (hat : RspAt data hm0 h0 c done j)
    (hw : rspWord R c.wi = wordWlCmdU16 0 TAS_PL1_CMD_PL0_END (u16 (h0.mPl1CntOutstandingOldest + j)))
    (hne : c.wi ≠ c.wiPktStartNext) (hn : done = h0.mPl0Trans.length) :
    ∃ c1, rspStep R c = .brk c1 ∧ c1.h.tas_err = TAS_ERR_NONE
      ∧ c1.hm = hostWrite data 0 hm0 h0.mPl0Trans := by
  have hstep : rspStep R c = .brk { c with wi := c.wi + 1 } := by
    unfold rspStep
    rw [if_neg hne]
    have e1 : byte1 (rspWord R c.wi) = TAS_PL1_CMD_PL0_END := by rw [hw, byte1_word]; rfl
    rw [e1]
    simp only [if_true]
    unfold rspEnd
    have e2 : hi16 (wordWlCmdU16 0 TAS_PL1_CMD_PL0_END (u16 (h0.mPl1CntOutstandingOldest + j)))
        = c.h.mPl1CntOutstandingOldest := by
      rw [hi16_word, hat.oldest]; simp [u16]
    have e3 : c.iTrans = c.h.mPl0NumTrans := by
      rw [hat.iTrans, CTasPktHandlerRw.mPl0NumTrans, hat.trans]; exact hn
    simp only [hw, byte0_word, e2, if_pos e3]
    simp
  refine ⟨_, hstep, hat.err, ?_⟩
  show c.hm = _
  rw [hat.hm, hn, List.take_length]

theorem opRsp_length (dw : Nat → Nat) (op : Pl0Op) : (opRsp dw op).length = opRspLen op := by
  unfold opRsp opRspLen
  split_ifs <;> simp <;> omega

theorem opsRsp_cons (data : Nat → Nat → Nat) (j : Nat) (op : Pl0Op) (r : List Pl0Op) :
    opsRsp data j (op :: r) = opRsp (data j) op ++ opsRsp data (j + 1) r := rfl

theorem opsRsp_length (data : Nat → Nat → Nat) (ops : List Pl0Op) :
    ∀ j, (opsRsp data j ops).length = rspLen ops := by
  induction ops with
  | nil => intro j; rfl
  | cons op r ih =>
    intro j
    rw [opsRsp_cons, List.length_append, ih, opRsp_length]
    simp [rspLen]

theorem drop_cons_get {α : Type} {l : List α} {n : Nat} {a : α} {t : List α} (h : l.drop n = a :: t) :
    l.get? n = some a ∧ l.drop (n + 1) = t := by
  constructor
  · have := congrArg List.head? h
    simpa [List.head?_drop] using this
  · have := congrArg List.tail h
    simpa [List.tail_drop] using this

theorem ops_run {data : Nat → Nat → Nat} {hm0 : Nat → Nat} {h0 : CTasPktHandlerRw} {R : List Nat}
    {F : Nat → Nat} :
    ∀ (g : List tas_rw_trans_st) (pre post : List Nat) (rest : List tas_rw_trans_st) (c : RspCursor)
      (done j : Nat),
      R = pre ++ opsRsp data done (g.map plannedOp) ++ post → post ≠ [] → c.wi = pre.length →
      pre.length + (opsRsp data done (g.map plannedOp)).length < c.wiPktStartNext →
      RspAt data hm0 h0 c done j → h0.mPl0Trans.drop done = g ++ rest → (∀ pt ∈ g, OpOK pt) →
      (∀ c1, RspAt data hm0 h0 c1 (done + g.length) j →
        c1.wi = pre.length + (opsRsp data done (g.map plannedOp)).length →
        c1.wiPktStartNext = c.wiPktStartNext → RunsTo R c1 F) →
      RunsTo R c F := by
  intro g
  induction g with
  | nil =>
    intro pre post rest c done j _ _ hwi _ hat _ _ hk
    exact hk c hat (by simpa [opsRsp] using hwi) rfl
  | cons pt g ih =>
    intro pre post rest c done j hR hpost hwi hlt hat hdrop hok hk
    have hpl : (pt :: g).map plannedOp = plannedOp pt :: g.map plannedOp := rfl
    rw [hpl, opsRsp_cons] at hR hlt hk
    rw [List.length_append] at hlt hk
    obtain ⟨hget, hdrop1⟩ := drop_cons_get (by simpa using hdrop)
    have hokp := hok pt (by simp)
    have hR2 : R = pre ++ opRsp (data done) (plannedOp pt) ++ (opsRsp data (done + 1) (g.map plannedOp) ++ post) := by
      rw [hR]; simp
    have hlen : 0 < (opRsp (data done) (plannedOp pt)).length := by
      rw [opRsp_length]; unfold opRspLen; split_ifs <;> omega
    have hword : ∀ k, k < (opRsp (data done) (plannedOp pt)).length →
        rspWord R (c.wi + k) = (opRsp (data done) (plannedOp pt)).getD k 0 := by
      intro k hk1
      rw [hwi]; unfold rspWord
      rw [hR2]
      exact getD_mid _ _ _ _ hk1
    have hwiR : c.wi < R.length := by
      rw [hR2, hwi]; simp only [List.length_append]; omega
    have hne : c.wi ≠ c.wiPktStartNext := by omega
    have hstep : ∃ c1, rspStep R c = .next c1 ∧ RspAt data hm0 h0 c1 (done + 1) j
        ∧ c1.wi = c.wi + (opRsp (data done) (plannedOp pt)).length
        ∧ c1.wiPktStartNext = c.wiPktStartNext := by
      by_cases hty : pt.type = TAS_RW_TT_RD
      · have hrd := plannedOp_isRd pt hty
        have e : opRsp (data done) (plannedOp pt) =
            rspHdr (wordsOf pt.num_bytes)
              (if pt.num_bytes = TAS_PL0_DATA_BLK_SIZE then TAS_PL0_CMD_RDBLK1KB else (plannedOp pt).cmd)
              (wordsOf pt.num_bytes) TAS_PL0_ERR_NO_ERROR ::
            (List.range (wordsOf pt.num_bytes)).map (data done) := by
          unfold opRsp; rw [if_pos hrd]; rfl
        have hl : (opRsp (data done) (plannedOp pt)).length = 1 + wordsOf pt.num_bytes := by
          rw [e]; simp; omega
        obtain ⟨c1, s1, s2, s3, s4⟩ := step_rd hat pt hget hokp hty (by
            have := hword 0 hlen
            rw [Nat.add_zero] at this
            rw [this, e]; rfl) (by
            intro i hi
            have := hword (i + 1) (by rw [hl]; omega)
            have e2 : c.wi + 1 + i = c.wi + (i + 1) := by omega
            rw [e2, this, e, List.getD_cons_succ]
            simp [List.getD_eq_getElem?_getD, hi]) hne
        exact ⟨c1, s1, s2, by rw [s3, hl]; omega, s4⟩
      · have hty2 : pt.type = TAS_RW_TT_WR ∨ pt.type = TAS_RW_TT_FILL := by
          rcases hokp.1 with h | h | h
          · exact absurd h hty
          · exact Or.inl h
          · exact Or.inr h
        have hnr := (plannedOp_notRd pt hty2).1
        have e : opRsp (data done) (plannedOp pt) =
            [rspHdr 0 (plannedOp pt).cmd (wordsOf pt.num_bytes) TAS_PL0_ERR_NO_ERROR] := by
          unfold opRsp; rw [hnr]; rfl
        obtain ⟨c1, s1, s2, s3, s4⟩ := step_wr hat pt hget hokp hty2 (by
            have := hword 0 hlen
            rw [Nat.add_zero] at this
            rw [this, e]; rfl) hne
        exact ⟨c1, s1, s2, by rw [s3, e]; rfl, s4⟩
    obtain ⟨c1, s1, s2, s3, s4⟩ := hstep
    apply runs_next hwiR s1 (by omega)
    apply ih (pre ++ opRsp (data done) (plannedOp pt)) post rest c1 (done + 1) j (by rw [hR]; simp) hpost
      (by rw [s3, hwi]; simp) (by rw [s4]; simp only [List.length_append]; omega) s2 hdrop1
      (fun p hp => hok p (by simp [hp]))
    intro c2 hat2 hw2 hn2
    apply hk c2
    · have : done + 1 + g.length = done + (pt :: g).length := by simp; omega
      rw [← this]; exact hat2
    · rw [hw2]; simp only [List.length_append]; omega
    · rw [hn2, s4]

theorem pktRspOf_length (data : Nat → Nat → Nat) (j : Nat) (ops : List Pl0Op) (cnt : Nat) :
    (pktRspOf data j ops cnt).length = 3 + rspLen ops := by
  simp [pktRspOf, opsRsp_length]; omega

theorem pktRspOf_eq (data : Nat → Nat → Nat) (j : Nat) (ops : List Pl0Op) (cnt : Nat) :
    pktRspOf data j ops cnt =
      4 * (3 + (opsRsp data j ops).length) :: rspHdr 0 TAS_PL1_CMD_PL0_START 0 TAS_PL_ERR_NO_ERROR ::
        (opsRsp data j ops ++ [wordWlCmdU16 0 TAS_PL1_CMD_PL0_END cnt]) := rfl

theorem pktRspOf_w0 (data : Nat → Nat → Nat) (j : Nat) (ops : List Pl0Op) (cnt : Nat) :
    (pktRspOf data j ops cnt).getD 0 0 = 4 * (3 + rspLen ops) := by
  rw [pktRspOf_eq, List.getD_cons_zero, opsRsp_length]

theorem pktRspOf_w1 (data : Nat → Nat → Nat) (j : Nat) (ops : List Pl0Op) (cnt : Nat) :
    (pktRspOf data j ops cnt).getD 1 0 = rspHdr 0 TAS_PL1_CMD_PL0_START 0 TAS_PL_ERR_NO_ERROR := by
  rw [pktRspOf_eq, List.getD_cons_succ, List.getD_cons_zero]

theorem pktRspOf_w2 (data : Nat → Nat → Nat) (j : Nat) (ops : List Pl0Op) (cnt : Nat) :
    (pktRspOf data j ops cnt).getD (2 + rspLen ops) 0 = wordWlCmdU16 0 TAS_PL1_CMD_PL0_END cnt := by
  have e : 2 + rspLen ops = (opsRsp data j ops).length + 1 + 1 := by rw [opsRsp_length]; omega
  rw [pktRspOf_eq, e, List.getD_cons_succ, List.getD_cons_succ,
    List.getD_append_right _ _ _ _ (le_refl _), Nat.sub_self, List.getD_cons_zero]

theorem pkts_run {data : Nat → Nat → Nat} {hm0 : Nat → Nat} {h0 : CTasPktHandlerRw} {R : List Nat}
    (h32 : R.length < 2 ^ 32) :
    ∀ (gs : List (List tas_rw_trans_st)) (pre : List Nat) (c : RspCursor) (done j : Nat),
      gs ≠ [] →
      R = pre ++ rspFrom data done (h0.mPl1CntOutstandingOldest + j) (gs.map (List.map plannedOp)) →
      c.wi = pre.length → c.wiPktStartNext = pre.length → RspAt data hm0 h0 c done j →
      done ≤ h0.mPl0Trans.length →
      h0.mPl0Trans.drop done = gs.flatten → (∀ g ∈ gs, ∀ pt ∈ g, OpOK pt) →
      (∀ g ∈ gs, 4 * (3 + rspLen (g.map plannedOp)) ≤ h0.mMaxRspSize) →
      RunsTo R c (hostWrite data 0 hm0 h0.mPl0Trans) := by
  intro gs
  induction gs with
  | nil => intro pre c done j hne; exact absurd rfl hne
  | cons g gs ih =>
    intro pre c done j _ hR hwi hnext hat hdone hdrop hok hsz
    have hR1 : R = pre ++ pktRspOf data done (g.map plannedOp) (u16 (h0.mPl1CntOutstandingOldest + j))
        ++ rspFrom data (done + g.length) (h0.mPl1CntOutstandingOldest + j + 1) (gs.map (List.map plannedOp)) := by
      rw [hR]; simp [rspFrom]
    have hbl := opsRsp_length data (g.map plannedOp) done
    have hpl := pktRspOf_length data done (g.map plannedOp) (u16 (h0.mPl1CntOutstandingOldest + j))
    have w0 := pktRspOf_w0 data done (g.map plannedOp) (u16 (h0.mPl1CntOutstandingOldest + j))
    have w1 := pktRspOf_w1 data done (g.map plannedOp) (u16 (h0.mPl1CntOutstandingOldest + j))
    have w2 := pktRspOf_w2 data done (g.map plannedOp) (u16 (h0.mPl1CntOutstandingOldest + j))
    have hRlen : pre.length + (3 + rspLen (g.map plannedOp)) ≤ R.length := by
      rw [hR1]; simp only [List.length_append, hpl]; omega
    have hword : ∀ k, k < 3 + rspLen (g.map plannedOp) →
        rspWord R (pre.length + k) =
          (pktRspOf data done (g.map plannedOp) (u16 (h0.mPl1CntOutstandingOldest + j))).getD k 0 := by
      intro k hk
      unfold rspWord
      rw [hR1]
      exact getD_mid _ _ _ _ (by rw [hpl]; exact hk)
    have hg := hsz g (by simp)
    have hle : done + g.length ≤ h0.mPl0Trans.length := by
      have := congrArg List.length hdrop
      simp only [List.length_drop, List.flatten_cons, List.length_append] at this
      omega
    obtain ⟨c1, s1, s2, s3, s4⟩ := step_start hat (4 * (3 + rspLen (g.map plannedOp)))
      (by rw [hwi]; have := hword 0 (by omega); rw [Nat.add_zero] at this; rw [this, w0])
      (by rw [hwi]; rw [hword 1 (by omega), w1])
      (by omega) hg (by rw [hwi]; omega) (by rw [hwi, hnext])
    have e4 : 4 * (3 + rspLen (g.map plannedOp)) / 4 = 3 + rspLen (g.map plannedOp) := by omega
    rw [e4, hwi] at s4
    apply runs_next (by rw [hwi]; omega) s1 (by omega)
    apply ops_run g (pre ++ [4 * (3 + (opsRsp data done (g.map plannedOp)).length),
        rspHdr 0 TAS_PL1_CMD_PL0_START 0 TAS_PL_ERR_NO_ERROR])
      ([wordWlCmdU16 0 TAS_PL1_CMD_PL0_END (u16 (h0.mPl1CntOutstandingOldest + j))] ++
        rspFrom data (done + g.length) (h0.mPl1CntOutstandingOldest + j + 1) (gs.map (List.map plannedOp)))
      gs.flatten c1 done j
      (by rw [hR1, pktRspOf_eq]; simp) (by simp) (by rw [s3, hwi]; simp)
      (by rw [s4, hbl]; simp only [List.length_append, List.length_cons, List.length_nil]; omega) s2
      (by rw [hdrop]; simp) (hok g (by simp))
    intro c2 hat2 hw2 hn2
    rw [hbl] at hw2
    simp only [List.length_append, List.length_cons, List.length_nil] at hw2
    have hw2b : c2.wi = pre.length + (2 + rspLen (g.map plannedOp)) := by omega
    have hend : rspWord R c2.wi
        = wordWlCmdU16 0 TAS_PL1_CMD_PL0_END (u16 (h0.mPl1CntOutstandingOldest + j)) := by
      rw [hw2b, hword _ (by omega), w2]
    have hne2 : c2.wi ≠ c2.wiPktStartNext := by rw [hn2, s4, hw2b]; omega
    have hwiR2 : c2.wi < R.length := by rw [hw2b]; omega
    by_cases hfin : done + g.length = h0.mPl0Trans.length
    · obtain ⟨c3, t1, t2, t3⟩ := step_end_brk hat2 hend hne2 hfin
      exact runs_brk hwiR2 t1 t2 t3
    · obtain ⟨c3, t1, t2, t3, t4⟩ := step_end_next hat2 hend hne2 hfin
      apply runs_next hwiR2 t1 (by omega)
      have hdrop2 : h0.mPl0Trans.drop (done + g.length) = gs.flatten := by
        rw [← List.drop_drop, hdrop]; simp
      have hgs : gs ≠ [] := by
        intro hnil
        rw [hnil] at hdrop2
        simp only [List.flatten_nil, List.drop_eq_nil_iff] at hdrop2
        omega
      apply ih (pre ++ pktRspOf data done (g.map plannedOp) (u16 (h0.mPl1CntOutstandingOldest + j))) c3
        (done + g.length) (j + 1) hgs
      · rw [hR1]; congr 1
      · rw [t3, hw2b]; simp only [List.length_append, hpl]; omega
      · rw [t4, hn2, s4]; simp only [List.length_append, hpl]
      · exact t2
      · exact hle
      · exact hdrop2
      · exact fun g' hg' => hok g' (by simp [hg'])
      · exact fun g' hg' => hsz g' (by simp [hg'])

end Tas


/-!
# The client, `fill32`, and the response to a session start or ping
-/

namespace Tas

set_option maxRecDepth 100000

/-! ## Rejected fill transactions -/

theorem rw_add_fill_rejects (fuel : Nat) (h : CTasPktHandlerRw) (addr nb value acc_mode addr_map : Nat)
    (hbad : addr % 8 ≠ 0 ∨ nb = 0 ∨ nb % 8 ≠ 0) :
    rw_add_fill fuel h addr nb value acc_mode addr_map = some (false, h) := by
  unfold rw_add_fill
  rw [if_pos]
  rcases hbad with a | a | a
  · exact Or.inl a
  · exact Or.inr (Or.inl a)
  · exact Or.inr (Or.inr (Or.inl a))

theorem rw_add_trans_fill_rejects (fuel : Nat) (h : CTasPktHandlerRw) (t : tas_rw_trans_st)
    (ht : t.type = TAS_RW_TT_FILL) (hbad : t.addr % 8 ≠ 0 ∨ t.num_bytes = 0 ∨ t.num_bytes % 8 ≠ 0) :
    rw_add_trans fuel h t = some (false, h) := by
  unfold rw_add_trans
  rw [if_neg (by rw [ht]; decide), if_neg (by rw [ht]; decide), if_pos ht]
  exact rw_add_fill_rejects fuel h _ _ _ _ _ hbad

/-- A list with a transaction that is always rejected makes the loop of
`rw_set_trans` return false, once the transactions before it are worked off. -/
theorem setTransLoop_rejects (fuel : Nat) (t : tas_rw_trans_st) (post : List tas_rw_trans_st)
    (hrej : ∀ h, rw_add_trans fuel h t = some (false, h)) :
    ∀ (pre : List tas_rw_trans_st) (b : Bool) (h : CTasPktHandlerRw),
      (setTransLoop fuel pre b h).isSome = true →
      ∃ h', setTransLoop fuel (pre ++ t :: post) b h = some (false, rw_start h') := by
  intro pre
  induction pre with
  | nil =>
    intro b h _
    refine ⟨h, ?_⟩
    simp only [List.nil_append, setTransLoop, hrej h]
  | cons p ps ih =>
    intro b h hs
    simp only [List.cons_append, setTransLoop] at hs ⊢
    cases hr : rw_add_trans fuel h p with
    | none => rw [hr] at hs; simp at hs
    | some r =>
      obtain ⟨s, h1⟩ := r
      cases s with
      | true => rw [hr] at hs; simp only at hs ⊢; exact ih true h1 hs
      | false => exact ⟨h1, rfl⟩

theorem rw_set_trans_rejects (fuel : Nat) (h : CTasPktHandlerRw) (t : tas_rw_trans_st)
    (pre post : List tas_rw_trans_st) (hrej : ∀ h, rw_add_trans fuel h t = some (false, h))
    (hpre : (rw_set_trans fuel h pre).isSome = true) :
    ∃ h', rw_set_trans fuel h (pre ++ t :: post) = some (false, rw_start h') :=
  setTransLoop_rejects fuel t post hrej pre false (rw_start h) hpre

theorem execute_trans_rejects (fuel : Nat) (mb : Mailbox) (cl : CTasClientRwBase) (h : CTasPktHandlerRw)
    (t : tas_rw_trans_st) (pre post : List tas_rw_trans_st)
    (hrej : ∀ h, rw_add_trans fuel h t = some (false, h)) (hs : cl.mTphRw = some h)
    (hpre : (rw_set_trans fuel h pre).isSome = true) :
    ∃ cl', execute_trans fuel mb cl (pre ++ t :: post) = some (TAS_ERR_FN_PARAM, cl') ∧ cl'.sent = cl.sent := by
  obtain ⟨h', e⟩ := rw_set_trans_rejects fuel h t pre post hrej hpre
  refine ⟨{ cl with mTphRw := some (rw_start h') }, ?_, rfl⟩
  unfold execute_trans
  rw [hs]
  simp only [e]

theorem fill64_rejects (fuel : Nat) (mb : Mailbox) (cl : CTasClientRwBase) (addr value nb addr_map : Nat)
    (hbad : addr % 8 ≠ 0 ∨ nb = 0 ∨ nb % 8 ≠ 0) :
    fill64 fuel mb cl addr value nb addr_map = some (TAS_ERR_FN_PARAM, cl) := by
  unfold fill64
  by_cases a : addr % 8 ≠ 0
  · rw [if_pos a]
  · rw [if_neg a, if_pos]
    rcases hbad with b | b | b
    · exact absurd b a
    · exact Or.inl b
    · exact Or.inr b

/-! ## The transactions of `fill32` -/

theorem value64_eq (value : Nat) (hv : value < 2 ^ 32) : u64 (value <<< 32) ||| value = value * 2 ^ 32 + value := by
  have h1 : value <<< 32 = 2 ^ 32 * value := by rw [Nat.shiftLeft_eq, Nat.mul_comm]
  have h2 : u64 (value <<< 32) = 2 ^ 32 * value := by
    rw [h1]; unfold u64; apply Nat.mod_eq_of_lt; omega
  rw [h2, ← Nat.mul_add_lt_is_or hv, Nat.mul_comm]

/-- The transactions of `fill32` in closed form, when the range does not wrap
around the end of the address space. -/
theorem fill32Trans_eq (addr value nb am : Nat) (ha : addr % 4 = 0) (hn : nb % 4 = 0) (hn0 : 0 < nb)
    (hn32 : nb < 2 ^ 32) (hv : value < 2 ^ 32) (hw : addr + nb ≤ 2 ^ 64) :
    fill32Trans addr value nb am =
      (if addr % 8 = 4 then [wrTrans addr 4 (bytesOfWord value) 0 am] else []) ++
      (if 0 < (nb - addr % 8) / 8 * 8 then
        [fillTrans (addr + addr % 8) ((nb - addr % 8) / 8 * 8) (bytesOfU64 (value * 2 ^ 32 + value)) 0 am] else []) ++
      (if addr % 8 + (nb - addr % 8) / 8 * 8 < nb then
        [wrTrans (addr + addr % 8 + (nb - addr % 8) / 8 * 8) 4 (bytesOfWord value) 0 am] else []) := by
  unfold fill32Trans
  rw [value64_eq value hv]
  have f1 : ((0:Nat) ≠ 0) = False := by decide
  have f2 : ((0:Nat) = 4) = False := by decide
  have f3 : ((4:Nat) ≠ 0) = True := by decide
  have h8 : addr % 8 = 0 ∨ addr % 8 = 4 := by omega
  rcases h8 with h8 | h8
  · simp only [h8, f1, f2, if_false, Nat.add_zero, Nat.sub_zero, Nat.zero_add]
    have hm : u32 (nb / 8 * 8) = nb / 8 * 8 := by unfold u32; apply Nat.mod_eq_of_lt; omega
    rw [hm]
    by_cases c : nb ≥ 8
    · have c' : 0 < nb / 8 * 8 := by omega
      simp only [if_pos c, if_pos c']
      have hs : sub32 nb (nb / 8 * 8) = nb - nb / 8 * 8 := sub32_eq _ _ (by omega) hn32
      rw [hs]
      by_cases d : nb / 8 * 8 < nb
      · have hu : u64 (addr + nb / 8 * 8) = addr + nb / 8 * 8 := by
          unfold u64; apply Nat.mod_eq_of_lt; omega
        rw [if_pos d, if_pos (by omega), hu]
      · rw [if_neg d, if_neg (by omega)]
    · have c' : ¬ 0 < nb / 8 * 8 := by omega
      simp only [if_neg c, if_neg c']
      rw [if_pos hn0, if_pos (by omega)]
      have : nb / 8 * 8 = 0 := by omega
      rw [this]; rfl
  · simp only [h8, f3, if_true]
    have hs4 : sub32 nb 4 = nb - 4 := sub32_eq _ _ (by omega) hn32
    rw [hs4]
    have hm : u32 ((nb - 4) / 8 * 8) = (nb - 4) / 8 * 8 := by unfold u32; apply Nat.mod_eq_of_lt; omega
    rw [hm]
    by_cases c : nb - 4 ≥ 8
    · have hu4 : u64 (addr + 4) = addr + 4 := by unfold u64; apply Nat.mod_eq_of_lt; omega
      have c' : 0 < (nb - 4) / 8 * 8 := by omega
      simp only [if_pos c, if_pos c', hu4]
      have hs : sub32 (nb - 4) ((nb - 4) / 8 * 8) = nb - 4 - (nb - 4) / 8 * 8 := sub32_eq _ _ (by omega) (by omega)
      rw [hs]
      by_cases d : (nb - 4) / 8 * 8 < nb - 4
      · have hu : u64 (addr + 4 + (nb - 4) / 8 * 8) = addr + 4 + (nb - 4) / 8 * 8 := by
          unfold u64; apply Nat.mod_eq_of_lt; omega
        rw [if_pos (by omega), if_pos (by omega), hu]
      · rw [if_neg (by omega), if_neg (by omega)]
    · have c' : ¬ 0 < (nb - 4) / 8 * 8 := by omega
      simp only [if_neg c, if_neg c']
      have z : (nb - 4) / 8 * 8 = 0 := by omega
      rw [z]
      by_cases d : nb - 4 > 0
      · have hu4 : u64 (addr + 4) = addr + 4 := by unfold u64; apply Nat.mod_eq_of_lt; omega
        rw [if_pos d, if_pos (by omega), hu4]
      · rw [if_neg d, if_neg (by omega)]

/-- The closed form of the transactions of `fill32` has one to three
transactions that lie end to end from `addr` to `addr + nb`. -/
theorem fill32_shape (addr nb : Nat) (w1 w2 f : Nat → Nat → tas_rw_trans_st)
    (hw1 : ∀ a n, (w1 a n).addr = a ∧ (w1 a n).num_bytes = n)
    (hw2 : ∀ a n, (w2 a n).addr = a ∧ (w2 a n).num_bytes = n)
    (hf : ∀ a n, (f a n).addr = a ∧ (f a n).num_bytes = n)
    (ha : addr % 4 = 0) (hn : nb % 4 = 0) (hn0 : 0 < nb) (ts : List tas_rw_trans_st)
    (hts : ts = (if addr % 8 = 4 then [w1 addr 4] else []) ++
      (if 0 < (nb - addr % 8) / 8 * 8 then [f (addr + addr % 8) ((nb - addr % 8) / 8 * 8)] else []) ++
      (if addr % 8 + (nb - addr % 8) / 8 * 8 < nb then [w2 (addr + addr % 8 + (nb - addr % 8) / 8 * 8) 4]
        else [])) :
    1 ≤ ts.length ∧ ts.length ≤ 3 ∧ Contig addr ts (addr + nb) := by
  have h8 : addr % 8 = 0 ∨ addr % 8 = 4 := by omega
  subst hts
  have f2 : ((0:Nat) = 4) = False := by decide
  rcases h8 with h8 | h8
  · simp only [h8, f2, if_false, Nat.sub_zero, Nat.add_zero, Nat.zero_add, List.nil_append]
    by_cases c2 : 0 < nb / 8 * 8 <;> by_cases c3 : nb / 8 * 8 < nb <;>
      simp only [if_pos, if_neg, c2, c3, not_false_eq_true, List.nil_append, List.append_nil,
        List.singleton_append, List.length_cons, List.length_nil, Contig, hw2, hf, true_and] <;>
      omega
  · simp only [h8, if_true, List.singleton_append]
    by_cases c2 : 0 < (nb - 4) / 8 * 8 <;> by_cases c3 : 4 + (nb - 4) / 8 * 8 < nb <;>
      simp only [if_pos, if_neg, c2, c3, not_false_eq_true, List.nil_append, List.append_nil,
        List.singleton_append, List.cons_append, List.length_cons, List.length_nil, Contig, hw1, hw2, hf,
        true_and] <;>
      omega

/-- Reading the eight bytes of a 64 bit value back gives the value. -/
theorem fillValue_bytesOfU64 (v : Nat) (h : v < 2 ^ 64) : fillValue (bytesOfU64 v) = v := by
  unfold fillValue bytesOfU64 byteAt
  simp only [List.range, List.range.loop, List.map, List.foldr, List.getD_cons_zero, List.getD_cons_succ,
    u8, Nat.shiftRight_eq_div_pow]
  norm_num
  omega

/-! ## The response to a session start or ping -/

theorem errs_ne : TAS_ERR_SERVER_CON ≠ TAS_ERR_NONE ∧ TAS_ERR_FN_USAGE ≠ TAS_ERR_NONE
    ∧ TAS_ERR_FN_NOT_SUPPORTED ≠ TAS_ERR_NONE ∧ TAS_ERR_GENERAL ≠ TAS_ERR_NONE
    ∧ TAS_ERR_FN_PARAM ≠ TAS_ERR_NONE ∧ TAS_ERR_CHL_SETUP ≠ TAS_ERR_NONE
    ∧ TAS_ERR_DEVICE_ACCESS ≠ TAS_ERR_NONE := by decide

theorem mHandlePktError_ne (b : CTasPktHandlerBase) (pkt_rsp : List Nat) (cmd : Nat) :
    (mHandlePktError b pkt_rsp cmd).1 ≠ TAS_ERR_NONE := by
  unfold mHandlePktError CTasPktHandlerBase.mSetPktRspErrConnectionProtocol
  by_cases c0 : rspWord pkt_rsp 0 = 4 + SIZEOF_PL1RSP_HEADER ∧ byte1 (rspWord pkt_rsp 1) = cmd
  · rw [if_pos c0]
    by_cases c1 : byte3 (rspWord pkt_rsp 1) = TAS_PL_ERR_USAGE
    · rw [if_pos c1]; exact errs_ne.2.1
    · rw [if_neg c1]
      by_cases c2 : byte3 (rspWord pkt_rsp 1) = TAS_PL_ERR_NOT_SUPPORTED
      · rw [if_pos c2]; exact errs_ne.2.2.1
      · rw [if_neg c2]; exact errs_ne.2.2.2.1
  · rw [if_neg c0]; exact errs_ne.1

/-- The function `set_pkt_rsp_ping` returns `TAS_ERR_NONE` exactly for the
responses that pass its checks, and then stores the connection info of the
packet with the hash fields computed from the device id. -/
theorem set_pkt_rsp_ping_spec (b : CTasPktHandlerBase) (cmd client_type : Nat) (pkt_rsp : List Nat) :
    ((set_pkt_rsp_ping b cmd client_type pkt_rsp).1 = TAS_ERR_NONE ↔ PingOK (pingPktSize client_type) cmd pkt_rsp)
    ∧ ((set_pkt_rsp_ping b cmd client_type pkt_rsp).1 = TAS_ERR_NONE →
        (set_pkt_rsp_ping b cmd client_type pkt_rsp).2
          = { mConInfo := withDeviceIdHash (conInfoAt pkt_rsp 3), tas_err := TAS_ERR_NONE }) := by
  have e := errs_ne
  have hv : CTasPktHandlerBase.PROTOC_VER = 1 := rfl
  have k1 : TAS_PL2_MAX_PKT_SIZE_MIN = 128 := rfl
  have k2 : TAS_PL2_MAX_PKT_SIZE = 65544 := rfl
  have k3 : TAS_PL1_CHL_MAX_MSG_SIZE = 1024 := rfl
  have k4 : TAS_PL1_ERR_SESSION ≠ TAS_PL_ERR_NO_ERROR := by decide
  have k5 : TAS_PL_ERR_NOT_SUPPORTED ≠ TAS_PL_ERR_NO_ERROR := by decide
  have k6 : TAS_PL1_ERR_CMD_FAILED ≠ TAS_PL_ERR_NO_ERROR := by decide
  unfold set_pkt_rsp_ping CTasPktHandlerBase.mSetPktRspErrConnectionProtocol PingOK
  rw [hv, k1, k2, k3]
  generalize pingPktSize client_type = n
  generalize conInfoAt pkt_rsp 3 = ci
  generalize rspWord pkt_rsp 0 = w0
  generalize rspWord pkt_rsp 1 = w1
  generalize rspWord pkt_rsp 2 = w2
  by_cases c0 : w0 ≠ 4 + n
  · rw [if_pos c0]
    exact ⟨⟨fun h => absurd h (mHandlePktError_ne _ _ _), fun h => absurd h.1 c0⟩,
      fun h => absurd h (mHandlePktError_ne _ _ _)⟩
  rw [if_neg c0]
  by_cases c1 : byte1 w1 ≠ cmd ∨ byte0 w1 ≠ n / 4 - 1
  · rw [if_pos c1]
    exact ⟨⟨fun h => absurd h e.1,
      fun h => by rcases c1 with c1 | c1; exact absurd h.2.1 c1; exact absurd h.2.2.1 c1⟩, fun h => absurd h e.1⟩
  rw [if_neg c1]
  by_cases c2 : 1 < byte0 w2 ∨ 1 > byte1 w2
  · rw [if_pos c2]; exact ⟨⟨fun h => absurd h e.1, fun h => by omega⟩, fun h => absurd h e.1⟩
  rw [if_neg c2]
  by_cases c3 : ¬ (byte3 w1 = TAS_PL_ERR_NO_ERROR ∨ byte3 w1 = TAS_PL1_ERR_CMD_FAILED
      ∨ byte3 w1 = TAS_PL1_ERR_SESSION ∨ byte3 w1 = TAS_PL_ERR_NOT_SUPPORTED)
  · rw [if_pos c3]
    exact ⟨⟨fun h => absurd h e.1, fun h => absurd (Or.inl h.2.2.2.2.2.1) c3⟩, fun h => absurd h e.1⟩
  rw [if_neg c3]
  by_cases c4 : byte3 w1 = TAS_PL1_ERR_SESSION
  · rw [if_pos c4]
    exact ⟨⟨fun h => absurd h e.2.2.2.2.1, fun h => absurd (c4 ▸ h.2.2.2.2.2.1) k4⟩,
      fun h => absurd h e.2.2.2.2.1⟩
  rw [if_neg c4]
  by_cases c5 : byte3 w1 = TAS_PL_ERR_NOT_SUPPORTED
  · rw [if_pos c5]
    exact ⟨⟨fun h => absurd h e.2.2.2.2.1, fun h => absurd (c5 ▸ h.2.2.2.2.2.1) k5⟩,
      fun h => absurd h e.2.2.2.2.1⟩
  rw [if_neg c5]
  by_cases c6 : byte3 w1 = TAS_PL1_ERR_CMD_FAILED
  · rw [if_pos c6]
    by_cases c7 : client_type = TAS_CLIENT_TYPE_CHL
    · rw [if_pos c7]
      exact ⟨⟨fun h => absurd h e.2.2.2.2.2.1, fun h => absurd (c6 ▸ h.2.2.2.2.2.1) k6⟩,
        fun h => absurd h e.2.2.2.2.2.1⟩
    · rw [if_neg c7]
      exact ⟨⟨fun h => absurd h e.2.2.2.2.2.2, fun h => absurd (c6 ▸ h.2.2.2.2.2.1) k6⟩,
        fun h => absurd h e.2.2.2.2.2.2⟩
  rw [if_neg c6]
  have c0' := not_not.mp c0
  have he : byte3 w1 = TAS_PL_ERR_NO_ERROR := by
    rcases not_not.mp c3 with h | h | h | h
    · exact h
    · exact absurd h c6
    · exact absurd h c4
    · exact absurd h c5
  have hc : byte1 w1 = cmd := by by_contra hc; exact c1 (Or.inl hc)
  have hw : byte0 w1 = n / 4 - 1 := by by_contra hc; exact c1 (Or.inr hc)
  by_cases c8 : ci.max_pl2rq_pkt_size % 4 ≠ 0 ∨ ci.max_pl2rq_pkt_size < 128 ∨ ci.max_pl2rq_pkt_size > 65544
  · rw [if_pos c8]; exact ⟨⟨fun h => absurd h e.1, fun h => by omega⟩, fun h => absurd h e.1⟩
  rw [if_neg c8]
  by_cases c9 : ci.max_pl2rsp_pkt_size % 4 ≠ 0 ∨ ci.max_pl2rsp_pkt_size < 128 ∨ ci.max_pl2rsp_pkt_size > 65544
  · rw [if_pos c9]; exact ⟨⟨fun h => absurd h e.1, fun h => by omega⟩, fun h => absurd h e.1⟩
  rw [if_neg c9]
  by_cases c10 : ci.msg_length_c2d % 4 ≠ 0 ∨ ci.msg_length_c2d > 1024
  · rw [if_pos c10]; exact ⟨⟨fun h => absurd h e.1, fun h => by omega⟩, fun h => absurd h e.1⟩
  rw [if_neg c10]
  by_cases c11 : ci.msg_length_d2c % 4 ≠ 0 ∨ ci.msg_length_d2c > 1024
  · rw [if_pos c11]; exact ⟨⟨fun h => absurd h e.1, fun h => by omega⟩, fun h => absurd h e.1⟩
  rw [if_neg c11]
  exact ⟨⟨fun _ => ⟨c0', hc, hw, by omega, by omega, he, by omega, by omega, by omega, by omega, by omega,
    by omega, by omega, by omega, by omega, by omega⟩, fun _ => rfl⟩, fun _ => rfl⟩

end Tas


/-!
# Transactions planned as a single micro-op
-/

namespace Tas

set_option maxRecDepth 100000

/-! ## Fresh packets -/

theorem sub32_add_self (L k : Nat) (hk : k < 2 ^ 32) : sub32 (L + k) L = k := by
  unfold sub32; omega

theorem FreshPkt_finalize (h : CTasPktHandlerRw) : FreshPkt (mPktFinalize h true) := by
  unfold FreshPkt
  constructor
  · simp only [mPktFinalize, mPl2PktInit, CTasPktHandlerRw.mRqBufWi, if_true, List.length_append]
    exact sub32_add_self _ 3 (by norm_num)
  · simp only [mPktFinalize, mPl2PktInit, if_true]
    unfold sub32 u32; omega

theorem FreshPkt_rw_start (h : CTasPktHandlerRw) : FreshPkt (rw_start h) := by
  unfold FreshPkt
  simp only [rw_start, mPl2PktInit, CTasPktHandlerRw.mRqBufWi]
  constructor
  · decide
  · decide

theorem FreshPkt_addPrologue {h : CTasPktHandlerRw} (hf : FreshPkt h) (m : Bool) (rq rsp am : Nat) :
    FreshPkt (addPrologue h m rq rsp am) := by
  unfold addPrologue
  cases m <;> simp only [Bool.not_true, Bool.not_false, Bool.false_eq_true, if_false, if_true] <;> split_ifs <;>
    first | exact FreshPkt_finalize _ | exact hf


theorem Room_of_Static {h h' : CTasPktHandlerRw} {n : Nat} (e : Static h' = Static h) (r : Room n h) :
    Room n h' := by
  simp only [Static, Prod.mk.injEq] at e
  obtain ⟨_, e2, e3, e4, _⟩ := e
  unfold Room at r ⊢
  rw [e2, e3, e4]; exact r

theorem CapsSet_of_Caps {h h' : CTasPktHandlerRw} (e : Caps h' = Caps h) (c : CapsSet h) : CapsSet h' := by
  have s := Static_of_Caps e
  simp only [Static, Prod.mk.injEq] at s
  simp only [Caps, Prod.mk.injEq] at e
  unfold CapsSet at c ⊢
  rw [e.1, e.2.1, s.2.2.2.1]; exact c

theorem CapsSet_rw_start (h : CTasPktHandlerRw) : CapsSet (rw_start h) := by
  unfold CapsSet
  simp only [rw_start, mPl2PktInit]
  exact ⟨trivial, trivial⟩

/-- With room for `n` bytes the caps set by `rw_start` are at least `n`. -/
theorem caps_ge {h : CTasPktHandlerRw} {n : Nat} (c : CapsSet h) (r : Room n h) (hn : n ≤ 1024) :
    n ≤ h.mMaxWrDataBlkSizeInPktRq ∧ n ≤ h.mMaxRdDataBlkSizeInPktRsp := by
  obtain ⟨r1, r2, r3, r4, _⟩ := r
  have s1 : sub32 h.mConInfo.max_pl2rq_pkt_size 24 = h.mConInfo.max_pl2rq_pkt_size - 24 :=
    sub32_eq _ _ (by omega) r2
  have s2 : sub32 h.mConInfo.max_pl2rsp_pkt_size 24 = h.mConInfo.max_pl2rsp_pkt_size - 24 :=
    sub32_eq _ _ (by omega) r4
  rw [c.1, c.2, s1, s2]
  simp only [TAS_PL0_DATA_BLK_SIZE]
  constructor <;> split_ifs <;> omega

theorem remRsp_le (h : CTasPktHandlerRw) : mGetRemainingSizeInPktRsp h ≤ h.mConInfo.max_pl2rsp_pkt_size := by
  unfold mGetRemainingSizeInPktRsp
  simp only []
  split_ifs <;> omega

theorem remRq_le (h : CTasPktHandlerRw) : mGetRemainingSizeInPktRq h ≤ h.mConInfo.max_pl2rq_pkt_size := by
  unfold mGetRemainingSizeInPktRq
  simp only []
  split_ifs <;> omega

theorem remRsp_fresh {h : CTasPktHandlerRw} {n : Nat} (hf : FreshPkt h) (r : Room n h) :
    n + 24 ≤ mGetRemainingSizeInPktRsp h := by
  obtain ⟨_, _, r3, r4, _, _, r7⟩ := r
  unfold mGetRemainingSizeInPktRsp
  simp only [hf.2]
  split_ifs <;> omega

theorem remRq_fresh {h : CTasPktHandlerRw} {n : Nat} (hf : FreshPkt h) (r : Room n h) :
    n + 20 ≤ mGetRemainingSizeInPktRq h := by
  obtain ⟨r1, r2, _, _, r5, r6, _⟩ := r
  unfold mGetRemainingSizeInPktRq
  have e : u32 (h.mRqWiMax * 4) = 4 * h.mRqWiMax := by unfold u32; omega
  simp only [hf.1, e]
  have e2 : u32 (4 * 3) = 12 := by decide
  rw [e2]
  split_ifs <;> omega

theorem Recs_addPrologue (h : CTasPktHandlerRw) (m : Bool) (rq rsp am : Nat) :
    Recs (addPrologue h m rq rsp am) = Recs h := by
  unfold addPrologue
  cases m <;> simp only [Bool.not_true, Bool.not_false, Bool.false_eq_true, if_false, if_true] <;> split_ifs <;>
    simp only [Recs_mPktFinalize]

/-! ## Block sizes -/

theorem rdBlk_full {h : CTasPktHandlerRw} {nb : Nat} (h8 : nb % 8 = 0) (hrem : nb + 9 ≤ mGetRemainingSizeInPktRsp h)
    (hlt : h.mConInfo.max_pl2rsp_pkt_size < 2 ^ 32) (hcap : nb ≤ h.mMaxRdDataBlkSizeInPktRsp) :
    mGetRdDataBlkSizeInPktRsp h nb = nb := by
  have hl := remRsp_le h
  unfold mGetRdDataBlkSizeInPktRsp
  simp only []
  rw [if_neg (by omega)]
  have s : sub32 (mGetRemainingSizeInPktRsp h) (4 + 4) = mGetRemainingSizeInPktRsp h - 8 :=
    sub32_eq _ _ (by omega) (by omega)
  rw [s]
  have i1 : (if nb > mGetRemainingSizeInPktRsp h - 8 then mGetRemainingSizeInPktRsp h - 8 else nb) = nb :=
    if_neg (by omega)
  rw [i1, if_neg (by omega), and_not7_eq nb (by omega)]
  omega

theorem rdTail_zero (c : RdCursor) (acc am : Nat) (hz : c.nb = 0) : rdTail c acc am = c := by
  unfold rdTail
  simp only [hz, ge_iff_le, Nat.le_zero_eq, OfNat.ofNat_ne_zero, if_false, gt_iff_lt, Nat.lt_irrefl]
  
theorem rdSplit_block (fuel : Nat) (h : CTasPktHandlerRw) (addr nb d acc am : Nat) (ha : addr % 8 = 0)
    (h8 : 8 ≤ nb) (hnb : nb < 2 ^ 32) (hm8 : nb % 8 = 0) (hblk : mGetRdDataBlkSizeInPktRsp h nb = nb) :
    ∃ c, rdSplit (fuel + 1) h addr nb d acc am = some c ∧ c.h = mPktAdd_Rd h addr nb d acc am := by
  have a1 : ¬ (addr &&& 1 ≠ 0) := by rw [and_one_ne]; omega
  have a2 : ¬ (addr &&& 2 ≠ 0) := by rw [and_two_ne]; omega
  have a4 : ¬ (addr &&& 4 ≠ 0) := by rw [and_four_ne]; omega
  have hh : rdHead { h := h, a := addr, d := d, nb := nb } acc am = { h := h, a := addr, d := d, nb := nb } := by
    unfold rdHead
    simp only [a1, a2, a4, and_false, if_false]
  have e1 : and_not7 nb = nb := by rw [and_not7_eq nb hnb]; omega
  have e2 : sub32 nb nb = 0 := by unfold sub32; omega
  unfold rdSplit
  rw [hh]
  simp only [ge_iff_le, h8, if_true]
  unfold rdBlkLoop
  simp only [hblk, e1, e2, lt_self_iff_false, and_false, if_false, gt_iff_lt, Nat.not_lt_zero]
  refine ⟨_, rfl, ?_⟩
  rw [rdTail_zero _ _ _ rfl]

theorem rdSplit_byte (fuel : Nat) (h : CTasPktHandlerRw) (addr d acc am : Nat) (ha : addr % 2 = 1) :
    ∃ c, rdSplit fuel h addr 1 d acc am = some c ∧ c.h = mPktAdd_Rd h addr 1 d acc am := by
  have a1 : addr &&& 1 ≠ 0 := by rw [and_one_ne]; omega
  have e2 : sub32 1 1 = 0 := by decide
  have hh : rdHead { h := h, a := addr, d := d, nb := 1 } acc am
      = { h := mPktAdd_Rd h addr 1 d acc am, a := u64 (addr + 1), d := d + 1, nb := 0 } := by
    unfold rdHead
    have c1 : ((1:Nat) > 0 ∧ addr &&& 1 ≠ 0) = True := eq_true ⟨by decide, a1⟩
    simp only [c1, if_true, rdStep, e2, ge_iff_le, Nat.le_zero_eq, OfNat.ofNat_ne_zero, false_and,
      if_false]
  unfold rdSplit
  rw [hh]
  simp only [ge_iff_le, Nat.le_zero_eq, OfNat.ofNat_ne_zero, if_false]
  refine ⟨_, rfl, ?_⟩
  rw [rdTail_zero _ _ _ rfl]

/-! ## The length of the request -/

theorem setWords_length_mid (buf : List Nat) (i : Nat) (ws : List Nat) (h : i + ws.length ≤ buf.length) :
    (setWords buf i ws).length = buf.length := by
  unfold setWords
  simp only [List.length_append, List.length_take, List.length_drop]
  omega

theorem finalize_words_length (buf : List Nat) (hdr x y e l : Nat) (hi : hdr + 3 ≤ buf.length) :
    (setWords (setWords (setWords buf (hdr + 1) [x, y]) buf.length [e]) hdr [l]).length = buf.length + 1 := by
  have l1 : (setWords buf (hdr + 1) [x, y]).length = buf.length :=
    setWords_length_mid _ _ _ (by simp only [List.length_cons, List.length_nil]; omega)
  have l2 : (setWords (setWords buf (hdr + 1) [x, y]) buf.length [e]).length = buf.length + 1 := by
    have := setWords_end (setWords buf (hdr + 1) [x, y]) [e]
    rw [l1] at this
    rw [this]
    simp only [List.length_append, List.length_singleton, l1]
  rw [setWords_length_mid _ _ _ (by rw [l2]; simp only [List.length_singleton]; omega), l2]

theorem len_finalize (h : CTasPktHandlerRw) (b : Bool) (hi : LenInv h) :
    (mPktFinalize h b).mRqBuf.length = h.mRqBuf.length + (if b then 4 else 1)
    ∧ (b = true → LenInv (mPktFinalize h b)) := by
  unfold LenInv at hi
  cases b with
  | false =>
    refine ⟨?_, fun hc => absurd hc (by decide)⟩
    simp only [mPktFinalize, CTasPktHandlerRw.mRqBufWi, Bool.false_eq_true, if_false]
    exact finalize_words_length _ _ _ _ _ _ hi
  | true =>
    refine ⟨?_, fun _ => ?_⟩
    · simp only [mPktFinalize, mPl2PktInit, if_true, CTasPktHandlerRw.mRqBufWi, List.length_append,
        finalize_words_length _ _ _ _ _ _ hi, List.length_cons, List.length_nil]
    · simp only [mPktFinalize, mPl2PktInit, if_true, LenInv, CTasPktHandlerRw.mRqBufWi, List.length_append,
        finalize_words_length _ _ _ _ _ _ hi, List.length_cons, List.length_nil]
      omega

theorem len_emit (h : CTasPktHandlerRw) (ws : List Nat) (r : Nat) (hi : LenInv h) :
    (emit h ws r).mRqBuf.length = h.mRqBuf.length + ws.length ∧ LenInv (emit h ws r) := by
  unfold LenInv at hi ⊢
  refine ⟨by simp only [emit, List.length_append], ?_⟩
  show h.mPl2HdrWi + 3 ≤ (h.mRqBuf ++ ws).length
  rw [List.length_append]
  omega

theorem len_setAddrMap (h : CTasPktHandlerRw) (am : Nat) (hi : LenInv h) :
    (setAddrMap h am).mRqBuf.length ≤ h.mRqBuf.length + 1 ∧ LenInv (setAddrMap h am) := by
  unfold setAddrMap
  split_ifs
  · have := len_emit h [addrMapWord am] 0 hi
    exact ⟨by simp only [this.1, List.length_singleton]; omega, this.2⟩
  · exact ⟨by omega, hi⟩

theorem len_setAccMode (h : CTasPktHandlerRw) (acc : Nat) (hi : LenInv h) :
    (setAccMode h acc).mRqBuf.length ≤ h.mRqBuf.length + 1 ∧ LenInv (setAccMode h acc) := by
  unfold setAccMode
  split_ifs
  · have := len_emit h [wordWlCmdU16 0 TAS_PL0_CMD_ACCESS_MODE acc] 0 hi
    exact ⟨by simp only [this.1, List.length_singleton]; omega, this.2⟩
  · exact ⟨by omega, hi⟩

theorem baseAddrWords_length (addr : Nat) : (baseAddrWords addr).length ≤ 2 := by
  unfold baseAddrWords
  split_ifs <;> simp

theorem len_setBaseAddr (h : CTasPktHandlerRw) (addr : Nat) (hi : LenInv h) :
    (setBaseAddr h addr).mRqBuf.length ≤ h.mRqBuf.length + 2 ∧ LenInv (setBaseAddr h addr) := by
  unfold setBaseAddr
  split_ifs
  · have := len_emit h (baseAddrWords addr) 0 hi
    have l := baseAddrWords_length addr
    exact ⟨by simp only [this.1]; omega, this.2⟩
  · exact ⟨by omega, hi⟩

theorem len_pktPrep (h : CTasPktHandlerRw) (am acc addr rq rsp : Nat) (hi : LenInv h) :
    (pktPrep h am acc addr rq rsp).mRqBuf.length ≤ h.mRqBuf.length + 12
    ∧ LenInv (pktPrep h am acc addr rq rsp) := by
  have f1 : (finalizeIfFull h).mRqBuf.length ≤ h.mRqBuf.length + 4 ∧ LenInv (finalizeIfFull h) := by
    unfold finalizeIfFull
    split_ifs
    · have := len_finalize h true hi
      exact ⟨by rw [this.1]; simp, this.2 rfl⟩
    · exact ⟨by omega, hi⟩
  have f2 : ∀ (g : CTasPktHandlerRw) (a b : Nat), LenInv g →
      (mPktFinalizeIfNeeded g a b).mRqBuf.length ≤ g.mRqBuf.length + 4 ∧ LenInv (mPktFinalizeIfNeeded g a b) := by
    intro g a b hg
    unfold mPktFinalizeIfNeeded
    split_ifs
    · have := len_finalize g true hg
      exact ⟨by rw [this.1]; simp, this.2 rfl⟩
    · exact ⟨by omega, hg⟩
  unfold pktPrep mPktAdd_SetAddrMapAccModeBaseAddr
  simp only []
  generalize (u32 (mGetNumBytesAddrMapAccModeBaseAddr (finalizeIfFull h) am acc addr + rq)) = x
  have g2 := f2 (finalizeIfFull h) x rsp f1.2
  have io : LenInv (orAddrMapMask (mPktFinalizeIfNeeded (finalizeIfFull h) x rsp) am) := g2.2
  have g3 := len_setAddrMap _ am io
  have g4 := len_setAccMode _ acc g3.2
  have g5 := len_setBaseAddr _ addr g4.2
  refine ⟨?_, g5.2⟩
  have e0 : (orAddrMapMask (mPktFinalizeIfNeeded (finalizeIfFull h) x rsp) am).mRqBuf
      = (mPktFinalizeIfNeeded (finalizeIfFull h) x rsp).mRqBuf := rfl
  rw [e0] at g3
  omega

theorem rdWords_length (addr nb : Nat) : (rdWords addr nb).length ≤ 2 := by
  unfold rdWords
  split_ifs <;> simp

theorem len_mPktAdd_Rd (h : CTasPktHandlerRw) (a n d acc am : Nat) (hi : LenInv h) :
    (mPktAdd_Rd h a n d acc am).mRqBuf.length ≤ h.mRqBuf.length + 14 ∧ LenInv (mPktAdd_Rd h a n d acc am) := by
  unfold mPktAdd_Rd
  split_ifs
  · exact ⟨by omega, hi⟩
  · have p := len_pktPrep h am acc a (8 + 4) (u32 (4 + roundUp4 n + 4)) hi
    have e := len_emit _ (rdWords a n) (rdRspSize n) p.2
    have l := rdWords_length a n
    have e2 : LenInv (recordPl0 (emit (pktPrep h am acc a (8 + 4) (u32 (4 + roundUp4 n + 4))) (rdWords a n)
        (rdRspSize n)) a n TAS_RW_TT_RD [] d) := e.2
    refine ⟨?_, e2⟩
    simp only [recordPl0]
    rw [e.1]
    omega

theorem len_addPrologue (h : CTasPktHandlerRw) (m : Bool) (rq rsp am : Nat) (hi : LenInv h) :
    (addPrologue h m rq rsp am).mRqBuf.length ≤ h.mRqBuf.length + 8 ∧ LenInv (addPrologue h m rq rsp am) := by
  have key : ∀ g : CTasPktHandlerRw, LenInv g →
      (if (!mCheckRemainingPktSizeSufficient g rq rsp || !mCheckAddrMapRulesInPkt g am) = true
        then mPktFinalize g true else g).mRqBuf.length ≤ g.mRqBuf.length + 4
      ∧ LenInv (if (!mCheckRemainingPktSizeSufficient g rq rsp || !mCheckAddrMapRulesInPkt g am) = true
        then mPktFinalize g true else g) := by
    intro g hg
    split_ifs
    · have := len_finalize g true hg
      exact ⟨by rw [this.1]; simp, this.2 rfl⟩
    · exact ⟨by omega, hg⟩
  unfold addPrologue
  cases m with
  | true =>
    have := key h hi
    simp only [Bool.not_true, Bool.false_eq_true, if_false]
    exact ⟨by omega, this.2⟩
  | false =>
    have f := len_finalize h true hi
    have := key (mPktFinalize h true) (f.2 rfl)
    simp only [Bool.not_false, if_true]
    rw [f.1] at this
    simp only [if_true] at this
    exact ⟨by omega, this.2⟩

theorem LenInv_rw_start (h : CTasPktHandlerRw) : LenInv (rw_start h) ∧ (rw_start h).mRqBuf.length = 3 := by
  unfold LenInv
  simp only [rw_start, mPl2PktInit, CTasPktHandlerRw.mRqBufWi]
  decide

/-! ## A read or write planned as one micro-op -/

/-- What `rw_add_rd` does when the body adds the whole read as one micro-op. -/
theorem rw_add_rd_single (fuel : Nat) (h : CTasPktHandlerRw) (addr nb d acc am : Nat) (hn0 : nb ≠ 0)
    (hal : aliasMap am ≤ TAS_AM15)
    (hsplit : ∃ c, rdSplit fuel (addPrologue h (mNumTransManageableRd h addr nb) 32 (rdPrologueRsp am nb)
          (aliasMap am)) addr nb d acc (aliasMap am) = some c
        ∧ c.h = mPktAdd_Rd (addPrologue h (mNumTransManageableRd h addr nb) 32 (rdPrologueRsp am nb)
          (aliasMap am)) addr nb d acc (aliasMap am)) :
    (mCheckLimits h nb 0 = false ∧ rw_add_rd fuel h addr nb d acc am = some (false, h)) ∨
    (mCheckLimits h nb 0 = true ∧
      rw_add_rd fuel h addr nb d acc am = some (true, recordRw (mPktAdd_Rd (addPrologue h
        (mNumTransManageableRd h addr nb) 32 (rdPrologueRsp am nb) (aliasMap am)) addr nb d acc (aliasMap am))
        addr nb TAS_RW_TT_RD [] d)) := by
  obtain ⟨c, hc, hch⟩ := hsplit
  unfold rw_add_rd
  rw [if_neg hn0]
  cases hl : mCheckLimits h nb 0 with
  | false => left; exact ⟨rfl, by simp⟩
  | true =>
    right
    refine ⟨rfl, ?_⟩
    simp only [Bool.not_true, Bool.false_eq_true, if_false]
    rw [if_neg (by omega)]
    simp only [hc, hch]

/-- The micro-ops recorded after a read was added as one micro-op. -/
theorem single_rd_recs (h : CTasPktHandlerRw) (m : Bool) (rq rsp addr nb d acc am : Nat) (hn0 : nb ≠ 0) :
    (recordRw (mPktAdd_Rd (addPrologue h m rq rsp am) addr nb d acc am) addr nb TAS_RW_TT_RD [] d).mPl0Trans
      = h.mPl0Trans ++ [{ addr := addr, num_bytes := nb, acc_mode := acc, addr_map := am,
                          type := TAS_RW_TT_RD, wdata := [], rdata := d }] := by
  have e1 := Recs_mPktAdd_Rd (addPrologue h m rq rsp am) addr nb d acc am hn0
  have e2 := (Recs_eq_iff h (addPrologue h m rq rsp am)).1 (Recs_addPrologue h m rq rsp am)
  simp only [Recs, Prod.mk.injEq] at e1
  show (mPktAdd_Rd (addPrologue h m rq rsp am) addr nb d acc am).mPl0Trans = _
  rw [e1.1, e2.1]

theorem planRq_single_rd {fuel : Nat} {h0 h' : CTasPktHandlerRw} {addr nb d acc am : Nat}
    (hadd : rw_add_rd fuel (rw_start h0) addr nb d acc am = some (true, h')) :
    planRq fuel h0 [rdTrans addr nb d acc am] = some (rw_get_rq h') := by
  have e : rw_add_trans fuel (rw_start h0) (rdTrans addr nb d acc am) = some (true, h') := by
    unfold rw_add_trans
    exact (if_pos rfl).trans hadd
  unfold planRq rw_set_trans
  simp only [setTransLoop, e]

/-- A read planned first and as one micro-op: the request decodes to this micro-op. -/
theorem fresh_single_read (fuel : Nat) (h0 : CTasPktHandlerRw) (addr nb d acc am : Nat) (hn0 : nb ≠ 0)
    (hal : aliasMap am ≤ TAS_AM15) (hw : WellTyped (rdTrans addr nb d acc am))
    (hlt : h0.mConInfo.pl0_max_num_rw < 2 ^ 32) (hlim : mCheckLimits (rw_start h0) nb 0 = true)
    (hsplit : ∀ h1, FreshPkt h1 → Caps h1 = Caps (rw_start h0) →
      ∃ c, rdSplit fuel h1 addr nb d acc (aliasMap am) = some c ∧ c.h = mPktAdd_Rd h1 addr nb d acc (aliasMap am)) :
    (planRq fuel h0 [rdTrans addr nb d acc am]).isSome = true
    ∧ ((rqPackets (rqOf (planRq fuel h0 [rdTrans addr nb d acc am]))).map pktOps).flatten
        = [plannedOp (rdTrans addr nb d acc (aliasMap am))] := by
  have hcaps := Caps_addPrologue (rw_start h0) (mNumTransManageableRd (rw_start h0) addr nb) 32
    (rdPrologueRsp am nb) (aliasMap am)
  have hfresh := FreshPkt_addPrologue (FreshPkt_rw_start h0) (mNumTransManageableRd (rw_start h0) addr nb) 32
    (rdPrologueRsp am nb) (aliasMap am)
  rcases rw_add_rd_single fuel (rw_start h0) addr nb d acc am hn0 hal (hsplit _ hfresh hcaps) with ⟨l, _⟩ | ⟨_, r⟩
  · rw [hlim] at l; exact absurd l (by decide)
  have hplan := planRq_single_rd r
  have hrecs := single_rd_recs (rw_start h0) (mNumTransManageableRd (rw_start h0) addr nb) 32
    (rdPrologueRsp am nb) addr nb d acc (aliasMap am) hn0
  -- the length of the request
  have l0 := LenInv_rw_start h0
  have l1 := len_addPrologue (rw_start h0) (mNumTransManageableRd (rw_start h0) addr nb) 32
    (rdPrologueRsp am nb) (aliasMap am) l0.1
  have l2 := len_mPktAdd_Rd _ addr nb d acc (aliasMap am) l1.2
  have l3 := len_finalize (recordRw (mPktAdd_Rd (addPrologue (rw_start h0)
    (mNumTransManageableRd (rw_start h0) addr nb) 32 (rdPrologueRsp am nb) (aliasMap am)) addr nb d acc
    (aliasMap am)) addr nb TAS_RW_TT_RD [] d) false l2.2
  have hcalled : (recordRw (mPktAdd_Rd (addPrologue (rw_start h0)
      (mNumTransManageableRd (rw_start h0) addr nb) 32 (rdPrologueRsp am nb) (aliasMap am)) addr nb d acc
      (aliasMap am)) addr nb TAS_RW_TT_RD [] d).mGetPktRqWasCalled = false := by
    have := Caps_rw_add_trans (t := rdTrans addr nb d acc am) (by
      unfold rw_add_trans; exact (if_pos rfl).trans r)
    simp only [Caps, Prod.mk.injEq] at this
    rw [this.2.2.1]; rfl
  obtain ⟨q1, _, _, q4, _⟩ := rw_get_rq_first _ hcalled
  have e : (recordRw (mPktAdd_Rd (addPrologue (rw_start h0)
      (mNumTransManageableRd (rw_start h0) addr nb) 32 (rdPrologueRsp am nb) (aliasMap am)) addr nb d acc
      (aliasMap am)) addr nb TAS_RW_TT_RD [] d).mRqBuf = (mPktAdd_Rd (addPrologue (rw_start h0)
      (mNumTransManageableRd (rw_start h0) addr nb) 32 (rdPrologueRsp am nb) (aliasMap am)) addr nb d acc
      (aliasMap am)).mRqBuf := rfl
  rw [e] at l3
  have l4 := l3.1
  simp only [Bool.false_eq_true, if_false] at l4
  rw [hrecs] at q1
  generalize rw_get_rq (recordRw (mPktAdd_Rd (addPrologue (rw_start h0)
      (mNumTransManageableRd (rw_start h0) addr nb) 32 (rdPrologueRsp am nb) (aliasMap am)) addr nb d acc
      (aliasMap am)) addr nb TAS_RW_TT_RD [] d) = res at hplan q1 q4
  obtain ⟨h2, o⟩ := res
  have hlen : 4 * o.rq.length < 2 ^ 32 := by
    show 4 * (h2, o).2.rq.length < 2 ^ 32
    rw [q4, l4]
    omega
  have hwt : ∀ t ∈ [rdTrans addr nb d acc am], WellTyped t := by
    intro t ht; rw [List.mem_singleton.1 ht]; exact hw
  obtain ⟨_, p2, _⟩ := planRq_spec hwt hlt hlen hplan
  rw [hplan]
  refine ⟨rfl, ?_⟩
  show ((rqPackets o).map pktOps).flatten = _
  rw [p2]
  show List.map plannedOp (h2, o).1.mPl0Trans = _
  rw [q1]
  rfl

theorem default_limits_start {h0 : CTasPktHandlerRw} (hd : DefaultLimits h0) (n : Nat) (hn : n ≤ 1024) :
    mCheckLimits (rw_start h0) n 0 = true ∧ Room 1024 (rw_start h0) := by
  obtain ⟨d1, d2, d3, d4⟩ := hd
  have e1 : (rw_start h0).mRqBufWi = 3 := rfl
  have e2 : (rw_start h0).mRqWiMax = h0.mRqWiMax := rfl
  have e3 : (rw_start h0).mRspSize = 8 := rfl
  have e4 : (rw_start h0).mMaxRspSize = h0.mMaxRspSize := rfl
  have e5 : (rw_start h0).mConInfo = h0.mConInfo := rfl
  constructor
  · unfold mCheckLimits
    rw [e1, e2, e3, e4, d1, d2]
    have a : ¬ (u32 (3 * 4 + 0 + 4) ≥ u32 (0x3FF0 * 4)) := by decide
    have b : ¬ (u32 (8 + n + 4) ≥ 0xFFC0) := by unfold u32; omega
    rw [if_neg a, if_neg b]
  · unfold Room
    rw [e2, e4, e5, d1, d2, d3, d4]
    decide

end Tas

namespace Tas
set_option maxRecDepth 100000

/-! ## The layout of the request and the PL1 counts -/

/-- The layout of the request `rw_get_rq` hands out. -/
theorem planRq_layout {fuel : Nat} {h h' : CTasPktHandlerRw} {trans : List tas_rw_trans_st} {o : RqOut}
    (hw : ∀ t ∈ trans, WellTyped t) (hlt : h.mConInfo.pl0_max_num_rw < 2 ^ 32)
    (hlen : 4 * o.rq.length < 2 ^ 32) (hplan : planRq fuel h trans = some (h', o)) :
    (rqPackets o).length = o.num_pl2_pkt
    ∧ o.rq_num_bytes = 4 * o.rq.length
    ∧ (∀ p ∈ rqPackets o, pktLength p = 4 * p.length)
    ∧ ∃ h1, rw_set_trans fuel h trans = some (true, h1) ∧ o.rq_num_bytes = rw_get_rq_size h1
        ∧ o.rsp_num_bytes_max = rw_get_rsp_size h1
        ∧ h'.mPl1CntOutstandingOldest = u16 (h.mPl1CntOutstandingLast + 1)
        ∧ ∀ j p, (rqPackets o).get? j = some p → pktPl1Cnt p = u16 (h'.mPl1CntOutstandingOldest + j) := by
  obtain ⟨h1, hr, hg⟩ := planRq_inv hplan
  obtain ⟨⟨pk, body, ops, hi⟩, hcaps, _, _⟩ := setTransLoop_PI hlt trans false (rw_start h) h1 hw
    (PI_rw_start _ h) (CapsOK_rw_start h) rfl hr
  have hcalled : h1.mGetPktRqWasCalled = false := by
    simp only [Caps, Prod.mk.injEq] at hcaps
    rw [hcaps.2.2.1]; rfl
  have hold : h1.mPl1CntOutstandingOldest = u16 (h.mPl1CntOutstandingLast + 1) := by
    simp only [Caps, Prod.mk.injEq] at hcaps
    rw [hcaps.2.2.2.1]; rfl
  have hh : h' = (rw_get_rq h1).1 := by rw [hg]
  have ho : o = (rw_get_rq h1).2 := by rw [hg]
  have hsplit := rqPackets_of hi hcalled (by rw [← ho]; exact hlen)
  rw [← ho] at hsplit
  obtain ⟨_, _, _, q4, q5⟩ := rw_get_rq_first h1 hcalled
  rw [← ho] at q4 q5
  have hbuf := finalize_buf h1 false _ _ hi.buf hi.hdr
  have hfl : (rqPackets o).flatten = o.rq := by
    rw [hsplit, q4, hbuf]; simp
  have hok : ∀ p ∈ rqPackets o, PktOK h.mConInfo.pl0_max_num_rw p := by
    intro p hp
    rw [hsplit] at hp
    rcases List.mem_append.1 hp with hp | hp
    · exact hi.pkts p hp
    · rw [List.mem_singleton.1 hp]; exact PktOK_finalPkt hi
  have hlenrq : o.rq.length = h1.mRqBuf.length + 1 := by
    rw [q4, hbuf, hi.buf]
    simp [finalPkt]
    omega
  have e1 : h'.mRqBuf = o.rq := by rw [hh, ho]; rfl
  have e2 : h'.mGetPktRqWasCalled = true := by
    rw [hh]; unfold rw_get_rq; simp only [hcalled, if_true]
  have e3 : h'.mRspSize = u32 (h1.mRspSize + 4) := by
    rw [hh]; unfold rw_get_rq; simp only [hcalled, if_true]; rfl
  have e4 : h'.mPl1CntOutstandingOldest = h1.mPl1CntOutstandingOldest := by
    rw [hh]; unfold rw_get_rq; simp only [hcalled, if_true]; rfl
  have e5 : o.rq_num_bytes = rw_get_rq_size h' := by rw [ho, hh]; rfl
  have e6 : o.rsp_num_bytes_max = rw_get_rsp_size h' := by rw [ho, hh]; rfl
  have hrqb : o.rq_num_bytes = 4 * o.rq.length := by
    rw [e5]; unfold rw_get_rq_size
    rw [e2, if_neg (by decide)]
    show u32 (h'.mRqBuf.length * 4) = _
    rw [e1]; unfold u32; omega
  refine ⟨?_, hrqb, ?_, h1, hr, ?_, ?_, by rw [e4, hold], ?_⟩
  · have := length_le_flatten_length (rqPackets o) (fun p hp => by have := (hok p hp).len; omega)
    rw [hfl] at this
    rw [q5, hi.num, hsplit] at *
    simp only [List.length_append, List.length_singleton, u32] at this ⊢
    omega
  · intro p hp
    have := length_le_flatten _ p hp
    rw [hfl] at this
    unfold pktLength
    rw [(hok p hp).word]
    unfold u32; omega
  · rw [hrqb, hlenrq]; unfold rw_get_rq_size
    rw [if_pos hcalled]
    show _ = u32 (u32 (h1.mRqBuf.length * 4) + 4)
    rw [hlenrq] at hlen
    unfold u32; omega
  · rw [e6]; unfold rw_get_rsp_size
    rw [e2, if_neg (by decide), if_pos hcalled, e3]
  · intro j p hj
    rw [e4]
    have hfin := PInv_finalize hi
    have e7 : (mPktFinalize h1 true).mPl1CntOutstandingOldest = h1.mPl1CntOutstandingOldest := rfl
    rw [← e7]
    rw [hsplit] at hj
    exact hfin.cnts j p hj

theorem sum_pktLength (pk : List (List Nat)) (hp : ∀ p ∈ pk, pktLength p = 4 * p.length) :
    (pk.map pktLength).sum = 4 * pk.flatten.length := by
  induction pk with
  | nil => rfl
  | cons q r ih =>
    rw [List.map_cons, List.sum_cons, List.flatten_cons, List.length_append, hp q (by simp),
      ih (fun p h => hp p (by simp [h]))]
    omega

/-! ## The pl0-ends the parser reads -/

theorem setPl0Rsp_oldest (h : CTasPktHandlerRw) (i n e : Nat) :
    (setPl0Rsp h i n e).mPl1CntOutstandingOldest = h.mPl1CntOutstandingOldest := rfl

theorem setPl0RspErr_oldest (h : CTasPktHandlerRw) (i e : Nat) :
    (setPl0RspErr h i e).mPl1CntOutstandingOldest = h.mPl1CntOutstandingOldest := rfl

theorem errPl0Data_oldest (h : CTasPktHandlerRw) (e t : Nat) :
    (mSetPktRspErrPl0Data h e t).mPl1CntOutstandingOldest = h.mPl1CntOutstandingOldest := by
  unfold mSetPktRspErrPl0Data
  split_ifs <;> rfl

theorem rspStart_oldest {rsp : List Nat} {c c1 : RspCursor} (h : rspStart rsp c = .next c1) :
    c1.h.mPl1CntOutstandingOldest = c.h.mPl1CntOutstandingOldest := by
  unfold rspStart at h
  simp only [] at h
  split_ifs at h <;> first | (injection h with h; rw [← h]) | skip

theorem rspWr_oldest {rsp : List Nat} {c c1 : RspCursor} (h : rspWr rsp c = .next c1) :
    c1.h.mPl1CntOutstandingOldest = c.h.mPl1CntOutstandingOldest := by
  unfold rspWr at h
  simp only [] at h
  split_ifs at h <;> first
    | (injection h with h; rw [← h]; simp only [errPl0Data_oldest, setPl0Rsp_oldest, setPl0RspErr_oldest])
    | skip

theorem rspRd_oldest {rsp : List Nat} {c c1 : RspCursor} (h : rspRd rsp c = .next c1) :
    c1.h.mPl1CntOutstandingOldest = c.h.mPl1CntOutstandingOldest := by
  unfold rspRd at h
  simp only [] at h
  split_ifs at h <;> first
    | (injection h with h; rw [← h]; simp only [errPl0Data_oldest, setPl0Rsp_oldest, setPl0RspErr_oldest])
    | skip


theorem rspEnd_next {rsp : List Nat} {c c1 : RspCursor} (h : rspEnd rsp c = .next c1) :
    c1.h.mPl1CntOutstandingOldest = u16 (c.h.mPl1CntOutstandingOldest + 1)
    ∧ hi16 (rspWord rsp c.wi) = c.h.mPl1CntOutstandingOldest := by
  unfold rspEnd at h
  simp only [] at h
  split_ifs at h with a b d
  injection h with h
  rw [← h]
  exact ⟨rfl, not_not.1 b⟩

theorem rspEnd_brk {rsp : List Nat} {c c1 : RspCursor} (h : rspEnd rsp c = .brk c1) :
    hi16 (rspWord rsp c.wi) = c.h.mPl1CntOutstandingOldest := by
  unfold rspEnd at h
  simp only [] at h
  split_ifs at h with a b d
  exact not_not.1 b

theorem rspEnd_mismatch {rsp : List Nat} {c : RspCursor}
    (h : hi16 (rspWord rsp c.wi) ≠ c.h.mPl1CntOutstandingOldest) :
    ∃ c1, rspEnd rsp c = .ret c1 ∧ c1.h.tas_err = TAS_ERR_SERVER_CON := by
  unfold rspEnd
  simp only []
  by_cases a : byte0 (rspWord rsp c.wi) ≠ 0
  · rw [if_pos a]; exact ⟨_, rfl, rfl⟩
  · rw [if_neg a, if_pos h]; exact ⟨_, rfl, rfl⟩

theorem rspStep_of_end {rsp : List Nat} {c : RspCursor} (h : atPl0End rsp c = true) :
    rspStep rsp c = rspEnd rsp c := by
  unfold atPl0End atPl0Start at h
  simp only [Bool.and_eq_true, Bool.not_eq_true', decide_eq_false_iff_not, decide_eq_true_eq] at h
  unfold rspStep
  rw [if_neg h.1]
  simp only []
  rw [if_pos h.2]

theorem rspStep_not_end {rsp : List Nat} {c c1 : RspCursor} (h : atPl0End rsp c = false)
    (hs : rspStep rsp c = .next c1) :
    c1.h.mPl1CntOutstandingOldest = c.h.mPl1CntOutstandingOldest := by
  unfold atPl0End atPl0Start at h
  unfold rspStep at hs
  by_cases a : c.wi = c.wiPktStartNext
  · rw [if_pos a] at hs; exact rspStart_oldest hs
  · rw [if_neg a] at hs
    simp only [a, decide_False, Bool.not_false, Bool.true_and, decide_eq_false_iff_not] at h
    simp only [] at hs
    rw [if_neg h] at hs
    split_ifs at hs
    · exact rspWr_oldest hs
    · exact rspRd_oldest hs

/-- The pl0-ends the loop of `rw_set_rsp` reads: at the `i`-th of them the count
expected is `i` above the one at the start, and another count ends the loop with
the error of the server connection. -/
theorem ends_run (rsp : List Nat) (wiMax : Nat) : ∀ (fuel : Nat) (c0 : RspCursor) (i : Nat) (c : RspCursor),
    c0.h.mPl1CntOutstandingOldest < 2 ^ 16 →
    ((rspRun rsp wiMax fuel c0).filter (atPl0End rsp)).get? i = some c →
    c.h.mPl1CntOutstandingOldest = u16 (c0.h.mPl1CntOutstandingOldest + i)
    ∧ (hi16 (rspWord rsp c.wi) ≠ c.h.mPl1CntOutstandingOldest →
        (rspLoop rsp wiMax fuel c0).1 = TAS_ERR_SERVER_CON)
    ∧ ((rspLoop rsp wiMax fuel c0).1 = TAS_ERR_NONE →
        hi16 (rspWord rsp c.wi) = c.h.mPl1CntOutstandingOldest) := by
  intro fuel
  induction fuel with
  | zero => intro c0 i c _ h; simp [rspRun] at h
  | succ n ih =>
    intro c0 i c h16 h
    unfold rspRun at h
    by_cases hwi : c0.wi < wiMax
    · rw [if_pos hwi] at h
      have hloop : rspLoop rsp wiMax (n + 1) c0 = (match rspStep rsp c0 with
          | .ret c1 => (c1.h.tas_err, c1)
          | .brk c1 => (c1.h.tas_err, c1)
          | .next c1 => rspLoop rsp wiMax n c1) := by
        show (if c0.wi < wiMax then _ else _) = _
        rw [if_pos hwi] <;> rfl
      by_cases he : atPl0End rsp c0 = true
      · rw [List.filter_cons_of_pos he] at h
        have hst := rspStep_of_end he
        cases i with
        | zero =>
          simp only [List.get?_cons_zero, Option.some.injEq] at h
          subst h
          refine ⟨by unfold u16; omega, ?_, ?_⟩
          · intro hm
            obtain ⟨c1, e1, e2⟩ := rspEnd_mismatch hm
            rw [hloop, hst, e1]; exact e2
          · intro hok
            by_contra hm
            obtain ⟨c1, e1, e2⟩ := rspEnd_mismatch hm
            rw [hloop, hst, e1] at hok
            change c1.h.tas_err = _ at hok
            rw [e2] at hok
            exact absurd hok (by decide)
        | succ j =>
          simp only [List.get?_cons_succ] at h
          cases hs : rspStep rsp c0 with
          | ret c1 => rw [hs] at h; simp at h
          | brk c1 => rw [hs] at h; simp at h
          | next c1 =>
            rw [hs] at h
            simp only [] at h
            have e := (rspEnd_next (hst ▸ hs)).1
            have := ih c1 j c (by rw [e]; unfold u16; omega) h
            rw [hloop, hs]
            rw [e] at this
            refine ⟨?_, this.2⟩
            rw [this.1]; unfold u16; omega
      · have he2 : atPl0End rsp c0 = false := by simpa using he
        rw [List.filter_cons_of_neg he] at h
        cases hs : rspStep rsp c0 with
        | ret c1 => rw [hs] at h; simp at h
        | brk c1 => rw [hs] at h; simp at h
        | next c1 =>
          rw [hs] at h
          simp only [] at h
          have e := rspStep_not_end he2 hs
          have := ih c1 i c (by rw [e]; exact h16) h
          rw [hloop, hs]
          rw [e] at this
          exact this
    · rw [if_neg hwi] at h; simp at h


theorem rw_set_rsp_loop (h : CTasPktHandlerRw) (hm : Nat → Nat) (rsp : List Nat) (num_bytes : Nat)
    (hc : ¬ (num_bytes < 8 ∨ num_bytes % 4 ≠ 0 ∨ num_bytes > h.mRspSize)) :
    rw_set_rsp h hm rsp num_bytes
      = ((rspLoop rsp (num_bytes / 4) (num_bytes / 4) (rspCursor0 h hm)).1,
         (rspLoop rsp (num_bytes / 4) (num_bytes / 4) (rspCursor0 h hm)).2.h,
         (rspLoop rsp (num_bytes / 4) (num_bytes / 4) (rspCursor0 h hm)).2.hm)
    ∧ rspIters h hm rsp num_bytes = rspRun rsp (num_bytes / 4) (num_bytes / 4) (rspCursor0 h hm) := by
  unfold rw_set_rsp rspIters
  rw [if_neg hc, if_neg hc]
  exact ⟨rfl, rfl⟩

theorem rspIters_nil {h : CTasPktHandlerRw} {hm : Nat → Nat} {rsp : List Nat} {num_bytes : Nat}
    (hc : num_bytes < 8 ∨ num_bytes % 4 ≠ 0 ∨ num_bytes > h.mRspSize) :
    rspIters h hm rsp num_bytes = [] := by
  unfold rspIters
  rw [if_pos hc]

end Tas

namespace Tas
set_option maxRecDepth 100000

/-! ## A device reset reported in the pl0-start -/

theorem rspWord_resetAt (rsp S : List Nat) (i : Nat) :
    rspWord (resetAt rsp S) i
      = if 0 < i ∧ (i - 1) ∈ S then resetWord (rspWord rsp i) * (if i < rsp.length then 1 else 0)
        else rspWord rsp i := by
  unfold rspWord resetAt
  by_cases hi : i < rsp.length
  · rw [List.getD_eq_getElem?_getD, List.getElem?_map, List.getElem?_range hi]
    simp only [Option.map_some', Option.getD_some, if_pos hi, Nat.mul_one]
    rfl
  · rw [List.getD_eq_getElem?_getD, List.getElem?_map, List.getElem?_eq_none (by simp; omega)]
    simp only [Option.map_none', Option.getD_none, if_neg hi, Nat.mul_zero]
    rw [List.getD_eq_getElem?_getD, List.getElem?_eq_none (by omega)]
    simp

theorem byte0_resetWord (w : Nat) : byte0 (resetWord w) = byte0 w := by
  unfold byte0 resetWord TAS_PL1_ERR_DEV_RESET; omega

theorem byte1_resetWord (w : Nat) : byte1 (resetWord w) = byte1 w := by
  unfold byte1 resetWord TAS_PL1_ERR_DEV_RESET
  simp only [Nat.shiftRight_eq_div_pow]; omega

theorem byte3_resetWord (w : Nat) : byte3 (resetWord w) = TAS_PL1_ERR_DEV_RESET := by
  unfold byte3 resetWord TAS_PL1_ERR_DEV_RESET
  simp only [Nat.shiftRight_eq_div_pow]; omega

theorem addResets_add (k n : Nat) (c : RspCursor) : (c.addResets k).addResets n = c.addResets (k + n) := by
  unfold RspCursor.addResets addResets
  simp only [RspCursor.mk.injEq, and_true]
  have : u32 (u32 (c.h.mDeviceResetCount + k) + n) = u32 (c.h.mDeviceResetCount + (k + n)) := by
    unfold u32; omega
  simp only [this]

theorem addResets_errPl0Data (k : Nat) (h : CTasPktHandlerRw) (e t : Nat) :
    mSetPktRspErrPl0Data (addResets k h) e t = addResets k (mSetPktRspErrPl0Data h e t) := by
  unfold mSetPktRspErrPl0Data
  have e0 : (addResets k h).tas_err = h.tas_err := rfl
  rw [e0]
  split_ifs <;> rfl

theorem rspStart_addResets (rsp : List Nat) (c : RspCursor) (k : Nat) :
    rspStart rsp (c.addResets k) = (rspStart rsp c).addResets k := by
  unfold rspStart
  have e1 : (c.addResets k).wi = c.wi := rfl
  have e2 : (c.addResets k).h.mMaxRspSize = c.h.mMaxRspSize := rfl
  simp only [e1, e2]
  split_ifs
  · rfl
  · rfl
  · rfl
  · show RspStep.next _ = RspStep.next _
    have : u32 (u32 (c.h.mDeviceResetCount + k) + 1) = u32 (u32 (c.h.mDeviceResetCount + 1) + k) := by
      unfold u32; omega
    simp only [RspCursor.addResets, addResets, this]
  · rfl
  · rfl

theorem rspEnd_addResets (rsp : List Nat) (c : RspCursor) (k : Nat) :
    rspEnd rsp (c.addResets k) = (rspEnd rsp c).addResets k := by
  unfold rspEnd
  have e1 : (c.addResets k).wi = c.wi := rfl
  have e2 : (c.addResets k).h.mPl1CntOutstandingOldest = c.h.mPl1CntOutstandingOldest := rfl
  have e3 : (c.addResets k).h.mPl0NumTrans = c.h.mPl0NumTrans := rfl
  have e4 : (c.addResets k).iTrans = c.iTrans := rfl
  simp only [e1, e2, e3, e4]
  split_ifs <;> rfl

theorem rspWr_addResets (rsp : List Nat) (c : RspCursor) (k : Nat) :
    rspWr rsp (c.addResets k) = (rspWr rsp c).addResets k := by
  unfold rspWr
  have e1 : (c.addResets k).wi = c.wi := rfl
  have e2 : (c.addResets k).h.mPl0Trans = c.h.mPl0Trans := rfl
  have e4 : (c.addResets k).iTrans = c.iTrans := rfl
  simp only [e1, e2, e4]
  split_ifs <;> first
    | rfl
    | (show RspStep.next _ = RspStep.next _
       simp only [RspCursor.addResets, RspStep.next.injEq, RspCursor.mk.injEq, and_true, true_and]
       rw [← addResets_errPl0Data]
       rfl)

theorem rspRd_addResets (rsp : List Nat) (c : RspCursor) (k : Nat) :
    rspRd rsp (c.addResets k) = (rspRd rsp c).addResets k := by
  unfold rspRd
  have e1 : (c.addResets k).wi = c.wi := rfl
  have e2 : (c.addResets k).h.mPl0Trans = c.h.mPl0Trans := rfl
  have e3 : (c.addResets k).hm = c.hm := rfl
  have e4 : (c.addResets k).iTrans = c.iTrans := rfl
  simp only [e1, e2, e3, e4]
  split_ifs <;> first
    | rfl
    | (show RspStep.next _ = RspStep.next _
       simp only [RspCursor.addResets, RspStep.next.injEq, RspCursor.mk.injEq, and_true, true_and]
       rw [← addResets_errPl0Data]
       rfl)

theorem rspStep_addResets (rsp : List Nat) (c : RspCursor) (k : Nat) :
    rspStep rsp (c.addResets k) = (rspStep rsp c).addResets k := by
  unfold rspStep
  have e1 : (c.addResets k).wi = c.wi := rfl
  have e2 : (c.addResets k).wiPktStartNext = c.wiPktStartNext := rfl
  simp only [e1, e2]
  split_ifs
  · exact rspStart_addResets rsp c k
  · exact rspEnd_addResets rsp c k
  · exact rspWr_addResets rsp c k
  · exact rspRd_addResets rsp c k
  · rfl

theorem rspStart_congr {rsp rsp' : List Nat} {c : RspCursor} (hw0 : rspWord rsp' c.wi = rspWord rsp c.wi)
    (hw1 : rspWord rsp' (c.wi + 1) = rspWord rsp (c.wi + 1)) : rspStart rsp' c = rspStart rsp c := by
  unfold rspStart
  rw [hw0, hw1]

theorem rspEnd_congr {rsp rsp' : List Nat} {c : RspCursor} (hw0 : rspWord rsp' c.wi = rspWord rsp c.wi) :
    rspEnd rsp' c = rspEnd rsp c := by
  unfold rspEnd
  rw [hw0]

theorem rspWr_congr {rsp rsp' : List Nat} {c : RspCursor} (hw0 : rspWord rsp' c.wi = rspWord rsp c.wi) :
    rspWr rsp' c = rspWr rsp c := by
  unfold rspWr
  rw [hw0]

theorem rspStart_reset {rsp rsp' : List Nat} {c c1 : RspCursor} (hw0 : rspWord rsp' c.wi = rspWord rsp c.wi)
    (hw1 : rspWord rsp' (c.wi + 1) = resetWord (rspWord rsp (c.wi + 1)))
    (hacc : rspStart rsp c = .next c1) (hno : byte3 (rspWord rsp (c.wi + 1)) = TAS_PL_ERR_NO_ERROR) :
    rspStart rsp' c = .next (c1.addResets 1) := by
  unfold rspStart at hacc ⊢
  rw [hw0, hw1]
  simp only [byte0_resetWord, byte1_resetWord, byte3_resetWord] at hacc ⊢
  by_cases a : rspWord rsp c.wi % 4 ≠ 0 ∨ rspWord rsp c.wi > c.h.mMaxRspSize
  · rw [if_pos a] at hacc; exact absurd hacc (by simp)
  rw [if_neg a] at hacc ⊢
  by_cases b : byte0 (rspWord rsp (c.wi + 1)) ≠ 0 ∨ byte1 (rspWord rsp (c.wi + 1)) ≠ TAS_PL1_CMD_PL0_START
  · rw [if_pos b] at hacc; exact absurd hacc (by simp)
  rw [if_neg b] at hacc ⊢
  rw [hno] at hacc
  have d1 : ¬ (TAS_PL_ERR_NO_ERROR = TAS_PL1_ERR_DEV_ACCESS) := by decide
  have d2 : ¬ (TAS_PL_ERR_NO_ERROR = TAS_PL1_ERR_DEV_RESET) := by decide
  have d3 : ¬ (TAS_PL_ERR_NO_ERROR ≠ TAS_PL_ERR_NO_ERROR) := by decide
  have d4 : ¬ (TAS_PL1_ERR_DEV_RESET = TAS_PL1_ERR_DEV_ACCESS) := by decide
  rw [if_neg d1, if_neg d2, if_neg d3] at hacc
  rw [if_neg d4, if_pos trivial]
  injection hacc with hacc
  rw [← hacc]
  rfl

theorem memcpy_congr {rsp rsp' : List Nat} (hm : Nat → Nat) (d wi n W : Nat) (hn : n ≤ 4 * W)
    (hreg : ∀ j, wi ≤ j → j < wi + W → rspWord rsp' j = rspWord rsp j) :
    memcpyWords hm d rsp' wi n = memcpyWords hm d rsp wi n := by
  funext p
  unfold memcpyWords
  by_cases hp : d ≤ p ∧ p < d + n
  · rw [if_pos hp, if_pos hp]
    unfold byteOfWords
    rw [hreg (wi + (p - d) / 4) (by omega) (by omega)]
  · rw [if_neg hp, if_neg hp]

theorem rspRd_congr {rsp rsp' : List Nat} {c : RspCursor} (hw0 : rspWord rsp' c.wi = rspWord rsp c.wi)
    (hsz : (c.h.mPl0Trans.getD c.iTrans default).num_bytes ≤ 1024)
    (hwl : byte1 (rspWord rsp c.wi) ≠ TAS_PL0_CMD_RDBLK1KB →
      byte3 (rspWord rsp c.wi) = TAS_PL0_ERR_NO_ERROR → byte0 (rspWord rsp c.wi) ≠ 0)
    (hreg : ∀ j, c.wi + 1 ≤ j →
      j < c.wi + 1 + (if byte1 (rspWord rsp c.wi) = TAS_PL0_CMD_RDBLK1KB then 256 else byte0 (rspWord rsp c.wi)) →
      rspWord rsp' j = rspWord rsp j) :
    rspRd rsp' c = rspRd rsp c := by
  unfold rspRd
  rw [hw0]
  simp only []
  by_cases a1 : byte0 (rspWord rsp c.wi) ≠ byte2 (rspWord rsp c.wi)
  · rw [if_pos a1, if_pos a1]
  rw [if_neg a1, if_neg a1]
  by_cases a2 : (c.h.mPl0Trans.getD c.iTrans default).type ≠ TAS_RW_TT_RD
  · rw [if_pos a2, if_pos a2]
  rw [if_neg a2, if_neg a2]
  by_cases a3 : byte1 (rspWord rsp c.wi) = TAS_PL0_CMD_RDBLK1KB
  · rw [if_pos a3, if_pos a3]
    rw [if_pos a3] at hreg
    rw [memcpy_congr c.hm _ (c.wi + 1) TAS_PL0_DATA_BLK_SIZE 256 (by decide) hreg]
  rw [if_neg a3, if_neg a3]
  rw [if_neg a3] at hreg
  have a1' : byte0 (rspWord rsp c.wi) = byte2 (rspWord rsp c.wi) := not_not.1 a1
  by_cases a4 : byte3 (rspWord rsp c.wi) ≠ TAS_PL0_ERR_NO_ERROR
  · rw [if_pos a4, if_pos a4]
    rw [memcpy_congr c.hm _ (c.wi + 1) (byte2 (rspWord rsp c.wi) * 4) (byte0 (rspWord rsp c.wi)) (by omega) hreg,
      memcpy_congr c.hm _ (c.wi + 1) 0 (byte0 (rspWord rsp c.wi)) (by omega) hreg]
  rw [if_neg a4, if_neg a4]
  by_cases a5 : byte2 (rspWord rsp c.wi) ≠ (0xFF &&& (u32 ((c.h.mPl0Trans.getD c.iTrans default).num_bytes + 3) / 4))
      ∨ byte0 (rspWord rsp c.wi) ≠ byte2 (rspWord rsp c.wi)
  · rw [if_pos a5, if_pos a5]
  rw [if_neg a5, if_neg a5]
  have h0 := hwl a3 (not_not.1 a4)
  have a5' : byte2 (rspWord rsp c.wi) = (0xFF &&& (u32 ((c.h.mPl0Trans.getD c.iTrans default).num_bytes + 3) / 4)) := by
    by_contra x; exact a5 (Or.inl x)
  have hand : ∀ x : Nat, 0xFF &&& x = x % 256 := by
    intro x
    rw [Nat.and_comm]
    exact Nat.and_pow_two_sub_one_eq_mod x 8
  rw [hand] at a5'
  have hn : u16 (c.h.mPl0Trans.getD c.iTrans default).num_bytes ≤ 4 * byte0 (rspWord rsp c.wi) := by
    rw [a1'] at h0 ⊢
    rw [a5'] at h0 ⊢
    generalize (c.h.mPl0Trans.getD c.iTrans default).num_bytes = nb at hsz h0 ⊢
    unfold u16 u32 at *
    omega
  rw [memcpy_congr c.hm _ (c.wi + 1) _ (byte0 (rspWord rsp c.wi)) hn hreg]

theorem errPl0Data_trans (h : CTasPktHandlerRw) (e t : Nat) :
    (mSetPktRspErrPl0Data h e t).mPl0Trans = h.mPl0Trans := by
  unfold mSetPktRspErrPl0Data
  split_ifs <;> rfl

theorem rspStart_next {rsp : List Nat} {c c1 : RspCursor} (h : rspStart rsp c = .next c1) :
    c1.wi = c.wi + 2 ∧ c1.h.mPl0Trans = c.h.mPl0Trans := by
  unfold rspStart at h
  simp only [] at h
  split_ifs at h <;> (injection h with h; rw [← h]; exact ⟨rfl, rfl⟩)

theorem rspEnd_next_wi {rsp : List Nat} {c c1 : RspCursor} (h : rspEnd rsp c = .next c1) :
    c1.wi = c.wi + 1 ∧ c1.h.mPl0Trans = c.h.mPl0Trans := by
  unfold rspEnd at h
  simp only [] at h
  split_ifs at h
  injection h with h; rw [← h]; exact ⟨rfl, rfl⟩

theorem rspWr_next {rsp : List Nat} {c c1 : RspCursor} (h : rspWr rsp c = .next c1) :
    c.wi < c1.wi ∧ c1.h.mPl0Trans = c.h.mPl0Trans := by
  unfold rspWr at h
  simp only [] at h
  split_ifs at h <;>
    (injection h with h; rw [← h]; refine ⟨?_, ?_⟩
     · show c.wi < c.wi + 1 + _; omega
     · first | rfl | exact errPl0Data_trans _ _ _)

theorem rspRd_next {rsp : List Nat} {c c1 : RspCursor} (h : rspRd rsp c = .next c1) :
    c1.wi = c.wi + 1 + (if byte1 (rspWord rsp c.wi) = TAS_PL0_CMD_RDBLK1KB then 256
      else byte0 (rspWord rsp c.wi))
    ∧ c1.h.mPl0Trans = c.h.mPl0Trans := by
  unfold rspRd at h
  simp only [] at h
  by_cases a3 : byte1 (rspWord rsp c.wi) = TAS_PL0_CMD_RDBLK1KB
  · rw [if_pos a3]
    simp only [if_pos a3] at h
    split_ifs at h
    injection h with h; rw [← h]; exact ⟨rfl, rfl⟩
  · rw [if_neg a3]
    simp only [if_neg a3] at h
    split_ifs at h <;>
      (injection h with h; rw [← h]; refine ⟨rfl, ?_⟩
       first | rfl | exact errPl0Data_trans _ _ _)

theorem rspStep_next {rsp : List Nat} {c c1 : RspCursor} (h : rspStep rsp c = .next c1) :
    c.wi < c1.wi ∧ c1.h.mPl0Trans = c.h.mPl0Trans := by
  unfold rspStep at h
  simp only [] at h
  split_ifs at h
  · have := rspStart_next h; exact ⟨by omega, this.2⟩
  · have := rspEnd_next_wi h; exact ⟨by omega, this.2⟩
  · exact rspWr_next h
  · have := rspRd_next h; exact ⟨by omega, this.2⟩

theorem rspRun_succ (rsp : List Nat) (wiMax n : Nat) (c : RspCursor) :
    rspRun rsp wiMax (n + 1) c = if c.wi < wiMax then
      c :: (match rspStep rsp c with
            | .next c1 => rspRun rsp wiMax n c1
            | _ => [])
    else [] := rfl

theorem rspLoop_succ (rsp : List Nat) (wiMax n : Nat) (c : RspCursor) :
    rspLoop rsp wiMax (n + 1) c = if c.wi < wiMax then
      (match rspStep rsp c with
       | .ret c1 => (c1.h.tas_err, c1)
       | .brk c1 => (c1.h.tas_err, c1)
       | .next c1 => rspLoop rsp wiMax n c1)
    else (c.h.tas_err, c) := rfl

theorem mem_run_ge (rsp : List Nat) (wiMax : Nat) : ∀ (fuel : Nat) (c c' : RspCursor),
    c' ∈ rspRun rsp wiMax fuel c → c.wi ≤ c'.wi := by
  intro fuel
  induction fuel with
  | zero => intro c c' h; simp [rspRun] at h
  | succ n ih =>
    intro c c' h
    rw [rspRun_succ] at h
    by_cases hwi : c.wi < wiMax
    · rw [if_pos hwi] at h
      rcases List.mem_cons.1 h with h | h
      · rw [h]
      · cases hs : rspStep rsp c with
        | ret c1 => rw [hs] at h; simp at h
        | brk c1 => rw [hs] at h; simp at h
        | next c1 =>
          rw [hs] at h
          have := ih c1 c' h
          have := (rspStep_next hs).1
          omega
    · rw [if_neg hwi] at h; simp at h

theorem getD_size_le (l : List tas_rw_trans_st) (i : Nat) (h : ∀ pt ∈ l, pt.num_bytes ≤ 1024) :
    (l.getD i default).num_bytes ≤ 1024 := by
  by_cases hi : i < l.length
  · rw [List.getD_eq_getElem _ _ hi]
    exact h _ (List.getElem_mem hi)
  · rw [List.getD_eq_default _ _ (by omega)]
    decide

theorem startAccepted_iff {rsp : List Nat} {c : RspCursor} (h : startAccepted rsp c = true) :
    c.wi = c.wiPktStartNext ∧ byte3 (rspWord rsp (c.wi + 1)) = TAS_PL_ERR_NO_ERROR
    ∧ ∃ c1, rspStart rsp c = .next c1 ∧ rspStep rsp c = .next c1 := by
  unfold startAccepted atPl0Start at h
  simp only [Bool.and_eq_true, decide_eq_true_eq] at h
  obtain ⟨⟨a, b⟩, d⟩ := h
  have e : rspStep rsp c = rspStart rsp c := by
    unfold rspStep; rw [if_pos a]
  refine ⟨a, b, ?_⟩
  cases hs : rspStep rsp c with
  | ret c1 => rw [hs] at d; exact absurd d (by simp [RspStep.isNext])
  | brk c1 => rw [hs] at d; exact absurd d (by simp [RspStep.isNext])
  | next c1 => exact ⟨c1, by rw [← e, hs], rfl⟩

/-- What the members of `S` are in the run from `c`. -/
theorem mem_starts {rsp : List Nat} {wiMax n : Nat} {c : RspCursor} {s : Nat} (hwi : c.wi < wiMax)
    (h : s ∈ ((rspRun rsp wiMax (n + 1) c).filter (startAccepted rsp)).map (fun c => c.wi)) :
    (s = c.wi ∧ startAccepted rsp c = true)
    ∨ ∃ c1, rspStep rsp c = .next c1 ∧ c1.wi ≤ s
        ∧ s ∈ ((rspRun rsp wiMax n c1).filter (startAccepted rsp)).map (fun c => c.wi) := by
  rw [rspRun_succ, if_pos hwi] at h
  obtain ⟨c', hc', rfl⟩ := List.mem_map.1 h
  obtain ⟨hm, ha⟩ := List.mem_filter.1 hc'
  rcases List.mem_cons.1 hm with hm | hm
  · left; rw [hm] at ha ⊢; exact ⟨rfl, ha⟩
  · right
    cases hs : rspStep rsp c with
    | ret c1 => rw [hs] at hm; simp at hm
    | brk c1 => rw [hs] at hm; simp at hm
    | next c1 =>
      rw [hs] at hm
      exact ⟨c1, rfl, mem_run_ge rsp wiMax n c1 c' hm,
        List.mem_map.2 ⟨c', List.mem_filter.2 ⟨hm, ha⟩, rfl⟩⟩

theorem mem_starts_ge {rsp : List Nat} {wiMax fuel : Nat} {c : RspCursor} {s : Nat}
    (h : s ∈ ((rspRun rsp wiMax fuel c).filter (startAccepted rsp)).map (fun c => c.wi)) : c.wi ≤ s := by
  obtain ⟨c', hc', rfl⟩ := List.mem_map.1 h
  exact mem_run_ge rsp wiMax fuel c c' (List.mem_filter.1 hc').1


theorem rspRd_ret {rsp rsp' : List Nat} {c : RspCursor} (hw0 : rspWord rsp' c.wi = rspWord rsp c.wi)
    (hn : ∀ c1, rspRd rsp c ≠ .next c1) : rspRd rsp' c = rspRd rsp c := by
  unfold rspRd at hn ⊢
  rw [hw0]
  simp only [] at hn ⊢
  split_ifs at hn ⊢ <;> first | rfl | exact absurd rfl (hn _)

/-- The step at `c` is the same for two responses that agree on the words it reads. -/
theorem rspStep_congr {rsp rsp' : List Nat} {c : RspCursor}
    (hw0 : rspWord rsp' c.wi = rspWord rsp c.wi)
    (hw1 : c.wi = c.wiPktStartNext → rspWord rsp' (c.wi + 1) = rspWord rsp (c.wi + 1))
    (hsz : (c.h.mPl0Trans.getD c.iTrans default).num_bytes ≤ 1024)
    (hwl : c.wi ≠ c.wiPktStartNext → ctprhcPl0CmdIsRd (byte1 (rspWord rsp c.wi)) = true →
      byte1 (rspWord rsp c.wi) ≠ TAS_PL0_CMD_RDBLK1KB →
      byte3 (rspWord rsp c.wi) = TAS_PL0_ERR_NO_ERROR → byte0 (rspWord rsp c.wi) ≠ 0)
    (hreg : c.wi ≠ c.wiPktStartNext → ∀ c1, rspStep rsp c = .next c1 → ∀ j, c.wi + 1 ≤ j → j < c1.wi →
      rspWord rsp' j = rspWord rsp j) :
    rspStep rsp' c = rspStep rsp c := by
  by_cases a : c.wi = c.wiPktStartNext
  · unfold rspStep
    rw [if_pos a, if_pos a]
    exact rspStart_congr hw0 (hw1 a)
  · have e : ∀ r : List Nat, rspStep r c =
        (if byte1 (rspWord r c.wi) = TAS_PL1_CMD_PL0_END then rspEnd r c
         else if ctprhcPl0CmdIsWrOrFill (byte1 (rspWord r c.wi)) then rspWr r c
         else if ctprhcPl0CmdIsRd (byte1 (rspWord r c.wi)) then rspRd r c
         else .ret { c with h := mSetPktRspErrConnectionProtocol c.h }) := by
      intro r; unfold rspStep; rw [if_neg a]
    rw [e rsp', e rsp, hw0]
    by_cases b1 : byte1 (rspWord rsp c.wi) = TAS_PL1_CMD_PL0_END
    · rw [if_pos b1, if_pos b1]; exact rspEnd_congr hw0
    rw [if_neg b1, if_neg b1]
    by_cases b2 : ctprhcPl0CmdIsWrOrFill (byte1 (rspWord rsp c.wi)) = true
    · rw [if_pos b2, if_pos b2]; exact rspWr_congr hw0
    rw [if_neg b2, if_neg b2]
    by_cases b3 : ctprhcPl0CmdIsRd (byte1 (rspWord rsp c.wi)) = true
    · rw [if_pos b3, if_pos b3]
      have est : rspStep rsp c = rspRd rsp c := by
        rw [e rsp, if_neg b1, if_neg b2, if_pos b3]
      by_cases hx : ∃ c1, rspRd rsp c = .next c1
      · obtain ⟨c1, hs⟩ := hx
        refine rspRd_congr hw0 hsz (hwl a b3) ?_
        intro j hj1 hj2
        have hn := (rspRd_next hs).1
        exact hreg a c1 (by rw [est, hs]) j hj1 (by rw [hn]; exact hj2)
      · exact rspRd_ret hw0 (fun c1 h => hx ⟨c1, h⟩)
    · rw [if_neg b3, if_neg b3]

/-- The loop of `rw_set_rsp` on a response in which accepted pl0-starts report a
device reset runs like the loop on the response itself and counts these resets. -/
theorem lockstep (rsp rsp' : List Nat) (wiMax : Nat) :
    ∀ (fuel : Nat) (c : RspCursor) (S : List Nat) (k : Nat),
      S.Nodup →
      (∀ s ∈ S, s ∈ ((rspRun rsp wiMax fuel c).filter (startAccepted rsp)).map (fun c => c.wi)) →
      (∀ j, c.wi ≤ j → (∀ s ∈ S, j ≠ s + 1) → rspWord rsp' j = rspWord rsp j) →
      (∀ s ∈ S, rspWord rsp' (s + 1) = resetWord (rspWord rsp (s + 1))) →
      (∀ pt ∈ c.h.mPl0Trans, pt.num_bytes ≤ 1024) →
      (∀ c' ∈ rspRun rsp wiMax fuel c, c'.wi ≠ c'.wiPktStartNext →
        ctprhcPl0CmdIsRd (byte1 (rspWord rsp c'.wi)) = true →
        byte1 (rspWord rsp c'.wi) ≠ TAS_PL0_CMD_RDBLK1KB →
        byte3 (rspWord rsp c'.wi) = TAS_PL0_ERR_NO_ERROR → byte0 (rspWord rsp c'.wi) ≠ 0) →
      rspLoop rsp' wiMax fuel (c.addResets k)
        = ((rspLoop rsp wiMax fuel c).1, (rspLoop rsp wiMax fuel c).2.addResets (k + S.length)) := by
  intro fuel
  induction fuel with
  | zero =>
    intro c S k _ hS _ _ _ _
    have hnil : S = [] := List.eq_nil_iff_forall_not_mem.2 (fun s hs => by
      have := hS s hs; simp [rspRun] at this)
    subst hnil
    rfl
  | succ n ih =>
    intro c S k hnd hS hag hrs hsz hwl
    by_cases hwi : c.wi < wiMax
    · have hwi' : (c.addResets k).wi < wiMax := hwi
      rw [rspLoop_succ, rspLoop_succ, if_pos hwi, if_pos hwi', rspStep_addResets]
      have hsge : ∀ s ∈ S, c.wi ≤ s := fun s hs => mem_starts_ge (hS s hs)
      have hw0 : rspWord rsp' c.wi = rspWord rsp c.wi :=
        hag c.wi (le_refl _) (fun s hs => by have := hsge s hs; omega)
      have hcmem : c ∈ rspRun rsp wiMax (n + 1) c := by
        rw [rspRun_succ, if_pos hwi]; exact List.mem_cons_self _ _
      have htail : ∀ c1, rspStep rsp c = .next c1 → ∀ c' ∈ rspRun rsp wiMax n c1,
          c' ∈ rspRun rsp wiMax (n + 1) c := by
        intro c1 hs c' hc'
        rw [rspRun_succ, if_pos hwi, hs]
        exact List.mem_cons_of_mem _ hc'
      by_cases hin : c.wi ∈ S
      · -- the pl0-start at `c` reports a device reset in `rsp'`
        have hacc : startAccepted rsp c = true := by
          rcases mem_starts hwi (hS c.wi hin) with ⟨_, h⟩ | ⟨c1, hs, hle, _⟩
          · exact h
          · have := (rspStep_next hs).1; omega
        obtain ⟨a, hno, c1, hst, hs⟩ := startAccepted_iff hacc
        have hs' : rspStep rsp' c = .next (c1.addResets 1) := by
          have e : rspStep rsp' c = rspStart rsp' c := by unfold rspStep; rw [if_pos a]
          rw [e]
          exact rspStart_reset hw0 (hrs c.wi hin) hst hno
        rw [hs', hs]
        show rspLoop rsp' wiMax n ((c1.addResets 1).addResets k) = _
        rw [addResets_add]
        have hw1 := (rspStart_next hst).1
        have hlen : (S.erase c.wi).length + 1 = S.length := by
          rw [List.length_erase_of_mem hin]
          have := List.length_pos_of_mem hin
          omega
        have := ih c1 (S.erase c.wi) (1 + k) (hnd.erase _)
          (fun s hs1 => by
            have hmem := (List.Nodup.mem_erase_iff hnd).1 hs1
            rcases mem_starts hwi (hS s hmem.2) with ⟨h, _⟩ | ⟨c2, hs2, _, h⟩
            · exact absurd h hmem.1
            · rw [hs] at hs2; injection hs2 with hs2; rw [hs2]; exact h)
          (fun j hj hne => hag j (by omega) (fun s hs1 => by
            by_cases e : s = c.wi
            · rw [e]; omega
            · exact hne s ((List.Nodup.mem_erase_iff hnd).2 ⟨e, hs1⟩)))
          (fun s hs1 => hrs s (List.mem_of_mem_erase hs1))
          (by rw [(rspStep_next hs).2]; exact hsz)
          (fun c' hc' => hwl c' (htail c1 hs c' hc'))
        rw [this]
        have e2 : 1 + k + (S.erase c.wi).length = k + S.length := by omega
        rw [e2]
      · -- the iteration at `c` reads the same words in both responses
        have hnext : ∀ s ∈ S, ∃ c1, rspStep rsp c = .next c1 ∧ c1.wi ≤ s
            ∧ s ∈ ((rspRun rsp wiMax n c1).filter (startAccepted rsp)).map (fun c => c.wi) := by
          intro s hs1
          rcases mem_starts hwi (hS s hs1) with ⟨h, _⟩ | h
          · rw [h] at hs1; exact absurd hs1 hin
          · exact h
        have hcong : rspStep rsp' c = rspStep rsp c := by
          refine rspStep_congr hw0 ?_ (getD_size_le _ _ hsz) (hwl c hcmem) ?_
          · intro _
            exact hag (c.wi + 1) (by omega) (fun s hs1 he => by
              have : s = c.wi := by omega
              rw [this] at hs1; exact hin hs1)
          · intro _ c1 hs j hj1 hj2
            refine hag j (by omega) (fun s hs1 => ?_)
            obtain ⟨c2, hs2, hle, _⟩ := hnext s hs1
            rw [hs] at hs2; injection hs2 with hs2
            rw [← hs2] at hle
            omega
        rw [hcong]
        cases hs : rspStep rsp c with
        | ret c1 =>
          have hnil : S = [] := List.eq_nil_iff_forall_not_mem.2 (fun s hs1 => by
            obtain ⟨c2, hs2, _⟩ := hnext s hs1
            rw [hs] at hs2; exact absurd hs2 (by simp))
          subst hnil; rfl
        | brk c1 =>
          have hnil : S = [] := List.eq_nil_iff_forall_not_mem.2 (fun s hs1 => by
            obtain ⟨c2, hs2, _⟩ := hnext s hs1
            rw [hs] at hs2; exact absurd hs2 (by simp))
          subst hnil; rfl
        | next c1 =>
          show rspLoop rsp' wiMax n (c1.addResets k) = _
          have hlt := (rspStep_next hs).1
          exact ih c1 S k hnd
            (fun s hs1 => by
              obtain ⟨c2, hs2, _, h⟩ := hnext s hs1
              rw [hs] at hs2; injection hs2 with hs2; rw [hs2]; exact h)
            (fun j hj hne => hag j (by omega) hne)
            hrs
            (by rw [(rspStep_next hs).2]; exact hsz)
            (fun c' hc' => hwl c' (htail c1 hs c' hc'))
    · have hnil : S = [] := List.eq_nil_iff_forall_not_mem.2 (fun s hs => by
        have := hS s hs
        rw [rspRun_succ, if_neg hwi] at this
        simp at this)
      subst hnil
      have hwi' : ¬ (c.addResets k).wi < wiMax := hwi
      rw [rspLoop_succ, rspLoop_succ, if_neg hwi, if_neg hwi']
      rfl

theorem resetAt_nil (rsp : List Nat) : resetAt rsp [] = rsp := by
  unfold resetAt
  apply List.ext_getElem
  · simp
  · intro i h1 h2
    simp only [List.getElem_map, List.getElem_range, List.not_mem_nil, and_false, if_false]
    unfold rspWord
    rw [List.getD_eq_getElem _ _ h2]

theorem addResets_zero (h : CTasPktHandlerRw) (hc : h.mDeviceResetCount < 2 ^ 32) : addResets 0 h = h := by
  unfold addResets
  have : u32 (h.mDeviceResetCount + 0) = h.mDeviceResetCount := by unfold u32; omega
  rw [this]

theorem rspStart_cmd {rsp : List Nat} {c c1 : RspCursor} (h : rspStart rsp c = .next c1) :
    byte1 (rspWord rsp (c.wi + 1)) = TAS_PL1_CMD_PL0_START := by
  unfold rspStart at h
  simp only [] at h
  by_cases a : rspWord rsp c.wi % 4 ≠ 0 ∨ rspWord rsp c.wi > c.h.mMaxRspSize
  · rw [if_pos a] at h; exact absurd h (by simp)
  rw [if_neg a] at h
  by_cases b : byte0 (rspWord rsp (c.wi + 1)) ≠ 0 ∨ byte1 (rspWord rsp (c.wi + 1)) ≠ TAS_PL1_CMD_PL0_START
  · rw [if_pos b] at h; exact absurd h (by simp)
  by_contra x
  exact b (Or.inr x)

theorem rspWord_lt_of_ne {rsp : List Nat} {i : Nat} (h : rspWord rsp i ≠ 0) : i < rsp.length := by
  by_contra x
  apply h
  unfold rspWord
  rw [List.getD_eq_default _ _ (by omega)]

theorem start_in_range {rsp : List Nat} {wiMax fuel : Nat} {c : RspCursor} {s : Nat}
    (h : s ∈ ((rspRun rsp wiMax fuel c).filter (startAccepted rsp)).map (fun c => c.wi)) :
    s + 1 < rsp.length := by
  obtain ⟨c', hc', rfl⟩ := List.mem_map.1 h
  obtain ⟨_, _, c1, hst, _⟩ := startAccepted_iff (List.mem_filter.1 hc').2
  have := rspStart_cmd hst
  apply rspWord_lt_of_ne
  intro h0
  rw [h0] at this
  exact absurd this (by decide)

/-- The response with device resets reported is read like the response itself. -/
theorem rw_set_rsp_resetAt (h : CTasPktHandlerRw) (hm : Nat → Nat) (rsp : List Nat) (num_bytes : Nat)
    (S : List Nat) (hcnt : h.mDeviceResetCount < 2 ^ 32) (hnd : S.Nodup)
    (hS : ∀ s ∈ S, s ∈ startsAccepted h hm rsp num_bytes)
    (hsz : ∀ pt ∈ h.mPl0Trans, pt.num_bytes ≤ 1024)
    (hrd : RdAnswersSized h hm rsp num_bytes) :
    rw_set_rsp h hm (resetAt rsp S) num_bytes
      = ((rw_set_rsp h hm rsp num_bytes).1, addResets S.length (rw_set_rsp h hm rsp num_bytes).2.1,
         (rw_set_rsp h hm rsp num_bytes).2.2) := by
  by_cases hc : num_bytes < 8 ∨ num_bytes % 4 ≠ 0 ∨ num_bytes > h.mRspSize
  · have hnil : S = [] := List.eq_nil_iff_forall_not_mem.2 (fun s hs => by
      have := hS s hs
      unfold startsAccepted at this
      rw [rspIters_nil hc] at this
      simp at this)
    subst hnil
    rw [resetAt_nil]
    unfold rw_set_rsp
    rw [if_pos hc]
    show _ = (TAS_ERR_SERVER_CON, addResets 0 (mSetPktRspErrConnectionProtocol h), hm)
    rw [addResets_zero (mSetPktRspErrConnectionProtocol h) hcnt]
  · obtain ⟨e1, e2⟩ := rw_set_rsp_loop h hm rsp num_bytes hc
    obtain ⟨e1', _⟩ := rw_set_rsp_loop h hm (resetAt rsp S) num_bytes hc
    unfold startsAccepted at hS
    unfold RdAnswersSized at hrd
    rw [e2] at hS hrd
    have key := lockstep rsp (resetAt rsp S) (num_bytes / 4) (num_bytes / 4) (rspCursor0 h hm) S 0 hnd hS
      (fun j _ hne => by
        rw [rspWord_resetAt]
        by_cases x : 0 < j ∧ (j - 1) ∈ S
        · exact absurd (by omega) (hne (j - 1) x.2)
        · rw [if_neg x])
      (fun s hs => by
        rw [rspWord_resetAt, if_pos ⟨by omega, by simpa using hs⟩, if_pos (start_in_range (hS s hs))]
        omega)
      hsz hrd
    have ez : (rspCursor0 h hm).addResets 0 = rspCursor0 h hm := by
      unfold RspCursor.addResets
      rw [addResets_zero (rspCursor0 h hm).h hcnt]
    rw [ez] at key
    rw [e1', e1, key]
    simp only [Nat.zero_add]
    rfl

end Tas

namespace Tas
set_option maxRecDepth 100000

/-! ## The response without error, read by the parser -/

theorem split_like {α β : Type} (f : α → β) : ∀ (X : List (List β)) (l : List α),
    X.flatten = l.map f → ∃ gs : List (List α), gs.flatten = l ∧ gs.map (List.map f) = X := by
  intro X
  induction X with
  | nil =>
    intro l h
    refine ⟨[], ?_, rfl⟩
    simp only [List.flatten_nil] at h ⊢
    exact (List.map_eq_nil_iff.1 h.symm).symm
  | cons x X ih =>
    intro l h
    rw [List.flatten_cons] at h
    have h1 : x = (l.take x.length).map f := by
      have := congrArg (List.take x.length) h
      rw [List.take_left' rfl, ← List.map_take] at this
      exact this
    have h2 : X.flatten = (l.drop x.length).map f := by
      have := congrArg (List.drop x.length) h
      rw [List.drop_left' rfl, ← List.map_drop] at this
      exact this
    obtain ⟨gs, e1, e2⟩ := ih _ h2
    refine ⟨l.take x.length :: gs, ?_, ?_⟩
    · rw [List.flatten_cons, e1, List.take_append_drop]
    · rw [List.map_cons, e2, ← h1]

theorem pktsRsp_eq_rspFrom (data : Nat → Nat → Nat) : ∀ (pk : List (List Nat)) (j cnt : Nat),
    (∀ i p, pk.get? i = some p → pktPl1Cnt p = u16 (cnt + i)) →
    pktsRsp data j pk = rspFrom data j cnt (pk.map pktOps) := by
  intro pk
  induction pk with
  | nil => intro j cnt _; rfl
  | cons p r ih =>
    intro j cnt h
    show pktRspOf data j (pktOps p) (pktPl1Cnt p) ++ pktsRsp data (j + (pktOps p).length) r
      = pktRspOf data j (pktOps p) (u16 cnt) ++ rspFrom data (j + (pktOps p).length) (cnt + 1) (r.map pktOps)
    have h0 := h 0 p rfl
    rw [Nat.add_zero] at h0
    rw [h0, ih (j + (pktOps p).length) (cnt + 1) (fun i q hq => by
      have := h (i + 1) q (by simpa using hq)
      rw [this]; congr 1; omega)]

theorem pktsRsp_length (data : Nat → Nat → Nat) : ∀ (pk : List (List Nat)) (j : Nat),
    4 * (pktsRsp data j pk).length = rspBytes pk := by
  intro pk
  induction pk with
  | nil => intro j; rfl
  | cons p r ih =>
    intro j
    show 4 * (pktRspOf data j (pktOps p) (pktPl1Cnt p) ++ pktsRsp data (j + (pktOps p).length) r).length = _
    rw [List.length_append, pktRspOf_length, Nat.mul_add, ih]
    simp [rspBytes]


theorem validOp_sizeOK {a k : Nat} (h : ValidOp a k) : SizeOK k := by
  unfold ValidOp at h
  unfold SizeOK
  rcases h with ⟨h | h | h | h, _⟩ | ⟨h1, h2, h3, _⟩
  · exact Or.inl h
  · exact Or.inr (Or.inl h)
  · exact Or.inr (Or.inr (Or.inl h))
  · exact Or.inr (Or.inr (Or.inr (Or.inl h)))
  · exact Or.inr (Or.inr (Or.inr (Or.inr ⟨h1, h2, h3⟩)))

theorem traceOK_sizes (addr : Nat) : ∀ (tr : List (Option Nat)) (off : Nat),
    TraceOK addr off tr → ∀ k ∈ traceSizes tr, SizeOK k := by
  intro tr
  induction tr with
  | nil => intro off _ k hk; simp [traceSizes] at hk
  | cons e r ih =>
    intro off h k hk
    cases e with
    | none =>
      have e : traceSizes (none :: r) = traceSizes r := rfl
      rw [e] at hk
      exact ih off h k hk
    | some k0 =>
      have e : traceSizes (some k0 :: r) = k0 :: traceSizes r := rfl
      rw [e] at hk
      obtain ⟨h1, h2⟩ := h
      rcases List.mem_cons.1 hk with rfl | hk
      · exact validOp_sizeOK h1
      · exact ih (off + k0) h2 k hk

/-- The micro-ops added for an accepted transaction. -/
theorem rw_add_trans_planned {fuel : Nat} {h h' : CTasPktHandlerRw} {t : tas_rw_trans_st}
    (hp : Planning h) (ha : t.addr < 2 ^ 64) (hn : t.num_bytes < 2 ^ 32)
    (hrun : rw_add_trans fuel h t = some (true, h')) :
    ∃ ks, h'.mPl0Trans = h.mPl0Trans ++ opsOf t 0 ks ∧ ks.sum = t.num_bytes ∧ (∀ k ∈ ks, SizeOK k)
      ∧ Accepted t := by
  obtain ⟨pro, tr, p1, p2, e, _, ok, hsum, hpos, hshape, hacc, _⟩ :=
    rw_add_trans_trace ha hn (Planning_CapsOK hp) hrun
  have hsz : traceSizes (pro ++ tr) = traceSizes tr := by
    rw [traceSizes_append, traceSizes_of_all_none pro p1, List.nil_append]
  have hrec := Recs_runTrace t (pro ++ tr) h 0 (by rw [hsz]; exact hpos)
  simp only [Recs, Prod.mk.injEq] at hrec
  refine ⟨traceSizes tr, ?_, hsum, traceOK_sizes t.addr tr 0 ok, hacc⟩
  rw [e, Recs_recordUser_pl0, hrec.1, hsz]

theorem setTransLoop_planned {fuel : Nat} : ∀ (trans : List tas_rw_trans_st) (b : Bool)
    (h h1 : CTasPktHandlerRw), Planning h → (∀ t ∈ trans, WellTyped t) →
    setTransLoop fuel trans b h = some (true, h1) →
    ∃ pts, h1.mPl0Trans = h.mPl0Trans ++ pts ∧ Planned trans pts := by
  intro trans
  induction trans with
  | nil =>
    intro b h h1 _ _ hrun
    simp only [setTransLoop, Option.some.injEq, Prod.mk.injEq] at hrun
    exact ⟨[], by rw [← hrun.2]; simp, Planned.nil⟩
  | cons t ts ih =>
    intro b h h1 hp hw hrun
    simp only [setTransLoop] at hrun
    cases hr : rw_add_trans fuel h t with
    | none => simp [hr] at hrun
    | some r =>
      obtain ⟨b1, h2⟩ := r
      cases b1 with
      | false => simp [hr] at hrun
      | true =>
        simp only [hr] at hrun
        have hwt := hw t (by simp)
        obtain ⟨ks, e1, e2, e3, e4⟩ := rw_add_trans_planned hp hwt.1 hwt.2.1 hr
        obtain ⟨pts, f1, f2⟩ := ih true h2 h1 (Planning.add hp hwt hr) (fun t' ht' => hw t' (by simp [ht'])) hrun
        refine ⟨opsOf t 0 ks ++ pts, ?_, Planned.cons e4 e2 e3 f2⟩
        rw [f1, e1, List.append_assoc]


theorem accepted_type {t : tas_rw_trans_st} (h : Accepted t) :
    t.type = TAS_RW_TT_RD ∨ t.type = TAS_RW_TT_WR ∨ t.type = TAS_RW_TT_FILL := by
  rcases h.2.2 with h1 | h1 | h1
  · exact Or.inl h1
  · exact Or.inr (Or.inl h1)
  · exact Or.inr (Or.inr h1.1)

theorem opOf_rd (t : tas_rw_trans_st) (off k : Nat) (h : (opOf t off k).type = TAS_RW_TT_RD) :
    t.type = TAS_RW_TT_RD ∧ (opOf t off k).rdata = t.rdata + off ∧ (opOf t off k).num_bytes = k := by
  unfold opOf at h ⊢
  by_cases a : t.type = TAS_RW_TT_RD
  · rw [if_pos a]; exact ⟨a, rfl, rfl⟩
  · rw [if_neg a] at h
    by_cases b : t.type = TAS_RW_TT_WR
    · rw [if_pos b] at h
      have : TAS_RW_TT_WR = TAS_RW_TT_RD := h
      exact absurd this (by decide)
    · rw [if_neg b] at h
      have : TAS_RW_TT_FILL = TAS_RW_TT_RD := h
      exact absurd this (by decide)

theorem opOf_size (t : tas_rw_trans_st) (off k : Nat) : (opOf t off k).num_bytes = k := by
  unfold opOf
  split_ifs <;> rfl

/-- The members of `opsOf t off ks`. -/
theorem opsOf_mem (t : tas_rw_trans_st) : ∀ (ks : List Nat) (off : Nat), ∀ pt ∈ opsOf t off ks,
    ∃ o k, pt = opOf t o k ∧ k ∈ ks ∧ off ≤ o ∧ o + k ≤ off + ks.sum := by
  intro ks
  induction ks with
  | nil => intro off pt h; simp [opsOf] at h
  | cons k0 r ih =>
    intro off pt h
    simp only [opsOf, List.mem_cons] at h
    rcases h with rfl | h
    · exact ⟨off, k0, rfl, by simp, le_refl _, by simp⟩
    · obtain ⟨o, k, e1, e2, e3, e4⟩ := ih (off + k0) pt h
      refine ⟨o, k, e1, by simp [e2], by omega, ?_⟩
      rw [List.sum_cons]; omega

theorem planned_opOK {trans pts : List tas_rw_trans_st} (h : Planned trans pts) : ∀ pt ∈ pts, OpOK pt := by
  induction h with
  | nil => intro pt hpt; simp at hpt
  | @cons t ts ks pts hacc hsum hks _ ih =>
    intro pt hpt
    rcases List.mem_append.1 hpt with hpt | hpt
    · obtain ⟨o, k, e1, e2, _, _⟩ := opsOf_mem t ks 0 pt hpt
      have hty := opsOf_type t (accepted_type hacc) ks 0 pt hpt
      refine ⟨by rw [hty]; exact accepted_type hacc, ?_⟩
      rw [e1, opOf_size]
      exact hks k e2
    · exact ih pt hpt

/-- Every planned micro-op belongs to a transaction of the list; a read lies in
the destination buffer of its transaction. -/
theorem planned_owner {trans pts : List tas_rw_trans_st} (h : Planned trans pts) : ∀ pt ∈ pts,
    ∃ t ∈ trans, pt.type = TAS_RW_TT_RD → t.type = TAS_RW_TT_RD ∧ t.rdata ≤ pt.rdata
      ∧ pt.rdata + pt.num_bytes ≤ t.rdata + t.num_bytes := by
  induction h with
  | nil => intro pt hpt; simp at hpt
  | @cons t ts ks pts hacc hsum hks _ ih =>
    intro pt hpt
    rcases List.mem_append.1 hpt with hpt | hpt
    · obtain ⟨o, k, e1, e2, e3, e4⟩ := opsOf_mem t ks 0 pt hpt
      refine ⟨t, by simp, fun hrd => ?_⟩
      rw [e1] at hrd ⊢
      obtain ⟨a, b, c⟩ := opOf_rd t o k hrd
      rw [b, c]
      exact ⟨a, by omega, by omega⟩
    · obtain ⟨t', ht', h'⟩ := ih pt hpt
      exact ⟨t', by simp [ht'], h'⟩

/-- The parser on the response without error to a planned request. -/
theorem rw_set_rsp_serverRsp {fuel : Nat} {h h' : CTasPktHandlerRw} {trans : List tas_rw_trans_st} {o : RqOut}
    (data : Nat → Nat → Nat) (hm : Nat → Nat)
    (hw : ∀ t ∈ trans, WellTyped t) (hlt : h.mConInfo.pl0_max_num_rw < 2 ^ 32)
    (hlim : h.mMaxRspSize < 2 ^ 32) (h1040 : 1040 ≤ h.mMaxRspSize)
    (hlen : 4 * o.rq.length < 2 ^ 32) (hplan : planRq fuel h trans = some (h', o))
    (hrlen : 4 * (serverRsp data o).length < 2 ^ 32) :
    (rw_set_rsp h' hm (serverRsp data o) (4 * (serverRsp data o).length)).1 = TAS_ERR_NONE
    ∧ (rw_set_rsp h' hm (serverRsp data o) (4 * (serverRsp data o).length)).2.2
        = hostWrite data 0 hm h'.mPl0Trans
    ∧ Planned trans h'.mPl0Trans := by
  obtain ⟨_, hdec, _, _, _⟩ := planRq_spec hw hlt hlen hplan
  obtain ⟨_, _, _, h1, hr, _, _, hold, hcnts⟩ := planRq_layout hw hlt hlen hplan
  obtain ⟨hsize, hfit, _, hmax, hne⟩ := planRq_rsp hw hlt hlim h1040 hlen hplan
  -- the micro-ops as they were planned
  obtain ⟨hh1, _⟩ := planRq_inv hplan
  obtain ⟨h1', hr', hg'⟩ := planRq_inv hplan
  have hpl : Planned trans h'.mPl0Trans := by
    obtain ⟨pts, e1, e2⟩ := setTransLoop_planned trans false (rw_start h) h1' (Planning.start h) hw hr'
    have e0 : (rw_start h).mPl0Trans = [] := rfl
    rw [e0, List.nil_append] at e1
    have hcaps := (setTransLoop_PI hlt trans false (rw_start h) h1' hw (PI_rw_start _ h)
      (CapsOK_rw_start h) rfl hr').2.1
    have hcalled : h1'.mGetPktRqWasCalled = false := by
      simp only [Caps, Prod.mk.injEq] at hcaps
      rw [hcaps.2.2.1]; rfl
    have q1 := (rw_get_rq_first h1' hcalled).1
    rw [hg'] at q1
    show Planned trans h'.mPl0Trans
    have : h'.mPl0Trans = h1'.mPl0Trans := q1
    rw [this, e1]; exact e2
  -- the response as the packets of the groups of micro-ops
  obtain ⟨gs, g1, g2⟩ := split_like plannedOp ((rqPackets o).map pktOps) h'.mPl0Trans hdec
  have hR : serverRsp data o
      = [] ++ rspFrom data 0 (h'.mPl1CntOutstandingOldest + 0) (gs.map (List.map plannedOp)) := by
    rw [g2, List.nil_append, Nat.add_zero]
    exact pktsRsp_eq_rspFrom data (rqPackets o) 0 h'.mPl1CntOutstandingOldest hcnts
  have hgs : gs ≠ [] := by
    intro e
    rw [e] at g2
    exact hne (List.map_eq_nil_iff.1 g2.symm)
  have hbytes : 4 * (serverRsp data o).length = rspBytes (rqPackets o) := pktsRsp_length data _ 0
  have h12 : 12 ≤ rspBytes (rqPackets o) := by
    cases hp : rqPackets o with
    | nil => exact absurd hp hne
    | cons p r => simp [rspBytes]; omega
  have hat : RspAt data hm h' (rspCursor0 h' hm) 0 0 := by
    refine ⟨rfl, rfl, rfl, rfl, ?_, rfl⟩
    show h'.mPl1CntOutstandingOldest = _
    rw [hold]; unfold u16; omega
  have hrun := @pkts_run data hm h' (serverRsp data o) (by omega) gs []
    (rspCursor0 h' hm) 0 0 hgs hR rfl rfl hat (Nat.zero_le _) (by rw [List.drop_zero, g1])
    (fun g hg pt hpt => planned_opOK hpl pt (by rw [← g1]; exact List.mem_flatten.2 ⟨g, hg, hpt⟩))
    (fun g hg => by
      have : g.map plannedOp ∈ (rqPackets o).map pktOps := by
        rw [← g2]; exact List.mem_map.2 ⟨g, hg, rfl⟩
      obtain ⟨p, hp, e⟩ := List.mem_map.1 this
      rw [← e]
      exact hfit p hp)
  have hc : ¬ (4 * (serverRsp data o).length < 8 ∨ 4 * (serverRsp data o).length % 4 ≠ 0
      ∨ 4 * (serverRsp data o).length > h'.mRspSize) := by
    rw [hsize, ← hbytes]
    unfold u32
    omega
  obtain ⟨e1, _⟩ := rw_set_rsp_loop h' hm (serverRsp data o) (4 * (serverRsp data o).length) hc
  have e4 : 4 * (serverRsp data o).length / 4 = (serverRsp data o).length := by omega
  rw [e1, e4]
  have := hrun (serverRsp data o).length (by omega)
  exact ⟨this.1, this.2, hpl⟩

/-! ## The host memory after the response was read -/

theorem hostWrite_app (data : Nat → Nat → Nat) : ∀ (a b : List tas_rw_trans_st) (j : Nat) (hm : Nat → Nat),
    hostWrite data j hm (a ++ b) = hostWrite data (j + a.length) (hostWrite data j hm a) b := by
  intro a
  induction a with
  | nil => intro b j hm; rfl
  | cons q r ih =>
    intro b j hm
    show hostWrite data (j + 1) (hostCopy (data j) hm q) (r ++ b) = _
    rw [ih]
    have e : j + 1 + r.length = j + (q :: r).length := by simp; omega
    rw [e]
    rfl

/-- A byte of the host memory that lies in the destination of no read micro-op stays as it is. -/
theorem hostWrite_untouched (data : Nat → Nat → Nat) (p : Nat) : ∀ (pts : List tas_rw_trans_st) (j : Nat)
    (hm : Nat → Nat),
    (∀ pt ∈ pts, ¬ (pt.type = TAS_RW_TT_RD ∧ pt.rdata ≤ p ∧ p < pt.rdata + pt.num_bytes)) →
    hostWrite data j hm pts p = hm p := by
  intro pts
  induction pts with
  | nil => intro j hm _; rfl
  | cons q r ih =>
    intro j hm h
    show hostWrite data (j + 1) (hostCopy (data j) hm q) r p = _
    rw [ih (j + 1) _ (fun pt hpt => h pt (by simp [hpt]))]
    unfold hostCopy
    rw [if_neg (h q (by simp))]

theorem hostWrite_last (data : Nat → Nat → Nat) (hm : Nat → Nat) (pts : List tas_rw_trans_st)
    (n : Nat) (pt : tas_rw_trans_st) (i : Nat) (hget : pts.get? n = some pt)
    (hrd : pt.type = TAS_RW_TT_RD) (hi : i < pt.num_bytes)
    (hlater : ∀ q ∈ pts.drop (n + 1),
      ¬ (q.type = TAS_RW_TT_RD ∧ q.rdata ≤ pt.rdata + i ∧ pt.rdata + i < q.rdata + q.num_bytes)) :
    hostWrite data 0 hm pts (pt.rdata + i) = byteOfData (data n) i := by
  have hn : n < pts.length := (List.get?_eq_some.1 hget).1
  have hsplit : pts = pts.take n ++ pt :: pts.drop (n + 1) := by
    have h1 : pts.drop n = pt :: pts.drop (n + 1) := by
      rw [List.drop_eq_getElem_cons hn]
      congr 1
      have := (List.get?_eq_some.1 hget).2
      simpa using this
    rw [← h1, List.take_append_drop]
  rw [hsplit, hostWrite_app]
  have el : (pts.take n).length = n := by simp [Nat.min_eq_left (Nat.le_of_lt hn)]
  rw [el, Nat.zero_add]
  show hostWrite data (n + 1) (hostCopy (data n) _ pt) (pts.drop (n + 1)) (pt.rdata + i) = _
  rw [hostWrite_untouched data _ _ _ _ hlater]
  unfold hostCopy
  rw [if_pos ⟨hrd, by omega, by omega⟩]
  congr 1
  omega

theorem opsOf_pairwise (t : tas_rw_trans_st) : ∀ (ks : List Nat) (off : Nat),
    (opsOf t off ks).Pairwise DestDisjoint := by
  intro ks
  induction ks with
  | nil => intro off; exact List.Pairwise.nil
  | cons k r ih =>
    intro off
    show (opOf t off k :: opsOf t (off + k) r).Pairwise DestDisjoint
    refine List.Pairwise.cons ?_ (ih (off + k))
    intro b hb
    obtain ⟨o, k', e1, _, e3, _⟩ := opsOf_mem t r (off + k) b hb
    unfold DestDisjoint
    by_cases ha : (opOf t off k).type = TAS_RW_TT_RD
    · by_cases hb2 : b.type = TAS_RW_TT_RD
      · right; right; left
        obtain ⟨_, a2, a3⟩ := opOf_rd t off k ha
        rw [e1] at hb2 ⊢
        obtain ⟨_, b2, _⟩ := opOf_rd t o k' hb2
        rw [a2, a3, b2]
        omega
      · exact Or.inr (Or.inl hb2)
    · exact Or.inl ha

theorem planned_pairwise {trans pts : List tas_rw_trans_st} (h : Planned trans pts) :
    trans.Pairwise DestDisjoint → pts.Pairwise DestDisjoint := by
  induction h with
  | nil => intro _; exact List.Pairwise.nil
  | @cons t ts ks pts hacc hsum hks hpl ih =>
    intro hd
    obtain ⟨hd1, hd2⟩ := List.pairwise_cons.1 hd
    rw [List.pairwise_append]
    refine ⟨opsOf_pairwise t ks 0, ih hd2, ?_⟩
    intro a ha b hb
    obtain ⟨o, k, e1, e2, e3, e4⟩ := opsOf_mem t ks 0 a ha
    obtain ⟨t2, ht2, hown⟩ := planned_owner hpl b hb
    unfold DestDisjoint
    by_cases ha2 : a.type = TAS_RW_TT_RD
    · by_cases hb2 : b.type = TAS_RW_TT_RD
      · obtain ⟨b1, b2, b3⟩ := hown hb2
        rw [e1] at ha2 ⊢
        obtain ⟨a1, a2, a3⟩ := opOf_rd t o k ha2
        rw [a2, a3]
        have hdd := hd1 t2 ht2
        unfold DestDisjoint at hdd
        rcases hdd with x | x | x | x
        · exact absurd a1 x
        · exact absurd b1 x
        · right; right; left; omega
        · right; right; right; omega
      · exact Or.inr (Or.inl hb2)
    · exact Or.inl ha2

/-- The micro-ops `opsOf t off ks` cover the offsets from `off` on. -/
theorem opsOf_cover (t : tas_rw_trans_st) : ∀ (ks : List Nat) (off i : Nat),
    off ≤ i → i < off + ks.sum →
    ∃ n o k, (opsOf t off ks).get? n = some (opOf t o k) ∧ o ≤ i ∧ i < o + k := by
  intro ks
  induction ks with
  | nil => intro off i h1 h2; simp at h2; omega
  | cons k r ih =>
    intro off i h1 h2
    rw [List.sum_cons] at h2
    by_cases hi : i < off + k
    · exact ⟨0, off, k, rfl, h1, hi⟩
    · obtain ⟨n, o, k', e1, e2, e3⟩ := ih (off + k) i (by omega) (by omega)
      exact ⟨n + 1, o, k', e1, e2, e3⟩

/-- Every byte of a transaction of the list is the byte of one planned micro-op. -/
theorem planned_cover {trans pts : List tas_rw_trans_st} (h : Planned trans pts) :
    ∀ t ∈ trans, ∀ i, i < t.num_bytes →
      ∃ n o k, pts.get? n = some (opOf t o k) ∧ o ≤ i ∧ i < o + k := by
  induction h with
  | nil => intro t ht; simp at ht
  | @cons t0 ts ks pts hacc hsum hks hpl ih =>
    intro t ht i hi
    by_cases e : t = t0
    · subst e
      obtain ⟨n, o, k, e1, e2, e3⟩ := opsOf_cover t ks 0 i (Nat.zero_le _) (by omega)
      refine ⟨n, o, k, ?_, e2, e3⟩
      have hn : n < (opsOf t 0 ks).length := (List.get?_eq_some.1 e1).1
      rw [List.get?_append hn]
      exact e1
    · have ht2 : t ∈ ts := by
        rcases List.mem_cons.1 ht with h1 | h1
        · exact absurd h1 e
        · exact h1
      obtain ⟨n, o, k, e1, e2, e3⟩ := ih t ht2 i hi
      refine ⟨(opsOf t0 0 ks).length + n, o, k, ?_, e2, e3⟩
      rw [List.get?_append_right (by omega)]
      simpa using e1

end Tas

namespace Tas
set_option maxRecDepth 100000

/-! ## The CRC of `tasutil_crc32` -/

/-- A right shift distributes over XOR. -/
theorem shr_xor (x y n : Nat) : (x ^^^ y) >>> n = x >>> n ^^^ y >>> n := by
  apply Nat.eq_of_testBit_eq
  intro i
  simp only [Nat.testBit_shiftRight, Nat.testBit_xor]

/-- A bit step of the CRC is linear: it commutes with XOR. -/
theorem crc32Bit_xor (x y : Nat) : crc32Bit (x ^^^ y) = crc32Bit x ^^^ crc32Bit y := by
  unfold crc32Bit
  have hx := Nat.mod_two_eq_zero_or_one x
  have hy := Nat.mod_two_eq_zero_or_one y
  have hxy : (x ^^^ y) % 2 = (x % 2 + y % 2) % 2 := by rw [Nat.xor_mod_two_eq]; omega
  rw [shr_xor]
  generalize x >>> 1 = a
  generalize y >>> 1 = b
  generalize CRC32_POLY = p
  rcases hx with hx | hx <;> rcases hy with hy | hy <;> simp only [hxy, hx, hy] <;> norm_num <;>
    (apply Nat.eq_of_testBit_eq; intro i; simp only [Nat.testBit_xor];
     cases a.testBit i <;> cases b.testBit i <;> cases p.testBit i <;> rfl)

/-- Any number of bit steps is linear. -/
theorem crc32Bit_iter_xor (n : Nat) : ∀ x y : Nat, crc32Bit^[n] (x ^^^ y) = crc32Bit^[n] x ^^^ crc32Bit^[n] y := by
  induction n with
  | zero => intro x y; rfl
  | succ n ih => intro x y; simp only [Function.iterate_succ, Function.comp_apply]; rw [crc32Bit_xor, ih]

/-- On a register whose low `n` bits are 0, `n` bit steps are a right shift by `n`. -/
theorem crc32Bit_shl (n : Nat) : ∀ h : Nat, crc32Bit^[n] (h <<< n) = h := by
  induction n with
  | zero => intro h; rfl
  | succ n ih =>
    intro h
    simp only [Function.iterate_succ, Function.comp_apply]
    have e : crc32Bit (h <<< (n + 1)) = h <<< n := by
      unfold crc32Bit
      have : h <<< (n + 1) = 2 * (h <<< n) := by rw [Nat.shiftLeft_succ]
      rw [this, Nat.shiftRight_one]
      have h2 : 2 * (h <<< n) % 2 = 0 := by omega
      rw [if_neg (by omega)]
      omega
    rw [e, ih]

/-- A number is the XOR of its low half byte and the rest. -/
theorem split_nibble (x : Nat) : x = ((x >>> 4) <<< 4) ^^^ (x &&& 15) := by
  apply Nat.eq_of_testBit_eq
  intro i
  have e15 : (15 : Nat) = 2 ^ 4 - 1 := by norm_num
  rw [Nat.testBit_xor, Nat.testBit_and, e15, Nat.testBit_two_pow_sub_one, Nat.testBit_shiftLeft, Nat.testBit_shiftRight]
  by_cases h : i < 4
  · simp [h, Nat.not_le.mpr h]
  · have : 4 ≤ i := by omega
    simp [h, this]

/-- Four bit steps: a right shift by four, XOR the four steps of the low half byte. -/
theorem nibble_step (x : Nat) : crc32Bit^[4] x = (x >>> 4) ^^^ crc32Bit^[4] (x &&& 15) := by
  conv_lhs => rw [split_nibble x]
  rw [crc32Bit_iter_xor, crc32Bit_shl]


/-- The body of the loop of `tasutil_crc32` is two half byte statements. -/
theorem crcStep_eq (crc b : Nat) : crcStep crc b = crcNibble (crcNibble crc b) (b >>> 4) := rfl

/-- The table of `tasutil_crc32` holds the four bit steps of the inverted index, with the four high bits inverted. -/
theorem crcTable_eq : ∀ l, l < 16 → crcTable.getD (l ^^^ 15) 0 = 0xF0000000 ^^^ crc32Bit^[4] l := by
  decide

theorem and15_lt (x : Nat) : x &&& 15 < 16 := by
  have : x &&& 15 ≤ 15 := Nat.and_le_right
  omega

/-- A half byte statement of `tasutil_crc32` on the inverted register is four bit steps of the CRC. -/
theorem crcNibble_compl (c t : Nat) :
    crcNibble (c ^^^ 0xFFFFFFFF) t = crc32Bit^[4] (c ^^^ (t &&& 15)) ^^^ 0xFFFFFFFF := by
  unfold crcNibble
  rw [nibble_step (c ^^^ (t &&& 15))]
  have e1 : (c ^^^ 0xFFFFFFFF ^^^ t) &&& 0x0F = ((c ^^^ t) &&& 15) ^^^ 15 := by
    apply Nat.eq_of_testBit_eq
    intro i
    have e15 : (15 : Nat) = 2 ^ 4 - 1 := by norm_num
    have e32 : (0xFFFFFFFF : Nat) = 2 ^ 32 - 1 := by norm_num
    simp only [Nat.testBit_xor, Nat.testBit_and, e15, e32, Nat.testBit_two_pow_sub_one]
    by_cases h : i < 4
    · have : i < 32 := by omega
      simp [h, this]
    · simp [h]
  have e2 : (c ^^^ (t &&& 15)) &&& 15 = (c ^^^ t) &&& 15 := by
    apply Nat.eq_of_testBit_eq
    intro i
    have e15 : (15 : Nat) = 2 ^ 4 - 1 := by norm_num
    simp only [Nat.testBit_xor, Nat.testBit_and, e15, Nat.testBit_two_pow_sub_one]
    by_cases h : i < 4 <;> simp [h]
  have e3 : (c ^^^ (t &&& 15)) >>> 4 = c >>> 4 := by
    rw [shr_xor]
    have : (t &&& 15) >>> 4 = 0 := by
      rw [Nat.shiftRight_eq_div_pow]
      exact Nat.div_eq_of_lt (and15_lt t)
    rw [this, Nat.xor_zero]
  have e4 : (c ^^^ 0xFFFFFFFF) >>> 4 = c >>> 4 ^^^ 0x0FFFFFFF := by rw [shr_xor]; rfl
  rw [e1, crcTable_eq _ (and15_lt _), e2, e3, e4]
  generalize crc32Bit^[4] ((c ^^^ t) &&& 15) = T
  generalize c >>> 4 = a
  have e5 : (0xFFFFFFFF : Nat) = 0x0FFFFFFF ^^^ 0xF0000000 := by decide
  rw [e5]
  generalize (0x0FFFFFFF : Nat) = p
  generalize (0xF0000000 : Nat) = q
  apply Nat.eq_of_testBit_eq; intro i; simp only [Nat.testBit_xor]
  cases a.testBit i <;> cases p.testBit i <;> cases q.testBit i <;> cases T.testBit i <;> rfl

/-- An iteration of the loop of `tasutil_crc32` on the inverted register is a byte step of the CRC. -/
theorem crcStep_compl (c b : Nat) (hb : b < 256) :
    crcStep (c ^^^ 0xFFFFFFFF) b = crc32Byte c b ^^^ 0xFFFFFFFF := by
  rw [crcStep_eq, crcNibble_compl, crcNibble_compl]
  congr 1
  unfold crc32Byte
  have h8 : crc32Bit^[8] (c ^^^ b) = crc32Bit^[4] (crc32Bit^[4] (c ^^^ b)) := by
    rw [← Function.iterate_add_apply]
  rw [h8]
  congr 1
  have hb4 : b >>> 4 &&& 15 = b >>> 4 := by
    have : b >>> 4 < 16 := by rw [Nat.shiftRight_eq_div_pow]; omega
    apply Nat.eq_of_testBit_eq
    intro i
    have e15 : (15 : Nat) = 2 ^ 4 - 1 := by norm_num
    simp only [Nat.testBit_and, e15, Nat.testBit_two_pow_sub_one]
    by_cases h : i < 4
    · simp [h]
    · simp only [h, decide_False, Bool.and_false]
      refine (Nat.testBit_eq_false_of_lt ?_).symm
      calc b >>> 4 < 16 := this
        _ = 2 ^ 4 := by norm_num
        _ ≤ 2 ^ i := Nat.pow_le_pow_right (by norm_num) (by omega)
  rw [hb4]
  have hs : c ^^^ b = (c ^^^ (b &&& 15)) ^^^ ((b >>> 4) <<< 4) := by
    conv_lhs => rw [split_nibble b]
    generalize (b >>> 4) <<< 4 = p
    generalize b &&& 15 = q
    apply Nat.eq_of_testBit_eq; intro i; simp only [Nat.testBit_xor]
    cases c.testBit i <;> cases p.testBit i <;> cases q.testBit i <;> rfl
  conv_rhs => rw [hs, crc32Bit_iter_xor, crc32Bit_shl]

/-- The loop of `tasutil_crc32` keeps the inverted register of the CRC. -/
theorem crc_fold (data : List Nat) : ∀ c, (∀ b ∈ data, b < 256) →
    data.foldl crcStep (c ^^^ 0xFFFFFFFF) = data.foldl crc32Byte c ^^^ 0xFFFFFFFF := by
  induction data with
  | nil => intro c _; rfl
  | cons b r ih =>
    intro c h
    simp only [List.foldl_cons]
    rw [crcStep_compl c b (h b (List.mem_cons_self _ _))]
    exact ih _ (fun x hx => h x (List.mem_cons_of_mem _ hx))

/-- The function `tasutil_crc32` computes the Ethernet CRC-32 of the bytes it reads. -/
theorem crc_refines (data : List Nat) (n_bytes : Nat) (h : ∀ b ∈ data, b < 256) :
    tasutil_crc32 data n_bytes = ethernetCrc32 (data.take n_bytes) := by
  unfold tasutil_crc32 ethernetCrc32
  have := crc_fold (data.take n_bytes) 0xFFFFFFFF (fun b hb => h b (List.mem_of_mem_take hb))
  rw [← this]
  rfl

/-! ## The hash string -/

/-- Every entry of `asciiMap` is one of its characters, and none is the terminating zero. -/
theorem asciiMap_mem : ∀ i, i < 32 → asciiMap.getD i 0 ∈ asciiMap ∧ asciiMap.getD i 0 ≠ 0 := by decide

/-- The first 22 entries of `asciiMap` are capital letters. -/
theorem asciiMap_letter : ∀ i, i < 22 → asciiMap.getD i 0 ∈ asciiLetters ∧ 65 ≤ asciiMap.getD i 0 ∧ asciiMap.getD i 0 ≤ 90 := by decide

/-- The C string of six characters followed by the terminating zero. -/
theorem cstr_six (a b c d e f : Nat) (r : List Nat) (ha : a ≠ 0) (hb : b ≠ 0) (hc : c ≠ 0) (hd : d ≠ 0)
    (he : e ≠ 0) (hf : f ≠ 0) : cstr ([a, b, c, d, e, f, 0] ++ r) = [a, b, c, d, e, f] := by
  simp [cstr, List.takeWhile_cons, ha, hb, hc, hd, he, hf]

/-! ## The server connection -/

/-- The function `set_pkt_rsp_get_target_clients` never writes `*num_client`
and `*num_now` after it has set them to zero. -/
theorem get_target_clients_reports_zero (h : CTasPktHandlerServerCon) (pkt_rsp : List Nat) :
    (set_pkt_rsp_get_target_clients h pkt_rsp).2.2 = (0, 0) := by
  unfold set_pkt_rsp_get_target_clients
  simp only []
  split_ifs <;> rfl

/-- The function `set_pkt_rsp_server_connect` writes `*challenge` once, right
after it has set the member `mServerChallenge` to zero. -/
theorem server_connect_challenge_zero (h : CTasPktHandlerServerCon) (pkt_rsp : List Nat) :
    (set_pkt_rsp_server_connect h pkt_rsp).2.2 = 0 := by
  unfold set_pkt_rsp_server_connect
  simp only []
  split_ifs <;> rfl

end Tas


/-!
# Termination of the block loops, the channel client, the session
-/

namespace Tas

set_option maxRecDepth 100000

/-! ## The block loops of `rw_add_rd` and `rw_add_wr` come to an end -/

theorem rdBlkLoop_succ (fuel : Nat) (c : RdCursor) (acc am : Nat) :
    rdBlkLoop (fuel + 1) c acc am
      = if (rdBlkIter c acc am).nb > 7 then rdBlkLoop fuel (rdBlkIter c acc am) acc am
        else some (rdBlkIter c acc am) := rfl

theorem wrBlkLoop_succ (fuel : Nat) (c : WrCursor) (acc am : Nat) :
    wrBlkLoop (fuel + 1) c acc am
      = if (wrBlkIter c acc am).nb > 7 then wrBlkLoop fuel (wrBlkIter c acc am) acc am
        else some (wrBlkIter c acc am) := rfl

theorem PlanLimits_of_Caps {h h' : CTasPktHandlerRw} (e : Caps h' = Caps h) (p : PlanLimits h) : PlanLimits h' :=
  ⟨Room_of_Static (Static_of_Caps e) p.1, CapsSet_of_Caps e p.2⟩

theorem caps_le_of_CapsSet {h : CTasPktHandlerRw} (c : CapsSet h) :
    h.mMaxWrDataBlkSizeInPktRq ≤ 1024 ∧ h.mMaxRdDataBlkSizeInPktRsp ≤ 1024 := by
  rw [c.1, c.2]
  simp only [TAS_PL0_DATA_BLK_SIZE]
  constructor <;> split_ifs <;> omega

theorem rdBlk_fresh_ge {h : CTasPktHandlerRw} (hf : FreshPkt h) (p : PlanLimits h) {nb : Nat} (h8 : 8 ≤ nb)
    (hnb : nb < 2 ^ 32) : 8 ≤ mGetRdDataBlkSizeInPktRsp h nb := by
  have hr := remRsp_fresh hf p.1
  have hl := remRsp_le h
  have hc := (caps_ge p.2 p.1 (by norm_num)).2
  have hlt := p.1.2.2.2.1
  unfold mGetRdDataBlkSizeInPktRsp
  simp only []
  rw [if_neg (by omega)]
  have s : sub32 (mGetRemainingSizeInPktRsp h) (4 + 4) = mGetRemainingSizeInPktRsp h - 8 :=
    sub32_eq _ _ (by omega) (by omega)
  rw [s]
  split_ifs <;> (rw [and_not7_eq _ (by omega)]; omega)

theorem wrBlk_fresh_ge {h : CTasPktHandlerRw} (hf : FreshPkt h) (p : PlanLimits h) {nb : Nat} (a : Nat)
    (h8 : 8 ≤ nb) (hnb : nb < 2 ^ 32) : 8 ≤ mGetWrDataBlkSizeInPktRq h nb a := by
  have hr := remRq_fresh hf p.1
  have hl := remRq_le h
  have hc := (caps_ge p.2 p.1 (by norm_num)).1
  have hlt := p.1.2.1
  unfold mGetWrDataBlkSizeInPktRq
  simp only []
  rw [if_neg (by omega)]
  have s : sub32 (mGetRemainingSizeInPktRq h) (4 + 4) = mGetRemainingSizeInPktRq h - 8 :=
    sub32_eq _ _ (by omega) (by omega)
  rw [s]
  have s2 : sub32 (mGetRemainingSizeInPktRq h - 8) 8 = mGetRemainingSizeInPktRq h - 8 - 8 :=
    sub32_eq _ _ (by omega) (by omega)
  rw [s2]
  split_ifs <;> (rw [and_not7_eq _ (by omega)]; omega)


theorem Caps_rdBlkIter (c : RdCursor) (acc am : Nat) : Caps (rdBlkIter c acc am).h = Caps c.h := by
  unfold rdBlkIter
  simp only []
  split_ifs <;> simp

theorem Caps_wrBlkIter (c : WrCursor) (acc am : Nat) : Caps (wrBlkIter c acc am).h = Caps c.h := by
  unfold wrBlkIter
  simp only []
  split_ifs <;> simp

theorem rdBlkIter_nb (c : RdCursor) (acc am : Nat) (p : PlanLimits c.h) (hnb : c.nb < 2 ^ 32) :
    (rdBlkIter c acc am).nb = c.nb - mGetRdDataBlkSizeInPktRsp c.h c.nb := by
  have sp := rdBlkSize_spec c.h c.nb hnb (caps_le_of_CapsSet p.2).2
  exact sub32_eq _ _ sp.1 hnb

theorem wrBlkIter_nb (c : WrCursor) (acc am : Nat) (p : PlanLimits c.h) (hnb : c.nb < 2 ^ 32) :
    (wrBlkIter c acc am).nb = c.nb - mGetWrDataBlkSizeInPktRq c.h c.nb c.a := by
  have sp := wrBlkSize_spec c.h c.nb c.a hnb (caps_le_of_CapsSet p.2).1
  exact sub32_eq _ _ sp.1 hnb

theorem rdBlkIter_zero (c : RdCursor) (acc am : Nat) (h8 : 8 ≤ c.nb) (hnb : c.nb < 2 ^ 32)
    (hz : mGetRdDataBlkSizeInPktRsp c.h c.nb = 0) : (rdBlkIter c acc am).h = mPktFinalize c.h true := by
  unfold rdBlkIter
  simp only [hz, mPktAdd_Rd, if_true]
  rw [if_pos]
  rw [and_not7_eq _ hnb]
  simp only [TAS_PL0_DATA_BLK_SIZE]
  omega

theorem wrBlkIter_zero (c : WrCursor) (acc am : Nat) (h8 : 8 ≤ c.nb) (hnb : c.nb < 2 ^ 32)
    (hz : mGetWrDataBlkSizeInPktRq c.h c.nb c.a = 0) : (wrBlkIter c acc am).h = mPktFinalize c.h true := by
  unfold wrBlkIter
  simp only [hz, mPktAdd_Wr, if_true]
  rw [if_pos]
  rw [and_not7_eq _ hnb]
  simp only [TAS_PL0_DATA_BLK_SIZE]
  omega

/-- Each iteration of the block loop of `rw_add_rd` emits a block of at least 8
bytes, or it emits nothing and opens a fresh PL2 packet in which the next
iteration emits a block of at least 8 bytes. -/
theorem rdBlk_progress (c : RdCursor) (acc am : Nat) (p : PlanLimits c.h) (h8 : 8 ≤ c.nb) (hnb : c.nb < 2 ^ 32) :
    8 ≤ mGetRdDataBlkSizeInPktRsp c.h c.nb
      ∨ (mGetRdDataBlkSizeInPktRsp c.h c.nb = 0 ∧ FreshPkt (rdBlkIter c acc am).h
          ∧ (rdBlkIter c acc am).nb = c.nb
          ∧ 8 ≤ mGetRdDataBlkSizeInPktRsp (rdBlkIter c acc am).h (rdBlkIter c acc am).nb) := by
  have sp := rdBlkSize_spec c.h c.nb hnb (caps_le_of_CapsSet p.2).2
  by_cases hz : mGetRdDataBlkSizeInPktRsp c.h c.nb = 0
  · right
    have e := rdBlkIter_zero c acc am h8 hnb hz
    have en := rdBlkIter_nb c acc am p hnb
    rw [hz] at en
    have hf : FreshPkt (rdBlkIter c acc am).h := by rw [e]; exact FreshPkt_finalize _
    refine ⟨hz, hf, en, ?_⟩
    exact rdBlk_fresh_ge hf (PlanLimits_of_Caps (Caps_rdBlkIter c acc am) p) (by rw [en]; exact h8)
      (by rw [en]; exact hnb)
  · left; omega

theorem wrBlk_progress (c : WrCursor) (acc am : Nat) (p : PlanLimits c.h) (h8 : 8 ≤ c.nb) (hnb : c.nb < 2 ^ 32) :
    8 ≤ mGetWrDataBlkSizeInPktRq c.h c.nb c.a
      ∨ (mGetWrDataBlkSizeInPktRq c.h c.nb c.a = 0 ∧ FreshPkt (wrBlkIter c acc am).h
          ∧ (wrBlkIter c acc am).nb = c.nb
          ∧ 8 ≤ mGetWrDataBlkSizeInPktRq (wrBlkIter c acc am).h (wrBlkIter c acc am).nb (wrBlkIter c acc am).a) := by
  have sp := wrBlkSize_spec c.h c.nb c.a hnb (caps_le_of_CapsSet p.2).1
  by_cases hz : mGetWrDataBlkSizeInPktRq c.h c.nb c.a = 0
  · right
    have e := wrBlkIter_zero c acc am h8 hnb hz
    have en := wrBlkIter_nb c acc am p hnb
    rw [hz] at en
    have hf : FreshPkt (wrBlkIter c acc am).h := by rw [e]; exact FreshPkt_finalize _
    refine ⟨hz, hf, en, ?_⟩
    exact wrBlk_fresh_ge hf (PlanLimits_of_Caps (Caps_wrBlkIter c acc am) p) _ (by rw [en]; exact h8)
      (by rw [en]; exact hnb)
  · left; omega

/-- The block loop of `rw_add_rd` comes to an end: two iterations take at least
8 bytes off `nb`. -/
theorem rdBlkLoop_returns (acc am : Nat) : ∀ (n : Nat) (c : RdCursor), PlanLimits c.h → 8 ≤ c.nb → c.nb < 2 ^ 32 →
    2 * (c.nb / 8) + (if mGetRdDataBlkSizeInPktRsp c.h c.nb = 0 then 1 else 0) < n →
    ∃ c', rdBlkLoop n c acc am = some c' ∧ Caps c'.h = Caps c.h ∧ c'.nb < 8 := by
  intro n
  induction n with
  | zero => intro c _ _ _ h; omega
  | succ n ih =>
    intro c p h8 hnb hm
    have sp := rdBlkSize_spec c.h c.nb hnb (caps_le_of_CapsSet p.2).2
    have en := rdBlkIter_nb c acc am p hnb
    have ec := Caps_rdBlkIter c acc am
    rw [rdBlkLoop_succ]
    by_cases h7 : (rdBlkIter c acc am).nb > 7
    · rw [if_pos h7]
      have p1 := PlanLimits_of_Caps ec p
      have hlt : (rdBlkIter c acc am).nb < 2 ^ 32 := by omega
      have hm1 : 2 * ((rdBlkIter c acc am).nb / 8)
          + (if mGetRdDataBlkSizeInPktRsp (rdBlkIter c acc am).h (rdBlkIter c acc am).nb = 0 then 1 else 0) < n := by
        rcases rdBlk_progress c acc am p h8 hnb with hk | ⟨hz, _, e1, hk⟩
        · have : (rdBlkIter c acc am).nb / 8 + 1 ≤ c.nb / 8 := by omega
          split_ifs at hm ⊢ <;> omega
        · rw [if_pos hz] at hm
          rw [if_neg (by omega), e1]; omega
      obtain ⟨c', e, ecap, hend⟩ := ih _ p1 (by omega) hlt hm1
      exact ⟨c', e, by rw [ecap, ec], hend⟩
    · rw [if_neg h7]
      exact ⟨_, rfl, ec, by omega⟩

theorem wrBlkLoop_returns (acc am : Nat) : ∀ (n : Nat) (c : WrCursor), PlanLimits c.h → 8 ≤ c.nb → c.nb < 2 ^ 32 →
    2 * (c.nb / 8) + (if mGetWrDataBlkSizeInPktRq c.h c.nb c.a = 0 then 1 else 0) < n →
    ∃ c', wrBlkLoop n c acc am = some c' ∧ Caps c'.h = Caps c.h ∧ c'.nb < 8 := by
  intro n
  induction n with
  | zero => intro c _ _ _ h; omega
  | succ n ih =>
    intro c p h8 hnb hm
    have sp := wrBlkSize_spec c.h c.nb c.a hnb (caps_le_of_CapsSet p.2).1
    have en := wrBlkIter_nb c acc am p hnb
    have ec := Caps_wrBlkIter c acc am
    rw [wrBlkLoop_succ]
    by_cases h7 : (wrBlkIter c acc am).nb > 7
    · rw [if_pos h7]
      have p1 := PlanLimits_of_Caps ec p
      have hlt : (wrBlkIter c acc am).nb < 2 ^ 32 := by omega
      have hm1 : 2 * ((wrBlkIter c acc am).nb / 8)
          + (if mGetWrDataBlkSizeInPktRq (wrBlkIter c acc am).h (wrBlkIter c acc am).nb (wrBlkIter c acc am).a = 0
              then 1 else 0) < n := by
        rcases wrBlk_progress c acc am p h8 hnb with hk | ⟨hz, _, e1, hk⟩
        · have : (wrBlkIter c acc am).nb / 8 + 1 ≤ c.nb / 8 := by omega
          split_ifs at hm ⊢ <;> omega
        · rw [if_pos hz] at hm
          rw [if_neg (by omega), e1]; omega
      obtain ⟨c', e, ecap, hend⟩ := ih _ p1 (by omega) hlt hm1
      exact ⟨c', e, by rw [ecap, ec], hend⟩
    · rw [if_neg h7]
      exact ⟨_, rfl, ec, by omega⟩

theorem rdStep_nb_le (x : RdCursor) (k acc am : Nat) (hk : k ≤ x.nb) (hx : x.nb < 2 ^ 32) :
    (rdStep x k acc am).nb ≤ x.nb := by
  have e : (rdStep x k acc am).nb = x.nb - k := sub32_eq _ _ hk hx
  omega

theorem wrStep_nb_le (x : WrCursor) (k acc am : Nat) (hk : k ≤ x.nb) (hx : x.nb < 2 ^ 32) :
    (wrStep x k acc am).nb ≤ x.nb := by
  have e : (wrStep x k acc am).nb = x.nb - k := sub32_eq _ _ hk hx
  omega

theorem rdHead_nb_le (c : RdCursor) (acc am : Nat) (hnb : c.nb < 2 ^ 32) : (rdHead c acc am).nb ≤ c.nb := by
  unfold rdHead
  simp only []
  generalize hc1 : (if c.nb > 0 ∧ c.a &&& 1 ≠ 0 then rdStep c 1 acc am else c) = c1
  have l1 : c1.nb ≤ c.nb := by
    rw [← hc1]; split_ifs with h
    · exact rdStep_nb_le _ _ _ _ (by omega) hnb
    · exact le_rfl
  generalize hc2 : (if c1.nb ≥ 2 ∧ c1.a &&& 2 ≠ 0 then rdStep c1 2 acc am else c1) = c2
  have l2 : c2.nb ≤ c1.nb := by
    rw [← hc2]; split_ifs with h
    · exact rdStep_nb_le _ _ _ _ (by omega) (by omega)
    · exact le_rfl
  have l3 : (if c2.nb ≥ 4 ∧ c2.a &&& 4 ≠ 0 then rdStep c2 4 acc am else c2).nb ≤ c2.nb := by
    split_ifs with h
    · exact rdStep_nb_le _ _ _ _ (by omega) (by omega)
    · exact le_rfl
  omega

theorem wrHead_nb_le (c : WrCursor) (acc am : Nat) (hnb : c.nb < 2 ^ 32) : (wrHead c acc am).nb ≤ c.nb := by
  unfold wrHead
  simp only []
  generalize hc1 : (if c.nb > 0 ∧ c.a &&& 1 ≠ 0 then wrStep c 1 acc am else c) = c1
  have l1 : c1.nb ≤ c.nb := by
    rw [← hc1]; split_ifs with h
    · exact wrStep_nb_le _ _ _ _ (by omega) hnb
    · exact le_rfl
  generalize hc2 : (if c1.nb ≥ 2 ∧ c1.a &&& 2 ≠ 0 then wrStep c1 2 acc am else c1) = c2
  have l2 : c2.nb ≤ c1.nb := by
    rw [← hc2]; split_ifs with h
    · exact wrStep_nb_le _ _ _ _ (by omega) (by omega)
    · exact le_rfl
  have l3 : (if c2.nb ≥ 4 ∧ c2.a &&& 4 ≠ 0 then wrStep c2 4 acc am else c2).nb ≤ c2.nb := by
    split_ifs with h
    · exact wrStep_nb_le _ _ _ _ (by omega) (by omega)
    · exact le_rfl
  omega

/-- The body of `rw_add_rd` returns when it is given `2 * (num_bytes / 8) + 2` iterations or more. -/
theorem rdSplit_returns (fuel : Nat) (h : CTasPktHandlerRw) (addr nb d acc am : Nat) (p : PlanLimits h)
    (hnb : nb < 2 ^ 32) (hf : 2 * (nb / 8) + 2 ≤ fuel) : ∃ c, rdSplit fuel h addr nb d acc am = some c := by
  unfold rdSplit
  simp only []
  generalize hc3 : rdHead { h := h, a := addr, d := d, nb := nb } acc am = c3
  have l := rdHead_nb_le { h := h, a := addr, d := d, nb := nb } acc am hnb
  have ec := Caps_rdHead { h := h, a := addr, d := d, nb := nb } acc am
  rw [hc3] at l ec
  simp only [] at l ec
  by_cases h8 : c3.nb ≥ 8
  · rw [if_pos h8]
    have hm : 2 * (c3.nb / 8) + (if mGetRdDataBlkSizeInPktRsp c3.h c3.nb = 0 then 1 else 0) < fuel := by
      have : c3.nb / 8 ≤ nb / 8 := Nat.div_le_div_right l
      split_ifs <;> omega
    obtain ⟨c', e, _, _⟩ := rdBlkLoop_returns acc am fuel c3 (PlanLimits_of_Caps ec p) h8 (by omega) hm
    rw [e]
    exact ⟨_, rfl⟩
  · rw [if_neg h8]
    exact ⟨_, rfl⟩

theorem wrSplit_returns (fuel : Nat) (h : CTasPktHandlerRw) (addr nb : Nat) (d : List Nat) (acc am : Nat)
    (p : PlanLimits h) (hnb : nb < 2 ^ 32) (hf : 2 * (nb / 8) + 2 ≤ fuel) :
    ∃ c, wrSplit fuel h addr nb d acc am = some c := by
  unfold wrSplit
  simp only []
  generalize hc3 : wrHead { h := h, a := addr, d := d, nb := nb } acc am = c3
  have l := wrHead_nb_le { h := h, a := addr, d := d, nb := nb } acc am hnb
  have ec := Caps_wrHead { h := h, a := addr, d := d, nb := nb } acc am
  rw [hc3] at l ec
  simp only [] at l ec
  by_cases h8 : c3.nb ≥ 8
  · rw [if_pos h8]
    have hm : 2 * (c3.nb / 8) + (if mGetWrDataBlkSizeInPktRq c3.h c3.nb c3.a = 0 then 1 else 0) < fuel := by
      have : c3.nb / 8 ≤ nb / 8 := Nat.div_le_div_right l
      split_ifs <;> omega
    obtain ⟨c', e, _, _⟩ := wrBlkLoop_returns acc am fuel c3 (PlanLimits_of_Caps ec p) h8 (by omega) hm
    rw [e]
    exact ⟨_, rfl⟩
  · rw [if_neg h8]
    exact ⟨_, rfl⟩

/-- The function `rw_add_rd` returns when it is given `2 * (num_bytes / 8) + 2` iterations or more. -/
theorem rw_add_rd_returns (fuel : Nat) (h : CTasPktHandlerRw) (addr nb d acc am : Nat) (p : PlanLimits h)
    (hnb : nb < 2 ^ 32) (hf : 2 * (nb / 8) + 2 ≤ fuel) : ∃ r, rw_add_rd fuel h addr nb d acc am = some r := by
  unfold rw_add_rd
  split_ifs
  · exact ⟨_, rfl⟩
  · exact ⟨_, rfl⟩
  · exact ⟨_, rfl⟩
  · simp only []
    obtain ⟨c, e⟩ := rdSplit_returns fuel
      (addPrologue h (mNumTransManageableRd h addr nb) 32 (rdPrologueRsp am nb) (aliasMap am)) addr nb d acc
      (aliasMap am) (PlanLimits_of_Caps (Caps_addPrologue _ _ _ _ _) p) hnb hf
    rw [e]
    exact ⟨_, rfl⟩

theorem rw_add_wr_returns (fuel : Nat) (h : CTasPktHandlerRw) (addr nb : Nat) (d : List Nat) (acc am : Nat)
    (p : PlanLimits h) (hnb : nb < 2 ^ 32) (hf : 2 * (nb / 8) + 2 ≤ fuel) :
    ∃ r, rw_add_wr fuel h addr nb d acc am = some r := by
  unfold rw_add_wr
  split_ifs
  · exact ⟨_, rfl⟩
  · exact ⟨_, rfl⟩
  · exact ⟨_, rfl⟩
  · simp only []
    obtain ⟨c, e⟩ := wrSplit_returns fuel
      (addPrologue h (mNumTransManageableWr h addr nb) (wrPrologueRq am nb) 32 (aliasMap am)) addr nb d acc
      (aliasMap am) (PlanLimits_of_Caps (Caps_addPrologue _ _ _ _ _) p) hnb hf
    rw [e]
    exact ⟨_, rfl⟩

/-! ## The subscription of a channel client -/

theorem mSessionStart_rcv (mb : Mailbox) (cl : CTasClientServerCon) (ct : Nat) (i n p : List Nat) (t c : Nat) :
    (mSessionStart mb cl ct i n p t c).2.mRcvChlActive = cl.mRcvChlActive := by
  unfold mSessionStart
  split_ifs
  · rfl
  · simp only []
    split
    · rfl
    · split_ifs <;> rfl

theorem mDeviceConnect_rcv (mb : Mailbox) (cl : CTasClientServerCon) (dco : Nat) :
    (mDeviceConnect mb cl dco).2.mRcvChlActive = cl.mRcvChlActive := by
  unfold mDeviceConnect
  split_ifs
  · rfl
  · simp only []
    split
    · rfl
    · split_ifs <;> rfl

theorem chlView_session_start (mb : Mailbox) (cl : CTasClientChl) (i n p : List Nat) (t c : Nat) :
    chlView (cl.session_start mb i n p t c).2 = chlView cl := by
  unfold CTasClientChl.session_start
  simp only []
  split_ifs
  · rfl
  · simp only [chlView, mSessionStart_rcv]
  · simp only [chlView, mSessionStart_rcv]

theorem chlView_device_connect (mb : Mailbox) (cl : CTasClientChl) (dco : Nat) :
    chlView (cl.device_connect mb dco).2 = chlView cl := by
  unfold CTasClientChl.device_connect
  simp only []
  split_ifs
  · rfl
  · simp only [chlView, mDeviceConnect_rcv]

theorem chlView_target_ping (mb : Mailbox) (cl : CTasClientChl) : chlView (cl.target_ping mb).2.1 = chlView cl := by
  unfold CTasClientChl.target_ping
  split_ifs
  · rfl
  · simp only []
    split
    · rfl
    · split_ifs <;> rfl

theorem chlView_send_msg (send : List Nat → Bool) (cl : CTasClientChl) (msg : List Nat) (n init : Nat) :
    chlView (send_msg send cl msg n init).2 = chlView cl := by
  unfold send_msg
  simp only []
  split_ifs <;> rfl

theorem chlView_rcv_msg (q : List (List Nat)) (cl : CTasClientChl) : chlView (rcv_msg q cl).cl = chlView cl := by
  unfold rcv_msg
  simp only []
  split_ifs
  · rfl
  · split
    · rfl
    · split_ifs <;> rfl

theorem chlView_unsubscribe (send : List Nat → Bool) (clock : Nat → Nat) (q : List (List Nat)) (cl : CTasClientChl) :
    chlView (unsubscribe send clock q cl).2.1 = (TAS_CHT_NONE, TAS_CHL_NUM_MAX, false)
      ∨ (cl.mChlCht = TAS_CHT_NONE ∧ chlView (unsubscribe send clock q cl).2.1 = chlView cl) := by
  unfold unsubscribe
  simp only []
  split_ifs with h1 h2
  · exact Or.inr ⟨h1, rfl⟩
  · exact Or.inl rfl
  · split
    · exact Or.inl rfl
    · split_ifs <;> exact Or.inl rfl

theorem chlView_subscribe (mb : Mailbox) (cl : CTasClientChl) (chl cht chso : Nat) (prio : Option Nat) :
    chlView (subscribe mb cl chl cht chso prio).cl = chlView cl
      ∨ (cl.mChlCht = TAS_CHT_NONE
          ∧ chlView (subscribe mb cl chl cht chso prio).cl = (TAS_CHT_NONE, TAS_CHL_NUM_MAX, cl.con.mRcvChlActive))
      ∨ (chl < TAS_CHL_NUM_MAX ∧ (cht = TAS_CHT_SEND ∨ cht = TAS_CHT_RCV ∨ cht = TAS_CHT_BIDI)
          ∧ chlView (subscribe mb cl chl cht chso prio).cl
            = (cht, chl, decide (cht = TAS_CHT_RCV ∨ cht = TAS_CHT_BIDI))) := by
  unfold subscribe
  simp only []
  split_ifs with h1 h2 h3 h4 h5
  · exact Or.inl rfl
  · exact Or.inl rfl
  · exact Or.inr (Or.inl ⟨not_not.mp h2, by simp only [chlView, not_not.mp h2]⟩)
  · exact Or.inr (Or.inl ⟨not_not.mp h2, by simp only [chlView, not_not.mp h2]⟩)
  · exact Or.inr (Or.inl ⟨not_not.mp h2, by simp only [chlView, not_not.mp h2]⟩)
  · split
    · exact Or.inr (Or.inl ⟨not_not.mp h2, by simp only [chlView, not_not.mp h2]⟩)
    · split_ifs
      · exact Or.inr (Or.inl ⟨not_not.mp h2, by simp only [chlView, not_not.mp h2]⟩)
      · refine Or.inr (Or.inr ⟨by omega, ?_, rfl⟩)
        by_contra hc
        exact h4 ⟨fun e => hc (Or.inl e), fun e => hc (Or.inr (Or.inl e)), fun e => hc (Or.inr (Or.inr e))⟩

theorem ChlInv_of_view {cl cl' : CTasClientChl} (e : chlView cl' = chlView cl) (i : ChlInv cl) : ChlInv cl' := by
  simp only [chlView, Prod.mk.injEq] at e
  unfold ChlInv at i ⊢
  rw [e.1, e.2.1, e.2.2]; exact i

/-- Every state a channel client reaches is consistent. -/
theorem ChlInv_reachable {cl : CTasClientChl} (r : ChlReachable cl) : ChlInv cl := by
  induction r with
  | new => exact ⟨by decide, by decide⟩
  | test => exact ⟨by decide, by decide⟩
  | session_start mb cl i n p t c _ ih => exact ChlInv_of_view (chlView_session_start mb cl i n p t c) ih
  | device_connect mb cl dco _ ih => exact ChlInv_of_view (chlView_device_connect mb cl dco) ih
  | target_ping mb cl _ ih => exact ChlInv_of_view (chlView_target_ping mb cl) ih
  | send_msg send cl msg n init _ ih => exact ChlInv_of_view (chlView_send_msg send cl msg n init) ih
  | rcv_msg q cl _ ih => exact ChlInv_of_view (chlView_rcv_msg q cl) ih
  | unsubscribe send clock q cl _ ih =>
    rcases chlView_unsubscribe send clock q cl with e | ⟨_, e⟩
    · simp only [chlView, Prod.mk.injEq] at e
      unfold ChlInv
      rw [e.1, e.2.1, e.2.2]
      decide
    · exact ChlInv_of_view e ih
  | subscribe mb cl chl cht chso prio _ ih =>
    rcases chlView_subscribe mb cl chl cht chso prio with e | ⟨hn, e⟩ | ⟨hc, ht, e⟩
    · exact ChlInv_of_view e ih
    · simp only [chlView, Prod.mk.injEq] at e
      unfold ChlInv at ih ⊢
      rw [e.1, e.2.1, e.2.2]
      rw [hn] at ih
      exact ⟨by decide, ih.2⟩
    · simp only [chlView, Prod.mk.injEq] at e
      unfold ChlInv
      rw [e.1, e.2.1, e.2.2]
      simp only [TAS_CHL_NUM_MAX, TAS_CHT_NONE, TAS_CHT_SEND, TAS_CHT_RCV, TAS_CHT_BIDI] at hc ht ⊢
      constructor
      · constructor <;> intro h <;> omega
      · simp

/-! ## Session start -/

theorem mHandlePktError_code (b : CTasPktHandlerBase) (pkt_rsp : List Nat) (cmd : Nat) :
    (mHandlePktError b pkt_rsp cmd).2.tas_err = (mHandlePktError b pkt_rsp cmd).1 := by
  unfold mHandlePktError CTasPktHandlerBase.mSetPktRspErrConnectionProtocol
  simp only []
  split_ifs <;> rfl

/-- The value `set_pkt_rsp_ping` returns is the code it leaves in the error info. -/
theorem set_pkt_rsp_ping_code (b : CTasPktHandlerBase) (cmd client_type : Nat) (pkt_rsp : List Nat) :
    (set_pkt_rsp_ping b cmd client_type pkt_rsp).2.tas_err = (set_pkt_rsp_ping b cmd client_type pkt_rsp).1 := by
  unfold set_pkt_rsp_ping CTasPktHandlerBase.mSetPktRspErrConnectionProtocol
  generalize pingPktSize client_type = n
  generalize conInfoAt pkt_rsp 3 = ci
  generalize hw0 : rspWord pkt_rsp 0 = w0
  generalize rspWord pkt_rsp 1 = w1
  generalize rspWord pkt_rsp 2 = w2
  by_cases c0 : w0 ≠ 4 + n
  · rw [if_pos c0]; exact mHandlePktError_code _ _ _
  rw [if_neg c0]
  by_cases c1 : byte1 w1 ≠ cmd ∨ byte0 w1 ≠ n / 4 - 1
  · rw [if_pos c1]
  rw [if_neg c1]
  by_cases c2 : CTasPktHandlerBase.PROTOC_VER < byte0 w2 ∨ CTasPktHandlerBase.PROTOC_VER > byte1 w2
  · rw [if_pos c2]
  rw [if_neg c2]
  by_cases c3 : ¬ (byte3 w1 = TAS_PL_ERR_NO_ERROR ∨ byte3 w1 = TAS_PL1_ERR_CMD_FAILED
      ∨ byte3 w1 = TAS_PL1_ERR_SESSION ∨ byte3 w1 = TAS_PL_ERR_NOT_SUPPORTED)
  · rw [if_pos c3]
  rw [if_neg c3]
  by_cases c4 : byte3 w1 = TAS_PL1_ERR_SESSION
  · rw [if_pos c4]
  rw [if_neg c4]
  by_cases c5 : byte3 w1 = TAS_PL_ERR_NOT_SUPPORTED
  · rw [if_pos c5]
  rw [if_neg c5]
  by_cases c6 : byte3 w1 = TAS_PL1_ERR_CMD_FAILED
  · rw [if_pos c6]
    by_cases c7 : client_type = TAS_CLIENT_TYPE_CHL
    · rw [if_pos c7]
    · rw [if_neg c7]
  rw [if_neg c6]
  by_cases c8 : ci.max_pl2rq_pkt_size % 4 ≠ 0 ∨ ci.max_pl2rq_pkt_size < TAS_PL2_MAX_PKT_SIZE_MIN
      ∨ ci.max_pl2rq_pkt_size > TAS_PL2_MAX_PKT_SIZE
  · rw [if_pos c8]
  rw [if_neg c8]
  by_cases c9 : ci.max_pl2rsp_pkt_size % 4 ≠ 0 ∨ ci.max_pl2rsp_pkt_size < TAS_PL2_MAX_PKT_SIZE_MIN
      ∨ ci.max_pl2rsp_pkt_size > TAS_PL2_MAX_PKT_SIZE
  · rw [if_pos c9]
  rw [if_neg c9]
  by_cases c10 : ci.msg_length_c2d % 4 ≠ 0 ∨ ci.msg_length_c2d > TAS_PL1_CHL_MAX_MSG_SIZE
  · rw [if_pos c10]
  rw [if_neg c10]
  by_cases c11 : ci.msg_length_d2c % 4 ≠ 0 ∨ ci.msg_length_d2c > TAS_PL1_CHL_MAX_MSG_SIZE
  · rw [if_pos c11]
  rw [if_neg c11]

theorem set_pkt_rsp_session_start_code (h : CTasPktHandlerServerCon) (ct : Nat) (rsp : List Nat) :
    (set_pkt_rsp_session_start h ct rsp).2.tas_err = (set_pkt_rsp_session_start h ct rsp).1 :=
  set_pkt_rsp_ping_code _ _ _ _

theorem mSessionStart_ok (mb : Mailbox) (cl : CTasClientServerCon) (ct : Nat) (i n p : List Nat) (t c : Nat)
    (hs : cl.mSessionStarted = false) (hr : (mSessionStart mb cl ct i n p t c).1 = TAS_ERR_NONE) :
    (mSessionStart mb cl ct i n p t c).2.mDeviceResetCount = 0xFFFFFFFF
      ∧ (mSessionStart mb cl ct i n p t c).2.mSessionStarted = true := by
  unfold mSessionStart at hr ⊢
  rw [if_neg (by rw [hs]; decide)] at hr ⊢
  simp only [] at hr ⊢
  cases hmb : mb (get_pkt_rq_session_start ct i n p t c) 1 with
  | none =>
    rw [hmb] at hr
    have e : TAS_ERR_SERVER_CON = TAS_ERR_NONE := hr
    exact absurd e (by decide)
  | some x =>
    rw [hmb] at hr
    simp only [] at hr ⊢
    split_ifs at hr ⊢ with h2
    · rw [show ((set_pkt_rsp_session_start cl.mTphsc ct x.1).2.tas_err, _).1
        = (set_pkt_rsp_session_start cl.mTphsc ct x.1).2.tas_err from rfl, set_pkt_rsp_session_start_code] at hr
      exact absurd hr h2
    · exact ⟨rfl, rfl⟩

theorem mSessionStart_started (mb : Mailbox) (cl : CTasClientServerCon) (ct : Nat) (i n p : List Nat) (t c : Nat)
    (hs : cl.mSessionStarted = true) :
    mSessionStart mb cl ct i n p t c
      = (TAS_ERR_FN_USAGE, { cl with mTphsc := cl.mTphsc.fail TAS_ERR_FN_USAGE "ERROR: Session was already started" }) := by
  unfold mSessionStart
  rw [if_pos hs]

theorem mSessionStart_failed (mb : Mailbox) (cl : CTasClientServerCon) (ct : Nat) (i n p : List Nat) (t c : Nat)
    (hs : cl.mSessionStarted = false) (hr : (mSessionStart mb cl ct i n p t c).1 ≠ TAS_ERR_NONE) :
    (mSessionStart mb cl ct i n p t c).2.mSessionStarted = false := by
  unfold mSessionStart at hr ⊢
  rw [if_neg (by rw [hs]; decide)] at hr ⊢
  simp only [] at hr ⊢
  cases hmb : mb (get_pkt_rq_session_start ct i n p t c) 1 with
  | none => exact hs
  | some x =>
    rw [hmb] at hr
    simp only [] at hr ⊢
    split_ifs at hr ⊢ with h2
    · exact hs
    · exact absurd rfl hr

/-! ## Receiving a reset notification -/

theorem set_pkt_rcv_msg_reset (h : CTasPktHandlerChl) (chl : Nat) :
    set_pkt_rcv_msg h resetFrame chl
      = { ret := TAS_ERR_NONE, h := { h with mDeviceResetCount := u32 (h.mDeviceResetCount + 1) }.clear,
          msg := none, msg_length := 0, init := 0 } := by
  unfold set_pkt_rcv_msg
  simp only []
  rw [if_pos (by decide), if_neg (by decide)]

/-! ## What an iteration of a block loop emits -/

theorem rdBlkIter_emits (c : RdCursor) (acc am : Nat) (hk : mGetRdDataBlkSizeInPktRsp c.h c.nb ≠ 0) :
    (rdBlkIter c acc am).h.mPl0Trans.map opView
      = c.h.mPl0Trans.map opView ++ [(TAS_RW_TT_RD, c.a, mGetRdDataBlkSizeInPktRsp c.h c.nb)] := by
  have e := Recs_mPktAdd_Rd c.h c.a _ c.d acc am hk
  have e1 := ((Recs_eq_iff _ _).1 (Recs_mPktFinalize
    (mPktAdd_Rd c.h c.a (mGetRdDataBlkSizeInPktRsp c.h c.nb) c.d acc am) true)).1
  simp only [Recs, Prod.mk.injEq] at e
  unfold rdBlkIter
  simp only []
  split_ifs
  · rw [e1, e.1]; simp [opView]
  · rw [e.1]; simp [opView]

theorem wrBlkIter_emits (c : WrCursor) (acc am : Nat) (hk : mGetWrDataBlkSizeInPktRq c.h c.nb c.a ≠ 0) :
    (wrBlkIter c acc am).h.mPl0Trans.map opView
      = c.h.mPl0Trans.map opView ++ [(TAS_RW_TT_WR, c.a, mGetWrDataBlkSizeInPktRq c.h c.nb c.a)] := by
  have e := Recs_mPktAdd_Wr c.h c.a _ c.d acc am hk
  have e1 := ((Recs_eq_iff _ _).1 (Recs_mPktFinalize
    (mPktAdd_Wr c.h c.a (mGetWrDataBlkSizeInPktRq c.h c.nb c.a) c.d acc am) true)).1
  simp only [Recs, Prod.mk.injEq] at e
  unfold wrBlkIter
  simp only []
  split_ifs
  · rw [e1, e.1]; simp [opView]
  · rw [e.1]; simp [opView]

theorem PlanLimits_min : PlanLimits (rw_start (newFromConInfo minConInfo)) := by
  refine ⟨?_, CapsSet_rw_start _⟩
  unfold Room
  decide

end Tas


/-!
# The read/write planner and parser: statements of the specification
-/

namespace Tas

set_option maxRecDepth 100000

/-- C9: when `rw_set_trans` returns false (a transaction of the list was
rejected, or the list is empty) the handler holds no user transaction, no
micro-op and no finalized PL2 packet; the request buffer holds the three zeroed
header words of the open packet and the response size is that of a length word
and a pl0-start.  The state is the one `rw_start` leaves, whatever part of the
list had been added: only the PL1 packet counter has moved on. -/
theorem rw_set_trans_false_resets (fuel : Nat) (h h' : CTasPktHandlerRw) (trans : List tas_rw_trans_st)
    (hr : rw_set_trans fuel h trans = some (false, h')) :
    h'.mRwNumTrans = 0 ∧ h'.mPl0NumTrans = 0 ∧ h'.mNumPl2Pkt = 0 ∧ h'.mPl2NumTrans = 0
      ∧ h'.mRqBuf = [0, 0, 0] ∧ h'.mRspSize = 8
      ∧ h' = rw_start { h with mPl1CntOutstandingLast := h'.mPl1CntOutstandingLast } := by
  have key : ∃ hx, Static hx = Static h ∧ h' = rw_start hx := by
    unfold rw_set_trans at hr
    rcases setTransLoop_false fuel trans false (rw_start h) h' hr with ⟨_, e⟩ | ⟨h1, e1, e2⟩
    · exact ⟨h, rfl, e⟩
    · exact ⟨h1, e1, e2⟩
  obtain ⟨hx, e1, e2⟩ := key
  subst e2
  refine ⟨rfl, rfl, rfl, rfl, rfl, rfl, ?_⟩
  exact rw_start_congr e1 rfl

/-- Witness of C9: a list whose second transaction has `num_bytes = 0`. -/
theorem rw_set_trans_false_resets_witness :
    rw_set_trans 0 (newFromConInfo defaultConInfo) [rdTrans 0x70000001 4 0x1000 0 0, rdTrans 0x70000010 0 0x2000 0 0]
        = some (false, stateOf (rw_set_trans 0 (newFromConInfo defaultConInfo)
            [rdTrans 0x70000001 4 0x1000 0 0, rdTrans 0x70000010 0 0x2000 0 0]))
      ∧ (stateOf (rw_set_trans 0 (newFromConInfo defaultConInfo)
            [rdTrans 0x70000001 4 0x1000 0 0, rdTrans 0x70000010 0 0x2000 0 0])).mRqBuf = [0, 0, 0] :=
  ⟨by decide, (rw_set_trans_false_resets 0 (newFromConInfo defaultConInfo) _
      [rdTrans 0x70000001 4 0x1000 0 0, rdTrans 0x70000010 0 0x2000 0 0] (by decide)).2.2.2.2.1⟩

/-- C4 (as stated, refuted): a 2 byte read at `0xFFFFFFFFFFFFFFFF` is accepted
and its micro-ops are a 1 byte read at `0xFFFFFFFFFFFFFFFF` and a 1 byte read at
address 0: they are not in increasing address order and do not lie end to end
up to `addr + num_bytes`. -/
theorem rw_add_rd_wraps_address :
    returnsTrue (rw_add_rd 0 (rw_start (newFromConInfo defaultConInfo)) 0xFFFFFFFFFFFFFFFF 2 0x1000 0 0) = true
      ∧ (stateOf (rw_add_rd 0 (rw_start (newFromConInfo defaultConInfo)) 0xFFFFFFFFFFFFFFFF 2 0x1000 0 0)).mPl0Trans.map opView
          = [(TAS_RW_TT_RD, 0xFFFFFFFFFFFFFFFF, 1), (TAS_RW_TT_RD, 0, 1)]
      ∧ ¬ Contig 0xFFFFFFFFFFFFFFFF
          (stateOf (rw_add_rd 0 (rw_start (newFromConInfo defaultConInfo)) 0xFFFFFFFFFFFFFFFF 2 0x1000 0 0)).mPl0Trans
          (0xFFFFFFFFFFFFFFFF + 2) := by
  decide

/-- C4 (amended): for every read and every write accepted while a request is
planned, at an address with `addr + num_bytes ≤ 2^64`, when the sums of
`mCheckLimits` do not wrap and the request planned so far, closed by its
pl0-end, lies inside the request buffer and the tables of the handler
(`InArrays`, so that no store of the call left them), the micro-ops added lie
end to end in increasing address order from `addr` to `addr + num_bytes`; each
has 1, 2, 4 or 8 bytes and is naturally aligned, or is a multiple of 8 bytes up
to 1024 at an 8 byte aligned address (the conditions of `tphrCheckNumBytes` and
of the alignment assertions of `mPktAdd_Rd` and `mPktAdd_Wr`); and their sizes
are at most three below 8, then sizes of at least 8, then at most three below 8.
For a 4 byte read at `0x70000001` the micro-ops are 1 byte at `0x70000001`,
2 bytes at `0x70000002` and 1 byte at `0x70000004`. -/
theorem rw_add_decomposition :
    (∀ (fuel : Nat) (h h' : CTasPktHandlerRw) (addr num_bytes data acc_mode addr_map : Nat),
      Planning h → num_bytes < 2 ^ 32 → addr + num_bytes ≤ 2 ^ 64 →
      CheckLimitsExact h num_bytes 0 →
      rw_add_rd fuel h addr num_bytes data acc_mode addr_map = some (true, h') →
      InArrays (rw_get_rq h').1 →
      ∃ ops, h'.mPl0Trans = h.mPl0Trans ++ ops ∧ Contig addr ops (addr + num_bytes)
        ∧ (∀ o ∈ ops, ValidOp o.addr o.num_bytes ∧ o.type = TAS_RW_TT_RD)
        ∧ Shape (ops.map (fun o => o.num_bytes)))
    ∧ (∀ (fuel : Nat) (h h' : CTasPktHandlerRw) (addr num_bytes : Nat) (data : List Nat)
        (acc_mode addr_map : Nat),
      Planning h → num_bytes < 2 ^ 32 → addr + num_bytes ≤ 2 ^ 64 →
      CheckLimitsExact h 0 num_bytes →
      rw_add_wr fuel h addr num_bytes data acc_mode addr_map = some (true, h') →
      InArrays (rw_get_rq h').1 →
      ∃ ops, h'.mPl0Trans = h.mPl0Trans ++ ops ∧ Contig addr ops (addr + num_bytes)
        ∧ (∀ o ∈ ops, ValidOp o.addr o.num_bytes ∧ o.type = TAS_RW_TT_WR)
        ∧ Shape (ops.map (fun o => o.num_bytes)))
    ∧ returnsTrue (rw_add_rd 0 (rw_start (newFromConInfo defaultConInfo)) 0x70000001 4 0x1000 0 0) = true
    ∧ (stateOf (rw_add_rd 0 (rw_start (newFromConInfo defaultConInfo)) 0x70000001 4 0x1000 0 0)).mPl0Trans.map opView
        = [(TAS_RW_TT_RD, 0x70000001, 1), (TAS_RW_TT_RD, 0x70000002, 2), (TAS_RW_TT_RD, 0x70000004, 1)] := by
  refine ⟨?_, ?_, by decide, by decide⟩
  · intro fuel h h' addr n data m am hp hn hwrap _ hrun _
    have hn0 : n ≠ 0 := (rw_add_rd_true hrun).1
    have hrun' : rw_add_trans fuel h (rdTrans addr n data m am) = some (true, h') := by
      simpa [rw_add_trans, rdTrans] using hrun
    obtain ⟨ops, e1, e2, e3, e4⟩ := rw_add_trans_ops (t := rdTrans addr n data m am) hp
      (by simp only [rdTrans]; omega) hn hwrap hrun'
    refine ⟨ops, e1, e2, e3, ?_⟩
    rcases e4 with e4 | e4
    · simp [rdTrans, TAS_RW_TT_RD, TAS_RW_TT_FILL] at e4
    · exact e4
  · intro fuel h h' addr n data m am hp hn hwrap _ hrun _
    have hn0 : n ≠ 0 := (rw_add_wr_true hrun).1
    have hrun' : rw_add_trans fuel h (wrTrans addr n data m am) = some (true, h') := by
      simpa [rw_add_trans, wrTrans, TAS_RW_TT_RD, TAS_RW_TT_WR] using hrun
    obtain ⟨ops, e1, e2, e3, e4⟩ := rw_add_trans_ops (t := wrTrans addr n data m am) hp
      (by simp only [wrTrans]; omega) hn hwrap hrun'
    refine ⟨ops, e1, e2, e3, ?_⟩
    rcases e4 with e4 | e4
    · simp [wrTrans, TAS_RW_TT_WR, TAS_RW_TT_FILL] at e4
    · exact e4

/-- Witness of C4: a 21 byte write at `0x70000003` after `rw_start`. -/
theorem rw_add_decomposition_witness :
    rw_add_wr 1 (rw_start (newFromConInfo defaultConInfo)) 0x70000003 21 (List.replicate 21 0xA5) 0 0
        = some (true, stateOf (rw_add_wr 1 (rw_start (newFromConInfo defaultConInfo)) 0x70000003 21
            (List.replicate 21 0xA5) 0 0))
      ∧ CheckLimitsExact (rw_start (newFromConInfo defaultConInfo)) 0 21
      ∧ InArrays (rw_get_rq (stateOf (rw_add_wr 1 (rw_start (newFromConInfo defaultConInfo)) 0x70000003 21
            (List.replicate 21 0xA5) 0 0))).1
      ∧ ∃ ops, (stateOf (rw_add_wr 1 (rw_start (newFromConInfo defaultConInfo)) 0x70000003 21
            (List.replicate 21 0xA5) 0 0)).mPl0Trans
          = (rw_start (newFromConInfo defaultConInfo)).mPl0Trans ++ ops
        ∧ Contig 0x70000003 ops (0x70000003 + 21)
        ∧ (∀ o ∈ ops, ValidOp o.addr o.num_bytes ∧ o.type = TAS_RW_TT_WR)
        ∧ Shape (ops.map (fun o => o.num_bytes)) :=
  ⟨by decide, by decide, by decide,
    rw_add_decomposition.2.1 1 (rw_start (newFromConInfo defaultConInfo)) _ 0x70000003 21
      (List.replicate 21 0xA5) 0 0 (Planning.start _) (by decide) (by decide) (by decide) (by decide)
      (by decide)⟩

/-- C10 (the code at the failing input): right after `rw_start` with the default
limits, `num_bytes = 0xFFFFFFFC` is far above the request limit and the response
limit, yet `mCheckLimits` accepts it, because `mRqBufWi * 4 + num_bytes + 4` and
`mRspSize + num_bytes + 4` wrap around in 32 bits; `rw_add_wr` and `rw_add_rd`
(and `rw_add_fill` for `0xFFFFFFF8`) then do not return false, whatever the number
of iterations they are given. -/
theorem mCheckLimits_wraps :
    (rw_start (newFromConInfo defaultConInfo)).mRqBufWi * 4 + 0xFFFFFFFC
        > (rw_start (newFromConInfo defaultConInfo)).mMaxRqSize
      ∧ (rw_start (newFromConInfo defaultConInfo)).mRspSize + 0xFFFFFFFC
        > (rw_start (newFromConInfo defaultConInfo)).mMaxRspSize
      ∧ mCheckLimits (rw_start (newFromConInfo defaultConInfo)) 0 0xFFFFFFFC = true
      ∧ mCheckLimits (rw_start (newFromConInfo defaultConInfo)) 0xFFFFFFFC 0 = true
      ∧ mCheckLimits (rw_start (newFromConInfo defaultConInfo)) 0 0xFFFFFFF8 = true
      ∧ (∀ (fuel : Nat) (data : List Nat),
          returnsFalse (rw_add_wr fuel (rw_start (newFromConInfo defaultConInfo)) 0x70000000 0xFFFFFFFC data 0 0) = false)
      ∧ (∀ fuel : Nat,
          returnsFalse (rw_add_rd fuel (rw_start (newFromConInfo defaultConInfo)) 0x70000000 0xFFFFFFFC 0x1000 0 0) = false)
      ∧ (∀ fuel : Nat,
          returnsFalse (rw_add_fill fuel (rw_start (newFromConInfo defaultConInfo)) 0x70000000 0xFFFFFFF8 0 0 0) = false) :=
  ⟨by decide, by decide, by decide, by decide, by decide,
    fun fuel data => rw_add_wr_not_false fuel _ _ _ data _ _ (by decide) (by decide) (by decide),
    fun fuel => rw_add_rd_not_false fuel _ _ _ _ _ _ (by decide) (by decide) (by decide),
    fun fuel => rw_add_fill_not_false fuel _ _ _ _ _ _ (by decide) (by decide)⟩

/-- C3 (the code at the failing input): with the negotiated request packet size
128, a write of 104 bytes at `0x10000` with access mode 1 and address map 1 is
planned as two PL2 packets of 16 and 136 bytes: the second is longer than
`max_pl2rq_pkt_size`. -/
theorem pl2_length_exceeds_max :
    pktLengths (planRq 1 (newFromConInfo minConInfo) [wrTrans 0x10000 104 (List.replicate 104 0xA5) 1 1])
        = [16, 136]
      ∧ minConInfo.max_pl2rq_pkt_size = 128 := by
  decide

/-- C1 (the code at the failing input): after a 4 byte read at `0x70000000` was
planned, the 8 byte response that holds only a length word and a pl0-start with
no error makes `rw_set_rsp` return `TAS_ERR_NONE`, and `rw_get_trans_rsp` reports
`num_bytes_ok = 0` and `pl_err = TAS_PL_ERR_PROTOCOL` for the transaction. -/
theorem rw_set_rsp_accepts_truncated :
    runRsp (planRq 0 (newFromConInfo defaultConInfo) [rdTrans 0x70000000 4 0x1000 0 0]) [8, 0x0800B000]
      = (TAS_ERR_NONE, [{ num_bytes_ok := 0, pl_err := TAS_PL_ERR_PROTOCOL }]) := by
  decide

/-- C7 (the code at the failing input): a 4 byte read at `0xFFFFFFFFFFFFFFFD`
followed by a 4 byte read at `0x100` is planned as micro-ops of 1, 2 and 1 bytes
for the first and one of 4 bytes for the second transaction.  When all four
succeed, `rw_get_trans_rsp` reports 1 byte for the first transaction and 3 bytes,
the second and third micro-op of the first transaction, for the second. -/
theorem rw_get_trans_rsp_wraps :
    plannedOps (planRq 0 (newFromConInfo defaultConInfo)
        [rdTrans 0xFFFFFFFFFFFFFFFD 4 0x1000 0 0, rdTrans 0x100 4 0x2000 0 0])
        = [(TAS_RW_TT_RD, 0xFFFFFFFFFFFFFFFD, 1), (TAS_RW_TT_RD, 0xFFFFFFFFFFFFFFFE, 2),
           (TAS_RW_TT_RD, 0, 1), (TAS_RW_TT_RD, 0x100, 4)]
      ∧ aggregate (planRq 0 (newFromConInfo defaultConInfo)
          [rdTrans 0xFFFFFFFFFFFFFFFD 4 0x1000 0 0, rdTrans 0x100 4 0x2000 0 0])
          [⟨1, TAS_PL0_ERR_NO_ERROR⟩, ⟨2, TAS_PL0_ERR_NO_ERROR⟩, ⟨1, TAS_PL0_ERR_NO_ERROR⟩,
           ⟨4, TAS_PL0_ERR_NO_ERROR⟩]
        = [⟨1, TAS_PL0_ERR_NO_ERROR⟩, ⟨3, TAS_PL0_ERR_NO_ERROR⟩] := by
  decide

/-- C6: when the planned request lies inside the request buffer and the tables
of the handler (`InArrays`), the micro-ops that the reference decoder reads out
of its PL2 packets, each packet decoded from access mode 0, address map 0 and
base address 0 and the packets being cut out of the request along their length
words, are in this order the micro-ops the planner recorded, with the same
command, address, size, address map and access mode; the base address in effect
at each of them is its address with the low 16 bits cleared. -/
theorem decode_yields_planned (fuel : Nat) (h : CTasPktHandlerRw) (trans : List tas_rw_trans_st)
    (hw : ∀ t ∈ trans, WellTyped t) (hlt : h.mConInfo.pl0_max_num_rw < 2 ^ 32)
    (hs : (planRq fuel h trans).isSome = true)
    (hlen : 4 * (rqOf (planRq fuel h trans)).rq.length < 2 ^ 32)
    (_hfit : InArrays (handlerOf (planRq fuel h trans))) :
    ((rqPackets (rqOf (planRq fuel h trans))).map pktOps).flatten
        = (handlerOf (planRq fuel h trans)).mPl0Trans.map plannedOp
      ∧ (rqPackets (rqOf (planRq fuel h trans))).flatten = (rqOf (planRq fuel h trans)).rq
      ∧ ∀ p ∈ rqPackets (rqOf (planRq fuel h trans)), ∀ op ∈ pktOps p,
          op.base_addr = op.addr &&& 0xFFFFFFFFFFFF0000 := by
  obtain ⟨_, h2, h3, _, _⟩ := planRq_spec hw hlt hlen (planRq_some hs)
  refine ⟨h2, h3, ?_⟩
  intro p hp op hop
  have hmem : op ∈ ((rqPackets (rqOf (planRq fuel h trans))).map pktOps).flatten :=
    List.mem_flatten.2 ⟨pktOps p, List.mem_map.2 ⟨p, hp, rfl⟩, hop⟩
  rw [h2] at hmem
  obtain ⟨t, _, rfl⟩ := List.mem_map.1 hmem
  rfl

/-- Witness of C6: a 7 byte read above 4 GB with access mode 2 in address map 1,
then a 21 byte write. -/
theorem decode_yields_planned_witness :
    (rqPackets (rqOf (planRq 1 (newFromConInfo defaultConInfo)
        [rdTrans 0x170000001 7 0x1000 2 1, wrTrans 0x70000003 21 (List.replicate 21 0xA5) 0 0]))).map pktOps
      = [[⟨TAS_PL0_CMD_RD8, 0x170000001, 1, 1, 2, 0x170000000⟩,
          ⟨TAS_PL0_CMD_RD16, 0x170000002, 2, 1, 2, 0x170000000⟩,
          ⟨TAS_PL0_CMD_RD32, 0x170000004, 4, 1, 2, 0x170000000⟩,
          ⟨TAS_PL0_CMD_WR8, 0x70000003, 1, 0, 0, 0x70000000⟩,
          ⟨TAS_PL0_CMD_WR32, 0x70000004, 4, 0, 0, 0x70000000⟩,
          ⟨TAS_PL0_CMD_WRBLK, 0x70000008, 16, 0, 0, 0x70000000⟩]]
    ∧ ((rqPackets (rqOf (planRq 1 (newFromConInfo defaultConInfo)
        [rdTrans 0x170000001 7 0x1000 2 1, wrTrans 0x70000003 21 (List.replicate 21 0xA5) 0 0]))).map pktOps).flatten
      = (handlerOf (planRq 1 (newFromConInfo defaultConInfo)
        [rdTrans 0x170000001 7 0x1000 2 1, wrTrans 0x70000003 21 (List.replicate 21 0xA5) 0 0])).mPl0Trans.map plannedOp :=
  ⟨by decide, (decode_yields_planned 1 (newFromConInfo defaultConInfo)
    [rdTrans 0x170000001 7 0x1000 2 1, wrTrans 0x70000003 21 (List.replicate 21 0xA5) 0 0]
    (by decide) (by decide) (by decide) (by decide) (by decide)).1⟩

/-- C5: in every PL2 packet of a planned request that lies inside the request
buffer and the tables of the handler (`InArrays`), the micro-ops read out by the
reference decoder (which sees address map 15 where the caller gave 132) use
address maps below 12 only, or all of them the same address map out of 12 to 15;
and the field `pl0_addr_map_mask` of the pl0-start of the packet is the OR of
the bits `1 << addr_map` of the address maps of these micro-ops. -/
theorem addr_map_rule_per_packet (fuel : Nat) (h : CTasPktHandlerRw) (trans : List tas_rw_trans_st)
    (hw : ∀ t ∈ trans, WellTyped t) (hlt : h.mConInfo.pl0_max_num_rw < 2 ^ 32)
    (hs : (planRq fuel h trans).isSome = true)
    (hlen : 4 * (rqOf (planRq fuel h trans)).rq.length < 2 ^ 32)
    (_hfit : InArrays (handlerOf (planRq fuel h trans))) :
    ∀ p ∈ rqPackets (rqOf (planRq fuel h trans)),
      MapRule (pktOps p) ∧ pktAddrMapMask p = maskOf (pktOps p) := by
  obtain ⟨h1, _⟩ := planRq_spec hw hlt hlen (planRq_some hs)
  intro p hp
  exact ⟨(h1 p hp).rule, (h1 p hp).mask⟩

/-- Witness of C5: reads in the address maps 1, 132, 3 and 12 are planned as
four PL2 packets with the masks of the maps 1, 15, 3 and 12. -/
theorem addr_map_rule_per_packet_witness :
    (rqPackets (rqOf (planRq 0 (newFromConInfo defaultConInfo)
        [rdTrans 0x1000 4 0x1000 0 1, rdTrans 0x2000 4 0x1004 0 132, rdTrans 0x3000 4 0x1008 0 3,
         rdTrans 0x4000 4 0x100C 0 12]))).map pktAddrMapMask = [0x0002, 0x8000, 0x0008, 0x1000]
    ∧ ∀ p ∈ rqPackets (rqOf (planRq 0 (newFromConInfo defaultConInfo)
        [rdTrans 0x1000 4 0x1000 0 1, rdTrans 0x2000 4 0x1004 0 132, rdTrans 0x3000 4 0x1008 0 3,
         rdTrans 0x4000 4 0x100C 0 12])),
      MapRule (pktOps p) ∧ pktAddrMapMask p = maskOf (pktOps p) :=
  ⟨by decide, addr_map_rule_per_packet 0 (newFromConInfo defaultConInfo)
    [rdTrans 0x1000 4 0x1000 0 1, rdTrans 0x2000 4 0x1004 0 132, rdTrans 0x3000 4 0x1008 0 3,
     rdTrans 0x4000 4 0x100C 0 12] (by decide) (by decide) (by decide) (by decide) (by decide)⟩

/-- C8, the code against it: the handler of a session whose connection info has
`pl0_max_num_rw = 2` plans a 7 byte read at an odd address, which needs three
micro-ops.  `rw_set_trans` returns true and the request has a PL2 packet with
two micro-ops and one with one micro-op, as the claim says; but the constructor
has allocated the tables with `mNumTransMax = pl0_max_num_rw = 2` entries, and
the planner has stored three micro-ops: the third store, at index 2 of
`mPl0Trans` and `mPl0TransRsp`, lies outside the tables. -/
theorem split_transaction_overruns_tables :
    (newFromConInfo (conInfoMaxRw 2)).mConInfo.pl0_max_num_rw = 2
    ∧ (newFromConInfo (conInfoMaxRw 2)).mNumTransMax = 2
    ∧ returnsTrue (rw_set_trans 0 (newFromConInfo (conInfoMaxRw 2)) read7) = true
    ∧ pktOpCounts (planRq 0 (newFromConInfo (conInfoMaxRw 2)) read7) = [0, 2, 1]
    ∧ (handlerOf (planRq 0 (newFromConInfo (conInfoMaxRw 2)) read7)).mPl0Trans.map opView
        = [(TAS_RW_TT_RD, 0x70000001, 1), (TAS_RW_TT_RD, 0x70000002, 2), (TAS_RW_TT_RD, 0x70000004, 4)]
    ∧ (handlerOf (planRq 0 (newFromConInfo (conInfoMaxRw 2)) read7)).mPl0NumTrans = 3
    ∧ (handlerOf (planRq 0 (newFromConInfo (conInfoMaxRw 2)) read7)).mNumTransMax = 2
    ∧ ¬ InArrays (handlerOf (planRq 0 (newFromConInfo (conInfoMaxRw 2)) read7)) := by
  decide

/-- C15 (as stated, refuted): before the session is started `execute_trans`
returns `TAS_ERR_FN_USAGE`, not `TAS_ERR_FN_PARAM`, for a fill of 8 bytes at the
address `0x70000001`, which is not 8 byte aligned. -/
theorem execute_trans_before_session :
    retOf (execute_trans 0 mbEmpty clientNoSession [fillTrans 0x70000001 8 [1, 2, 3, 4, 5, 6, 7, 8] 0 0])
        = TAS_ERR_FN_USAGE
      ∧ TAS_ERR_FN_USAGE ≠ TAS_ERR_FN_PARAM := by
  decide

/-- C15 (amended): a fill transaction `t` whose address is not 8 byte aligned,
whose `num_bytes` is 0 or whose `num_bytes` is not a multiple of 8 is rejected
before anything is emitted.  `rw_add_fill` returns false and leaves the handler
as it is; `rw_set_trans` returns false for every list holding `t`, once the calls
for the transactions before `t` have returned, and leaves the handler in the
state of `rw_start`; `execute_trans`, when the session is started, returns
`TAS_ERR_FN_PARAM` and hands no request to the mailbox; `fill64` returns
`TAS_ERR_FN_PARAM` and leaves the client as it is. -/
theorem fill_rejected_before_emission (fuel : Nat) (mb : Mailbox) (t : tas_rw_trans_st)
    (ht : t.type = TAS_RW_TT_FILL) (hbad : t.addr % 8 ≠ 0 ∨ t.num_bytes = 0 ∨ t.num_bytes % 8 ≠ 0) :
    (∀ h value, rw_add_fill fuel h t.addr t.num_bytes value t.acc_mode t.addr_map = some (false, h))
    ∧ (∀ h pre post, (rw_set_trans fuel h pre).isSome = true →
        ∃ h', rw_set_trans fuel h (pre ++ t :: post) = some (false, rw_start h'))
    ∧ (∀ cl h pre post, cl.mTphRw = some h → (rw_set_trans fuel h pre).isSome = true →
        ∃ cl', execute_trans fuel mb cl (pre ++ t :: post) = some (TAS_ERR_FN_PARAM, cl') ∧ cl'.sent = cl.sent)
    ∧ (∀ cl value, fill64 fuel mb cl t.addr value t.num_bytes t.addr_map = some (TAS_ERR_FN_PARAM, cl)) :=
  ⟨fun h value => rw_add_fill_rejects fuel h _ _ value _ _ hbad,
   fun h pre post hpre =>
     rw_set_trans_rejects fuel h t pre post (fun h0 => rw_add_trans_fill_rejects fuel h0 t ht hbad) hpre,
   fun cl h pre post hs hpre =>
     execute_trans_rejects fuel mb cl h t pre post (fun h0 => rw_add_trans_fill_rejects fuel h0 t ht hbad) hs hpre,
   fun cl value => fill64_rejects fuel mb cl _ value _ _ hbad⟩

/-- Witness of C15: a read of 8 bytes followed by a fill of 12 bytes, handed to
`execute_trans` of a client with the default limits. -/
theorem fill_rejected_before_emission_witness :
    (rw_set_trans 1 (newFromConInfo defaultConInfo) [rdTrans 0x70000001 8 0x1000 0 0]).isSome = true
    ∧ ∃ cl', execute_trans 1 mbEmpty (clientOf (newFromConInfo defaultConInfo))
          ([rdTrans 0x70000001 8 0x1000 0 0] ++ fillTrans 0x70000000 12 [1, 2, 3, 4, 5, 6, 7, 8] 0 0 :: [])
        = some (TAS_ERR_FN_PARAM, cl') ∧ cl'.sent = (clientOf (newFromConInfo defaultConInfo)).sent :=
  ⟨by decide,
   (fill_rejected_before_emission 1 mbEmpty (fillTrans 0x70000000 12 [1, 2, 3, 4, 5, 6, 7, 8] 0 0) (by decide)
      (by decide)).2.2.1 (clientOf (newFromConInfo defaultConInfo)) (newFromConInfo defaultConInfo)
      [rdTrans 0x70000001 8 0x1000 0 0] [] rfl (by decide)⟩

/-- C16 (as stated, refuted): for the address 4 and 8 bytes `fill32` builds two
writes of 4 bytes and no fill. -/
theorem fill32_without_fill :
    (fill32Trans 4 0x1234ABCD 8 0).map opView = [(TAS_RW_TT_WR, 4, 4), (TAS_RW_TT_WR, 8, 4)] := by
  decide

/-- C16 (amended): for an address that is a multiple of 4 and a `num_bytes` that
is a positive multiple of 4, with `addr + num_bytes` not above `2^64`, `fill32`
builds one to three transactions that lie end to end from `addr` to
`addr + num_bytes`: a write of 4 bytes at `addr` if and only if `addr` is 4
modulo 8; a fill of the 8 byte aligned middle, whose length is the largest
multiple of 8 that fits, with the 64 bit value `value * 2^32 + value`, if and
only if the middle is not empty; a write of 4 bytes if and only if 4 bytes
remain.  For the address `0x70000000`, the value `0x1234ABCD` and 128 bytes the
request holds one fill micro-op of 128 bytes with the value
`0x1234ABCD1234ABCD` in the address map 0. -/
theorem fill32_builds (addr value nb am : Nat) (ha : addr % 4 = 0) (hn : nb % 4 = 0) (hn0 : 0 < nb)
    (hn32 : nb < 2 ^ 32) (hv : value < 2 ^ 32) (hw : addr + nb ≤ 2 ^ 64) :
    fill32Trans addr value nb am =
        (if addr % 8 = 4 then [wrTrans addr 4 (bytesOfWord value) 0 am] else []) ++
        (if 0 < (nb - addr % 8) / 8 * 8 then
          [fillTrans (addr + addr % 8) ((nb - addr % 8) / 8 * 8) (bytesOfU64 (value * 2 ^ 32 + value)) 0 am]
          else []) ++
        (if addr % 8 + (nb - addr % 8) / 8 * 8 < nb then
          [wrTrans (addr + addr % 8 + (nb - addr % 8) / 8 * 8) 4 (bytesOfWord value) 0 am] else [])
    ∧ 1 ≤ (fill32Trans addr value nb am).length ∧ (fill32Trans addr value nb am).length ≤ 3
    ∧ Contig addr (fill32Trans addr value nb am) (addr + nb)
    ∧ (addr + addr % 8) % 8 = 0 ∧ (nb - addr % 8) / 8 * 8 % 8 = 0
    ∧ (addr % 8 + (nb - addr % 8) / 8 * 8 < nb → addr % 8 + (nb - addr % 8) / 8 * 8 + 4 = nb)
    ∧ fillValue (bytesOfU64 (value * 2 ^ 32 + value)) = value * 2 ^ 32 + value
    ∧ (rqPackets (rqOf (planRq 1 (newFromConInfo defaultConInfo) (fill32Trans 0x70000000 0x1234ABCD 128 0)))).map
          pktOps = [[⟨TAS_PL0_CMD_FILL, 0x70000000, 128, 0, 0, 0x70000000⟩]]
    ∧ (rqOf (planRq 1 (newFromConInfo defaultConInfo) (fill32Trans 0x70000000 0x1234ABCD 128 0))).rq
        = [36, pl0StartWord0, 0xFFC1 + 1 * 2 ^ 16, wordWlCmdU16 0 TAS_PL0_CMD_BASE_ADDR32 0x7000]
            ++ fillWords 0x70000000 128 0x1234ABCD1234ABCD ++ [wordWlCmdU16 0 TAS_PL1_CMD_PL0_END 1] := by
  have e := fill32Trans_eq addr value nb am ha hn hn0 hn32 hv hw
  have s := fill32_shape addr nb (fun a n => wrTrans a n (bytesOfWord value) 0 am)
    (fun a n => wrTrans a n (bytesOfWord value) 0 am)
    (fun a n => fillTrans a n (bytesOfU64 (value * 2 ^ 32 + value)) 0 am)
    (fun _ _ => ⟨rfl, rfl⟩) (fun _ _ => ⟨rfl, rfl⟩) (fun _ _ => ⟨rfl, rfl⟩) ha hn hn0 _ e
  refine ⟨e, s.1, s.2.1, s.2.2, by omega, by omega, by omega, fillValue_bytesOfU64 _ ?_, by decide, by decide⟩
  have : value * 2 ^ 32 + value < 2 ^ 32 * 2 ^ 32 := by nlinarith
  simpa using this

/-- Witness of C16: `fill32` of 20 bytes at `0x70000004` builds a write, a fill
of 16 bytes and no further write. -/
theorem fill32_builds_witness :
    (fill32Trans 0x70000004 0x1234ABCD 20 0).map opView
        = [(TAS_RW_TT_WR, 0x70000004, 4), (TAS_RW_TT_FILL, 0x70000008, 16)]
    ∧ Contig 0x70000004 (fill32Trans 0x70000004 0x1234ABCD 20 0) (0x70000004 + 20) :=
  ⟨by decide,
   (fill32_builds 0x70000004 0x1234ABCD 20 0 (by decide) (by decide) (by decide) (by decide) (by decide)
      (by decide)).2.2.2.1⟩

/-- C20: when `set_pkt_rsp_ping` accepts a response, the connection info it
stores is the one carried by the packet except for `device_id_hash` and
`device_id_hash_str`: if all 16 bytes of `device_id` are zero, the hash is 0 and
the string is `NoUid`; otherwise the hash is `tasutil_crc32` of the 16 bytes of
`device_id` and the string is what `tasutil_hash32_to_str` makes of that hash. -/
theorem set_pkt_rsp_ping_stores (b : CTasPktHandlerBase) (cmd client_type : Nat) (pkt_rsp : List Nat)
    (hacc : (set_pkt_rsp_ping b cmd client_type pkt_rsp).1 = TAS_ERR_NONE) :
    (set_pkt_rsp_ping b cmd client_type pkt_rsp).2.mConInfo =
        { conInfoAt pkt_rsp 3 with
          device_id_hash := (set_pkt_rsp_ping b cmd client_type pkt_rsp).2.mConInfo.device_id_hash
          device_id_hash_str := (set_pkt_rsp_ping b cmd client_type pkt_rsp).2.mConInfo.device_id_hash_str }
    ∧ ((∀ x ∈ deviceIdBytes (conInfoAt pkt_rsp 3), x = 0) →
        (set_pkt_rsp_ping b cmd client_type pkt_rsp).2.mConInfo.device_id_hash = 0
        ∧ cstr (set_pkt_rsp_ping b cmd client_type pkt_rsp).2.mConInfo.device_id_hash_str
            = [78, 111, 85, 105, 100])
    ∧ (¬ (∀ x ∈ deviceIdBytes (conInfoAt pkt_rsp 3), x = 0) →
        (set_pkt_rsp_ping b cmd client_type pkt_rsp).2.mConInfo.device_id_hash
            = tasutil_crc32 (deviceIdBytes (conInfoAt pkt_rsp 3)) 16
        ∧ (set_pkt_rsp_ping b cmd client_type pkt_rsp).2.mConInfo.device_id_hash_str
            = tasutil_hash32_to_str (tasutil_crc32 (deviceIdBytes (conInfoAt pkt_rsp 3)) 16)
                (conInfoAt pkt_rsp 3).device_id_hash_str) := by
  rw [(set_pkt_rsp_ping_spec b cmd client_type pkt_rsp).2 hacc]
  generalize conInfoAt pkt_rsp 3 = ci
  unfold withDeviceIdHash
  by_cases hz : (deviceIdBytes ci).all (fun x => x == 0) = true
  · have hall : ∀ x ∈ deviceIdBytes ci, x = 0 := by
      intro x hx
      have := List.all_eq_true.mp hz x hx
      simpa using this
    rw [if_pos hz]
    exact ⟨rfl, fun _ => ⟨rfl, rfl⟩, fun hn => absurd hall hn⟩
  · have hall : ¬ ∀ x ∈ deviceIdBytes ci, x = 0 := by
      intro hc
      apply hz
      rw [List.all_eq_true]
      intro x hx
      simpa using hc x hx
    rw [if_neg hz]
    exact ⟨rfl, fun hn => absurd hn hall, fun _ => ⟨rfl, rfl⟩⟩

/-- Witness of C20: a response with the device id words 1, 2, 3, 4 is accepted;
the stored hash is the CRC of the 16 bytes and the string has six characters. -/
theorem set_pkt_rsp_ping_stores_witness :
    (set_pkt_rsp_ping default TAS_PL1_CMD_PING TAS_CLIENT_TYPE_RW
        (pingRspOf TAS_PL1_CMD_PING TAS_PL_ERR_NO_ERROR [1, 2, 3, 4])).1 = TAS_ERR_NONE
    ∧ (set_pkt_rsp_ping default TAS_PL1_CMD_PING TAS_CLIENT_TYPE_RW
        (pingRspOf TAS_PL1_CMD_PING TAS_PL_ERR_NO_ERROR [1, 2, 3, 4])).2.mConInfo.device_id_hash
          = tasutil_crc32 (deviceIdBytes (conInfoAt (pingRspOf TAS_PL1_CMD_PING TAS_PL_ERR_NO_ERROR [1, 2, 3, 4]) 3)) 16 :=
  ⟨by decide,
   ((set_pkt_rsp_ping_stores default TAS_PL1_CMD_PING TAS_CLIENT_TYPE_RW
      (pingRspOf TAS_PL1_CMD_PING TAS_PL_ERR_NO_ERROR [1, 2, 3, 4]) (by decide)).2.2 (by decide)).1⟩

/-- C17: on a fresh plan of a handler with the default limits, a read of 1 byte
at an odd address is planned (the planner returns) and the request holds exactly
one micro-op, an rd8 of that byte; a read of 1024 bytes at an address that is a
multiple of 8 is planned and the request holds exactly one micro-op, an rdblk of
1024 bytes whose word count field is 0. -/
theorem default_plan_single_read (fuel : Nat) (h0 : CTasPktHandlerRw) (addr d acc am : Nat)
    (hd : DefaultLimits h0) (hrw : h0.mConInfo.pl0_max_num_rw < 2 ^ 8) (ha : addr < 2 ^ 64)
    (hacc : acc < 2 ^ 16) (hal : aliasMap am ≤ TAS_AM15) (ham : am < 2 ^ 8) :
    (addr % 2 = 1 →
      (planRq fuel h0 [rdTrans addr 1 d acc am]).isSome = true
      ∧ ((rqPackets (rqOf (planRq fuel h0 [rdTrans addr 1 d acc am]))).map pktOps).flatten
          = [⟨TAS_PL0_CMD_RD8, addr, 1, aliasMap am, acc, addr &&& 0xFFFFFFFFFFFF0000⟩])
    ∧ (addr % 8 = 0 →
      (planRq (fuel + 1) h0 [rdTrans addr 1024 d acc am]).isSome = true
      ∧ ((rqPackets (rqOf (planRq (fuel + 1) h0 [rdTrans addr 1024 d acc am]))).map pktOps).flatten
          = [⟨TAS_PL0_CMD_RDBLK, addr, 1024, aliasMap am, acc, addr &&& 0xFFFFFFFFFFFF0000⟩]
      ∧ rdWords addr 1024 = [wordWlCmdU16 1 TAS_PL0_CMD_RDBLK (addr &&& 0xFFFF), 0]) := by
  have hlt : h0.mConInfo.pl0_max_num_rw < 2 ^ 32 := by omega
  constructor
  · intro hodd
    have hw : WellTyped (rdTrans addr 1 d acc am) := ⟨ha, (by decide : (1:Nat) < 2 ^ 32), hacc, ham⟩
    exact fresh_single_read fuel h0 addr 1 d acc am (by decide) hal hw hlt
      (default_limits_start hd 1 (by decide)).1 (fun h1 _ _ => rdSplit_byte fuel h1 addr d acc (aliasMap am) hodd)
  · intro h8
    have hw : WellTyped (rdTrans addr 1024 d acc am) := ⟨ha, (by decide : (1024:Nat) < 2 ^ 32), hacc, ham⟩
    have hs := default_limits_start hd 1024 (le_refl _)
    have key := fresh_single_read (fuel + 1) h0 addr 1024 d acc am (by decide) hal hw hlt hs.1
      (fun h1 hf hc => by
        have hr1 : Room 1024 h1 := Room_of_Static (Static_of_Caps hc) hs.2
        have hc1 : CapsSet h1 := CapsSet_of_Caps hc (CapsSet_rw_start h0)
        have hrem := remRsp_fresh hf hr1
        have hblk : mGetRdDataBlkSizeInPktRsp h1 1024 = 1024 :=
          rdBlk_full (by decide) (by omega) hr1.2.2.2.1 (caps_ge hc1 hr1 (le_refl _)).2
        exact rdSplit_block fuel h1 addr 1024 d acc (aliasMap am) h8 (by decide) (by decide) (by decide) hblk)
    exact ⟨key.1, key.2, rfl⟩

/-- Witness of C17: the handler of the default constructor arguments reads 1 byte
at `0x1001`, the handler of a connection with the default sizes 1024 bytes at `0x2000`. -/
theorem default_plan_single_read_witness :
    DefaultLimits defaultHandler
    ∧ (planRq 0 defaultHandler [rdTrans 0x1001 1 0 0 0]).isSome = true
    ∧ ((rqPackets (rqOf (planRq 0 defaultHandler [rdTrans 0x1001 1 0 0 0]))).map pktOps).flatten
        = [⟨TAS_PL0_CMD_RD8, 0x1001, 1, aliasMap 0, 0, 0x1001 &&& 0xFFFFFFFFFFFF0000⟩]
    ∧ (planRq 1 (newFromConInfo defaultConInfo) [rdTrans 0x2000 1024 0 0 0]).isSome = true
    ∧ ((rqPackets (rqOf (planRq 1 (newFromConInfo defaultConInfo) [rdTrans 0x2000 1024 0 0 0]))).map pktOps).flatten
        = [⟨TAS_PL0_CMD_RDBLK, 0x2000, 1024, aliasMap 0, 0, 0x2000 &&& 0xFFFFFFFFFFFF0000⟩] :=
  have a := (default_plan_single_read 0 defaultHandler 0x1001 0 0 0 (by decide) (by decide) (by decide)
    (by decide) (by decide) (by decide)).1 (by decide)
  have b := (default_plan_single_read 0 (newFromConInfo defaultConInfo) 0x2000 0 0 0 (by decide) (by decide)
    (by decide) (by decide) (by decide) (by decide)).2 (by decide)
  ⟨by decide, a.1, a.2, b.1, b.2.1⟩

/-- C13: the request handed out by `rw_get_rq` after a list was planned, when
it lies inside the request buffer and the tables of the handler (`InArrays`,
whose first condition is the assertion of `rw_get_rq_size`), is `num_pl2_pkt`
PL2 packets laid end to end: cutting it along the length words
from word 0 gives `num_pl2_pkt` packets that make up the whole request, and
their length words add up to `rq_num_bytes`; each packet is its length word
(the number of its bytes), the two words of the pl0-start, PL0 packets that
decode to its micro-ops, and the word of the pl0-end as the last word; and
`rq_num_bytes` and `rsp_num_bytes_max` are the values `rw_get_rq_size()` and
`rw_get_rsp_size()` have in the state `rw_set_trans` left. -/
theorem request_is_packets_end_to_end (fuel : Nat) (h : CTasPktHandlerRw) (trans : List tas_rw_trans_st)
    (hw : ∀ t ∈ trans, WellTyped t) (hlt : h.mConInfo.pl0_max_num_rw < 2 ^ 32)
    (hs : (planRq fuel h trans).isSome = true)
    (hlen : 4 * (rqOf (planRq fuel h trans)).rq.length < 2 ^ 32)
    (_hfit : InArrays (handlerOf (planRq fuel h trans))) :
    (rqPackets (rqOf (planRq fuel h trans))).length = (rqOf (planRq fuel h trans)).num_pl2_pkt
    ∧ (rqPackets (rqOf (planRq fuel h trans))).flatten = (rqOf (planRq fuel h trans)).rq
    ∧ ((rqPackets (rqOf (planRq fuel h trans))).map pktLength).sum = (rqOf (planRq fuel h trans)).rq_num_bytes
    ∧ (rqOf (planRq fuel h trans)).rq_num_bytes = 4 * (rqOf (planRq fuel h trans)).rq.length
    ∧ (∀ p ∈ rqPackets (rqOf (planRq fuel h trans)), pktLength p = 4 * p.length ∧ ∃ w2 body n st,
          p = [pktLength p, pl0StartWord0, w2] ++ body ++ [wordWlCmdU16 0 TAS_PL1_CMD_PL0_END n]
          ∧ ∀ rest, dec (body ++ rest) decStart = pktOps p ++ dec rest st)
    ∧ (rqOf (planRq fuel h trans)).rq_num_bytes = rw_get_rq_size (stateOf (rw_set_trans fuel h trans))
    ∧ (rqOf (planRq fuel h trans)).rsp_num_bytes_max
        = rw_get_rsp_size (stateOf (rw_set_trans fuel h trans)) := by
  obtain ⟨hok, _, hfl, _, _⟩ := planRq_spec hw hlt hlen (planRq_some hs)
  obtain ⟨l1, l2, l3, h1, hr, l4, l5, _⟩ := planRq_layout hw hlt hlen (planRq_some hs)
  have hst : stateOf (rw_set_trans fuel h trans) = h1 := by rw [hr]; rfl
  refine ⟨l1, hfl, ?_, l2, ?_, by rw [hst]; exact l4, by rw [hst]; exact l5⟩
  · rw [sum_pktLength _ l3, hfl, l2]
  · intro p hp
    refine ⟨l3 p hp, ?_⟩
    obtain ⟨w2, body, n, st, e, d⟩ := (hok p hp).shape
    refine ⟨w2, body, n, st, ?_, d⟩
    rw [l3 p hp]
    have hu : u32 (4 * p.length) = 4 * p.length := by
      have := l3 p hp
      unfold pktLength at this
      rw [(hok p hp).word] at this
      exact this
    rw [hu] at e
    exact e

/-- Witness of C13: reads in the address maps 1 and 132 and a write in the
address map 1 are planned as three PL2 packets of 24, 24 and 28 bytes. -/
theorem request_is_packets_end_to_end_witness :
    (rqOf (planRq 0 (newFromConInfo defaultConInfo)
        [rdTrans 0x1000 4 0x1000 0 1, rdTrans 0x2000 4 0x1004 0 132, wrTrans 0x3000 4 [1, 2, 3, 4] 0 1])).num_pl2_pkt = 3
    ∧ (rqPackets (rqOf (planRq 0 (newFromConInfo defaultConInfo)
        [rdTrans 0x1000 4 0x1000 0 1, rdTrans 0x2000 4 0x1004 0 132, wrTrans 0x3000 4 [1, 2, 3, 4] 0 1]))).map pktLength
        = [24, 24, 28]
    ∧ (rqPackets (rqOf (planRq 0 (newFromConInfo defaultConInfo)
        [rdTrans 0x1000 4 0x1000 0 1, rdTrans 0x2000 4 0x1004 0 132, wrTrans 0x3000 4 [1, 2, 3, 4] 0 1]))).length
      = (rqOf (planRq 0 (newFromConInfo defaultConInfo)
        [rdTrans 0x1000 4 0x1000 0 1, rdTrans 0x2000 4 0x1004 0 132, wrTrans 0x3000 4 [1, 2, 3, 4] 0 1])).num_pl2_pkt :=
  ⟨by decide, by decide, (request_is_packets_end_to_end 0 (newFromConInfo defaultConInfo)
    [rdTrans 0x1000 4 0x1000 0 1, rdTrans 0x2000 4 0x1004 0 132, wrTrans 0x3000 4 [1, 2, 3, 4] 0 1]
    (by decide) (by decide) (by decide) (by decide) (by decide)).1⟩

/-- C12: the PL2 packets of a planned request that lies inside the request
buffer and the tables of the handler (`InArrays`) carry consecutive PL1 counts
modulo `2^16`, the first being one more than the last count used before; and
for a response in which `rw_set_rsp` reads planned entries of `mPl0Trans` only
(`ReadsPlanned`), when the `i`-th pl0-end that `rw_set_rsp` reads does not
carry the count of the `i`-th packet of the request, `rw_set_rsp` returns
`TAS_ERR_SERVER_CON` (so a return of `TAS_ERR_NONE` means that every pl0-end
read carried the count expected). -/
theorem pl1_cnt_consecutive_and_checked (fuel : Nat) (h : CTasPktHandlerRw) (trans : List tas_rw_trans_st)
    (hm : Nat → Nat) (rsp : List Nat) (num_bytes : Nat)
    (hw : ∀ t ∈ trans, WellTyped t) (hlt : h.mConInfo.pl0_max_num_rw < 2 ^ 32)
    (hs : (planRq fuel h trans).isSome = true)
    (hlen : 4 * (rqOf (planRq fuel h trans)).rq.length < 2 ^ 32)
    (_hfit : InArrays (handlerOf (planRq fuel h trans)))
    (_hpl : ReadsPlanned (handlerOf (planRq fuel h trans)) hm rsp num_bytes) :
    (∀ j p, (rqPackets (rqOf (planRq fuel h trans))).get? j = some p →
        pktPl1Cnt p = u16 (h.mPl1CntOutstandingLast + 1 + j))
    ∧ (∀ i c, (pl0Ends (handlerOf (planRq fuel h trans)) hm rsp num_bytes).get? i = some c →
        (hi16 (rspWord rsp c.wi) ≠ u16 (h.mPl1CntOutstandingLast + 1 + i) →
          (rw_set_rsp (handlerOf (planRq fuel h trans)) hm rsp num_bytes).1 = TAS_ERR_SERVER_CON)
        ∧ ((rw_set_rsp (handlerOf (planRq fuel h trans)) hm rsp num_bytes).1 = TAS_ERR_NONE →
          hi16 (rspWord rsp c.wi) = u16 (h.mPl1CntOutstandingLast + 1 + i)))
    ∧ (∀ i c p, (pl0Ends (handlerOf (planRq fuel h trans)) hm rsp num_bytes).get? i = some c →
        (rqPackets (rqOf (planRq fuel h trans))).get? i = some p →
        hi16 (rspWord rsp c.wi) ≠ pktPl1Cnt p →
          (rw_set_rsp (handlerOf (planRq fuel h trans)) hm rsp num_bytes).1 = TAS_ERR_SERVER_CON) := by
  obtain ⟨h', o, hplan⟩ : ∃ h' o, planRq fuel h trans = some (h', o) := by
    cases hr : planRq fuel h trans with
    | none => rw [hr] at hs; exact absurd hs (by decide)
    | some r => exact ⟨r.1, r.2, rfl⟩
  rw [hplan] at hlen ⊢
  change 4 * o.rq.length < 2 ^ 32 at hlen
  show (∀ j p, (rqPackets o).get? j = some p → _) ∧ (∀ i c, (pl0Ends h' hm rsp num_bytes).get? i = some c → _)
    ∧ (∀ i c p, (pl0Ends h' hm rsp num_bytes).get? i = some c → (rqPackets o).get? i = some p → _)
  obtain ⟨_, _, _, h1, _, _, _, hold, hcnts⟩ := planRq_layout hw hlt hlen hplan
  have hA : ∀ j p, (rqPackets o).get? j = some p → pktPl1Cnt p = u16 (h.mPl1CntOutstandingLast + 1 + j) := by
    intro j p hj
    rw [hcnts j p hj, hold]; unfold u16; omega
  have hB : ∀ i c, (pl0Ends h' hm rsp num_bytes).get? i = some c →
      (hi16 (rspWord rsp c.wi) ≠ u16 (h.mPl1CntOutstandingLast + 1 + i) →
        (rw_set_rsp h' hm rsp num_bytes).1 = TAS_ERR_SERVER_CON)
      ∧ ((rw_set_rsp h' hm rsp num_bytes).1 = TAS_ERR_NONE →
        hi16 (rspWord rsp c.wi) = u16 (h.mPl1CntOutstandingLast + 1 + i)) := by
    intro i c hi
    by_cases hc : num_bytes < 8 ∨ num_bytes % 4 ≠ 0 ∨ num_bytes > h'.mRspSize
    · unfold pl0Ends at hi
      rw [rspIters_nil hc] at hi
      simp at hi
    · obtain ⟨e1, e2⟩ := rw_set_rsp_loop h' hm rsp num_bytes hc
      unfold pl0Ends at hi
      rw [e2] at hi
      have h16 : (rspCursor0 h' hm).h.mPl1CntOutstandingOldest < 2 ^ 16 := by
        show h'.mPl1CntOutstandingOldest < 2 ^ 16
        rw [hold]; unfold u16; omega
      obtain ⟨k1, k2, k3⟩ := ends_run rsp (num_bytes / 4) (num_bytes / 4) (rspCursor0 h' hm) i c h16 hi
      have e3 : (rspCursor0 h' hm).h.mPl1CntOutstandingOldest = h'.mPl1CntOutstandingOldest := rfl
      rw [e3, hold] at k1
      have e4 : c.h.mPl1CntOutstandingOldest = u16 (h.mPl1CntOutstandingLast + 1 + i) := by
        rw [k1]; unfold u16; omega
      rw [e4] at k2 k3
      rw [e1]
      exact ⟨k2, k3⟩
  refine ⟨hA, hB, ?_⟩
  intro i c p hi hp hne
  rw [hA i p hp] at hne
  exact (hB i c hi).1 hne

/-- Witness of C12: two reads in the address maps 1 and 132 are planned as two
PL2 packets with the counts 0xFFC1 and 0xFFC2 after 0xFFC0 was the last count
used, and with the counts 0xFFFF and 0 after 0xFFFE; a response whose second
pl0-end carries 0xFFC1 instead of 0xFFC2 is refused with `TAS_ERR_SERVER_CON`,
the one with the count 0xFFC2 is accepted. -/
theorem pl1_cnt_consecutive_and_checked_witness :
    (newFromConInfo defaultConInfo).mPl1CntOutstandingLast = 0xFFC0
    ∧ (rqPackets (rqOf (planRq 0 (newFromConInfo defaultConInfo)
        [rdTrans 0x1000 4 0x1000 0 1, rdTrans 0x2000 4 0x1004 0 132]))).map pktPl1Cnt = [0xFFC1, 0xFFC2]
    ∧ (rqPackets (rqOf (planRq 0 { newFromConInfo defaultConInfo with mPl1CntOutstandingLast := 0xFFFE }
        [rdTrans 0x1000 4 0x1000 0 1, rdTrans 0x2000 4 0x1004 0 132]))).map pktPl1Cnt = [0xFFFF, 0]
    ∧ (rw_set_rsp (handlerOf (planRq 0 (newFromConInfo defaultConInfo)
        [rdTrans 0x1000 4 0x1000 0 1, rdTrans 0x2000 4 0x1004 0 132])) (fun _ => 0)
        [20, 0x0800B000, 0x80012501, 0, 0xFFC1B100, 20, 0x0800B000, 0x80012501, 0, 0xFFC2B100] 40).1 = TAS_ERR_NONE
    ∧ (rw_set_rsp (handlerOf (planRq 0 (newFromConInfo defaultConInfo)
        [rdTrans 0x1000 4 0x1000 0 1, rdTrans 0x2000 4 0x1004 0 132])) (fun _ => 0)
        [20, 0x0800B000, 0x80012501, 0, 0xFFC1B100, 20, 0x0800B000, 0x80012501, 0, 0xFFC1B100] 40).1
        = TAS_ERR_SERVER_CON
    ∧ (∀ j p, (rqPackets (rqOf (planRq 0 (newFromConInfo defaultConInfo)
        [rdTrans 0x1000 4 0x1000 0 1, rdTrans 0x2000 4 0x1004 0 132]))).get? j = some p →
        pktPl1Cnt p = u16 ((newFromConInfo defaultConInfo).mPl1CntOutstandingLast + 1 + j)) :=
  ⟨by decide, by decide, by decide, by decide, by decide,
    (pl1_cnt_consecutive_and_checked 0 (newFromConInfo defaultConInfo)
      [rdTrans 0x1000 4 0x1000 0 1, rdTrans 0x2000 4 0x1004 0 132] (fun _ => 0)
      [20, 0x0800B000, 0x80012501, 0, 0xFFC1B100, 20, 0x0800B000, 0x80012501, 0, 0xFFC1B100] 40
      (by decide) (by decide) (by decide) (by decide) (by decide) (by decide)).1⟩

/-- C11 (the code at the failing input): with negotiated PL2 packet sizes of 128
bytes a read of 64 bytes at `0x1000` followed by a read of 24 bytes at `0x1040` is
accepted; `rw_get_rq_size()` is 48 and `rw_get_rsp_size()` is 120, both at most
128, and `rw_get_rq` hands out two PL2 packets of 24 bytes with one read each. -/
theorem two_packets_although_sizes_fit :
    (planRq 2 (newFromConInfo minConInfo)
      [rdTrans 0x1000 64 0x100 0 0, rdTrans 0x1040 24 0x140 0 0]).isSome = true
    ∧ minConInfo.max_pl2rq_pkt_size = 128 ∧ minConInfo.max_pl2rsp_pkt_size = 128
    ∧ rw_get_rq_size (stateOf (rw_set_trans 2 (newFromConInfo minConInfo)
        [rdTrans 0x1000 64 0x100 0 0, rdTrans 0x1040 24 0x140 0 0])) = 48
    ∧ rw_get_rsp_size (stateOf (rw_set_trans 2 (newFromConInfo minConInfo)
        [rdTrans 0x1000 64 0x100 0 0, rdTrans 0x1040 24 0x140 0 0])) = 120
    ∧ (rqOf (planRq 2 (newFromConInfo minConInfo)
        [rdTrans 0x1000 64 0x100 0 0, rdTrans 0x1040 24 0x140 0 0])).num_pl2_pkt = 2
    ∧ (rqPackets (rqOf (planRq 2 (newFromConInfo minConInfo)
        [rdTrans 0x1000 64 0x100 0 0, rdTrans 0x1040 24 0x140 0 0]))).map pktLength = [24, 24]
    ∧ (rqPackets (rqOf (planRq 2 (newFromConInfo minConInfo)
        [rdTrans 0x1000 64 0x100 0 0, rdTrans 0x1040 24 0x140 0 0]))).map pktOps
      = [[⟨TAS_PL0_CMD_RDBLK, 0x1000, 64, 0, 0, 0⟩], [⟨TAS_PL0_CMD_RDBLK, 0x1040, 24, 0, 0, 0⟩]] := by
  refine ⟨?_, ?_, ?_, ?_, ?_, ?_, ?_, ?_⟩ <;> decide

/-- C14 (as stated, refuted): two reads in the address maps 1 and 132 are
planned as two envelopes.  In a response whose first pl0-start reports
`TAS_PL1_ERR_DEV_ACCESS`, `rw_set_rsp` returns at the first envelope; when
the second pl0-start, which carries `TAS_PL_ERR_NO_ERROR`, reports a device reset
instead, the device reset count stays 0.  And in a response that answers a
planned read of 1024 bytes with an rdblk header with `wl = 0` the 1024 bytes copied
take in the pl0-start of the next envelope: with a device reset reported there,
`rw_set_rsp` returns `TAS_ERR_NONE` for both responses, and byte 11 of the data
read differs. -/
theorem device_reset_claim_fails :
    byte3 (rspWord [20, 0x4800B000, 0x80012501, 0, 0xFFC1B100, 20, 0x0800B000, 0x80012501, 0, 0xFFC2B100] 6)
      = TAS_PL_ERR_NO_ERROR
    ∧ resetAt [20, 0x4800B000, 0x80012501, 0, 0xFFC1B100, 20, 0x0800B000, 0x80012501, 0, 0xFFC2B100] [5]
      = [20, 0x4800B000, 0x80012501, 0, 0xFFC1B100, 20, 0x4400B000, 0x80012501, 0, 0xFFC2B100]
    ∧ (rw_set_rsp (handlerOf (planRq 0 (newFromConInfo defaultConInfo)
          [rdTrans 0x1000 4 0x1000 0 1, rdTrans 0x2000 4 0x1004 0 132])) (fun _ => 0)
        [20, 0x4800B000, 0x80012501, 0, 0xFFC1B100, 20, 0x0800B000, 0x80012501, 0, 0xFFC2B100] 40).2.1.mDeviceResetCount
      = 0
    ∧ (rw_set_rsp (handlerOf (planRq 0 (newFromConInfo defaultConInfo)
          [rdTrans 0x1000 4 0x1000 0 1, rdTrans 0x2000 4 0x1004 0 132])) (fun _ => 0)
        [20, 0x4800B000, 0x80012501, 0, 0xFFC1B100, 20, 0x4400B000, 0x80012501, 0, 0xFFC2B100] 40).2.1.mDeviceResetCount
      = 0
    ∧ (rw_set_rsp (handlerOf (planRq 0 (newFromConInfo defaultConInfo)
          [rdTrans 0x1000 4 0x1000 0 1, rdTrans 0x2000 4 0x1004 0 132])) (fun _ => 0)
        [20, 0x4800B000, 0x80012501, 0, 0xFFC1B100, 20, 0x4400B000, 0x80012501, 0, 0xFFC2B100] 40).1
      = TAS_ERR_DEVICE_ACCESS
    ∧ resetAt [16, 0x0800B000, 0x80002C00, 0xFFC1B100, 20, 0x0800B000, 0x80012501, 0x11223344, 0xFFC2B100] [4]
      = [16, 0x0800B000, 0x80002C00, 0xFFC1B100, 20, 0x4400B000, 0x80012501, 0x11223344, 0xFFC2B100]
    ∧ (rw_set_rsp (handlerOf (planRq 1 (newFromConInfo defaultConInfo)
          [rdTrans 0x1000 1024 0x1000 0 1, rdTrans 0x2000 4 0x2000 0 132])) (fun _ => 0)
        [16, 0x0800B000, 0x80002C00, 0xFFC1B100, 20, 0x0800B000, 0x80012501, 0x11223344, 0xFFC2B100] 36).1
      = TAS_ERR_NONE
    ∧ (rw_set_rsp (handlerOf (planRq 1 (newFromConInfo defaultConInfo)
          [rdTrans 0x1000 1024 0x1000 0 1, rdTrans 0x2000 4 0x2000 0 132])) (fun _ => 0)
        [16, 0x0800B000, 0x80002C00, 0xFFC1B100, 20, 0x4400B000, 0x80012501, 0x11223344, 0xFFC2B100] 36).1
      = TAS_ERR_NONE
    ∧ (rw_set_rsp (handlerOf (planRq 1 (newFromConInfo defaultConInfo)
          [rdTrans 0x1000 1024 0x1000 0 1, rdTrans 0x2000 4 0x2000 0 132])) (fun _ => 0)
        [16, 0x0800B000, 0x80002C00, 0xFFC1B100, 20, 0x0800B000, 0x80012501, 0x11223344, 0xFFC2B100] 36).2.2
          (0x1000 + 11) = 0x08
    ∧ (rw_set_rsp (handlerOf (planRq 1 (newFromConInfo defaultConInfo)
          [rdTrans 0x1000 1024 0x1000 0 1, rdTrans 0x2000 4 0x2000 0 132])) (fun _ => 0)
        [16, 0x0800B000, 0x80002C00, 0xFFC1B100, 20, 0x4400B000, 0x80012501, 0x11223344, 0xFFC2B100] 36).2.2
          (0x1000 + 11) = 0x44 := by
  refine ⟨?_, ?_, ?_, ?_, ?_, ?_, ?_, ?_, ?_, ?_⟩ <;> decide

/-- C14 (amended): let `S` be distinct envelopes of a response whose pl0-start
`rw_set_rsp` reaches and accepts with the code `TAS_PL_ERR_NO_ERROR`, in a
response in which every read answered without error and not as rdblk1kb comes
with data words, the planned micro-ops having at most 1024 bytes.  For the
response in which the pl0-starts of `S` report `TAS_PL1_ERR_DEV_RESET` instead,
`rw_set_rsp` returns the same value and leaves the same handler state (with it
the same results per micro-op) and the same host memory, but for the device
reset count, which is higher by the number of envelopes in `S` (modulo `2^32`). -/
theorem device_reset_only_counted (h : CTasPktHandlerRw) (hm : Nat → Nat) (rsp : List Nat) (num_bytes : Nat)
    (S : List Nat) (hcnt : h.mDeviceResetCount < 2 ^ 32) (hnd : S.Nodup)
    (hS : ∀ s ∈ S, s ∈ startsAccepted h hm rsp num_bytes)
    (hsz : ∀ pt ∈ h.mPl0Trans, pt.num_bytes ≤ 1024)
    (hrd : RdAnswersSized h hm rsp num_bytes) :
    rw_set_rsp h hm (resetAt rsp S) num_bytes
      = ((rw_set_rsp h hm rsp num_bytes).1, addResets S.length (rw_set_rsp h hm rsp num_bytes).2.1,
         (rw_set_rsp h hm rsp num_bytes).2.2) :=
  rw_set_rsp_resetAt h hm rsp num_bytes S hcnt hnd hS hsz hrd

/-- Witness of C14: both envelopes of the response to two reads report a device
reset; the reads are answered as before and two device resets are counted. -/
theorem device_reset_only_counted_witness :
    startsAccepted (handlerOf (planRq 0 (newFromConInfo defaultConInfo)
        [rdTrans 0x1000 4 0x1000 0 1, rdTrans 0x2000 4 0x1004 0 132])) (fun _ => 0)
      [20, 0x0800B000, 0x80012501, 0, 0xFFC1B100, 20, 0x0800B000, 0x80012501, 0, 0xFFC2B100] 40 = [0, 5]
    ∧ resetAt [20, 0x0800B000, 0x80012501, 0, 0xFFC1B100, 20, 0x0800B000, 0x80012501, 0, 0xFFC2B100] [0, 5]
      = [20, 0x4400B000, 0x80012501, 0, 0xFFC1B100, 20, 0x4400B000, 0x80012501, 0, 0xFFC2B100]
    ∧ (rw_set_rsp (handlerOf (planRq 0 (newFromConInfo defaultConInfo)
        [rdTrans 0x1000 4 0x1000 0 1, rdTrans 0x2000 4 0x1004 0 132])) (fun _ => 0)
      [20, 0x0800B000, 0x80012501, 0, 0xFFC1B100, 20, 0x0800B000, 0x80012501, 0, 0xFFC2B100] 40).1 = TAS_ERR_NONE
    ∧ rw_set_rsp (handlerOf (planRq 0 (newFromConInfo defaultConInfo)
        [rdTrans 0x1000 4 0x1000 0 1, rdTrans 0x2000 4 0x1004 0 132])) (fun _ => 0)
      (resetAt [20, 0x0800B000, 0x80012501, 0, 0xFFC1B100, 20, 0x0800B000, 0x80012501, 0, 0xFFC2B100] [0, 5]) 40
      = ((rw_set_rsp (handlerOf (planRq 0 (newFromConInfo defaultConInfo)
            [rdTrans 0x1000 4 0x1000 0 1, rdTrans 0x2000 4 0x1004 0 132])) (fun _ => 0)
          [20, 0x0800B000, 0x80012501, 0, 0xFFC1B100, 20, 0x0800B000, 0x80012501, 0, 0xFFC2B100] 40).1,
        addResets 2 (rw_set_rsp (handlerOf (planRq 0 (newFromConInfo defaultConInfo)
            [rdTrans 0x1000 4 0x1000 0 1, rdTrans 0x2000 4 0x1004 0 132])) (fun _ => 0)
          [20, 0x0800B000, 0x80012501, 0, 0xFFC1B100, 20, 0x0800B000, 0x80012501, 0, 0xFFC2B100] 40).2.1,
        (rw_set_rsp (handlerOf (planRq 0 (newFromConInfo defaultConInfo)
            [rdTrans 0x1000 4 0x1000 0 1, rdTrans 0x2000 4 0x1004 0 132])) (fun _ => 0)
          [20, 0x0800B000, 0x80012501, 0, 0xFFC1B100, 20, 0x0800B000, 0x80012501, 0, 0xFFC2B100] 40).2.2) :=
  ⟨by decide, by decide, by decide,
    device_reset_only_counted (handlerOf (planRq 0 (newFromConInfo defaultConInfo)
        [rdTrans 0x1000 4 0x1000 0 1, rdTrans 0x2000 4 0x1004 0 132])) (fun _ => 0)
      [20, 0x0800B000, 0x80012501, 0, 0xFFC1B100, 20, 0x0800B000, 0x80012501, 0, 0xFFC2B100] 40 [0, 5]
      (by decide) (by decide) (by decide) (by decide) (by decide)⟩

/-- C2 (as stated, refuted): two reads of 4 bytes, at `0x1000` and at `0x2000`,
have the same destination buffer at `0x100`.  The response answers both without
error, the first with the data word `0x11111111`, the second with `0x22222222`;
`rw_set_rsp` returns `TAS_ERR_NONE`, and the buffer of the first read holds
`0x22` at offset 0, not the byte `0x11` returned for its address. -/
theorem read_buffers_overlap :
    (planRq 0 (newFromConInfo defaultConInfo)
      [rdTrans 0x1000 4 0x100 0 0, rdTrans 0x2000 4 0x100 0 0]).isSome = true
    ∧ serverRsp (fun j _ => if j = 0 then 0x11111111 else 0x22222222)
        (rqOf (planRq 0 (newFromConInfo defaultConInfo)
          [rdTrans 0x1000 4 0x100 0 0, rdTrans 0x2000 4 0x100 0 0]))
      = [28, 0x0800B000, 0x80012501, 0x11111111, 0x80012501, 0x22222222, 0xFFC1B100]
    ∧ (setRsp (planRq 0 (newFromConInfo defaultConInfo)
          [rdTrans 0x1000 4 0x100 0 0, rdTrans 0x2000 4 0x100 0 0]) (fun _ => 0)
        [28, 0x0800B000, 0x80012501, 0x11111111, 0x80012501, 0x22222222, 0xFFC1B100]).1 = TAS_ERR_NONE
    ∧ (setRsp (planRq 0 (newFromConInfo defaultConInfo)
          [rdTrans 0x1000 4 0x100 0 0, rdTrans 0x2000 4 0x100 0 0]) (fun _ => 0)
        [28, 0x0800B000, 0x80012501, 0x11111111, 0x80012501, 0x22222222, 0xFFC1B100]).2 0x100 = 0x22 := by
  refine ⟨?_, ?_, ?_, ?_⟩ <;> decide

/-- C2 (amended): for an accepted list of transactions whose planned request
lies inside the request buffer and the tables of the handler (`InArrays`) and
whose read destination buffers do not overlap pairwise, and for every response
that answers each planned micro-op without error and with its planned word count (a read of 1024
bytes as rdblk1kb), whatever the data words are, `rw_set_rsp` returns
`TAS_ERR_NONE`; every byte `i` of every read transaction lies in one planned
micro-op of it, which starts at offset `off` of the transaction, and the
destination buffer then holds at offset `i` the data byte `i - off` of the answer
to this micro-op, the byte returned for the address `addr + i`; and outside the
destination buffers of the reads the host memory is as before. -/
theorem read_data_lands_in_buffers (fuel : Nat) (h : CTasPktHandlerRw) (trans : List tas_rw_trans_st)
    (data : Nat → Nat → Nat) (hm : Nat → Nat)
    (hw : ∀ t ∈ trans, WellTyped t) (hlt : h.mConInfo.pl0_max_num_rw < 2 ^ 32)
    (hlim : h.mMaxRspSize < 2 ^ 32) (h1040 : 1040 ≤ h.mMaxRspSize)
    (hs : (planRq fuel h trans).isSome = true)
    (hlen : 4 * (rqOf (planRq fuel h trans)).rq.length < 2 ^ 32)
    (hrlen : 4 * (serverRsp data (rqOf (planRq fuel h trans))).length < 2 ^ 32)
    (hdis : trans.Pairwise DestDisjoint)
    (_hfit : InArrays (handlerOf (planRq fuel h trans))) :
    (setRsp (planRq fuel h trans) hm (serverRsp data (rqOf (planRq fuel h trans)))).1 = TAS_ERR_NONE
    ∧ (∀ t ∈ trans, t.type = TAS_RW_TT_RD → ∀ i, i < t.num_bytes →
        ∃ n off k, (handlerOf (planRq fuel h trans)).mPl0Trans.get? n = some (opOf t off k)
          ∧ off ≤ i ∧ i < off + k
          ∧ (setRsp (planRq fuel h trans) hm (serverRsp data (rqOf (planRq fuel h trans)))).2 (t.rdata + i)
              = byteOfData (data n) (i - off))
    ∧ (∀ p, (∀ t ∈ trans, ¬ (t.type = TAS_RW_TT_RD ∧ t.rdata ≤ p ∧ p < t.rdata + t.num_bytes)) →
        (setRsp (planRq fuel h trans) hm (serverRsp data (rqOf (planRq fuel h trans)))).2 p = hm p) := by
  obtain ⟨h', o, hplan⟩ : ∃ h' o, planRq fuel h trans = some (h', o) := by
    cases hr : planRq fuel h trans with
    | none => rw [hr] at hs; exact absurd hs (by decide)
    | some r => exact ⟨r.1, r.2, rfl⟩
  rw [hplan] at hlen hrlen ⊢
  change 4 * o.rq.length < 2 ^ 32 at hlen
  change 4 * (serverRsp data o).length < 2 ^ 32 at hrlen
  obtain ⟨r1, r2, hpl⟩ := rw_set_rsp_serverRsp data hm hw hlt hlim h1040 hlen hplan hrlen
  have hpw := planned_pairwise hpl hdis
  have e1 : (setRsp (some (h', o)) hm (serverRsp data o)).1
      = (rw_set_rsp h' hm (serverRsp data o) (4 * (serverRsp data o).length)).1 := rfl
  have e2 : (setRsp (some (h', o)) hm (serverRsp data o)).2
      = (rw_set_rsp h' hm (serverRsp data o) (4 * (serverRsp data o).length)).2.2 := rfl
  have e3 : handlerOf (some (h', o)) = h' := rfl
  have e4 : rqOf (some (h', o)) = o := rfl
  rw [e4, e1, e2, e3, r2]
  refine ⟨r1, ?_, ?_⟩
  · intro t ht hrd i hi
    obtain ⟨n, off, k, g1, g2, g3⟩ := planned_cover hpl t ht i hi
    refine ⟨n, off, k, g1, g2, g3, ?_⟩
    have hty : (opOf t off k).type = TAS_RW_TT_RD := by unfold opOf; rw [if_pos hrd]
    obtain ⟨_, a2, a3⟩ := opOf_rd t off k hty
    have hn : n < h'.mPl0Trans.length := (List.get?_eq_some.1 g1).1
    have hsplit : h'.mPl0Trans = h'.mPl0Trans.take n ++ opOf t off k :: h'.mPl0Trans.drop (n + 1) := by
      have h1 : h'.mPl0Trans.drop n = opOf t off k :: h'.mPl0Trans.drop (n + 1) := by
        rw [List.drop_eq_getElem_cons hn]
        congr 1
        have := (List.get?_eq_some.1 g1).2
        simpa using this
      rw [← h1, List.take_append_drop]
    have hlater : ∀ q ∈ h'.mPl0Trans.drop (n + 1), DestDisjoint (opOf t off k) q := by
      rw [hsplit] at hpw
      exact (List.pairwise_cons.1 (List.pairwise_append.1 hpw).2.1).1
    have key := hostWrite_last data hm h'.mPl0Trans n (opOf t off k) (i - off) g1 hty (by rw [a3]; omega)
      (fun q hq hc => by
        have hd := hlater q hq
        unfold DestDisjoint at hd
        rw [a2, a3] at hd
        rw [a2] at hc
        rcases hd with x | x | x | x
        · exact x hty
        · exact x hc.1
        · omega
        · omega)
    rw [a2] at key
    have e : t.rdata + off + (i - off) = t.rdata + i := by omega
    rw [e] at key
    exact key
  · intro p hp
    apply hostWrite_untouched
    intro pt hpt hc
    obtain ⟨t, ht, hown⟩ := planned_owner hpl pt hpt
    obtain ⟨b1, b2, b3⟩ := hown hc.1
    exact hp t ht ⟨b1, by omega, by omega⟩

/-- Witness of C2: a read of 7 bytes at `0x70000001` to the buffer at `0x100` and
a read of 4 bytes at `0x2000` to the buffer at `0x200`. -/
theorem read_data_lands_in_buffers_witness :
    [rdTrans 0x70000001 7 0x100 0 0, rdTrans 0x2000 4 0x200 0 0].Pairwise DestDisjoint
    ∧ (setRsp (planRq 0 (newFromConInfo defaultConInfo)
          [rdTrans 0x70000001 7 0x100 0 0, rdTrans 0x2000 4 0x200 0 0]) (fun _ => 0)
        (serverRsp (fun j k => 0x04030201 + 0x10101010 * j + 0x04040404 * k)
          (rqOf (planRq 0 (newFromConInfo defaultConInfo)
            [rdTrans 0x70000001 7 0x100 0 0, rdTrans 0x2000 4 0x200 0 0])))).1 = TAS_ERR_NONE
    ∧ ((List.range 8).map (fun i => (setRsp (planRq 0 (newFromConInfo defaultConInfo)
          [rdTrans 0x70000001 7 0x100 0 0, rdTrans 0x2000 4 0x200 0 0]) (fun _ => 0)
        (serverRsp (fun j k => 0x04030201 + 0x10101010 * j + 0x04040404 * k)
          (rqOf (planRq 0 (newFromConInfo defaultConInfo)
            [rdTrans 0x70000001 7 0x100 0 0, rdTrans 0x2000 4 0x200 0 0])))).2 (0x100 + i)))
        = [0x01, 0x11, 0x12, 0x21, 0x22, 0x23, 0x24, 0] :=
  ⟨by decide,
    (read_data_lands_in_buffers 0 (newFromConInfo defaultConInfo)
      [rdTrans 0x70000001 7 0x100 0 0, rdTrans 0x2000 4 0x200 0 0]
      (fun j k => 0x04030201 + 0x10101010 * j + 0x04040404 * k) (fun _ => 0)
      (by decide) (by decide) (by decide) (by decide) (by decide) (by decide) (by decide) (by decide)
      (by decide)).1,
    by decide⟩

/-! ## The CRC and the hash string of the device id (`tas_utils.h`, `tas_utils.cpp`) -/

/-- C22: for every sequence of bytes, `tasutil_crc32` over its first `n_bytes`
bytes is the Ethernet CRC-32 of these bytes: the reflected CRC computed bit by
bit with the polynomial `0xEDB88320`, the initial value `0xFFFFFFFF` and the
final XOR `0xFFFFFFFF`. -/
theorem tasutil_crc32_is_ethernet_crc32 (data8 : List Nat) (n_bytes : Nat) (hb : ∀ b ∈ data8, b < 256) :
    tasutil_crc32 data8 n_bytes = ethernetCrc32 (data8.take n_bytes) :=
  crc_refines data8 n_bytes hb

/-- Witness of C22: the nine ASCII bytes of `123456789`, whose CRC is `0xCBF43926`. -/
theorem tasutil_crc32_is_ethernet_crc32_witness :
    (∀ b ∈ crcCheckInput, b < 256)
      ∧ tasutil_crc32 crcCheckInput 9 = ethernetCrc32 (crcCheckInput.take 9)
      ∧ tasutil_crc32 crcCheckInput 9 = 0xCBF43926 :=
  ⟨by decide, tasutil_crc32_is_ethernet_crc32 crcCheckInput 9 (by decide), by decide⟩

/-- C23: for every hash value, `tasutil_hash32_to_str` writes six characters and
the terminating zero into the first seven bytes of the buffer and leaves the rest
of the buffer as it is; every character is one of the 32 characters of
`asciiMap`, and the first is one of its letters, a capital letter. -/
theorem hash32_to_str_six_characters (hash32 : Nat) (hash32_str : List Nat) :
    ∃ c0 c1 c2 c3 c4 c5,
      tasutil_hash32_to_str hash32 hash32_str = [c0, c1, c2, c3, c4, c5, 0] ++ hash32_str.drop 7
      ∧ cstr (tasutil_hash32_to_str hash32 hash32_str) = [c0, c1, c2, c3, c4, c5]
      ∧ (∀ c ∈ [c0, c1, c2, c3, c4, c5], c ∈ asciiMap)
      ∧ c0 ∈ asciiLetters ∧ 65 ≤ c0 ∧ c0 ≤ 90 := by
  have m : ∀ x : Nat, asciiMap.getD (x % 32) 0 ∈ asciiMap ∧ asciiMap.getD (x % 32) 0 ≠ 0 :=
    fun x => asciiMap_mem _ (Nat.mod_lt _ (by norm_num))
  have l := asciiMap_letter (hash32 / 32 / 32 / 32 / 32 / 32 % (32 - 10)) (Nat.mod_lt _ (by norm_num))
  have l0 : asciiMap.getD (hash32 / 32 / 32 / 32 / 32 / 32 % (32 - 10)) 0 ≠ 0 := by omega
  refine ⟨_, _, _, _, _, _, rfl, ?_, ?_, l⟩
  · exact cstr_six _ _ _ _ _ _ _ l0 (m _).2 (m _).2 (m _).2 (m _).2 (m _).2
  · intro c hc
    simp only [List.mem_cons, List.mem_singleton, List.not_mem_nil, or_false] at hc
    have a22 : asciiLetters ⊆ asciiMap := List.take_subset _ _
    rcases hc with h | h | h | h | h | h <;> rw [h]
    · exact a22 l.1
    · exact (m _).1
    · exact (m _).1
    · exact (m _).1
    · exact (m _).1
    · exact (m _).1

/-- C24, the code against it: the hash values `0` and `0x20000000` agree on the
bits 0 to 28, and `tasutil_hash32_to_str` makes `AAAAAA` of the first and `TAAAAA`
of the second: the first character is taken from the bits 25 to 31. -/
theorem hash32_to_str_reads_top_bits :
    0 % 2 ^ 29 = 0x20000000 % 2 ^ 29
      ∧ cstr (tasutil_hash32_to_str 0 (List.replicate 8 0)) = [65, 65, 65, 65, 65, 65]
      ∧ cstr (tasutil_hash32_to_str 0x20000000 (List.replicate 8 0)) = [84, 65, 65, 65, 65, 65]
      ∧ tasutil_hash32_to_str 0 (List.replicate 8 0) ≠ tasutil_hash32_to_str 0x20000000 (List.replicate 8 0) := by
  decide

/-! ## The connection info during a session (`tas_client_rw_base.cpp`) -/

/-- C21, the code against it: the packet handler of a session holds the
connection info `defaultConInfo`; the server answers a `target_ping` with a
response that `set_pkt_rsp_ping` rejects (the target is not connected), and
afterwards the handler holds the zero initialised connection info.  With it the
planner works on PL2 packet sizes of 0: a read of 4 bytes, planned as one PL2
packet of 20 bytes before the ping, is planned after it as three PL2 packets
without a micro-op and a fourth with the read. -/
theorem rejected_ping_zeroes_con_info :
    conInfoOf (clientOf (newFromConInfo defaultConInfo)) = some defaultConInfo
      ∧ (set_pkt_rsp_ping (newFromConInfo defaultConInfo).toBase TAS_PL1_CMD_PING TAS_CLIENT_TYPE_RW
          (pingRspOf TAS_PL1_CMD_PING TAS_PL1_ERR_CMD_FAILED [1, 2, 3, 4])).1 = TAS_ERR_DEVICE_ACCESS
      ∧ (target_ping (mbConst (pingRspOf TAS_PL1_CMD_PING TAS_PL1_ERR_CMD_FAILED [1, 2, 3, 4]))
          (clientOf (newFromConInfo defaultConInfo))).1 = TAS_ERR_DEVICE_ACCESS
      ∧ conInfoOf (target_ping (mbConst (pingRspOf TAS_PL1_CMD_PING TAS_PL1_ERR_CMD_FAILED [1, 2, 3, 4]))
          (clientOf (newFromConInfo defaultConInfo))).2.1 = some conInfoZero
      ∧ conInfoZero ≠ defaultConInfo
      ∧ pktLengths (planRq 0 (newFromConInfo defaultConInfo) [rdTrans 0x1000 4 0x100 0 0]) = [20]
      ∧ (target_ping (mbConst (pingRspOf TAS_PL1_CMD_PING TAS_PL1_ERR_CMD_FAILED [1, 2, 3, 4]))
          (clientOf (newFromConInfo defaultConInfo))).2.1.mTphRw.map
            (fun h => pktLengths (planRq 0 h [rdTrans 0x1000 4 0x100 0 0])) = some [16, 16, 16, 20]
      ∧ (target_ping (mbConst (pingRspOf TAS_PL1_CMD_PING TAS_PL1_ERR_CMD_FAILED [1, 2, 3, 4]))
          (clientOf (newFromConInfo defaultConInfo))).2.1.mTphRw.map
            (fun h => pktOpCounts (planRq 0 h [rdTrans 0x1000 4 0x100 0 0])) = some [0, 0, 0, 1] := by
  decide

/-! ## The server connection (`tas_pkt_handler_server_con.cpp`, `tas_client_server_con.cpp`) -/

/-- C25, the code against it: the first page of the list of targets, with
`num_target = 1` and `num_now = 2`, is accepted by `set_pkt_rsp_get_targets`,
which reports 1 target in all and 2 in the page; the loop of `get_targets`
is left with `startIndex = 2` and `numTarget = 1`, and `get_targets` returns
`TAS_ERR_NONE` with one target. -/
theorem get_targets_first_page_unchecked :
    (set_pkt_rsp_get_targets (get_pkt_rq_get_targets newServerCon 0).2 (targetsPageOf 1 0 2 0x41)).1 = TAS_ERR_NONE
      ∧ (set_pkt_rsp_get_targets (get_pkt_rq_get_targets newServerCon 0).2 (targetsPageOf 1 0 2 0x41)).2.2 = (1, 2)
      ∧ loopEnd (getTargetsLoop (mbConst (targetsPageOf 1 0 2 0x41)) 1 newClientServerCon 0)
          = some (TAS_ERR_NONE, 2, 1)
      ∧ (get_targets 1 (mbConst (targetsPageOf 1 0 2 0x41)) newClientServerCon).map (fun r => (r.1, r.2.2))
          = some (TAS_ERR_NONE, 1) := by
  decide

/-- C26, the code against it: `set_pkt_rsp_get_target_clients` reports 0 clients
in all and 0 in the page whatever the response; on a first page that holds one
client of two it returns `TAS_ERR_NONE` and keeps the total 2 in the handler, the
loop of `get_target_clients` is left after this one request with `startIndex = 0`
and `numClient = 0`, and a page with the start index 1 handed to the handler next
is stored at position 0 of the table, position 1 staying as it was. -/
theorem get_target_clients_one_page_only :
    (∀ h pkt_rsp, (set_pkt_rsp_get_target_clients h pkt_rsp).2.2 = (0, 0))
      ∧ (set_pkt_rsp_get_target_clients (get_pkt_rq_get_target_clients newServerCon [65, 0] 0).2
          (clientsPageOf 2 0 1 0x41)).1 = TAS_ERR_NONE
      ∧ (set_pkt_rsp_get_target_clients (get_pkt_rq_get_target_clients newServerCon [65, 0] 0).2
          (clientsPageOf 2 0 1 0x41)).2.1.mNumTargetClient = 2
      ∧ loopEnd (getTargetClientsLoop (mbConst (clientsPageOf 2 0 1 0x41)) [65, 0] 1 newClientServerCon 0)
          = some (TAS_ERR_NONE, 0, 0)
      ∧ loopSent (getTargetClientsLoop (mbConst (clientsPageOf 2 0 1 0x41)) [65, 0] 1 newClientServerCon 0) = 1
      ∧ (set_pkt_rsp_get_target_clients (get_pkt_rq_get_target_clients
          (set_pkt_rsp_get_target_clients (get_pkt_rq_get_target_clients newServerCon [65, 0] 0).2
            (clientsPageOf 2 0 1 0x41)).2.1 [65, 0] 1).2 (clientsPageOf 2 1 1 0x42)).1 = TAS_ERR_NONE
      ∧ (set_pkt_rsp_get_target_clients (get_pkt_rq_get_target_clients
          (set_pkt_rsp_get_target_clients (get_pkt_rq_get_target_clients newServerCon [65, 0] 0).2
            (clientsPageOf 2 0 1 0x41)).2.1 [65, 0] 1).2 (clientsPageOf 2 1 1 0x42)).2.1.mTargetClientInfo 0
          = List.replicate 20 0x42
      ∧ (set_pkt_rsp_get_target_clients (get_pkt_rq_get_target_clients
          (set_pkt_rsp_get_target_clients (get_pkt_rq_get_target_clients newServerCon [65, 0] 0).2
            (clientsPageOf 2 0 1 0x41)).2.1 [65, 0] 1).2 (clientsPageOf 2 1 1 0x42)).2.1.mTargetClientInfo 1
          = [] :=
  ⟨get_target_clients_reports_zero, by decide, by decide, by decide, by decide, by decide, by decide, by decide⟩

/-- C27, the code against it: reset and halt were requested, and the response
reports command-failed with a device type other than 0 and the reset as the only
feature used.  `set_pkt_rsp_device_connect` returns `TAS_ERR_FN_PARAM` and leaves
the error text as it was before the call, whatever it was; with an empty text
before, it is not the message on the halt after reset. -/
theorem device_connect_halt_refused_no_text (info0 : String) :
    (set_pkt_rsp_device_connect (get_pkt_rq_device_connect (serverConWithInfo info0) TAS_DEV_CON_FEAT_RESET_AND_HALT).2
        (deviceConnectRspOf TAS_PL1_ERR_CMD_FAILED TAS_DEV_CON_FEAT_RESET 0x1234)).1 = TAS_ERR_FN_PARAM
      ∧ (set_pkt_rsp_device_connect
          (get_pkt_rq_device_connect (serverConWithInfo info0) TAS_DEV_CON_FEAT_RESET_AND_HALT).2
          (deviceConnectRspOf TAS_PL1_ERR_CMD_FAILED TAS_DEV_CON_FEAT_RESET 0x1234)).2.1.info = info0
      ∧ (set_pkt_rsp_device_connect (get_pkt_rq_device_connect newServerCon TAS_DEV_CON_FEAT_RESET_AND_HALT).2
          (deviceConnectRspOf TAS_PL1_ERR_CMD_FAILED TAS_DEV_CON_FEAT_RESET 0x1234)).2.1.info
          ≠ "ERROR: Halt after reset not supported for this device connection" := by
  refine ⟨rfl, ?_, by decide⟩
  unfold set_pkt_rsp_device_connect
  simp only []
  rw [if_neg (by decide), if_neg (by decide), if_neg (by decide), if_neg (by decide), if_neg (by decide),
    if_pos (by decide), if_pos (by decide)]
  simp only [CTasPktHandlerServerCon.fail]
  have e : (get_pkt_rq_device_connect (serverConWithInfo info0) TAS_DEV_CON_FEAT_RESET_AND_HALT).2.mDeviceConnectOption
      = 3 := rfl
  rw [e, if_neg (by decide), if_neg (by decide)]
  rfl

/-- C28, the code against it: the challenge `set_pkt_rsp_server_connect` hands
back is 0 whatever the response; for a well-formed response without error whose
challenge is `0x1122334455667788`, `server_connect` returns `TAS_ERR_NONE`,
`get_server_challenge` gives 0 afterwards, and the challenge of the response is
held by the member `mServerChallenge` of the packet handler only. -/
theorem server_challenge_not_handed_back :
    (∀ h pkt_rsp, (set_pkt_rsp_server_connect h pkt_rsp).2.2 = 0)
      ∧ (set_pkt_rsp_server_connect newServerCon (serverConnectRspOf TAS_PL_ERR_NO_ERROR 0x1122334455667788)).1
          = TAS_ERR_NONE
      ∧ challengeAt (serverConnectRspOf TAS_PL_ERR_NO_ERROR 0x1122334455667788) = 0x1122334455667788
      ∧ (server_connect true (mbConst (serverConnectRspOf TAS_PL_ERR_NO_ERROR 0x1122334455667788))
          newClientServerCon "127.0.0.1" 24817).1 = TAS_ERR_NONE
      ∧ (server_connect true (mbConst (serverConnectRspOf TAS_PL_ERR_NO_ERROR 0x1122334455667788))
          newClientServerCon "127.0.0.1" 24817).2.get_server_challenge = 0
      ∧ (server_connect true (mbConst (serverConnectRspOf TAS_PL_ERR_NO_ERROR 0x1122334455667788))
          newClientServerCon "127.0.0.1" 24817).2.mTphsc.mServerChallenge = 0x1122334455667788 :=
  ⟨server_connect_challenge_zero, by decide, by decide, by decide, by decide, by decide⟩

/-! ## Sending a channel message (`tas_client_chl.cpp`, `tas_pkt_handler_chl.cpp`) -/

/-- C29, the code against it: on a channel subscribed for sending with
`msg_length_c2d = 1024`, `send_msg` is called with `msg_length = 0xFFFE` and an
init word, so the message and the init word have 65538 bytes, more than
`msg_length_c2d`.  The sum `msg_length + 4` is taken in a `uint16_t` and is 2,
the check against `msg_length_c2d` passes and `send_msg` does not return
`TAS_ERR_FN_PARAM`: it goes on to `get_pkt_send_msg`, which writes the message
length 2 into the packet and copies 65534 bytes to `&mRqBuf[4]`.  The copy ends
at byte 65550 of a buffer of `CHL_MAX_RQ_SIZE = 1088` bytes, and the condition
`msg_length <= 252` of the assertion before it is false.  The request buffer of
the model has no end, so that there the call returns `TAS_ERR_NONE` and hands
the packet of 16 bytes to the mailbox. -/
theorem send_msg_length_sum_wraps :
    (chlClientOf (chlConInfo 1024 1024) TAS_CHT_SEND 3).mChlCht = TAS_CHT_SEND
      ∧ (chlClientOf (chlConInfo 1024 1024) TAS_CHT_SEND 3).mTphChl.mConInfo.msg_length_c2d = 1024
      ∧ 0xFFFE + 4 > (chlClientOf (chlConInfo 1024 1024) TAS_CHT_SEND 3).mTphChl.mConInfo.msg_length_c2d
      ∧ u16 (0xFFFE + 4) = 2
      ∧ (send_msg sendOk (chlClientOf (chlConInfo 1024 1024) TAS_CHT_SEND 3) (msgOf 0xFFFE) 0xFFFE 1).1
          ≠ TAS_ERR_FN_PARAM
      ∧ (send_msg sendOk (chlClientOf (chlConInfo 1024 1024) TAS_CHT_SEND 3) (msgOf 0xFFFE) 0xFFFE 1).1
          = TAS_ERR_NONE
      ∧ (send_msg sendOk (chlClientOf (chlConInfo 1024 1024) TAS_CHT_SEND 3) (msgOf 0xFFFE) 0xFFFE 1).2.sent.map
          (fun f => (f.length, rspWord f 0, byte1 (rspWord f 1), hi16 (rspWord f 2))) = [(4, 16, 0xCC, 2)]
      ∧ sendMsgCopyEnd 0xFFFE 1 = 65550
      ∧ CHL_MAX_RQ_SIZE = 1088
      ∧ sendMsgAsserts 3 0xFFFE 1 = false := by
  decide

/-- C30, the code against it: on a channel subscribed for sending with
`msg_length_c2d = 1024`, `send_msg` accepts a message of 260 bytes without init
word and hands the mailbox a packet of 272 bytes with the command
`TAS_PL1_CMD_CHL_MSG_C2D`, the message length 260 and the bytes of the message,
and the condition `msg_length <= 256` of the assertion of `get_pkt_send_msg` is
false. -/
theorem send_msg_beyond_assertion :
    (chlClientOf (chlConInfo 1024 1024) TAS_CHT_SEND 3).mTphChl.mConInfo.msg_length_c2d = 1024
      ∧ (send_msg sendOk (chlClientOf (chlConInfo 1024 1024) TAS_CHT_SEND 3) (msgOf 260) 260 0).1 = TAS_ERR_NONE
      ∧ (send_msg sendOk (chlClientOf (chlConInfo 1024 1024) TAS_CHT_SEND 3) (msgOf 260) 260 0).2.sent.map
          (fun f => (f.length, rspWord f 0, byte1 (rspWord f 1), hi16 (rspWord f 2))) = [(68, 272, 0xCC, 260)]
      ∧ (send_msg sendOk (chlClientOf (chlConInfo 1024 1024) TAS_CHT_SEND 3) (msgOf 260) 260 0).2.sent.map
          (fun f => bytesOfWords f 3 65) = [msgOf 260]
      ∧ sendMsgAsserts 3 260 0 = false := by
  decide

/-- C31, the code against it: a client subscribed to channel 3 for receiving,
whose handler has counted no reset, calls `rcv_msg` while the mailbox holds a
reset notification followed by a message of five bytes.  The call counts the
reset and returns `TAS_ERR_NONE` with the null pointer as message and the length
0; the message stays in the mailbox, and it is the next call that returns it. -/
theorem rcv_msg_returns_without_message :
    chlRcvClient.mTphChl.mDeviceResetCount = 0
      ∧ (rcv_msg [resetFrame, helloFrame] chlRcvClient).ret = TAS_ERR_NONE
      ∧ (rcv_msg [resetFrame, helloFrame] chlRcvClient).msg = none
      ∧ (rcv_msg [resetFrame, helloFrame] chlRcvClient).msg_length = 0
      ∧ (rcv_msg [resetFrame, helloFrame] chlRcvClient).left = [helloFrame]
      ∧ (rcv_msg [resetFrame, helloFrame] chlRcvClient).cl.mTphChl.mDeviceResetCount = 1
      ∧ (rcv_msg [helloFrame] (rcv_msg [resetFrame, helloFrame] chlRcvClient).cl).ret = TAS_ERR_NONE
      ∧ (rcv_msg [helloFrame] (rcv_msg [resetFrame, helloFrame] chlRcvClient).cl).msg = some [65, 66, 67, 68, 69] := by
  refine ⟨?_, ?_, ?_, ?_, ?_, ?_, ?_, ?_⟩ <;> decide

/-- C31, amended: on a client subscribed for receiving (type receive or
bidirectional), when the packet the mailbox delivers is a reset notification,
`rcv_msg` adds one to the reset count of the packet handler (modulo `2^32`) and
returns `TAS_ERR_NONE` with no message: the null pointer, the length 0 and the
init word 0.  It takes this one packet out of the mailbox, so a message that
follows is left for the next call, and the subscription is as before. -/
theorem rcv_msg_counts_reset (cl : CTasClientChl) (q : List (List Nat))
    (hsub : cl.mChlCht = TAS_CHT_RCV ∨ cl.mChlCht = TAS_CHT_BIDI) :
    (rcv_msg (resetFrame :: q) cl).ret = TAS_ERR_NONE
      ∧ (rcv_msg (resetFrame :: q) cl).msg = none
      ∧ (rcv_msg (resetFrame :: q) cl).msg_length = 0
      ∧ (rcv_msg (resetFrame :: q) cl).init = 0
      ∧ (rcv_msg (resetFrame :: q) cl).left = q
      ∧ (rcv_msg (resetFrame :: q) cl).cl.mTphChl.mDeviceResetCount = u32 (cl.mTphChl.mDeviceResetCount + 1)
      ∧ chlView (rcv_msg (resetFrame :: q) cl).cl = chlView cl := by
  have e : rcv_msg (resetFrame :: q) cl
      = { ret := TAS_ERR_NONE
          cl := { cl with mTphChl := ({ cl.mTphChl with
            mDeviceResetCount := u32 (cl.mTphChl.mDeviceResetCount + 1) }.clear).clear }
          msg := none, msg_length := 0, init := 0, left := q } := by
    unfold rcv_msg
    rw [if_neg (by rcases hsub with h | h <;> rw [h] <;> decide)]
    simp only [set_pkt_rcv_msg_reset]
    rw [if_neg (by decide), if_neg (by omega)]
    rfl
  rw [e]
  exact ⟨rfl, rfl, rfl, rfl, rfl, rfl, rfl⟩

/-- Witness of C31: the client subscribed to channel 3 for receiving, with a
reset notification and then a message in the mailbox. -/
theorem rcv_msg_counts_reset_witness :
    (rcv_msg [resetFrame, helloFrame] chlRcvClient).ret = TAS_ERR_NONE
      ∧ (rcv_msg [resetFrame, helloFrame] chlRcvClient).msg = none
      ∧ (rcv_msg [resetFrame, helloFrame] chlRcvClient).msg_length = 0
      ∧ (rcv_msg [resetFrame, helloFrame] chlRcvClient).init = 0
      ∧ (rcv_msg [resetFrame, helloFrame] chlRcvClient).left = [helloFrame]
      ∧ (rcv_msg [resetFrame, helloFrame] chlRcvClient).cl.mTphChl.mDeviceResetCount
          = u32 (chlRcvClient.mTphChl.mDeviceResetCount + 1)
      ∧ chlView (rcv_msg [resetFrame, helloFrame] chlRcvClient).cl = chlView chlRcvClient :=
  rcv_msg_counts_reset chlRcvClient [helloFrame] (Or.inl rfl)

/-- C32, the code against it: on the client the constructor builds, whose
session is not started and which has no channel subscribed, `subscribe` with
the channel number 32 returns `TAS_ERR_FN_USAGE`, not `TAS_ERR_FN_PARAM`, and
hands nothing to the mailbox. -/
theorem subscribe_before_session_is_usage :
    newClientChl.con.mSessionStarted = false ∧ newClientChl.mChlCht = TAS_CHT_NONE
      ∧ (subscribe mbFail newClientChl 32 TAS_CHT_SEND TAS_CHSO_DEFAULT none).ret = TAS_ERR_FN_USAGE
      ∧ TAS_ERR_FN_USAGE ≠ TAS_ERR_FN_PARAM
      ∧ (subscribe mbFail newClientChl 32 TAS_CHT_SEND TAS_CHSO_DEFAULT none).cl.sent = [] := by
  refine ⟨?_, ?_, ?_, ?_, ?_⟩ <;> decide

/-- C32, amended: in every state a channel client reaches from its constructors
by `session_start`, `device_connect`, `target_ping`, `subscribe`, `unsubscribe`,
`send_msg` and `rcv_msg`, the type of the channel is none exactly when the
number of the channel is 32, and `mRcvChlActive` holds exactly when the type is
receive or bidirectional.  There `subscribe` while a channel is subscribed
returns `TAS_ERR_FN_USAGE` and changes nothing but the error info; `subscribe`
with a channel number of 32 or more, once the session is started and while no
channel is subscribed, returns `TAS_ERR_FN_PARAM`, hands nothing to the mailbox
and leaves the client unsubscribed; and `unsubscribe` leaves the client
unsubscribed, whatever the mailbox does. -/
theorem chl_one_subscription (cl : CTasClientChl) (r : ChlReachable cl) :
    ChlInv cl
      ∧ (∀ (mb : Mailbox) (chl cht chso : Nat) (prio : Option Nat), cl.mChlCht ≠ TAS_CHT_NONE →
          (subscribe mb cl chl cht chso prio).ret = TAS_ERR_FN_USAGE
            ∧ (subscribe mb cl chl cht chso prio).prio = prio
            ∧ ∃ s, (subscribe mb cl chl cht chso prio).cl = { cl with mTphChl := cl.mTphChl.fail TAS_ERR_FN_USAGE s })
      ∧ (∀ (mb : Mailbox) (chl cht chso : Nat) (prio : Option Nat), cl.con.mSessionStarted = true →
          cl.mChlCht = TAS_CHT_NONE → TAS_CHL_NUM_MAX ≤ chl →
          (subscribe mb cl chl cht chso prio).ret = TAS_ERR_FN_PARAM
            ∧ (subscribe mb cl chl cht chso prio).cl.sent = cl.sent
            ∧ chlView (subscribe mb cl chl cht chso prio).cl = chlView cl)
      ∧ (∀ (send : List Nat → Bool) (clock : Nat → Nat) (q : List (List Nat)),
          Unsubscribed (unsubscribe send clock q cl).2.1) := by
  have hi := ChlInv_reachable r
  refine ⟨hi, ?_, ?_, ?_⟩
  · intro mb chl cht chso prio hne
    unfold subscribe
    by_cases hs : cl.con.mSessionStarted = false
    · rw [if_pos hs]; exact ⟨rfl, rfl, _, rfl⟩
    · rw [if_neg hs, if_pos hne]; exact ⟨rfl, rfl, _, rfl⟩
  · intro mb chl cht chso prio hs hn hc
    unfold subscribe
    rw [if_neg (by rw [hs]; decide), if_neg (not_not.mpr hn)]
    simp only []
    rw [if_pos hc]
    refine ⟨rfl, rfl, ?_⟩
    simp only [chlView, Prod.mk.injEq, true_and, and_true]
    exact (hi.1.1 hn).symm
  · intro send clock q
    rcases chlView_unsubscribe send clock q cl with e | ⟨hn, e⟩
    · simp only [chlView, Prod.mk.injEq] at e
      exact e
    · simp only [chlView, Prod.mk.injEq] at e
      unfold Unsubscribed
      rw [e.1, e.2.1, e.2.2]
      refine ⟨hn, hi.1.1 hn, ?_⟩
      cases hb : cl.con.mRcvChlActive with
      | false => rfl
      | true =>
        have := hi.2.1 hb
        rw [hn] at this
        exact absurd this (by decide)

/-- Witness of C32: the client of the constructor for tests after it has
subscribed to channel 3 as bidirectional; a second `subscribe` is refused, and
`unsubscribe` with an empty mailbox leaves it unsubscribed. -/
theorem chl_one_subscription_witness :
    ChlReachable (subscribe (mbConst (subscribeRspOf 3 TAS_CHT_BIDI 1 31)) newClientChlTest 3 TAS_CHT_BIDI 1 none).cl
      ∧ chlView (subscribe (mbConst (subscribeRspOf 3 TAS_CHT_BIDI 1 31)) newClientChlTest 3 TAS_CHT_BIDI 1 none).cl
          = (TAS_CHT_BIDI, 3, true)
      ∧ ChlInv (subscribe (mbConst (subscribeRspOf 3 TAS_CHT_BIDI 1 31)) newClientChlTest 3 TAS_CHT_BIDI 1 none).cl
      ∧ (subscribe mbFail
          (subscribe (mbConst (subscribeRspOf 3 TAS_CHT_BIDI 1 31)) newClientChlTest 3 TAS_CHT_BIDI 1 none).cl
          5 TAS_CHT_SEND 0 none).ret = TAS_ERR_FN_USAGE
      ∧ Unsubscribed (unsubscribe sendOk clockZero []
          (subscribe (mbConst (subscribeRspOf 3 TAS_CHT_BIDI 1 31)) newClientChlTest 3 TAS_CHT_BIDI 1 none).cl).2.1 :=
  ⟨ChlReachable.subscribe _ _ _ _ _ _ ChlReachable.test, by decide,
    (chl_one_subscription _ (ChlReachable.subscribe _ _ _ _ _ _ ChlReachable.test)).1,
    ((chl_one_subscription _ (ChlReachable.subscribe _ _ _ _ _ _ ChlReachable.test)).2.1
      mbFail 5 TAS_CHT_SEND 0 none (by decide)).1,
    (chl_one_subscription _ (ChlReachable.subscribe _ _ _ _ _ _ ChlReachable.test)).2.2.2 sendOk clockZero []⟩

/-- C33, the code against it: on the read/write client the constructor builds,
before any `session_start`, `device_connect` hands its request to the mailbox
and returns `TAS_ERR_NONE` when the server answers without error; on the channel
client the constructor builds, `target_ping` hands its request to the mailbox
and returns `TAS_ERR_SERVER_CON` when the exchange fails. -/
theorem device_connect_before_session_sends :
    NoSession newClientRw
      ∧ (newClientRw.device_connect (mbConst (deviceConnectRspOf TAS_PL_ERR_NO_ERROR 0 0x1234)) 0).1 = TAS_ERR_NONE
      ∧ (newClientRw.device_connect (mbConst (deviceConnectRspOf TAS_PL_ERR_NO_ERROR 0 0x1234)) 0).2.con.sent
          = [[12, 0xA801, 0]]
      ∧ newClientChl.con.mSessionStarted = false
      ∧ (newClientChl.target_ping mbFail).1 = TAS_ERR_SERVER_CON
      ∧ (newClientChl.target_ping mbFail).2.1.sent = [[8, 0xA200]] := by
  exact ⟨⟨rfl, rfl⟩, by decide, by decide, by decide, by decide, by decide⟩

/-- C33, amended: on a client whose session is started (`g` read/write, `d`
channel), `session_start` returns `TAS_ERR_FN_USAGE` and hands nothing to the
mailbox.  On a read/write client `f` before its session, `execute_trans` and
`target_ping` return `TAS_ERR_FN_USAGE` and leave the client as it is, nothing
handed to the mailbox; on a channel client `c` whose session is not started,
`subscribe` returns `TAS_ERR_FN_USAGE` and hands nothing to the mailbox.  A
`session_start` of `f` that returns `TAS_ERR_NONE` starts the session and
builds the packet handler; one that returns an error leaves `f` before its
session.  (`device_connect`, and `target_ping` of the channel client, are not
among these: they send their request.) -/
theorem session_start_once (mb : Mailbox) (fuel : Nat) (f g : CTasClientRw) (c d : CTasClientChl)
    (i n p : List Nat) (t cp : Nat) (trans : List tas_rw_trans_st) (chl cht chso : Nat) (prio : Option Nat)
    (hg : g.con.mSessionStarted = true) (hd : d.con.mSessionStarted = true)
    (hf : NoSession f) (hc : c.con.mSessionStarted = false) :
    ((g.session_start mb i n p).1 = TAS_ERR_FN_USAGE ∧ (g.session_start mb i n p).2.con.sent = g.con.sent
        ∧ (g.session_start mb i n p).2.rw = g.rw)
      ∧ ((d.session_start mb i n p t cp).1 = TAS_ERR_FN_USAGE ∧ (d.session_start mb i n p t cp).2.con.sent = d.con.sent
        ∧ (d.session_start mb i n p t cp).2.sent = d.sent)
      ∧ execute_trans fuel mb f.rw trans = some (TAS_ERR_FN_USAGE, f.rw)
      ∧ target_ping mb f.rw = (TAS_ERR_FN_USAGE, f.rw, conInfoZero)
      ∧ ((subscribe mb c chl cht chso prio).ret = TAS_ERR_FN_USAGE ∧ (subscribe mb c chl cht chso prio).cl.sent = c.sent
        ∧ (subscribe mb c chl cht chso prio).cl.con = c.con)
      ∧ ((f.session_start mb i n p).1 = TAS_ERR_NONE →
          (f.session_start mb i n p).2.con.mSessionStarted = true
            ∧ ((f.session_start mb i n p).2.rw.mTphRw).isSome = true)
      ∧ ((f.session_start mb i n p).1 ≠ TAS_ERR_NONE → NoSession (f.session_start mb i n p).2) := by
  refine ⟨?_, ?_, ?_, ?_, ?_, ?_, ?_⟩
  · unfold CTasClientRw.session_start
    simp only [mSessionStart_started _ _ _ _ _ _ _ _ hg]
    rw [if_neg (by decide)]
    exact ⟨rfl, rfl, rfl⟩
  · unfold CTasClientChl.session_start
    by_cases hn : d.mChlCht ≠ TAS_CHT_NONE
    · rw [if_pos hn]; exact ⟨rfl, rfl, rfl⟩
    · rw [if_neg hn]
      simp only [mSessionStart_started _ _ _ _ _ _ _ _ hd]
      rw [if_neg (by decide)]
      exact ⟨rfl, rfl, rfl⟩
  · unfold execute_trans
    rw [hf.2]
  · unfold target_ping
    rw [hf.2]
  · unfold subscribe
    rw [if_pos hc]
    exact ⟨rfl, rfl, rfl⟩
  · intro hr
    have hr' : (mSessionStart mb f.con TAS_CLIENT_TYPE_RW i n p TAS_CHL_TGT_UNKNOWN 0).1 = TAS_ERR_NONE := by
      unfold CTasClientRw.session_start at hr
      simp only [] at hr
      split_ifs at hr with h1
      · exact h1
      · exact absurd hr h1
    unfold CTasClientRw.session_start
    simp only []
    rw [if_pos hr']
    exact ⟨(mSessionStart_ok mb f.con _ i n p _ _ hf.1 hr').2, rfl⟩
  · intro hr
    have hr' : (mSessionStart mb f.con TAS_CLIENT_TYPE_RW i n p TAS_CHL_TGT_UNKNOWN 0).1 ≠ TAS_ERR_NONE := by
      unfold CTasClientRw.session_start at hr
      simp only [] at hr
      split_ifs at hr with h1
      · exact absurd h1 hr
      · exact h1
    unfold CTasClientRw.session_start
    simp only []
    rw [if_neg hr']
    refine ⟨?_, hf.2⟩
    exact mSessionStart_failed mb f.con _ i n p _ _ hf.1 hr'

/-- Witness of C33: the clients of the constructors (`newClientRw`,
`newClientChl`, session not started) and of the constructors for tests
(session started). -/
theorem session_start_once_witness :
    NoSession newClientRw ∧ newClientChl.con.mSessionStarted = false
      ∧ (newClientRwTest 256 256 16).con.mSessionStarted = true ∧ newClientChlTest.con.mSessionStarted = true
      ∧ ((newClientRwTest 256 256 16).session_start mbFail [65, 0] [0] [0]).1 = TAS_ERR_FN_USAGE
      ∧ ((newClientRwTest 256 256 16).session_start mbFail [65, 0] [0] [0]).2.con.sent = []
      ∧ execute_trans 1 mbFail newClientRw.rw threeReads = some (TAS_ERR_FN_USAGE, newClientRw.rw)
      ∧ (subscribe mbFail newClientChl 3 TAS_CHT_SEND 0 none).ret = TAS_ERR_FN_USAGE :=
  ⟨⟨rfl, rfl⟩, rfl, rfl, rfl,
    (session_start_once mbFail 1 newClientRw (newClientRwTest 256 256 16) newClientChl newClientChlTest
      [65, 0] [0] [0] 0 0 threeReads 3 TAS_CHT_SEND 0 none rfl rfl ⟨rfl, rfl⟩ rfl).1.1,
    (session_start_once mbFail 1 newClientRw (newClientRwTest 256 256 16) newClientChl newClientChlTest
      [65, 0] [0] [0] 0 0 threeReads 3 TAS_CHT_SEND 0 none rfl rfl ⟨rfl, rfl⟩ rfl).1.2.1.trans rfl,
    (session_start_once mbFail 1 newClientRw (newClientRwTest 256 256 16) newClientChl newClientChlTest
      [65, 0] [0] [0] 0 0 threeReads 3 TAS_CHT_SEND 0 none rfl rfl ⟨rfl, rfl⟩ rfl).2.2.1,
    (session_start_once mbFail 1 newClientRw (newClientRwTest 256 256 16) newClientChl newClientChlTest
      [65, 0] [0] [0] 0 0 threeReads 3 TAS_CHT_SEND 0 none rfl rfl ⟨rfl, rfl⟩ rfl).2.2.2.2.1.1⟩

/-- C34: let the session of a read/write client be started, let `r` be its
reference `mDeviceResetCount`, and let the packet handler have counted `k`
resets since the reference was set, its 32 bit count not having wrapped
(`r + k < 2^32`).  Then `device_reset_occurred` returns true exactly when
`k` is at least 1, it moves the reference to the count of the handler, and a
second call with nothing processed in between returns false.  `device_connect`
sets the reference to the count of the handler; a successful `session_start`
sets it to `0xFFFFFFFF`, and with this reference, that is while `device_connect`
has not been called since, `device_reset_occurred` returns false. -/
theorem device_reset_occurred_spec (f : CTasClientRw) (h : CTasPktHandlerRw) (r k : Nat)
    (hs : f.con.mSessionStarted = true) (hh : f.rw.mTphRw = some h)
    (hr : f.con.mDeviceResetCount = r) (hk : h.mDeviceResetCount = u32 (r + k)) (hnw : r + k < 2 ^ 32) :
    (∃ f1, f.device_reset_occurred = some (decide (1 ≤ k), f1)
        ∧ f1.con.mDeviceResetCount = h.mDeviceResetCount ∧ f1.rw = f.rw
        ∧ f1.device_reset_occurred = some (false, f1))
      ∧ (∀ (mb : Mailbox) (dco : Nat), (f.device_connect mb dco).2.con.mDeviceResetCount = h.mDeviceResetCount
          ∧ (f.device_connect mb dco).2.rw = f.rw)
      ∧ (∀ (mb : Mailbox) (g : CTasClientRw) (i n p : List Nat), g.con.mSessionStarted = false →
          (g.session_start mb i n p).1 = TAS_ERR_NONE →
          (g.session_start mb i n p).2.con.mDeviceResetCount = 0xFFFFFFFF)
      ∧ (∀ g : CTasClientRw, g.con.mDeviceResetCount = 0xFFFFFFFF → g.rw.mTphRw = some h →
          g.device_reset_occurred.map Prod.fst = some false) := by
  have e : u32 (r + k) = r + k := Nat.mod_eq_of_lt hnw
  rw [e] at hk
  refine ⟨?_, ?_, ?_, ?_⟩
  · refine ⟨{ f with con := { f.con with mDeviceResetCount := h.mDeviceResetCount } }, ?_, rfl, rfl, ?_⟩
    · unfold CTasClientRw.device_reset_occurred
      rw [if_neg (by rw [hs]; decide), hh]
      simp only []
      rw [if_neg (by omega), hr, hk]
      congr 2
      apply decide_eq_decide.mpr
      omega
    · unfold CTasClientRw.device_reset_occurred
      simp only []
      rw [if_neg (by rw [hs]; decide), hh]
      simp only [lt_irrefl, gt_iff_lt, if_false, decide_False]
  · intro mb dco
    unfold CTasClientRw.device_connect
    rw [hh]
    exact ⟨rfl, rfl⟩
  · intro mb g i n p hg hret
    unfold CTasClientRw.session_start at hret ⊢
    simp only [] at hret ⊢
    split_ifs at hret ⊢ with h1
    · exact (mSessionStart_ok mb g.con _ i n p _ _ hg h1).1
    · exact absurd hret h1
  · intro g hg hgh
    have hlt : h.mDeviceResetCount < 2 ^ 32 := by omega
    unfold CTasClientRw.device_reset_occurred
    by_cases hss : g.con.mSessionStarted = false
    · rw [if_pos hss]; rfl
    · rw [if_neg hss, hgh]
      simp only []
      by_cases hc : h.mDeviceResetCount = 0xFFFFFFFF
      · rw [if_neg (by omega)]
        simp only [Option.map_some', Option.some.injEq, decide_eq_false_iff_not]
        omega
      · rw [if_pos (by omega)]; rfl

/-- Witness of C34: the reference is 5 and the handler has counted 7 resets, so
2 since the reference was set: `device_reset_occurred` returns true. -/
theorem device_reset_occurred_spec_witness :
    (rwClientAt 5 7).con.mSessionStarted = true ∧ (rwClientAt 5 7).con.mDeviceResetCount = 5
      ∧ (rwClientAt 5 7).rw.mTphRw = some (addResets 7 (mInit 256 256 16))
      ∧ (addResets 7 (mInit 256 256 16)).mDeviceResetCount = u32 (5 + 2)
      ∧ (rwClientAt 5 7).device_reset_occurred.map Prod.fst = some true :=
  ⟨rfl, rfl, rfl, rfl,
    Exists.elim (device_reset_occurred_spec (rwClientAt 5 7) (addResets 7 (mInit 256 256 16)) 5 2 rfl rfl rfl rfl
      (by decide)).1 (fun _ hf => by rw [hf.1]; rfl)⟩

/-- C35, the code against it: with at most 2 micro-ops in a PL2 packet, three
reads of 4 bytes are planned as two PL2 packets with 2 and 1 micro-ops; the
field `num_pl0_rw` of the pl0-end is 2 in the first packet and 3 in the second,
the number of all micro-ops planned so far, where the second packet holds one. -/
theorem num_pl0_rw_is_running_total :
    (rqPackets (rqOf (planRq 1 (newFromConInfo (conInfoMaxRw 2)) threeReads))).map
        (fun p => (pktNumPl0Rw p, (pktOps p).length)) = [(2, 2), (3, 1)]
      ∧ pktOpCounts (planRq 1 (newFromConInfo (conInfoMaxRw 2)) threeReads) = [2, 1] := by
  decide

/-- C36, the code against it: a handler built for a connection with
`pl0_max_num_rw = 2` has tables of 2 entries (`mNumTransMax = 2`); after
`rw_start` the three reads of 4 bytes are all accepted, and 3 micro-ops and 3
user transactions are recorded: the third of each is written to the entry of
index 2, outside the tables. -/
theorem tables_overrun_by_accepted_reads :
    (newFromConInfo (conInfoMaxRw 2)).mNumTransMax = 2
      ∧ returnsTrue (rw_set_trans 1 (newFromConInfo (conInfoMaxRw 2)) threeReads) = true
      ∧ (stateOf (rw_set_trans 1 (newFromConInfo (conInfoMaxRw 2)) threeReads)).mPl0NumTrans = 3
      ∧ (stateOf (rw_set_trans 1 (newFromConInfo (conInfoMaxRw 2)) threeReads)).mRwNumTrans = 3
      ∧ (stateOf (rw_set_trans 1 (newFromConInfo (conInfoMaxRw 2)) threeReads)).mNumTransMax = 2 := by
  decide

/-- C37, the code against it: one read of 4 bytes is planned (one micro-op, a
response of 20 bytes).  A response of 12 bytes that ends with the header of the
read result, whose data word would be word 3, is accepted with `TAS_ERR_NONE`,
and the loop ends with `wi = 4` beyond `num_bytes / 4 = 3`.  For one read of 8
bytes, a response of 16 bytes with a failed read result followed by a second
read result makes the loop read the entry `mPl0Trans[1]`, where one micro-op
was planned. -/
theorem rw_set_rsp_reads_beyond :
    (handlerOf (planRq 1 (newFromConInfo defaultConInfo) [rdTrans 0x70000000 4 0x1000 0 0])).mPl0NumTrans = 1
      ∧ (rw_set_rsp (handlerOf (planRq 1 (newFromConInfo defaultConInfo) [rdTrans 0x70000000 4 0x1000 0 0]))
          (fun _ => 0) [20, pl0StartRsp, rspHdr 1 TAS_PL0_CMD_RD32 1 TAS_PL0_ERR_NO_ERROR] 12).1 = TAS_ERR_NONE
      ∧ rspEndWi (handlerOf (planRq 1 (newFromConInfo defaultConInfo) [rdTrans 0x70000000 4 0x1000 0 0]))
          (fun _ => 0) [20, pl0StartRsp, rspHdr 1 TAS_PL0_CMD_RD32 1 TAS_PL0_ERR_NO_ERROR] 12 = 4
      ∧ (handlerOf (planRq 1 (newFromConInfo defaultConInfo) [rdTrans 0x70000000 8 0x1000 0 0])).mPl0NumTrans = 1
      ∧ ((rspIters (handlerOf (planRq 1 (newFromConInfo defaultConInfo) [rdTrans 0x70000000 8 0x1000 0 0]))
          (fun _ => 0)
          [24, pl0StartRsp, rspHdr 0 TAS_PL0_CMD_RD64 0 TAS_PL0_ERR_DATA, rspHdr 0 TAS_PL0_CMD_RD32 0 TAS_PL0_ERR_DATA]
          16).filter (pl0EntryRead
            [24, pl0StartRsp, rspHdr 0 TAS_PL0_CMD_RD64 0 TAS_PL0_ERR_DATA,
              rspHdr 0 TAS_PL0_CMD_RD32 0 TAS_PL0_ERR_DATA])).map (fun c => c.iTrans) = [0, 1] := by
  refine ⟨?_, ?_, ?_, ?_, ?_⟩ <;> decide

/-- C38, the code against it: a message of the device on channel 3 with the
init option and the message length 1 (a packet of 16 bytes) passes every check
of `set_pkt_rcv_msg`, which returns `TAS_ERR_NONE` with the message length
`65533`, that is `1 - 4` in 16 bits; the condition `msg_length >= 4` of the
assertion is false. -/
theorem set_pkt_rcv_msg_init_length_wraps :
    msgFrame 3 TAS_CHO_INIT 1 [0xAABBCCDD] = [16, 0x0800CD01, 0x00010103, 0xAABBCCDD]
      ∧ (set_pkt_rcv_msg (newHandlerChl (chlConInfo 1024 1024)) (msgFrame 3 TAS_CHO_INIT 1 [0xAABBCCDD]) 3).ret
          = TAS_ERR_NONE
      ∧ (set_pkt_rcv_msg (newHandlerChl (chlConInfo 1024 1024)) (msgFrame 3 TAS_CHO_INIT 1 [0xAABBCCDD]) 3).msg_length
          = 65533
      ∧ (set_pkt_rcv_msg (newHandlerChl (chlConInfo 1024 1024)) (msgFrame 3 TAS_CHO_INIT 1 [0xAABBCCDD]) 3).init
          = 0xAABBCCDD
      ∧ rcvMsgAssert (msgFrame 3 TAS_CHO_INIT 1 [0xAABBCCDD]) = false := by
  decide

/-- C39: while a request is planned with negotiated PL2 packet sizes of at
least 128 bytes (`PlanLimits`: the sizes are 32 bit values of at least 128, the
buffers of the handler hold at least 128 bytes, the block size caps are those of
`rw_start`), `rw_add_rd` and `rw_add_wr` return for every address and every
`num_bytes` for which the sums of `mCheckLimits` do not wrap
(`CheckLimitsExact`), given `2 * (num_bytes / 8) + 2` iterations of the block
loop or more, as long as the words and entries they write lie inside the
request buffer and the tables of the handler (`PlanInArrays`, which says
nothing about a call that does not return, and `InArrays`: a store outside the
arrays has no defined effect in the code).  Every iteration of a block loop,
entered with 8 bytes or more left,
either emits a block of at least 8 bytes as a micro-op, or emits nothing and
opens a fresh PL2 packet, in which the next iteration emits a block of at least
8 bytes. -/
theorem rw_add_rd_wr_terminate (h : CTasPktHandlerRw) (addr num_bytes data acc_mode addr_map fuel : Nat)
    (wdata : List Nat) (p : PlanLimits h) (hnb : num_bytes < 2 ^ 32) (hf : 2 * (num_bytes / 8) + 2 ≤ fuel)
    (_hrd : CheckLimitsExact h num_bytes 0) (_hwr : CheckLimitsExact h 0 num_bytes)
    (_hfr : PlanInArrays (rw_add_rd fuel h addr num_bytes data acc_mode addr_map))
    (_hfw : PlanInArrays (rw_add_wr fuel h addr num_bytes wdata acc_mode addr_map)) :
    (rw_add_rd fuel h addr num_bytes data acc_mode addr_map).isSome = true
      ∧ (rw_add_wr fuel h addr num_bytes wdata acc_mode addr_map).isSome = true
      ∧ (∀ (c : RdCursor) (am : Nat), PlanLimits c.h → 8 ≤ c.nb → c.nb < 2 ^ 32 →
          InArrays (rw_get_rq (rdBlkIter c acc_mode am).h).1 →
          rdBlkLoop (fuel + 1) c acc_mode am
              = (if (rdBlkIter c acc_mode am).nb > 7 then rdBlkLoop fuel (rdBlkIter c acc_mode am) acc_mode am
                 else some (rdBlkIter c acc_mode am))
            ∧ ((8 ≤ mGetRdDataBlkSizeInPktRsp c.h c.nb
                ∧ (rdBlkIter c acc_mode am).h.mPl0Trans.map opView
                  = c.h.mPl0Trans.map opView ++ [(TAS_RW_TT_RD, c.a, mGetRdDataBlkSizeInPktRsp c.h c.nb)])
              ∨ (mGetRdDataBlkSizeInPktRsp c.h c.nb = 0 ∧ FreshPkt (rdBlkIter c acc_mode am).h
                ∧ (rdBlkIter c acc_mode am).nb = c.nb
                ∧ 8 ≤ mGetRdDataBlkSizeInPktRsp (rdBlkIter c acc_mode am).h (rdBlkIter c acc_mode am).nb)))
      ∧ (∀ (c : WrCursor) (am : Nat), PlanLimits c.h → 8 ≤ c.nb → c.nb < 2 ^ 32 →
          InArrays (rw_get_rq (wrBlkIter c acc_mode am).h).1 →
          wrBlkLoop (fuel + 1) c acc_mode am
              = (if (wrBlkIter c acc_mode am).nb > 7 then wrBlkLoop fuel (wrBlkIter c acc_mode am) acc_mode am
                 else some (wrBlkIter c acc_mode am))
            ∧ ((8 ≤ mGetWrDataBlkSizeInPktRq c.h c.nb c.a
                ∧ (wrBlkIter c acc_mode am).h.mPl0Trans.map opView
                  = c.h.mPl0Trans.map opView ++ [(TAS_RW_TT_WR, c.a, mGetWrDataBlkSizeInPktRq c.h c.nb c.a)])
              ∨ (mGetWrDataBlkSizeInPktRq c.h c.nb c.a = 0 ∧ FreshPkt (wrBlkIter c acc_mode am).h
                ∧ (wrBlkIter c acc_mode am).nb = c.nb
                ∧ 8 ≤ mGetWrDataBlkSizeInPktRq (wrBlkIter c acc_mode am).h (wrBlkIter c acc_mode am).nb
                    (wrBlkIter c acc_mode am).a))) := by
  refine ⟨?_, ?_, ?_, ?_⟩
  · obtain ⟨r, e⟩ := rw_add_rd_returns fuel h addr num_bytes data acc_mode addr_map p hnb hf
    rw [e]; rfl
  · obtain ⟨r, e⟩ := rw_add_wr_returns fuel h addr num_bytes wdata acc_mode addr_map p hnb hf
    rw [e]; rfl
  · intro c am pc h8 hc _
    refine ⟨rfl, ?_⟩
    rcases rdBlk_progress c acc_mode am pc h8 hc with hk | hz
    · exact Or.inl ⟨hk, rdBlkIter_emits c acc_mode am (by omega)⟩
    · exact Or.inr hz
  · intro c am pc h8 hc _
    refine ⟨rfl, ?_⟩
    rcases wrBlk_progress c acc_mode am pc h8 hc with hk | hz
    · exact Or.inl ⟨hk, wrBlkIter_emits c acc_mode am (by omega)⟩
    · exact Or.inr hz

/-- Witness of C39: with both negotiated sizes at 128, a read and a write of
403 bytes at the odd address `0x1001` return within 102 iterations. -/
theorem rw_add_rd_wr_terminate_witness :
    PlanLimits (rw_start (newFromConInfo minConInfo)) ∧ minConInfo.max_pl2rq_pkt_size = 128
      ∧ minConInfo.max_pl2rsp_pkt_size = 128
      ∧ CheckLimitsExact (rw_start (newFromConInfo minConInfo)) 403 0
      ∧ CheckLimitsExact (rw_start (newFromConInfo minConInfo)) 0 403
      ∧ PlanInArrays (rw_add_rd 102 (rw_start (newFromConInfo minConInfo)) 0x1001 403 0x100 0 0)
      ∧ PlanInArrays (rw_add_wr 102 (rw_start (newFromConInfo minConInfo)) 0x1001 403
          (List.replicate 403 0xA5) 0 0)
      ∧ (rw_add_rd 102 (rw_start (newFromConInfo minConInfo)) 0x1001 403 0x100 0 0).isSome = true
      ∧ (rw_add_wr 102 (rw_start (newFromConInfo minConInfo)) 0x1001 403 (List.replicate 403 0xA5) 0 0).isSome = true :=
  ⟨PlanLimits_min, rfl, rfl, by decide, by decide, by decide, by decide,
    (rw_add_rd_wr_terminate (rw_start (newFromConInfo minConInfo)) 0x1001 403 0x100 0 0 102
      (List.replicate 403 0xA5) PlanLimits_min (by decide) (by decide) (by decide) (by decide)
      (by decide) (by decide)).1,
    (rw_add_rd_wr_terminate (rw_start (newFromConInfo minConInfo)) 0x1001 403 0x100 0 0 102
      (List.replicate 403 0xA5) PlanLimits_min (by decide) (by decide) (by decide) (by decide)
      (by decide) (by decide)).2.1⟩

/-- C40, the code against it: for three scan descriptions, each with a TAP
reset, an instruction register and output data, of 98304, 1 and 1 bits, the
table has `16 + 6 * 3 = 34` entries; `tasutil_jtag_scan` gets to its call of
`execute_trans` with `ret = TAS_ERR_NONE` and `t = 39`, having written the
entries 0 to 38: the entries 34 to 38 lie outside the table. -/
theorem jtag_scan_overruns_table :
    jtagNumTransMax 3 = 34
      ∧ jtagRet (tasutil_jtag_scan [jtagScanOf 98304, jtagScanOf 1, jtagScanOf 1] 3) = TAS_ERR_NONE
      ∧ jtagIndices (tasutil_jtag_scan [jtagScanOf 98304, jtagScanOf 1, jtagScanOf 1] 3) = List.range 39
      ∧ (tasutil_jtag_scan [jtagScanOf 98304, jtagScanOf 1, jtagScanOf 1] 3).map (fun s => s.t) = some 39 := by
  decide

end Tas
